import Mathlib

/-!
Tape drive position and boundary bookkeeping
============================================

A shallow embedding of `winsup/cygwin/fhandler_tape.cc` (classes `mtinfo_part`
and `mtinfo_drive`).

* C `long`/`int` counters are `Int`; `DWORD` values are `Nat` (conversions
  between the two are written out with `toLong`/`toDWORD`).  `long` and `int`
  are 32 bits wide on the target, and every sum, difference or negation that
  the source forms on them is reduced to that width with `wrapLong`.
* The Win32 tape transport is an oracle: the `j`-th call of each primitive is
  answered by `Host.answer kind j`.  Every call the driver makes is appended to
  a ghost trace, so that statements such as "no transport read is issued" can
  be expressed.
* The `TAPE_FUNC` retry loop is the only loop that need not terminate; it is
  given a bound on the number of attempts and yields `none` when the bound is
  exhausted.  Every operation that may reach it returns an `Option`.
-/

namespace Tape

/-! ## Status codes and constants of the Win32 headers -/

@[simp] def ERROR_INVALID_FUNCTION : Nat := 1
@[simp] def ERROR_NOT_ENOUGH_MEMORY : Nat := 8
@[simp] def ERROR_INVALID_PARAMETER : Nat := 87
@[simp] def ERROR_MORE_DATA : Nat := 234
@[simp] def ERROR_IO_PENDING : Nat := 997
@[simp] def ERROR_NOACCESS : Nat := 998
@[simp] def ERROR_END_OF_MEDIA : Nat := 1100
@[simp] def ERROR_FILEMARK_DETECTED : Nat := 1101
@[simp] def ERROR_BEGINNING_OF_MEDIA : Nat := 1102
@[simp] def ERROR_SETMARK_DETECTED : Nat := 1103
@[simp] def ERROR_NO_DATA_DETECTED : Nat := 1104
@[simp] def ERROR_INVALID_BLOCK_LENGTH : Nat := 1106
@[simp] def ERROR_MEDIA_CHANGED : Nat := 1110
@[simp] def ERROR_BUS_RESET : Nat := 1111
@[simp] def ERROR_NO_MEDIA_IN_DRIVE : Nat := 1112
@[simp] def ERROR_IO_DEVICE : Nat := 1117
@[simp] def ERROR_EOM_OVERFLOW : Nat := 1129
@[simp] def ERROR_DEVICE_REQUIRES_CLEANING : Nat := 1165

/-! Positioning methods of `SetTapePosition`. -/
@[simp] def TAPE_REWIND : Int := 0
@[simp] def TAPE_ABSOLUTE_BLOCK : Int := 1
@[simp] def TAPE_LOGICAL_BLOCK : Int := 2
@[simp] def TAPE_SPACE_END_OF_DATA : Int := 4
@[simp] def TAPE_SPACE_RELATIVE_BLOCKS : Int := 5
@[simp] def TAPE_SPACE_FILEMARKS : Int := 6
@[simp] def TAPE_SPACE_SETMARKS : Int := 8

/-! Position types of `GetTapePosition`. -/
@[simp] def TAPE_ABSOLUTE_POSITION : Nat := 0
@[simp] def TAPE_LOGICAL_POSITION : Nat := 1

/-! Mark types of `WriteTapemark`. -/
@[simp] def TAPE_SETMARKS : Int := 0
@[simp] def TAPE_FILEMARKS : Int := 1
@[simp] def TAPE_SHORT_FILEMARKS : Int := 2
@[simp] def TAPE_LONG_FILEMARKS : Int := 3

/-! Erase types of `EraseTape`. -/
@[simp] def TAPE_ERASE_SHORT : Int := 0
@[simp] def TAPE_ERASE_LONG : Int := 1

/-! Operations of `PrepareTape`. -/
@[simp] def TAPE_LOAD : Int := 0
@[simp] def TAPE_UNLOAD : Int := 1
@[simp] def TAPE_TENSION : Int := 2
@[simp] def TAPE_LOCK : Int := 3
@[simp] def TAPE_UNLOCK : Int := 4
@[simp] def TAPE_FORMAT : Int := 5

/-! Partition methods of `CreateTapePartition`. -/
@[simp] def TAPE_FIXED_PARTITIONS : Nat := 0
@[simp] def TAPE_INITIATOR_PARTITIONS : Nat := 2

/-! Drive feature selectors handed to `get_feature`. -/
def TAPE_DRIVE_FIXED : Nat := 0x00000001
def TAPE_DRIVE_INITIATOR : Nat := 0x00000004
def TAPE_DRIVE_ERASE_SHORT : Nat := 0x00000010
def TAPE_DRIVE_ERASE_LONG : Nat := 0x00000020
def TAPE_DRIVE_VARIABLE_BLOCK : Nat := 0x00000800
def TAPE_DRIVE_SET_EOT_WZ_SIZE : Nat := 0x00400000
def TAPE_DRIVE_TENSION : Nat := 0x80000002
def TAPE_DRIVE_SET_BLOCK_SIZE : Nat := 0x80000010
def TAPE_DRIVE_SET_ECC : Nat := 0x80000100
def TAPE_DRIVE_SET_COMPRESSION : Nat := 0x80000200
def TAPE_DRIVE_SET_PADDING : Nat := 0x80000400
def TAPE_DRIVE_SET_REPORT_SMKS : Nat := 0x80000800
def TAPE_DRIVE_LOGICAL_BLK : Nat := 0x80004000
def TAPE_DRIVE_END_OF_DATA : Nat := 0x80010000
def TAPE_DRIVE_WRITE_FILEMARKS : Nat := 0x82000000
def TAPE_DRIVE_WRITE_LONG_FMKS : Nat := 0x88000000

/-- Value of `(size_t) -1` on the 32-bit target. -/
def SIZE_MAX : Nat := 2 ^ 32 - 1

/-- Conversion of a 32-bit unsigned value to `long` (two's complement). -/
def toLong (n : Nat) : Int :=
  if n % 2 ^ 32 < 2 ^ 31 then ((n % 2 ^ 32 : Nat) : Int) else ((n % 2 ^ 32 : Nat) : Int) - 2 ^ 32

/-- Conversion of a `long`/`int` to `DWORD`. -/
def toDWORD (x : Int) : Nat := (x % 2 ^ 32).toNat

/-- The value that a `long`/`int` expression with exact result `x` takes on the
32-bit target: the low 32 bits of `x` read as a two's complement number.  It is
`x` itself while `-2^31 ≤ x < 2^31`, and wraps around otherwise. -/
def wrapLong (x : Int) : Int := toLong (toDWORD x)

/-- The `howmany (x, y)` macro of `sys/param.h`, on `DWORD` operands. -/
def howmany (x y : Nat) : Nat := ((x + (y - 1)) % 2 ^ 32) / y

/-! ## The macros at the head of the file -/

def IS_BOT (err : Nat) : Bool := err == ERROR_BEGINNING_OF_MEDIA

def IS_EOF (err : Nat) : Bool :=
  err == ERROR_FILEMARK_DETECTED || err == ERROR_SETMARK_DETECTED

def IS_SM (err : Nat) : Bool := err == ERROR_SETMARK_DETECTED

def IS_EOD (err : Nat) : Bool :=
  err == ERROR_END_OF_MEDIA || err == ERROR_EOM_OVERFLOW || err == ERROR_NO_DATA_DETECTED

def IS_EOM (err : Nat) : Bool :=
  err == ERROR_END_OF_MEDIA || err == ERROR_EOM_OVERFLOW

/-! ## Data model (declared in `mtinfo.h`) -/

/-- Modelled from the spec: the enumeration is declared in `mtinfo.h`, which is
not among the sources.  The spec gives its values and their total order:
none, filemark-hit, filemark, end-of-data-hit, end-of-data, end-of-medium-hit,
end-of-medium. -/
inductive eom_val where
  | no_eof | eof_hit | eof | eod_hit | eod | eom_hit | eom
  deriving DecidableEq, Repr

/-- Position of a boundary value in the enumeration order. -/
def eom_val.val : eom_val → Nat
  | .no_eof => 0 | .eof_hit => 1 | .eof => 2 | .eod_hit => 3
  | .eod => 4 | .eom_hit => 5 | .eom => 6

/-- Modelled from the spec: the pending-write enumeration of `mtinfo.h`, in the
order the spec lists it: clean, has-read, has-written, async-write-pending. -/
inductive dirty_state where
  | clean | has_read | has_written | async_write_pending
  deriving DecidableEq, Repr

/-- Position of a pending-write value in the enumeration order. -/
def dirty_state.val : dirty_state → Nat
  | .clean => 0 | .has_read => 1 | .has_written => 2 | .async_write_pending => 3

/-- Modelled from the spec: the lock enumeration of `mtinfo.h`.  The spec names
its four values; the order used by the comparisons `lock < auto_locked` and
`lock >= auto_locked` is taken to be unlocked, lock-error, auto-locked, locked
(a drive that is not locked sorts below one that is). -/
inductive lock_state where
  | unlocked | lock_error | auto_locked | locked
  deriving DecidableEq, Repr

/-- Position of a lock value in the enumeration order. -/
def lock_state.val : lock_state → Nat
  | .unlocked => 0 | .lock_error => 1 | .auto_locked => 2 | .locked => 3

/-- Modelled from the spec: the size of the per-drive partition array
(`MAX_PARTITION_NUM` of `mtinfo.h`, "a fixed maximum size"). -/
def MAX_PARTITION_NUM : Nat := 64

/-- Per-partition position record (`class mtinfo_part`). -/
structure mtinfo_part where
  block : Int
  file : Int
  fblock : Int
  smark : Bool
  emark : eom_val
  deriving DecidableEq, Repr

/-- The Win32 record `TAPE_GET_DRIVE_PARAMETERS`. -/
structure TAPE_GET_DRIVE_PARAMETERS where
  ECC : Nat
  Compression : Nat
  DataPadding : Nat
  ReportSetmarks : Nat
  DefaultBlockSize : Nat
  MaximumBlockSize : Nat
  MinimumBlockSize : Nat
  MaximumPartitionCount : Nat
  FeaturesLow : Nat
  FeaturesHigh : Nat
  EOTWarningZoneSize : Nat
  deriving DecidableEq, Repr

/-- The Win32 record `TAPE_GET_MEDIA_PARAMETERS`. -/
structure TAPE_GET_MEDIA_PARAMETERS where
  Capacity : Int
  Remaining : Int
  BlockSize : Nat
  PartitionCount : Nat
  WriteProtected : Nat
  deriving DecidableEq, Repr

/-- The Win32 record `TAPE_SET_DRIVE_PARAMETERS`. -/
structure TAPE_SET_DRIVE_PARAMETERS where
  ECC : Nat
  Compression : Nat
  DataPadding : Nat
  ReportSetmarks : Nat
  EOTWarningZoneSize : Nat
  deriving DecidableEq, Repr

/-- Per-drive state (`class mtinfo_drive`); the `OVERLAPPED` member only
carries data for the transport and is left out. -/
structure mtinfo_drive where
  drive : Int
  lasterr : Nat
  partition : Int
  block : Int
  dirty : dirty_state
  lock : lock_state
  _dp : TAPE_GET_DRIVE_PARAMETERS
  _mp : TAPE_GET_MEDIA_PARAMETERS
  buffer_writes : Bool
  async_writes : Bool
  two_fm : Bool
  fast_eom : Bool
  auto_lock : Bool
  sysv : Bool
  nowait : Bool
  _part : Int → mtinfo_part

/-- The source's `mtinfo_part::initialize (nblock)`. -/
def mtinfo_part.init (nblock : Int) : mtinfo_part :=
  { block := nblock
    file := if nblock = 0 then 0 else -1
    fblock := if nblock = 0 then 0 else -1
    smark := false
    emark := eom_val.no_eof }

/-- The accessor `part (num)`. -/
def mtinfo_drive.part (d : mtinfo_drive) (num : Int) : mtinfo_part := d._part num

/-- Store into `*part (num)`. -/
def mtinfo_drive.setPart (d : mtinfo_drive) (num : Int) (p : mtinfo_part) : mtinfo_drive :=
  { d with _part := fun i => if i = num then p else d._part i }

/-- The source's `mtinfo_drive::initialize (num, first_time)`.  The loop calls
`part (i)->initialize ()`, whose default argument (in `mtinfo.h`) is the
"unknown" block -1. -/
def mtinfo_drive.init (d : mtinfo_drive) (num : Int) (first_time : Bool) : mtinfo_drive :=
  let d1 : mtinfo_drive :=
    { d with drive := num, partition := 0, block := -1, lock := lock_state.unlocked }
  let d2 : mtinfo_drive :=
    if first_time then
      { d1 with buffer_writes := true, async_writes := false, two_fm := false,
                fast_eom := false, auto_lock := false, sysv := false, nowait := false }
    else d1
  { d2 with _part := fun i =>
      if 0 ≤ i ∧ i < (MAX_PARTITION_NUM : Int) then mtinfo_part.init (-1) else d2._part i }

/-! ## The transport

Every primitive of the Win32 layer the driver calls, with the arguments that
matter for bookkeeping. -/

/-- The transport primitives. -/
inductive Kind where
  | GetTapeStatus | GetTapeParameters | SetTapeParameters | GetTapePosition
  | SetTapePosition | ReadFile | WriteFile | GetOverlappedResult | WriteTapemark
  | EraseTape | PrepareTape | CreateTapePartition | DeviceIoControl
  deriving DecidableEq, Repr

/-- One entry of the media list filled in by `IOCTL_STORAGE_GET_MEDIA_TYPES_EX`. -/
structure DEVICE_MEDIA_INFO where
  MediaType : Nat
  mounted : Bool
  scsi : Bool
  DensityCode : Nat
  deriving DecidableEq, Repr

/-- A call of a transport primitive. -/
inductive Call where
  | GetTapeStatus
  | GetTapeDriveParameters
  | GetTapeMediaParameters
  | SetTapeDriveParameters (sdp : TAPE_SET_DRIVE_PARAMETERS)
  | SetTapeMediaParameters (BlockSize : Nat)
  | GetTapePosition (type : Nat)
  | SetTapePosition (method : Int) (partition : Int) (count : Int) (dont_wait : Bool)
  | ReadFile (len : Nat)
  | WriteFile (len : Nat)
  | GetOverlappedResult
  | WriteTapemark (type : Int) (count : Nat)
  | EraseTape (type : Int) (dont_wait : Bool)
  | PrepareTape (operation : Int) (dont_wait : Bool)
  | CreateTapePartition (method : Nat) (count : Nat) (size : Nat)
  | DeviceIoControl
  deriving DecidableEq, Repr

/-- The primitive a call belongs to. -/
def Call.kind : Call → Kind
  | .GetTapeStatus => .GetTapeStatus
  | .GetTapeDriveParameters => .GetTapeParameters
  | .GetTapeMediaParameters => .GetTapeParameters
  | .SetTapeDriveParameters _ => .SetTapeParameters
  | .SetTapeMediaParameters _ => .SetTapeParameters
  | .GetTapePosition _ => .GetTapePosition
  | .SetTapePosition _ _ _ _ => .SetTapePosition
  | .ReadFile _ => .ReadFile
  | .WriteFile _ => .WriteFile
  | .GetOverlappedResult => .GetOverlappedResult
  | .WriteTapemark _ _ => .WriteTapemark
  | .EraseTape _ _ => .EraseTape
  | .PrepareTape _ _ => .PrepareTape
  | .CreateTapePartition _ _ _ => .CreateTapePartition
  | .DeviceIoControl => .DeviceIoControl

/-- What a transport call hands back.  `err` is the returned status of the
tape functions, resp. `GetLastError ()` for the `BOOL` functions, whose return
value is `ok`.  The other fields are the output parameters; each primitive
reads the ones it has. -/
structure Resp where
  ok : Bool
  err : Nat
  bytes : Nat
  p : Nat
  low : Nat
  dp : TAPE_GET_DRIVE_PARAMETERS
  mp : TAPE_GET_MEDIA_PARAMETERS
  media : List DEVICE_MEDIA_INFO
  deriving DecidableEq, Repr

/-- The status `ret ? 0 : GetLastError ()` of a `BOOL` primitive. -/
def Resp.status (r : Resp) : Nat := if r.ok then 0 else r.err

/-- What the driver is run against: the answers of the transport (the `j`-th
call of a primitive gets `answer kind j`) and the two helpers whose definitions
are not among the sources, `get_feature` (an inline member of `mtinfo.h`
reading the cached drive parameters) and the `wincap` capability bit. -/
structure Host where
  answer : Kind → Nat → Resp
  get_feature : TAPE_GET_DRIVE_PARAMETERS → Nat → Bool
  has_ioctl_storage_get_media_types_ex : Bool

/-- An entry of the ghost trace: a transport call with its answer, or one
execution of the body of the `TAPE_FUNC` loop. -/
inductive Event where
  | call (c : Call) (r : Resp)
  | reinit
  deriving DecidableEq, Repr

/-- A drive together with the trace of what it did so far (newest first). -/
structure Machine where
  drv : mtinfo_drive
  log : List Event

/-- Number of calls of a primitive in a trace. -/
def ncalls (k : Kind) (log : List Event) : Nat :=
  log.countP fun e => match e with
    | .call c _ => decide (c.kind = k)
    | .reinit => false

/-- One transport call: take the next answer of the primitive, record the
call, and store the output parameters that point into the drive state
(`&_dp`, `&_mp`). -/
def exec (h : Host) (c : Call) (m : Machine) : Resp × Machine :=
  let r := h.answer c.kind (ncalls c.kind m.log)
  let d : mtinfo_drive :=
    match c with
    | .GetTapeDriveParameters => { m.drv with _dp := r.dp }
    | .GetTapeMediaParameters => { m.drv with _mp := r.mp }
    | _ => m.drv
  (r, { drv := d, log := Event.call c r :: m.log })

/-- Assignment to `lasterr`. -/
def Machine.set_lasterr (m : Machine) (e : Nat) : Machine :=
  { m with drv := { m.drv with lasterr := e } }

/-- Assignment to `dirty`. -/
def Machine.set_dirty (m : Machine) (v : dirty_state) : Machine :=
  { m with drv := { m.drv with dirty := v } }

/-- Update of `*part (num)`. -/
def Machine.updPartAt (m : Machine) (num : Int) (f : mtinfo_part → mtinfo_part) : Machine :=
  { m with drv := m.drv.setPart num (f (m.drv.part num)) }

/-- Update of `*part (partition)`, the record of the active partition. -/
def Machine.updPart (m : Machine) (f : mtinfo_part → mtinfo_part) : Machine :=
  m.updPartAt m.drv.partition f

/-- The active partition's record, `*part (partition)`. -/
def Machine.cur (m : Machine) : mtinfo_part := m.drv.part m.drv.partition

/-- The macro `TAPE_FUNC (func)`:
`while ((lasterr = (func)) == ERROR_MEDIA_CHANGED)
   { initialize (drive, false); part (partition)->initialize (0); }`.
`func` is the call expression and `partition` is what the name `partition`
denotes where the macro is expanded (the member, or a parameter shadowing it).
The first argument bounds the number of attempts. -/
def TAPE_FUNC (h : Host) (func : mtinfo_drive → Call) (partition : mtinfo_drive → Int) :
    Nat → Machine → Option (Resp × Machine)
  | 0, _ => none
  | fuel + 1, m =>
    let x := exec h (func m.drv) m
    let m1 := x.2.set_lasterr x.1.err
    if x.1.err = ERROR_MEDIA_CHANGED then
      let d1 := m1.drv.init m1.drv.drive false
      let d2 := d1.setPart (partition d1) (mtinfo_part.init 0)
      TAPE_FUNC h func partition fuel { drv := d2, log := Event.reinit :: m1.log }
    else some (x.1, m1)

namespace mtinfo_drive

/-- The source's `async_wait (mt, bytes_written)`: status and byte count of
`GetOverlappedResult`. -/
def async_wait (h : Host) (m : Machine) : Nat × Nat × Machine :=
  let x := exec h Call.GetOverlappedResult m
  (x.1.status, x.1.bytes, x.2)

/-- The recurring prelude
`if (dirty == async_write_pending) lasterr = async_wait (mt, NULL);`. -/
def wait_pending (h : Host) (m : Machine) : Machine :=
  if m.drv.dirty = dirty_state.async_write_pending then
    (async_wait h m).2.2.set_lasterr (async_wait h m).1
  else m

/-- The source's `get_dp`. -/
def get_dp (h : Host) (fuel : Nat) (m : Machine) : Option (Nat × Machine) :=
  (TAPE_FUNC h (fun _ => Call.GetTapeDriveParameters) (fun d => d.partition) fuel m).map
    fun x => (x.2.drv.lasterr, x.2)

/-- The source's `get_mp`. -/
def get_mp (h : Host) (fuel : Nat) (m : Machine) : Option (Nat × Machine) :=
  (TAPE_FUNC h (fun _ => Call.GetTapeMediaParameters) (fun d => d.partition) fuel m).map
    fun x => (x.2.drv.lasterr, x.2)

/-- The source's `get_pos`. -/
def get_pos (h : Host) (fuel : Nat) (m : Machine) : Option (Nat × Machine) :=
  (TAPE_FUNC h (fun _ => Call.GetTapePosition TAPE_LOGICAL_POSITION)
      (fun d => d.partition) fuel m).bind fun x1 =>
  (if x1.2.drv.lasterr = ERROR_INVALID_FUNCTION then
      TAPE_FUNC h (fun _ => Call.GetTapePosition TAPE_ABSOLUTE_POSITION)
        (fun d => d.partition) fuel x1.2
    else some x1).bind fun x2 =>
  let m2 := x2.2
  if m2.drv.lasterr = 0 then
    let d1 : mtinfo_drive :=
      if x2.1.p > 0 then { m2.drv with partition := wrapLong (toLong x2.1.p - 1) } else m2.drv
    let d2 : mtinfo_drive := { d1 with block := toLong x2.1.low }
    some (d2.lasterr, { m2 with drv := d2 })
  else
    some (m2.drv.lasterr, { m2 with drv := { m2.drv with partition := 0, block := -1 } })

/-- The source's `_set_pos (mt, mode, count, partition, dont_wait)`.  Its
parameter `partition` shadows the member inside the expansion of `TAPE_FUNC`. -/
def _set_pos (h : Host) (fuel : Nat) (m : Machine) (mode : Int) (count : Int)
    (partition : Int) (dont_wait : Bool) : Option (Nat × Machine) :=
  let m1 := (wait_pending h m).set_dirty dirty_state.clean
  (TAPE_FUNC h (fun _ => Call.SetTapePosition mode partition count dont_wait)
      (fun _ => partition) fuel m1).map fun x => (x.2.drv.lasterr, x.2)

/-- The source's `prepare (mt, action, is_auto)`. -/
def prepare (h : Host) (fuel : Nat) (m : Machine) (action : Int) (is_auto : Bool) :
    Option (Nat × Machine) :=
  let m1 := (wait_pending h m).set_dirty dirty_state.clean
  let dont_wait : Bool :=
    if action = TAPE_UNLOAD ∨ action = TAPE_LOAD ∨ action = TAPE_TENSION then m1.drv.nowait
    else false
  (TAPE_FUNC h (fun _ => Call.PrepareTape action dont_wait) (fun d => d.partition) fuel m1).map
    fun x =>
      let m2 := x.2
      let m3 : Machine :=
        if action = TAPE_FORMAT ∨ action = TAPE_UNLOAD ∨ action = TAPE_LOAD then
          { m2 with drv := m2.drv.init m2.drv.drive false }
        else if action = TAPE_TENSION then
          m2.updPart fun _ => mtinfo_part.init 0
        else if action = TAPE_LOCK then
          { m2 with drv := { m2.drv with lock :=
              if m2.drv.lasterr ≠ 0 then lock_state.lock_error
              else if is_auto then lock_state.auto_locked else lock_state.locked } }
        else if action = TAPE_UNLOCK then
          { m2 with drv := { m2.drv with lock :=
              if m2.drv.lasterr ≠ 0 then lock_state.lock_error else lock_state.unlocked } }
        else m2
      (m3.drv.lasterr, m3)

/-- Lines 235-241 of `read`: `ReadFile`, and the wait for its completion when it
is pending.  Yields `bytes_read` and the machine, `lasterr` set. -/
def read_io (h : Host) (m : Machine) (ulen : Nat) : Nat × Machine :=
  let rf := exec h (Call.ReadFile ulen) m
  let m1 := rf.2.set_lasterr rf.1.status
  if m1.drv.lasterr = ERROR_IO_PENDING then
    ((async_wait h m1).2.1, (async_wait h m1).2.2.set_lasterr (async_wait h m1).1)
  else (rf.1.bytes, m1)

/-- Lines 242-250 of `read` and, word for word, lines 330-338 of `write`: the
blocks covered by the bytes transferred are added to the three block counters. -/
def count_blocks (m : Machine) (bytes : Nat) : Machine :=
  let blocks : Int :=
    toLong (if m.drv._mp.BlockSize = 0 then 1 else howmany bytes m.drv._mp.BlockSize)
  if bytes > 0 then
    ({ m with drv := { m.drv with block := wrapLong (m.drv.block + blocks) } } : Machine).updPart
      fun p => { p with block := wrapLong (p.block + blocks),
                        fblock := if p.fblock ≥ 0 then wrapLong (p.fblock + blocks)
                                  else p.fblock }
  else m

/-- Lines 251-281 of `read`: the classification of the final status. -/
def read_classify (m : Machine) (bytes_read : Nat) : Machine :=
  let err := m.drv.lasterr
  let m4 : Machine :=
    if IS_EOF err then
      (({ m with drv := { m.drv with block := wrapLong (m.drv.block + 1) } } : Machine).updPart
        fun p => { p with block := wrapLong (p.block + 1),
                          file := if p.file ≥ 0 then wrapLong (p.file + 1) else p.file,
                          fblock := 0,
                          smark := IS_SM err,
                          emark := if bytes_read > 0 then eom_val.eof_hit
                                   else eom_val.eof }).set_lasterr 0
    else if IS_EOD err then
      if m.cur.emark = eom_val.eof then
        m.updPart fun p => { p with emark := if IS_EOM err then eom_val.eom else eom_val.eod }
      else
        (m.updPart fun p =>
          { p with emark := if IS_EOM err then eom_val.eom_hit
                            else eom_val.eod_hit }).set_lasterr 0
    else
      let m' := m.updPart fun p => { p with emark := eom_val.no_eof }
      if err = ERROR_MORE_DATA then m'.set_lasterr ERROR_NOT_ENOUGH_MEMORY else m'
  if m4.drv.lasterr = 0 then m4.set_dirty dirty_state.has_read else m4

/-- Lines 235-283 of `read`: the transport read itself, the block counting and
the classification of the final status.  Yields the returned status, the new
`ulen` and the machine. -/
def read_transfer (h : Host) (m : Machine) (ulen : Nat) : Nat × Nat × Machine :=
  let io := read_io h m ulen
  let m5 := read_classify (count_blocks io.2 io.1) io.1
  (m5.drv.lasterr, io.1, m5)

/-- The step `if (auto_lock () && lock < auto_locked) prepare (mt, TAPE_LOCK, true);`
shared by `read` and `write`. -/
def auto_lock_step (h : Host) (fuel : Nat) (m : Machine) : Option Machine :=
  if m.drv.auto_lock = true ∧ m.drv.lock.val < lock_state.auto_locked.val then
    (prepare h fuel m TAPE_LOCK true).map fun x => x.2
  else some m

/-- The source's `read (mt, mt_evt, ptr, ulen)`.  Yields the returned status,
the value left in `ulen`, and the machine. -/
def read (h : Host) (fuel : Nat) (m0 : Machine) (ulen : Nat) : Option (Nat × Nat × Machine) :=
  let s := exec h Call.GetTapeStatus m0
  if s.1.err = ERROR_NO_MEDIA_IN_DRIVE then
    some (ERROR_NO_MEDIA_IN_DRIVE, ulen, s.2.set_lasterr ERROR_NO_MEDIA_IN_DRIVE)
  else if s.2.drv.lasterr = ERROR_BUS_RESET then
    some (s.2.drv.lasterr, 0, s.2)
  else
    let m1 := (wait_pending h s.2).set_dirty dirty_state.clean
    if m1.cur.emark = eom_val.eof_hit then
      some (0, 0, (m1.updPart fun p => { p with emark := eom_val.eof }).set_lasterr 0)
    else if m1.cur.emark = eom_val.eod_hit then
      some (0, 0, (m1.updPart fun p => { p with emark := eom_val.eod }).set_lasterr 0)
    else if m1.cur.emark = eom_val.eod then
      some (ERROR_NO_DATA_DETECTED, SIZE_MAX, m1.set_lasterr ERROR_NO_DATA_DETECTED)
    else if m1.cur.emark = eom_val.eom_hit then
      some (0, 0, (m1.updPart fun p => { p with emark := eom_val.eom }).set_lasterr 0)
    else if m1.cur.emark = eom_val.eom then
      some (ERROR_END_OF_MEDIA, SIZE_MAX, m1.set_lasterr ERROR_END_OF_MEDIA)
    else
      let m2 := m1.updPart fun p => { p with smark := false }
      (auto_lock_step h fuel m2).map fun m3 => read_transfer h m3 ulen

/-- Lines 317-329 of `write`: `WriteFile`; a pending write is left outstanding
when asynchronous writes are enabled and the block size is variable, and is
waited for otherwise.  Yields `bytes_written` and the machine. -/
def write_io (h : Host) (m : Machine) (len : Nat) : Nat × Machine :=
  let wf := exec h (Call.WriteFile len) m
  let m1 := wf.2.set_lasterr wf.1.status
  if m1.drv.lasterr = ERROR_IO_PENDING then
    if m1.drv.async_writes = true ∧ m1.drv._mp.BlockSize = 0 then
      (wf.1.bytes, m1.set_dirty dirty_state.async_write_pending)
    else ((async_wait h m1).2.1, (async_wait h m1).2.2.set_lasterr (async_wait h m1).1)
  else (wf.1.bytes, m1)

/-- Lines 339-352 of `write`: the classification of the final status;
`async_err` is the status of the wait for an earlier asynchronous write. -/
def write_classify (m : Machine) (async_err : Nat) : Machine :=
  let m4 : Machine :=
    if m.drv.lasterr = 0 ∧ async_err ≠ 0 then m.set_lasterr async_err else m
  if m4.drv.lasterr = ERROR_EOM_OVERFLOW then
    m4.updPart fun p => { p with emark := eom_val.eom }
  else if m4.drv.lasterr = ERROR_END_OF_MEDIA then m4
  else
    let m' := m4.updPart fun p => { p with emark := eom_val.no_eof }
    if m'.drv.lasterr = 0 then m'.set_dirty dirty_state.has_written
    else if m'.drv.lasterr = ERROR_IO_PENDING then m'.set_dirty dirty_state.async_write_pending
    else m'

/-- Lines 317-353 of `write`: the transport write, the block counting and the
classification of the final status.  Yields the returned status, the new `len`
and the machine. -/
def write_transfer (h : Host) (m : Machine) (len : Nat) (async_err : Nat) :
    Nat × Nat × Machine :=
  let io := write_io h m len
  let m5 := write_classify (count_blocks io.2 io.1) async_err
  (m5.drv.lasterr, io.1, m5)

/-- The source's `write (mt, mt_evt, ptr, len)`.  Yields the returned status,
the value left in `len`, and the machine. -/
def write (h : Host) (fuel : Nat) (m0 : Machine) (len : Nat) : Option (Nat × Nat × Machine) :=
  let s := exec h Call.GetTapeStatus m0
  if s.1.err = ERROR_NO_MEDIA_IN_DRIVE then
    some (ERROR_NO_MEDIA_IN_DRIVE, len, s.2.set_lasterr ERROR_NO_MEDIA_IN_DRIVE)
  else if s.2.drv.lasterr = ERROR_BUS_RESET then
    some (s.2.drv.lasterr, 0, s.2)
  else
    let pending : Bool := decide (s.2.drv.dirty = dirty_state.async_write_pending)
    let aw := async_wait h s.2
    let async_err : Nat := if pending then aw.1 else 0
    let m1 : Machine := if pending then aw.2.2 else s.2
    let m2 := (m1.set_dirty dirty_state.clean).updPart fun p => { p with smark := false }
    (auto_lock_step h fuel m2).map fun m3 => write_transfer h m3 len async_err

/-- The `get_pos (mt); part (partition)->initialize (block);` pair that
re-derives the active partition from a fresh position query. -/
def requery (h : Host) (fuel : Nat) (m : Machine) : Option Machine :=
  (get_pos h fuel m).map fun y => y.2.updPart fun _ => mtinfo_part.init y.2.drv.block

/-- One of the two stepping loops of `set_pos`,
`while (!err && undone ...) if (!(err = _set_pos (mt, mode, dir, 0, FALSE)) || IS_SM (err)) ...`,
entered with `err = 0` and the given number of marks still to do.  Yields
`err`, the number of marks left undone, and the machine. -/
def mark_loop (h : Host) (fuel : Nat) (dir : Int) : Nat → Machine → Option (Nat × Nat × Machine)
  | 0, m => some (0, 0, m)
  | n + 1, m =>
    (_set_pos h fuel m TAPE_SPACE_FILEMARKS dir 0 false).bind fun x =>
      if x.1 = 0 then mark_loop h fuel dir n x.2
      else some (x.1, if IS_SM x.1 then n else n + 1, x.2)

/-- Lines 420-428 of `set_pos`: the forward loop followed by the backward loop,
started with `err = 0` and `undone = count`.  Yields `err`, `undone` and the
machine. -/
def set_pos_marks (h : Host) (fuel : Nat) (m : Machine) (count : Int) :
    Option (Nat × Int × Machine) :=
  (if 0 < count then
      (mark_loop h fuel 1 count.toNat m).map fun x => (x.1, ((x.2.1 : Nat) : Int), x.2.2)
    else some (0, count, m)).bind fun a =>
  if a.1 = 0 ∧ a.2.1 < 0 then
    (mark_loop h fuel (-1) (-a.2.1).toNat a.2.2).map fun x => (x.1, -((x.2.1 : Nat) : Int), x.2.2)
  else some a

/-- The `file += count - undone` update, done only when the file number is known. -/
def add_file (p : mtinfo_part) (delta : Int) : Int :=
  if p.file ≥ 0 then wrapLong (p.file + delta) else p.file

/-- The assignments `block = 0; part (partition)->initialize (0);`. -/
def reset_to_bot (m : Machine) : Machine :=
  ({ m with drv := { m.drv with block := 0 } } : Machine).updPart fun _ => mtinfo_part.init 0

/-- The `case TAPE_REWIND:` of the bookkeeping switch of `set_pos`. -/
def post_rewind (h : Host) (fuel : Nat) (m : Machine) (err : Nat) : Option (Nat × Machine) :=
  if err = 0 then some (err, reset_to_bot m)
  else (requery h fuel m).map fun m1 => (err, m1)

/-- The `case TAPE_SPACE_END_OF_DATA:` of the bookkeeping switch of `set_pos`. -/
def post_end_of_data (h : Host) (fuel : Nat) (m : Machine) (err : Nat) :
    Option (Nat × Machine) :=
  (requery h fuel m).map fun m1 =>
    (err, m1.updPart fun p => { p with emark := if IS_EOM err then eom_val.eom else eom_val.eod })

/-- The `case TAPE_SPACE_FILEMARKS:` of the bookkeeping switch of `set_pos`.
`again` stands for the recursive call
`set_pos (mt, mode, count > 0 ? -1 : 1, false)`. -/
def post_filemarks (again : Machine → Int → Option (Nat × Machine)) (h : Host) (fuel : Nat)
    (m : Machine) (count : Int) (sfm_func : Bool) (err : Nat) (undone : Int) :
    Option (Nat × Machine) :=
  if err = 0 ∨ IS_SM err = true then
    (get_pos h fuel m).bind fun y =>
      let m1 := y.2.updPart fun p => { p with block := y.2.drv.block }
      let m2 :=
        if count > 0 then
          m1.updPart fun p => { p with file := add_file p (count - undone),
                                       fblock := 0, smark := IS_SM err }
        else
          m1.updPart fun p => { p with file := add_file p (count - undone),
                                       fblock := -1, smark := false }
      if sfm_func then again m2 (if count > 0 then -1 else 1)
      else
        some (err, m2.updPart fun p =>
          { p with emark := if count > 0 then eom_val.eof else eom_val.no_eof })
  else if IS_EOD err then
    (get_pos h fuel m).map fun y =>
      (err, y.2.updPart fun p =>
        { p with block := y.2.drv.block, file := add_file p (count - undone),
                 fblock := -1, smark := false,
                 emark := if IS_EOM err then eom_val.eom else eom_val.eod })
  else if IS_BOT err then some (err, reset_to_bot m)
  else (requery h fuel m).map fun m1 => (err, m1)

/-- The `case TAPE_SPACE_RELATIVE_BLOCKS:` of the bookkeeping switch of
`set_pos`. -/
def post_relative_blocks (h : Host) (fuel : Nat) (m : Machine) (count : Int) (err : Nat) :
    Option (Nat × Machine) :=
  if err = 0 then
    some (err,
      ({ m with drv := { m.drv with block := wrapLong (m.drv.block + count) } } : Machine).updPart
      fun p => { p with block := wrapLong (p.block + count),
                        fblock := if p.fblock ≥ 0 then wrapLong (p.fblock + count)
                                  else p.fblock,
                        smark := false, emark := eom_val.no_eof })
  else if IS_EOF err then
    (get_pos h fuel m).map fun y =>
      (err, y.2.updPart fun p =>
        { p with block := y.2.drv.block,
                 file := add_file p (if count > 0 then 1 else -1),
                 fblock := if count > 0 then 0 else -1,
                 smark := decide (count > 0) && IS_SM err,
                 emark := if count > 0 then eom_val.eof else eom_val.no_eof })
  else if IS_EOD err then
    (get_pos h fuel m).map fun y =>
      (err, y.2.updPart fun p =>
        { p with fblock := wrapLong (y.2.drv.block - p.block), block := y.2.drv.block,
                 smark := false,
                 emark := if IS_EOM err then eom_val.eom else eom_val.eod })
  else if IS_BOT err then some (err, reset_to_bot m)
  else some (err, m)

/-- The `case TAPE_SPACE_SETMARKS:` of the bookkeeping switch of `set_pos`. -/
def post_setmarks (h : Host) (fuel : Nat) (m : Machine) (err : Nat) : Option (Nat × Machine) :=
  (get_pos h fuel m).map fun y =>
    let m1 := y.2.updPart fun p => { p with block := y.2.drv.block }
    (err, if err = 0 then m1.updPart fun p => { p with file := -1, fblock := -1, smark := true }
          else m1)

/-- Lines 431-545 of `set_pos`: the bookkeeping `switch (mode)` that follows the
positioning call(s).  Yields the final `err` and the machine. -/
def set_pos_post (again : Machine → Int → Option (Nat × Machine)) (h : Host) (fuel : Nat)
    (m : Machine) (mode : Int) (count : Int) (sfm_func : Bool) (err : Nat) (undone : Int) :
    Option (Nat × Machine) :=
  if mode = TAPE_ABSOLUTE_BLOCK ∨ mode = TAPE_LOGICAL_BLOCK then
    (requery h fuel m).map fun m1 => (err, m1)
  else if mode = TAPE_REWIND then post_rewind h fuel m err
  else if mode = TAPE_SPACE_END_OF_DATA then post_end_of_data h fuel m err
  else if mode = TAPE_SPACE_FILEMARKS then
    post_filemarks again h fuel m count sfm_func err undone
  else if mode = TAPE_SPACE_RELATIVE_BLOCKS then post_relative_blocks h fuel m count err
  else if mode = TAPE_SPACE_SETMARKS then post_setmarks h fuel m err
  else some (err, m)

/-- The body of `set_pos (mt, mode, count, sfm_func)`, with the recursive call
abstracted as `again`. -/
def set_pos_body (again : Machine → Int → Option (Nat × Machine)) (h : Host) (fuel : Nat)
    (m : Machine) (mode : Int) (count : Int) (sfm_func : Bool) : Option (Nat × Machine) :=
  if (mode = TAPE_SPACE_RELATIVE_BLOCKS ∨ mode = TAPE_SPACE_FILEMARKS
        ∨ mode = TAPE_SPACE_SETMARKS) ∧ count = 0 then
    some (0, m.set_lasterr 0)
  else
    let dont_wait : Bool :=
      if mode = TAPE_ABSOLUTE_BLOCK ∨ mode = TAPE_LOGICAL_BLOCK ∨ mode = TAPE_REWIND then
        m.drv.nowait
      else false
    (if mode = TAPE_SPACE_FILEMARKS then set_pos_marks h fuel m count
      else (_set_pos h fuel m mode count 0 dont_wait).map fun x => (x.1, count, x.2)).bind fun a =>
    (set_pos_post again h fuel a.2.2 mode count sfm_func a.1 a.2.1).map fun b =>
      (b.1, b.2.set_lasterr b.1)

/-- The source's `set_pos` called with `sfm_func = false`; this is the only way
it calls itself, so the recursion is never reached from here. -/
def set_pos_plain (h : Host) (fuel : Nat) (m : Machine) (mode : Int) (count : Int) :
    Option (Nat × Machine) :=
  set_pos_body (fun _ _ => none) h fuel m mode count false

/-- The source's `set_pos (mt, mode, count, sfm_func)`. -/
def set_pos (h : Host) (fuel : Nat) (m : Machine) (mode : Int) (count : Int)
    (sfm_func : Bool) : Option (Nat × Machine) :=
  set_pos_body (fun m1 c => set_pos_plain h fuel m1 mode c) h fuel m mode count sfm_func

/-- The block shared by the failure paths of `set_partition` and `write_marks`:
a fresh position query, then the partitions whose cached block disagrees are
re-initialised, and `lasterr` is restored to `err`. -/
def reconcile (h : Host) (fuel : Nat) (m : Machine) (err : Nat) : Option Machine :=
  let sav_block := m.drv.block
  let sav_partition := m.drv.partition
  (get_pos h fuel m).map fun y =>
    let m1 := y.2
    let m2 : Machine :=
      if sav_partition ≠ m1.drv.partition then
        if m1.drv.partition < (MAX_PARTITION_NUM : Int) ∧ m1.cur.block ≠ m1.drv.block then
          m1.updPart fun _ => mtinfo_part.init m1.drv.block
        else m1
      else if sav_block ≠ m1.drv.block ∧ m1.drv.partition < (MAX_PARTITION_NUM : Int) then
        m1.updPart fun _ => mtinfo_part.init m1.drv.block
      else m1
    m2.set_lasterr err

/-- The source's `create_partitions (mt, count)`. -/
def create_partitions (h : Host) (fuel : Nat) (m : Machine) (count : Int) :
    Option (Nat × Machine) :=
  if m.drv._dp.MaximumPartitionCount ≤ 1 then some (ERROR_INVALID_PARAMETER, m)
  else
    (set_pos h fuel m TAPE_REWIND 0 false).bind fun x =>
    if x.1 ≠ 0 then some (x.2.drv.lasterr, x.2)
    else
      let m1 : Machine :=
        ({ x.2 with drv := { x.2.drv with partition := 0 } } : Machine).updPart
          fun _ => mtinfo_part.init 0
      if h.get_feature m1.drv._dp TAPE_DRIVE_INITIATOR then
        if count ≤ 0 then
          (TAPE_FUNC h (fun _ => Call.CreateTapePartition TAPE_INITIATOR_PARTITIONS
              (if count ≤ 0 then 0 else 2) (toDWORD count)) (fun d => d.partition) fuel m1).map
            fun y => (y.2.drv.lasterr, y.2)
        else some (m1.drv.lasterr, m1)
      else if h.get_feature m1.drv._dp TAPE_DRIVE_FIXED then
        (TAPE_FUNC h (fun _ => Call.CreateTapePartition TAPE_FIXED_PARTITIONS
            (if count ≤ 0 then 0 else 2) (toDWORD count)) (fun d => d.partition) fuel m1).map
          fun y => (y.2.drv.lasterr, y.2)
      else some (ERROR_INVALID_PARAMETER, m1.set_lasterr ERROR_INVALID_PARAMETER)

/-- The source's `set_partition (mt, count)`. -/
def set_partition (h : Host) (fuel : Nat) (m : Machine) (count : Int) :
    Option (Nat × Machine) :=
  if count < 0 ∨ toDWORD count ≥ MAX_PARTITION_NUM then
    some (ERROR_INVALID_PARAMETER, m.set_lasterr ERROR_INVALID_PARAMETER)
  else if toDWORD count ≥ m.drv._dp.MaximumPartitionCount then
    some (ERROR_IO_DEVICE, m.set_lasterr ERROR_IO_DEVICE)
  else
    let part_block : Int := if (m.drv.part count).block ≥ 0 then (m.drv.part count).block else 0
    (_set_pos h fuel m TAPE_LOGICAL_BLOCK part_block (count + 1) false).bind fun x =>
    if x.1 ≠ 0 then
      (reconcile h fuel x.2 x.1).map fun m1 => (m1.drv.lasterr, m1)
    else
      let m1 : Machine := { x.2 with drv := { x.2.drv with partition := count } }
      let m2 : Machine :=
        if m1.cur.block = -1 then m1.updPart fun _ => mtinfo_part.init 0 else m1
      some (m2.drv.lasterr, m2)

/-- The source's `write_marks (mt, marktype, count)`. -/
def write_marks (h : Host) (fuel : Nat) (m : Machine) (marktype : Int) (count : Nat) :
    Option (Nat × Machine) :=
  let m1 : Machine :=
    if m.drv.dirty = dirty_state.async_write_pending then
      (wait_pending h m).set_dirty dirty_state.has_written
    else m
  let m2 : Machine := if marktype ≠ TAPE_SETMARKS then m1.set_dirty dirty_state.clean else m1
  let marktype1 : Int :=
    if marktype = TAPE_FILEMARKS ∧ h.get_feature m2.drv._dp TAPE_DRIVE_WRITE_FILEMARKS = false then
      if h.get_feature m2.drv._dp TAPE_DRIVE_WRITE_LONG_FMKS then TAPE_LONG_FILEMARKS
      else TAPE_SHORT_FILEMARKS
    else marktype
  (TAPE_FUNC h (fun _ => Call.WriteTapemark marktype1 count) (fun d => d.partition)
      fuel m2).bind fun x =>
  let err := x.2.drv.lasterr
  if err = 0 then
    let m3 : Machine :=
      ({ x.2 with drv := { x.2.drv with block := toLong (toDWORD x.2.drv.block + count) } }
        : Machine).updPart fun p =>
          { p with block := toLong (toDWORD p.block + count),
                   file := if p.file ≥ 0 then toLong (toDWORD p.file + count) else p.file,
                   fblock := 0, emark := eom_val.eof,
                   smark := decide (marktype1 = TAPE_SETMARKS) }
    some (m3.drv.lasterr, m3)
  else (reconcile h fuel x.2 err).map fun m3 => (m3.drv.lasterr, m3)

/-- The source's `erase (mt, mode)`. -/
def erase (h : Host) (fuel : Nat) (m : Machine) (mode : Int) : Option (Nat × Machine) :=
  let mode1 : Int :=
    if mode = TAPE_ERASE_SHORT then
      if h.get_feature m.drv._dp TAPE_DRIVE_ERASE_SHORT then mode else TAPE_ERASE_LONG
    else if mode = TAPE_ERASE_LONG then
      if h.get_feature m.drv._dp TAPE_DRIVE_ERASE_LONG then mode else TAPE_ERASE_SHORT
    else mode
  (TAPE_FUNC h (fun d => Call.EraseTape mode1 d.nowait) (fun d => d.partition) fuel m).map
    fun x =>
      let m1 := x.2.updPart fun _ => mtinfo_part.init 0
      (m1.drv.lasterr, m1)

/-- The source's `open (mt)`. -/
def drive_open (h : Host) (fuel : Nat) (m : Machine) : Option (Nat × Machine) :=
  (get_dp h fuel m).bind fun a =>
  (get_mp h fuel a.2).bind fun b =>
  (get_pos h fuel b.2).bind fun c =>
  let m1 : Machine :=
    if c.2.drv.partition < (MAX_PARTITION_NUM : Int) ∧ c.2.cur.block ≠ c.2.drv.block then
      c.2.updPart fun _ => mtinfo_part.init c.2.drv.block
    else c.2
  (if m1.drv.block = 0 then (set_pos h fuel m1 TAPE_REWIND 0 false).map fun x => x.2
    else some m1).map fun m2 => (m2.drv.lasterr, m2)

/-- Lines 136-173 of `close`: what is flushed or repositioned, depending on the
pending-write state. -/
def close_flush (h : Host) (fuel : Nat) (m1 : Machine) (rewind : Bool) : Option Machine :=
  if m1.drv.dirty.val ≥ dirty_state.has_written.val then
    let m2 := wait_pending h m1
    if m2.drv.lasterr = 0 then
      (write_marks h fuel m2 TAPE_FILEMARKS (if m2.drv.two_fm then 2 else 1)).bind fun x =>
      if x.2.drv.two_fm = true ∧ x.2.drv.lasterr = 0 ∧ rewind = false then
        (set_pos h fuel x.2 TAPE_SPACE_FILEMARKS (-1) false).map fun y =>
          if y.2.drv.lasterr = 0 then y.2.updPart fun p => { p with fblock := 0 } else y.2
      else some x.2
    else some m2
  else if m1.drv.dirty = dirty_state.has_read ∧ rewind = false then
    if m1.drv.sysv then
      if m1.cur.emark = eom_val.no_eof then
        (set_pos h fuel m1 TAPE_SPACE_FILEMARKS 1 false).map fun y => y.2
      else if m1.cur.emark = eom_val.eof_hit then
        some (m1.updPart fun p => { p with emark := eom_val.eof })
      else some m1
    else
      if m1.cur.emark = eom_val.eof_hit then
        (set_pos h fuel m1 TAPE_SPACE_FILEMARKS (-1) false).map fun y => y.2
      else some m1
  else some m1

/-- Lines 174-182 of `close`: the rewind, the release of an automatic lock, and
the reset of the pending-write state. -/
def close_finish (h : Host) (fuel : Nat) (m3 : Machine) (rewind : Bool) :
    Option (Nat × Machine) :=
  (if rewind then (set_pos h fuel m3 TAPE_REWIND 0 false).map fun y => y.2
    else some m3).bind fun m4 =>
  (if m4.drv.auto_lock = true ∧ m4.drv.lock = lock_state.auto_locked then
      (prepare h fuel m4 TAPE_UNLOCK false).map fun y => y.2
    else some m4).map fun m5 =>
  ((m5.set_dirty dirty_state.clean).drv.lasterr, m5.set_dirty dirty_state.clean)

/-- The source's `close (mt, rewind)`. -/
def close (h : Host) (fuel : Nat) (m0 : Machine) (rewind : Bool) : Option (Nat × Machine) :=
  let s := exec h Call.GetTapeStatus (m0.set_lasterr 0)
  let m1 : Machine :=
    if s.1.err = ERROR_NO_MEDIA_IN_DRIVE then s.2.set_dirty dirty_state.clean else s.2
  (close_flush h fuel m1 rewind).bind fun m3 => close_finish h fuel m3 rewind

/-- The source's `set_compression (mt, count)`. -/
def set_compression (h : Host) (fuel : Nat) (m : Machine) (count : Int) :
    Option (Nat × Machine) :=
  if h.get_feature m.drv._dp TAPE_DRIVE_SET_COMPRESSION = false then
    some (ERROR_INVALID_PARAMETER, m)
  else
    let sdp : TAPE_SET_DRIVE_PARAMETERS :=
      { ECC := m.drv._dp.ECC
        Compression := if count ≠ 0 then 1 else 0
        DataPadding := m.drv._dp.DataPadding
        ReportSetmarks := m.drv._dp.ReportSetmarks
        EOTWarningZoneSize := m.drv._dp.EOTWarningZoneSize }
    (TAPE_FUNC h (fun _ => Call.SetTapeDriveParameters sdp) (fun d => d.partition)
        fuel m).bind fun x =>
    let err := x.2.drv.lasterr
    (if err = 0 then
        some ({ x.2 with drv := { x.2.drv with _dp :=
                  { x.2.drv._dp with Compression := sdp.Compression } } } : Machine)
      else (get_dp h fuel x.2).map fun y => y.2).map fun m1 =>
      (err, m1.set_lasterr err)

/-- The source's `set_blocksize (mt, count)`. -/
def set_blocksize (h : Host) (fuel : Nat) (m : Machine) (count : Int) :
    Option (Nat × Machine) :=
  (TAPE_FUNC h (fun _ => Call.SetTapeMediaParameters (toDWORD count)) (fun d => d.partition)
      fuel m).map fun x => (x.2.drv.lasterr, x.2)

/-! Constants of `sys/mtio.h`. -/

def MT_ISUNKNOWN : Nat := 0x01
def MT_ST_BLKSIZE_SHIFT : Nat := 0
def MT_ST_BLKSIZE_MASK : Nat := 0xffffff
def MT_ST_DENSITY_SHIFT : Nat := 24
def MT_ST_DENSITY_MASK : Nat := 0xff000000

def GMT_EOF : Nat := 0x80000000
def GMT_BOT : Nat := 0x40000000
def GMT_EOT : Nat := 0x20000000
def GMT_SM : Nat := 0x10000000
def GMT_EOD : Nat := 0x08000000
def GMT_WR_PROT : Nat := 0x04000000
def GMT_ONLINE : Nat := 0x01000000
def GMT_DR_OPEN : Nat := 0x00040000
def GMT_IM_REP_EN : Nat := 0x00010000
def GMT_CLN : Nat := 0x00008000
def GMT_REP_SM : Nat := 0x00000800
def GMT_PADDING : Nat := 0x00000400
def GMT_HW_ECC : Nat := 0x00000200
def GMT_HW_COMP : Nat := 0x00000100
def GMT_TWO_FM : Nat := 0x00000080
def GMT_FAST_MTEOM : Nat := 0x00000040
def GMT_AUTO_LOCK : Nat := 0x00000020
def GMT_SYSV : Nat := 0x00000010
def GMT_NOWAIT : Nat := 0x00000008
def GMT_ASYNC : Nat := 0x00000004

def MT_ST_OPTIONS : Nat := 0xf0000000
def MT_ST_BOOLEANS : Nat := 0x10000000
def MT_ST_SETBOOLEANS : Nat := 0x30000000
def MT_ST_CLEARBOOLEANS : Nat := 0x40000000
def MT_ST_EOT_WZ_SIZE : Nat := 0xf0000000
def MT_ST_BUFFER_WRITES : Nat := 0x1
def MT_ST_ASYNC_WRITES : Nat := 0x2
def MT_ST_TWO_FM : Nat := 0x10
def MT_ST_FAST_MTEOM : Nat := 0x20
def MT_ST_AUTO_LOCK : Nat := 0x40
def MT_ST_SYSV : Nat := 0x1000
def MT_ST_NOWAIT : Nat := 0x2000
def MT_ST_ECC : Nat := 0x00010000
def MT_ST_PADDING : Nat := 0x00020000
def MT_ST_REPORT_SM : Nat := 0x00040000

/-- The record `struct mtget` filled in by `get_status`. -/
structure mtget where
  mt_type : Nat
  mt_resid : Int
  mt_dsreg : Nat
  mt_gstat : Nat
  mt_erreg : Nat
  mt_fileno : Int
  mt_blkno : Int
  mt_minblksize : Nat
  mt_maxblksize : Nat
  mt_defblksize : Nat
  mt_featureslow : Nat
  mt_featureshigh : Nat
  mt_eotwarningzonesize : Nat
  mt_capacity : Int
  mt_remaining : Int
  deriving DecidableEq, Repr

/-- The loop of `get_status` over the reported media: every entry sets the
type; the first mounted one also contributes the density and ends the loop.
Yields `mt_type` and `mt_dsreg`. -/
def media_scan : List DEVICE_MEDIA_INFO → Nat × Nat → Nat × Nat
  | [], acc => acc
  | dmi :: rest, acc =>
    if dmi.mounted then
      (dmi.MediaType,
        if dmi.scsi then acc.2 ||| ((dmi.DensityCode <<< MT_ST_DENSITY_SHIFT) &&& MT_ST_DENSITY_MASK)
        else acc.2)
    else media_scan rest (dmi.MediaType, acc.2)

/-- Adds a flag to `mt_gstat` when the condition holds. -/
def flag (c : Bool) (bit : Nat) (g : Nat) : Nat := if c then g ||| bit else g

/-- The source's `get_status (mt, get)` for a non-null `get`.  Yields the
return value, the record written to `*get`, and the machine. -/
def get_status (h : Host) (m : Machine) : Nat × mtget × Machine :=
  let s := exec h Call.GetTapeStatus m
  let tstat := s.1.err
  let notape : Bool := decide (tstat = ERROR_NO_MEDIA_IN_DRIVE)
  let d := s.2.drv
  let dsreg0 : Nat :=
    if !notape && h.get_feature d._dp TAPE_DRIVE_SET_BLOCK_SIZE then
      (d._mp.BlockSize <<< MT_ST_BLKSIZE_SHIFT) &&& MT_ST_BLKSIZE_MASK
    else (d._dp.DefaultBlockSize <<< MT_ST_BLKSIZE_SHIFT) &&& MT_ST_BLKSIZE_MASK
  let io := exec h Call.DeviceIoControl s.2
  let probed : Bool := h.has_ioctl_storage_get_media_types_ex
  let m1 : Machine := if probed then io.2 else s.2
  let td : Nat × Nat :=
    if probed && (io.1.ok || decide (io.1.err = ERROR_MORE_DATA)) then
      media_scan io.1.media (MT_ISUNKNOWN, dsreg0)
    else (MT_ISUNKNOWN, dsreg0)
  let cur := d.part d.partition
  let g0 : Nat := 0
  let g1 : Nat :=
    if !notape then
      let a := if cur.fblock = 0 then (if cur.file = 0 then g0 ||| GMT_BOT else g0 ||| GMT_EOF)
               else g0
      let b := flag (decide (cur.emark.val ≥ eom_val.eod_hit.val)) GMT_EOD a
      let c := flag (decide (cur.emark.val ≥ eom_val.eom_hit.val)) GMT_EOT b
      let e := flag cur.smark GMT_SM c
      let f := e ||| GMT_ONLINE
      flag (decide (d._mp.WriteProtected ≠ 0)) GMT_WR_PROT f
    else g0
  let g2 := flag notape GMT_DR_OPEN g1
  let g3 := flag d.buffer_writes GMT_IM_REP_EN g2
  let g4 := flag (decide (tstat = ERROR_DEVICE_REQUIRES_CLEANING)) GMT_CLN g3
  let g5 := flag (decide (d._dp.ReportSetmarks ≠ 0)) GMT_REP_SM g4
  let g6 := flag (decide (d._dp.DataPadding ≠ 0)) GMT_PADDING g5
  let g7 := flag (decide (d._dp.ECC ≠ 0)) GMT_HW_ECC g6
  let g8 := flag (decide (d._dp.Compression ≠ 0)) GMT_HW_COMP g7
  let g9 := flag d.two_fm GMT_TWO_FM g8
  let g10 := flag d.fast_eom GMT_FAST_MTEOM g9
  let g11 := flag d.auto_lock GMT_AUTO_LOCK g10
  let g12 := flag d.sysv GMT_SYSV g11
  let g13 := flag d.nowait GMT_NOWAIT g12
  let g14 := flag d.async_writes GMT_ASYNC g13
  let get : mtget :=
    { mt_type := td.1
      mt_resid := if !notape then d.partition else 0
      mt_dsreg := td.2
      mt_gstat := g14
      mt_erreg := 0
      mt_fileno := if !notape then cur.file else 0
      mt_blkno := if !notape then cur.fblock else 0
      mt_minblksize := d._dp.MinimumBlockSize
      mt_maxblksize := d._dp.MaximumBlockSize
      mt_defblksize := d._dp.DefaultBlockSize
      mt_featureslow := d._dp.FeaturesLow
      mt_featureshigh := d._dp.FeaturesHigh
      mt_eotwarningzonesize := d._dp.EOTWarningZoneSize
      mt_capacity := if !notape then d._mp.Capacity else 0
      mt_remaining := if !notape then d._mp.Remaining else 0 }
  (0, get, m1)

/-- Tests `options & bit`. -/
def has_bit (o : Nat) (bit : Nat) : Bool := decide (o &&& bit ≠ 0)

/-- The value `!!x` stored in a `BOOLEAN`. -/
def boolean (b : Bool) : Nat := if b then 1 else 0

/-- The source's `set_options (mt, options)`. -/
def set_options (h : Host) (fuel : Nat) (m : Machine) (options : Int) :
    Option (Nat × Machine) :=
  let o : Nat := toDWORD options
  let what : Nat := o &&& MT_ST_OPTIONS
  let d := m.drv
  let dp := d._dp
  let sdp0 : TAPE_SET_DRIVE_PARAMETERS :=
    { ECC := dp.ECC, Compression := dp.Compression, DataPadding := dp.DataPadding,
      ReportSetmarks := dp.ReportSetmarks, EOTWarningZoneSize := dp.EOTWarningZoneSize }
  let differs (sdp : TAPE_SET_DRIVE_PARAMETERS) : Bool :=
    decide (sdp.ECC ≠ dp.ECC ∨ sdp.DataPadding ≠ dp.DataPadding
      ∨ sdp.ReportSetmarks ≠ dp.ReportSetmarks)
  let r : mtinfo_drive × TAPE_SET_DRIVE_PARAMETERS × Bool :=
    if what = 0 then
      if options = 0 ∨ options = 1 then
        ({ d with buffer_writes := decide (options = 1) }, sdp0, false)
      else (d, sdp0, false)
    else if what = MT_ST_BOOLEANS then
      let d1 : mtinfo_drive :=
        { d with buffer_writes := has_bit o MT_ST_BUFFER_WRITES,
                 async_writes := has_bit o MT_ST_ASYNC_WRITES,
                 two_fm := has_bit o MT_ST_TWO_FM,
                 fast_eom := has_bit o MT_ST_FAST_MTEOM,
                 auto_lock := has_bit o MT_ST_AUTO_LOCK,
                 sysv := has_bit o MT_ST_SYSV,
                 nowait := has_bit o MT_ST_NOWAIT }
      let sdp : TAPE_SET_DRIVE_PARAMETERS :=
        { sdp0 with
          ECC := if h.get_feature dp TAPE_DRIVE_SET_ECC then boolean (has_bit o MT_ST_ECC)
                 else sdp0.ECC,
          DataPadding := if h.get_feature dp TAPE_DRIVE_SET_PADDING then
                           boolean (has_bit o MT_ST_PADDING)
                         else sdp0.DataPadding,
          ReportSetmarks := if h.get_feature dp TAPE_DRIVE_SET_REPORT_SMKS then
                              boolean (has_bit o MT_ST_REPORT_SM)
                            else sdp0.ReportSetmarks }
      (d1, sdp, differs sdp)
    else if what = MT_ST_SETBOOLEANS ∨ what = MT_ST_CLEARBOOLEANS then
      let set : Bool := decide (what = MT_ST_SETBOOLEANS)
      let d1 : mtinfo_drive :=
        { d with buffer_writes := if has_bit o MT_ST_BUFFER_WRITES then set else d.buffer_writes,
                 async_writes := if has_bit o MT_ST_ASYNC_WRITES then set else d.async_writes,
                 two_fm := if has_bit o MT_ST_TWO_FM then set else d.two_fm,
                 fast_eom := if has_bit o MT_ST_FAST_MTEOM then set else d.fast_eom,
                 auto_lock := if has_bit o MT_ST_AUTO_LOCK then set else d.auto_lock,
                 sysv := if has_bit o MT_ST_SYSV then set else d.sysv,
                 nowait := if has_bit o MT_ST_NOWAIT then set else d.nowait }
      let sdp : TAPE_SET_DRIVE_PARAMETERS :=
        { sdp0 with
          ECC := if has_bit o MT_ST_ECC then boolean set else sdp0.ECC,
          DataPadding := if has_bit o MT_ST_PADDING then boolean set else sdp0.DataPadding,
          ReportSetmarks := if has_bit o MT_ST_REPORT_SM then boolean set
                            else sdp0.ReportSetmarks }
      (d1, sdp, differs sdp)
    else if what = MT_ST_EOT_WZ_SIZE then
      if h.get_feature dp TAPE_DRIVE_SET_EOT_WZ_SIZE then
        let sdp : TAPE_SET_DRIVE_PARAMETERS :=
          { sdp0 with EOTWarningZoneSize := o &&& (2 ^ 32 - 1 - MT_ST_OPTIONS) }
        (d, sdp, decide (sdp.EOTWarningZoneSize ≠ dp.EOTWarningZoneSize))
      else (d, sdp0, false)
    else (d, sdp0, false)
  let m1 : Machine := { m with drv := { r.1 with lasterr := 0 } }
  let sdp := r.2.1
  if r.2.2 then
    (TAPE_FUNC h (fun _ => Call.SetTapeDriveParameters sdp) (fun d => d.partition)
        fuel m1).bind fun x =>
    let err := x.2.drv.lasterr
    (if err = 0 then
        some ({ x.2 with drv := { x.2.drv with _dp :=
                  { x.2.drv._dp with ECC := sdp.ECC, DataPadding := sdp.DataPadding,
                                     ReportSetmarks := sdp.ReportSetmarks } } } : Machine)
      else (get_dp h fuel x.2).map fun y => y.2).map fun m2 =>
      (err, m2.set_lasterr err)
  else some (m1.drv.lasterr, m1)

/-! Operation codes of `struct mtop` (`sys/mtio.h`). -/

@[simp] def MTRESET : Int := 0
@[simp] def MTFSF : Int := 1
@[simp] def MTBSF : Int := 2
@[simp] def MTFSR : Int := 3
@[simp] def MTBSR : Int := 4
@[simp] def MTWEOF : Int := 5
@[simp] def MTREW : Int := 6
@[simp] def MTOFFL : Int := 7
@[simp] def MTNOP : Int := 8
@[simp] def MTRETEN : Int := 9
@[simp] def MTBSFM : Int := 10
@[simp] def MTFSFM : Int := 11
@[simp] def MTEOM : Int := 12
@[simp] def MTERASE : Int := 13
@[simp] def MTRAS1 : Int := 14
@[simp] def MTRAS2 : Int := 15
@[simp] def MTRAS3 : Int := 16
@[simp] def MTSETBLK : Int := 20
@[simp] def MTSETDENSITY : Int := 21
@[simp] def MTSEEK : Int := 22
@[simp] def MTTELL : Int := 23
@[simp] def MTSETDRVBUFFER : Int := 24
@[simp] def MTFSS : Int := 25
@[simp] def MTBSS : Int := 26
@[simp] def MTWSM : Int := 27
@[simp] def MTLOCK : Int := 28
@[simp] def MTUNLOCK : Int := 29
@[simp] def MTLOAD : Int := 30
@[simp] def MTUNLOAD : Int := 31
@[simp] def MTCOMPRESSION : Int := 32
@[simp] def MTSETPART : Int := 33
@[simp] def MTMKPART : Int := 34

/-- The argument of the `MTIOCTOP` request, `struct mtop`. -/
structure mtop where
  mt_op : Int
  mt_count : Int
  deriving DecidableEq, Repr

/-- The request code handed to `ioctl`: the three codes it compares `cmd`
with, and any other value. -/
inductive ioctl_cmd where
  | MTIOCTOP | MTIOCGET | MTIOCPOS | other
  deriving DecidableEq, Repr

/-- What `ioctl` writes through `buf`: nothing, `op->mt_count` (`MTTELL`), the
status record (`MTIOCGET`), or `mt_blkno` of `struct mtpos` (`MTIOCPOS`). -/
inductive ioctl_out where
  | nothing
  | mt_count (v : Int)
  | status (g : mtget)
  | mt_blkno (v : Int)
  deriving DecidableEq, Repr

/-- Drops the status a sub-operation returns where `ioctl` ignores it. -/
def ignore_ret (x : Option (Nat × Machine)) : Option (ioctl_out × Machine) :=
  x.map fun y => (ioctl_out.nothing, y.2)

/-- The `switch (op->mt_op)` of `ioctl`. -/
def mtop_switch (h : Host) (fuel : Nat) (m : Machine) (op : mtop) :
    Option (ioctl_out × Machine) :=
  let c := op.mt_count
  let fail : Option (ioctl_out × Machine) :=
    some (ioctl_out.nothing, m.set_lasterr ERROR_INVALID_PARAMETER)
  if op.mt_op = MTRESET then some (ioctl_out.nothing, m)
  else if op.mt_op = MTFSF then ignore_ret (set_pos h fuel m TAPE_SPACE_FILEMARKS c false)
  else if op.mt_op = MTBSF then
    ignore_ret (set_pos h fuel m TAPE_SPACE_FILEMARKS (wrapLong (-c)) false)
  else if op.mt_op = MTFSR then ignore_ret (set_pos h fuel m TAPE_SPACE_RELATIVE_BLOCKS c false)
  else if op.mt_op = MTBSR then
    ignore_ret (set_pos h fuel m TAPE_SPACE_RELATIVE_BLOCKS (wrapLong (-c)) false)
  else if op.mt_op = MTWEOF then ignore_ret (write_marks h fuel m TAPE_FILEMARKS (toDWORD c))
  else if op.mt_op = MTREW then ignore_ret (set_pos h fuel m TAPE_REWIND 0 false)
  else if op.mt_op = MTOFFL ∨ op.mt_op = MTUNLOAD then
    ignore_ret (prepare h fuel m TAPE_UNLOAD false)
  else if op.mt_op = MTNOP then some (ioctl_out.nothing, m.set_lasterr 0)
  else if op.mt_op = MTRETEN then
    if h.get_feature m.drv._dp TAPE_DRIVE_TENSION = false then fail
    else
      (set_pos h fuel m TAPE_REWIND 0 false).bind fun x =>
        if x.1 = 0 then ignore_ret (prepare h fuel x.2 TAPE_TENSION false)
        else some (ioctl_out.nothing, x.2)
  else if op.mt_op = MTBSFM then
    ignore_ret (set_pos h fuel m TAPE_SPACE_FILEMARKS (wrapLong (-c)) true)
  else if op.mt_op = MTFSFM then ignore_ret (set_pos h fuel m TAPE_SPACE_FILEMARKS c true)
  else if op.mt_op = MTEOM then
    if m.drv.fast_eom && h.get_feature m.drv._dp TAPE_DRIVE_END_OF_DATA then
      ignore_ret (set_pos h fuel m TAPE_SPACE_END_OF_DATA 0 false)
    else ignore_ret (set_pos h fuel m TAPE_SPACE_FILEMARKS 32767 false)
  else if op.mt_op = MTERASE then ignore_ret (erase h fuel m TAPE_ERASE_LONG)
  else if op.mt_op = MTRAS1 ∨ op.mt_op = MTRAS2 ∨ op.mt_op = MTRAS3 then fail
  else if op.mt_op = MTSETBLK then
    if h.get_feature m.drv._dp TAPE_DRIVE_SET_BLOCK_SIZE = false then fail
    else if toDWORD c = m.drv._mp.BlockSize then some (ioctl_out.nothing, m.set_lasterr 0)
    else if (c = 0 ∧ h.get_feature m.drv._dp TAPE_DRIVE_VARIABLE_BLOCK = false)
        ∨ (c > 0 ∧ (toDWORD c < m.drv._dp.MinimumBlockSize
                      ∨ toDWORD c > m.drv._dp.MaximumBlockSize)) then fail
    else
      (set_blocksize h fuel m c).map fun x =>
        (ioctl_out.nothing,
          if x.1 ≠ 0 ∧ x.2.drv.lasterr = ERROR_INVALID_FUNCTION then
            x.2.set_lasterr ERROR_INVALID_BLOCK_LENGTH
          else x.2)
  else if op.mt_op = MTSEEK then
    if h.get_feature m.drv._dp TAPE_DRIVE_LOGICAL_BLK then
      ignore_ret (set_pos h fuel m TAPE_LOGICAL_BLOCK c false)
    else
      (get_pos h fuel m).bind fun x =>
        if x.1 = 0 then
          ignore_ret (set_pos h fuel x.2 TAPE_SPACE_RELATIVE_BLOCKS
            (wrapLong (c - x.2.drv.block)) false)
        else some (ioctl_out.nothing, x.2)
  else if op.mt_op = MTTELL then
    (get_pos h fuel m).map fun x =>
      (if x.1 = 0 then ioctl_out.mt_count x.2.drv.block else ioctl_out.nothing, x.2)
  else if op.mt_op = MTFSS then ignore_ret (set_pos h fuel m TAPE_SPACE_SETMARKS c false)
  else if op.mt_op = MTBSS then
    ignore_ret (set_pos h fuel m TAPE_SPACE_SETMARKS (wrapLong (-c)) false)
  else if op.mt_op = MTWSM then ignore_ret (write_marks h fuel m TAPE_SETMARKS (toDWORD c))
  else if op.mt_op = MTLOCK then ignore_ret (prepare h fuel m TAPE_LOCK false)
  else if op.mt_op = MTUNLOCK then ignore_ret (prepare h fuel m TAPE_UNLOCK false)
  else if op.mt_op = MTLOAD then ignore_ret (prepare h fuel m TAPE_LOAD false)
  else if op.mt_op = MTCOMPRESSION then ignore_ret (set_compression h fuel m c)
  else if op.mt_op = MTSETPART then ignore_ret (set_partition h fuel m c)
  else if op.mt_op = MTMKPART then ignore_ret (create_partitions h fuel m c)
  else if op.mt_op = MTSETDRVBUFFER then ignore_ret (set_options h fuel m c)
  else fail

/-- The commands let through while the last status is a bus reset. -/
def bus_reset_allowed (mt_op : Int) : Bool :=
  decide (mt_op = MTREW ∨ mt_op = MTOFFL ∨ mt_op = MTRETEN ∨ mt_op = MTERASE
    ∨ mt_op = MTSEEK ∨ mt_op = MTEOM)

/-- The source's `ioctl (mt, cmd, buf)`.  `buf = none` stands for a pointer
that fails the validity check; for `MTIOCTOP` a valid `buf` holds the `mtop`
record.  Yields the returned status, what was written through `buf`, and the
machine. -/
def ioctl (h : Host) (fuel : Nat) (m : Machine) (cmd : ioctl_cmd) (buf : Option mtop) :
    Option (Nat × ioctl_out × Machine) :=
  match cmd, buf with
  | .MTIOCTOP, none => some (ERROR_NOACCESS, ioctl_out.nothing, m)
  | .MTIOCTOP, some op =>
    if m.drv.lasterr = ERROR_BUS_RESET ∧ bus_reset_allowed op.mt_op = false then
      some (ERROR_BUS_RESET, ioctl_out.nothing, m)
    else
      let m1 : Machine :=
        if m.drv.lasterr = ERROR_BUS_RESET ∧ m.drv.lock.val ≥ lock_state.auto_locked.val then
          let x := exec h (Call.PrepareTape TAPE_LOCK false) m
          if x.1.err ≠ 0 then { x.2 with drv := { x.2.drv with lock := lock_state.unlocked } }
          else x.2
        else m
      (mtop_switch h fuel m1 op).map fun y => (y.2.drv.lasterr, y.1, y.2)
  | .MTIOCGET, none => some (ERROR_NOACCESS, ioctl_out.nothing, m)
  | .MTIOCGET, some _ =>
    let g := get_status h m
    some (g.2.2.drv.lasterr, ioctl_out.status g.2.1, g.2.2)
  | .MTIOCPOS, none => some (ERROR_NOACCESS, ioctl_out.nothing, m)
  | .MTIOCPOS, some _ =>
    (get_pos h fuel m).map fun x =>
      (x.2.drv.lasterr, if x.1 = 0 then ioctl_out.mt_blkno x.2.drv.block else ioctl_out.nothing,
        x.2)
  | .other, _ => some (m.drv.lasterr, ioctl_out.nothing, m)

end mtinfo_drive

/-! ## Notions used in the statements -/

/-- The steady-state counterpart of a boundary value: a "-hit" value settles
to the value after it, the others stay. -/
def non_hit : eom_val → eom_val
  | .eof_hit => .eof
  | .eod_hit => .eod
  | .eom_hit => .eom
  | e => e

/-- One evaluation of `lasterr = (func)`, the loop condition of `TAPE_FUNC`. -/
def attempt (h : Host) (func : mtinfo_drive → Call) (m : Machine) : Resp × Machine :=
  ((exec h (func m.drv) m).1,
    (exec h (func m.drv) m).2.set_lasterr (exec h (func m.drv) m).1.err)

/-- One attempt of `TAPE_FUNC` followed by the loop body
`initialize (drive, false); part (partition)->initialize (0);`. -/
def cycle (h : Host) (func : mtinfo_drive → Call) (partition : mtinfo_drive → Int)
    (m : Machine) : Machine :=
  { drv := (((attempt h func m).2.drv.init (attempt h func m).2.drv.drive false).setPart
      (partition ((attempt h func m).2.drv.init (attempt h func m).2.drv.drive false))
      (mtinfo_part.init 0))
    log := Event.reinit :: (attempt h func m).2.log }

/-- The retries of primitive `k` end within `fuel` attempts, wherever they
start: the transport never answers "medium changed" `fuel` times in a row. -/
def RetriesEnd (h : Host) (k : Kind) (fuel : Nat) : Prop :=
  ∀ c, ∃ j, j < fuel ∧ (h.answer k (c + j)).err ≠ ERROR_MEDIA_CHANGED

/-- The retries of every primitive end within `fuel` attempts. -/
def AllRetriesEnd (h : Host) (fuel : Nat) : Prop := ∀ k, RetriesEnd h k fuel

/-- The calls of a trace that satisfy `p` and were not answered "medium
changed", each with its status (newest first). -/
def issued (p : Call → Bool) (log : List Event) : List (Call × Nat) :=
  log.filterMap fun e => match e with
    | .call c r => if p c && decide (r.err ≠ ERROR_MEDIA_CHANGED) then some (c, r.err) else none
    | .reinit => none

/-- The statuses of the transport calls of a trace (newest first). -/
def statuses (log : List Event) : List Nat :=
  log.filterMap fun e => match e with
    | .call _ r => some r.err
    | .reinit => none

/-- A single-mark step: `SetTapePosition` spacing over one filemark, forward or
backward. -/
def is_mark_step (c : Call) : Bool :=
  match c with
  | .SetTapePosition mode _ count _ =>
    decide (mode = TAPE_SPACE_FILEMARKS ∧ (count = 1 ∨ count = -1))
  | _ => false

/-- Number of single-mark steps in a trace that were completed, that is, ended
with success or on a setmark (the steps the stepping loops count). -/
def steps_completed (log : List Event) : Nat :=
  ((issued is_mark_step log).filter fun x => decide (x.2 = 0) || IS_SM x.2).length

/-- The calls of `WriteTapemark`. -/
def is_write_mark (c : Call) : Bool :=
  match c with
  | .WriteTapemark _ _ => true
  | _ => false

/-- The calls of `SetTapePosition`. -/
def is_set_pos (c : Call) : Bool :=
  match c with
  | .SetTapePosition _ _ _ _ => true
  | _ => false

/-- Final status and byte count of the transport read that a `read` entered
with machine `m` performs: the answer to the next `ReadFile` or, when that one
is pending, the answer to the wait for its completion (which comes after the
wait for an earlier asynchronous write, if one is outstanding). -/
def next_read (h : Host) (m : Machine) : Nat × Nat :=
  let r := h.answer Kind.ReadFile (ncalls Kind.ReadFile m.log)
  let w := h.answer Kind.GetOverlappedResult
    (ncalls Kind.GetOverlappedResult m.log
      + (if m.drv.dirty = dirty_state.async_write_pending then 1 else 0))
  if r.status = ERROR_IO_PENDING then (w.status, w.bytes) else (r.status, r.bytes)

/-- Final status and byte count of the transport write that a `write` entered
with machine `m` performs: the answer to the next `WriteFile` or, when that one
is pending and is waited for (asynchronous writes off, or a fixed block size),
the answer to the wait for its completion (which comes after the wait for an
earlier asynchronous write, if one is outstanding). -/
def next_write (h : Host) (m : Machine) : Nat × Nat :=
  let r := h.answer Kind.WriteFile (ncalls Kind.WriteFile m.log)
  let w := h.answer Kind.GetOverlappedResult
    (ncalls Kind.GetOverlappedResult m.log
      + (if m.drv.dirty = dirty_state.async_write_pending then 1 else 0))
  if r.status = ERROR_IO_PENDING ∧ ¬ (m.drv.async_writes = true ∧ m.drv._mp.BlockSize = 0) then
    (w.status, w.bytes)
  else (r.status, r.bytes)

/-- From the given state of the trace on, the transport answers no call of
primitive `k` with "medium changed". -/
def QuietFrom (h : Host) (k : Kind) (log : List Event) : Prop :=
  ∀ j, ncalls k log ≤ j → (h.answer k j).err ≠ ERROR_MEDIA_CHANGED

/-- The boundary a single-mark step in direction `dir` leaves when it ends
with status `s`: filemark or none after a completed step (forward or
backward), end-of-medium or end-of-data after an end-of-data-class status, and
none after any other status (the partition record is re-initialised). -/
def step_boundary (dir : Int) (s : Nat) : eom_val :=
  if s = 0 ∨ IS_SM s = true then (if dir > 0 then eom_val.eof else eom_val.no_eof)
  else if IS_EOD s = true then (if IS_EOM s = true then eom_val.eom else eom_val.eod)
  else eom_val.no_eof

/-- The calls of `CreateTapePartition`. -/
def is_create_partition (c : Call) : Bool :=
  match c with
  | .CreateTapePartition _ _ _ => true
  | _ => false

/-- The statement `x += count` on a `long` counter `x` with a `DWORD` count, as
`write_marks` executes it: the sum is formed in 32-bit unsigned arithmetic and
stored back into the `long`. -/
def advance (x : Int) (count : Nat) : Int := toLong (toDWORD x + count)

/-- The number of blocks that `read` and `write` book for `bytes` transferred
bytes on a medium of block size `bs` (0 for variable-size blocks). -/
def blocks_of (bs : Nat) (bytes : Nat) : Int :=
  toLong (if bs = 0 then 1 else howmany bytes bs)

namespace mtinfo_drive

/-- The option bits of the seven software configuration flags: buffer-writes,
async-writes, two-filemarks, fast-skip-to-end, auto-lock, sysv, nowait. -/
def flag_bits : List Nat :=
  [MT_ST_BUFFER_WRITES, MT_ST_ASYNC_WRITES, MT_ST_TWO_FM, MT_ST_FAST_MTEOM, MT_ST_AUTO_LOCK,
    MT_ST_SYSV, MT_ST_NOWAIT]

/-- The software configuration flag of drive `d` that the option bit `bit`
names. -/
def sw_flag (d : mtinfo_drive) (bit : Nat) : Bool :=
  if bit = MT_ST_BUFFER_WRITES then d.buffer_writes
  else if bit = MT_ST_ASYNC_WRITES then d.async_writes
  else if bit = MT_ST_TWO_FM then d.two_fm
  else if bit = MT_ST_FAST_MTEOM then d.fast_eom
  else if bit = MT_ST_AUTO_LOCK then d.auto_lock
  else if bit = MT_ST_SYSV then d.sysv
  else if bit = MT_ST_NOWAIT then d.nowait
  else false

end mtinfo_drive

/-- The automatic-lock option of the drive is `a`, and its lock state is `l` or
has been reset to unlocked (by the re-initialisation after a medium change). -/
def lock_kept (a : Bool) (l : lock_state) (d : mtinfo_drive) : Prop :=
  d.auto_lock = a ∧ (d.lock = l ∨ d.lock = lock_state.unlocked)

/-- No counter of a partition record of drive `d'` was advanced since the
records were those of drive `d`: every record of `d'` is the record that `d`
holds for the same partition, or a freshly initialised one
(`mtinfo_part::initialize`), at the unknown block -1, at block 0 or at block
`b`. -/
def records_kept_or_fresh (d : mtinfo_drive) (b : Int) (d' : mtinfo_drive) : Prop :=
  ∀ i, d'.part i = d.part i ∨ d'.part i = mtinfo_part.init (-1)
    ∨ d'.part i = mtinfo_part.init 0 ∨ d'.part i = mtinfo_part.init b

/-- The operation returned, and neither the status it returned nor the last
status it recorded is "medium changed". -/
def Settled (x : Option (Nat × Machine)) : Prop :=
  ∃ ret m', x = some (ret, m') ∧ ret ≠ ERROR_MEDIA_CHANGED
    ∧ m'.drv.lasterr ≠ ERROR_MEDIA_CHANGED

/-- The dispatch returned and the last status it recorded is not "medium
changed". -/
def SettledOut (x : Option (ioctl_out × Machine)) : Prop :=
  ∃ y, x = some y ∧ y.2.drv.lasterr ≠ ERROR_MEDIA_CHANGED

/-! ## Concrete drives and transports used to exercise the model -/

/-- Drive parameters of a single-partition drive. -/
def dp0 : TAPE_GET_DRIVE_PARAMETERS :=
  { ECC := 0, Compression := 0, DataPadding := 0, ReportSetmarks := 0,
    DefaultBlockSize := 512, MaximumBlockSize := 65536, MinimumBlockSize := 1,
    MaximumPartitionCount := 1, FeaturesLow := 0, FeaturesHigh := 0,
    EOTWarningZoneSize := 0 }

/-- Media parameters of a medium with 512-byte blocks. -/
def mp0 : TAPE_GET_MEDIA_PARAMETERS :=
  { Capacity := 0, Remaining := 0, BlockSize := 512, PartitionCount := 1, WriteProtected := 0 }

/-- The answer "success, nothing transferred". -/
def resp0 : Resp :=
  { ok := true, err := 0, bytes := 0, p := 0, low := 0, dp := dp0, mp := mp0, media := [] }

/-- A failing answer with the given status and byte count. -/
def resp_err (e : Nat) (n : Nat) : Resp := { resp0 with ok := false, err := e, bytes := n }

/-- A transport on which every call succeeds. -/
def host0 : Host :=
  { answer := fun _ _ => resp0
    get_feature := fun _ _ => false
    has_ioctl_storage_get_media_types_ex := false }

/-- A freshly initialised drive at the beginning of partition 0. -/
def drive0 : mtinfo_drive :=
  { drive := 0, lasterr := 0, partition := 0, block := 0,
    dirty := dirty_state.clean, lock := lock_state.unlocked,
    _dp := dp0, _mp := mp0,
    buffer_writes := true, async_writes := false, two_fm := false, fast_eom := false,
    auto_lock := false, sysv := false, nowait := false,
    _part := fun _ => mtinfo_part.init 0 }

/-- The drive `drive0` with an empty trace. -/
def machine0 : Machine := { drv := drive0, log := [] }

/-- The machine `machine0` with the active partition's boundary set to `e`. -/
def machine_at (e : eom_val) : Machine :=
  machine0.updPart fun p => { p with emark := e }

/-- A drive that reports a bus reset as its last status. -/
def machine_reset : Machine := machine0.set_lasterr ERROR_BUS_RESET

/-- A transport whose first two `PrepareTape` answers are "medium changed". -/
def host_changed : Host :=
  { host0 with answer := fun k j =>
      if k = Kind.PrepareTape ∧ j < 2 then resp_err ERROR_MEDIA_CHANGED 0 else resp0 }

/-- A transport whose first `SetTapePosition` lands on a setmark. -/
def host_setmark : Host :=
  { host0 with answer := fun k j =>
      if k = Kind.SetTapePosition ∧ j = 0 then resp_err ERROR_SETMARK_DETECTED 0 else resp0 }

/-- A transport whose first `ReadFile` crosses a filemark after 512 bytes. -/
def host_filemark : Host :=
  { host0 with answer := fun k j =>
      if k = Kind.ReadFile ∧ j = 0 then resp_err ERROR_FILEMARK_DETECTED 512 else resp0 }

/-- A drive in double-filemark mode on which a write has just completed. -/
def machine_written : Machine :=
  { drv := { drive0 with dirty := dirty_state.has_written, two_fm := true }, log := [] }

/-- A transport whose first `ReadFile` fails with "medium changed". -/
def host_read_changed : Host :=
  { host0 with answer := fun k j =>
      if k = Kind.ReadFile ∧ j = 0 then resp_err ERROR_MEDIA_CHANGED 0 else resp0 }

/-- A partition record in the middle of the sixth file. -/
def part5 (e : eom_val) : mtinfo_part :=
  { block := 50, file := 5, fblock := 3, smark := false, emark := e }

/-- A drive at block 50 of partition 0, in the middle of the sixth file, with
automatic locking switched on or off and the given boundary. -/
def machine_mid (lock : Bool) (e : eom_val) : Machine :=
  { drv := { drive0 with block := 50, auto_lock := lock,
                         _part := fun i => if i = 0 then part5 e else mtinfo_part.init (-1) },
    log := [] }

/-- A transport that answers the first `PrepareTape` with "medium changed" and
the first call of primitive `k` with status `e` and `n` bytes transferred. -/
def host_lock_changed (k : Kind) (e : Nat) (n : Nat) : Host :=
  { host0 with answer := fun k1 j =>
      if k1 = Kind.PrepareTape ∧ j = 0 then resp_err ERROR_MEDIA_CHANGED 0
      else if k1 = k ∧ j = 0 then resp_err e n else resp0 }

/-- A transport that answers the first call of primitive `k` with status `e`
and `n` bytes transferred, and every other call with success. -/
def host_once (k : Kind) (e : Nat) (n : Nat) : Host :=
  { host0 with answer := fun k1 j => if k1 = k ∧ j = 0 then resp_err e n else resp0 }

/-- A transport that answers the first `SetTapePosition` with "medium changed". -/
def host_pos_changed : Host := host_once Kind.SetTapePosition ERROR_MEDIA_CHANGED 0

/-- The answer "success, `n` bytes transferred". -/
def resp_ok (n : Nat) : Resp := { resp0 with bytes := n }

/-- A transport whose first call of primitive `k` succeeds with `n` bytes
transferred; every other call succeeds with none. -/
def host_data (k : Kind) (n : Nat) : Host :=
  { host0 with answer := fun k1 j => if k1 = k ∧ j = 0 then resp_ok n else resp0 }

/-- A transport whose every `ReadFile` and `WriteFile` succeeds with `n` bytes
transferred; every other call succeeds with none. -/
def host_transfer (n : Nat) : Host :=
  { host0 with answer := fun k _ =>
      if k = Kind.ReadFile ∨ k = Kind.WriteFile then resp_ok n else resp0 }

/-- A transport that answers the first call of every primitive with "medium
changed", except the data transfers and the wait for their completion, which
`read` and `write` call outside the retry loop. -/
def host_first_changed : Host :=
  { host0 with answer := fun k j =>
      if j = 0 ∧ k ≠ Kind.ReadFile ∧ k ≠ Kind.WriteFile
          ∧ k ≠ Kind.GetOverlappedResult then
        resp_err ERROR_MEDIA_CHANGED 0
      else resp0 }

/-- A transport on a drive that has exactly the feature `f`. -/
def host_feature (f : Nat) : Host :=
  { host0 with get_feature := fun _ g => decide (g = f) }

/-- A transport that rejects every `SetTapeParameters` request with a device
error, on a drive whose only feature is settable compression. -/
def host_reject_params : Host :=
  { host_feature TAPE_DRIVE_SET_COMPRESSION with answer := fun k _ =>
      if k = Kind.SetTapeParameters then resp_err ERROR_IO_DEVICE 0 else resp0 }

/-- A drive that supports two partitions, at the beginning of partition 0. -/
def machine_two_parts : Machine :=
  { drv := { drive0 with _dp := { dp0 with MaximumPartitionCount := 2 } }, log := [] }

/-- A drive whose position is unknown: the state left by the initialisation
when the position query fails. -/
def machine_unknown : Machine :=
  { drv := { drive0 with block := -1, _part := fun _ => mtinfo_part.init (-1) }, log := [] }

/-- A drive whose block and file counters all stand at 2147483647, the largest
value of a 32-bit `long`. -/
def machine_long_max : Machine :=
  { drv := { drive0 with block := 2147483647,
                         _part := fun _ => { block := 2147483647, file := 2147483647,
                                             fblock := 2147483647, smark := false,
                                             emark := eom_val.no_eof } },
    log := [] }

/-- A transport whose position queries report partition number `p` (the
partition index plus one) and block `low`; every other call succeeds. -/
def host_partition (p : Nat) (low : Nat) : Host :=
  { host0 with answer := fun k _ =>
      if k = Kind.GetTapePosition then { resp0 with p := p, low := low } else resp0 }

/-- A drive that supports as many partitions as the partition array holds, with
every partition record at block 7 of file 1. -/
def machine_max_parts : Machine :=
  { drv := { drive0 with _dp := { dp0 with MaximumPartitionCount := MAX_PARTITION_NUM },
                         _part := fun _ => { block := 7, file := 1, fblock := 2, smark := false,
                                             emark := eom_val.no_eof } },
    log := [] }

/-- A drive on which a write has just completed and that holds an automatically
acquired lock. -/
def machine_written_locked : Machine :=
  { drv := { drive0 with dirty := dirty_state.has_written, auto_lock := true,
                         lock := lock_state.auto_locked },
    log := [] }

/-! ## Basic facts about the trace and single transport calls -/

@[simp] theorem ncalls_nil (k : Kind) : ncalls k [] = 0 := rfl

@[simp] theorem ncalls_call (k : Kind) (c : Call) (r : Resp) (log : List Event) :
    ncalls k (Event.call c r :: log) = ncalls k log + (if c.kind = k then 1 else 0) := by
  unfold ncalls
  by_cases hc : c.kind = k <;> simp [List.countP_cons, hc]

@[simp] theorem ncalls_reinit (k : Kind) (log : List Event) :
    ncalls k (Event.reinit :: log) = ncalls k log := by
  unfold ncalls
  simp [List.countP_cons]

@[simp] theorem exec_fst (h : Host) (c : Call) (m : Machine) :
    (exec h c m).1 = h.answer c.kind (ncalls c.kind m.log) := rfl

@[simp] theorem exec_log (h : Host) (c : Call) (m : Machine) :
    (exec h c m).2.log = Event.call c (h.answer c.kind (ncalls c.kind m.log)) :: m.log := rfl

@[simp] theorem exec_drv_GetTapeStatus (h : Host) (m : Machine) :
    (exec h Call.GetTapeStatus m).2.drv = m.drv := rfl

@[simp] theorem exec_drv_GetOverlappedResult (h : Host) (m : Machine) :
    (exec h Call.GetOverlappedResult m).2.drv = m.drv := rfl

@[simp] theorem exec_drv_DeviceIoControl (h : Host) (m : Machine) :
    (exec h Call.DeviceIoControl m).2.drv = m.drv := rfl

@[simp] theorem exec_drv_ReadFile (h : Host) (m : Machine) (n : Nat) :
    (exec h (Call.ReadFile n) m).2.drv = m.drv := rfl

@[simp] theorem exec_drv_WriteFile (h : Host) (m : Machine) (n : Nat) :
    (exec h (Call.WriteFile n) m).2.drv = m.drv := rfl

@[simp] theorem exec_drv_PrepareTape (h : Host) (m : Machine) (a : Int) (w : Bool) :
    (exec h (Call.PrepareTape a w) m).2.drv = m.drv := rfl

@[simp] theorem exec_partition (h : Host) (c : Call) (m : Machine) :
    (exec h c m).2.drv.partition = m.drv.partition := by
  cases c <;> rfl

@[simp] theorem exec_part (h : Host) (c : Call) (m : Machine) :
    (exec h c m).2.drv._part = m.drv._part := by
  cases c <;> rfl

@[simp] theorem exec_cur (h : Host) (c : Call) (m : Machine) : (exec h c m).2.cur = m.cur := by
  cases c <;> rfl

@[simp] theorem exec_lasterr (h : Host) (c : Call) (m : Machine) :
    (exec h c m).2.drv.lasterr = m.drv.lasterr := by
  cases c <;> rfl

@[simp] theorem exec_dirty (h : Host) (c : Call) (m : Machine) :
    (exec h c m).2.drv.dirty = m.drv.dirty := by
  cases c <;> rfl

@[simp] theorem set_lasterr_log (m : Machine) (e : Nat) : (m.set_lasterr e).log = m.log := rfl

@[simp] theorem set_dirty_log (m : Machine) (v : dirty_state) : (m.set_dirty v).log = m.log := rfl

@[simp] theorem updPartAt_log (m : Machine) (n : Int) (f : mtinfo_part → mtinfo_part) :
    (m.updPartAt n f).log = m.log := rfl

@[simp] theorem updPart_log (m : Machine) (f : mtinfo_part → mtinfo_part) :
    (m.updPart f).log = m.log := rfl

@[simp] theorem set_lasterr_lasterr (m : Machine) (e : Nat) :
    (m.set_lasterr e).drv.lasterr = e := rfl

@[simp] theorem set_lasterr_partition (m : Machine) (e : Nat) :
    (m.set_lasterr e).drv.partition = m.drv.partition := rfl

@[simp] theorem set_lasterr_part (m : Machine) (e : Nat) :
    (m.set_lasterr e).drv._part = m.drv._part := rfl

@[simp] theorem set_lasterr_cur (m : Machine) (e : Nat) : (m.set_lasterr e).cur = m.cur := rfl

@[simp] theorem set_dirty_lasterr (m : Machine) (v : dirty_state) :
    (m.set_dirty v).drv.lasterr = m.drv.lasterr := rfl

@[simp] theorem set_dirty_dirty (m : Machine) (v : dirty_state) :
    (m.set_dirty v).drv.dirty = v := rfl

@[simp] theorem set_dirty_partition (m : Machine) (v : dirty_state) :
    (m.set_dirty v).drv.partition = m.drv.partition := rfl

@[simp] theorem set_dirty_part (m : Machine) (v : dirty_state) :
    (m.set_dirty v).drv._part = m.drv._part := rfl

@[simp] theorem set_dirty_cur (m : Machine) (v : dirty_state) : (m.set_dirty v).cur = m.cur := rfl

@[simp] theorem updPart_partition (m : Machine) (f : mtinfo_part → mtinfo_part) :
    (m.updPart f).drv.partition = m.drv.partition := rfl

@[simp] theorem updPart_lasterr (m : Machine) (f : mtinfo_part → mtinfo_part) :
    (m.updPart f).drv.lasterr = m.drv.lasterr := rfl

@[simp] theorem updPart_dirty (m : Machine) (f : mtinfo_part → mtinfo_part) :
    (m.updPart f).drv.dirty = m.drv.dirty := rfl

@[simp] theorem updPart_cur (m : Machine) (f : mtinfo_part → mtinfo_part) :
    (m.updPart f).cur = f m.cur := by
  simp [Machine.updPart, Machine.updPartAt, Machine.cur, mtinfo_drive.setPart, mtinfo_drive.part]

namespace mtinfo_drive

@[simp] theorem wait_pending_partition (h : Host) (m : Machine) :
    (wait_pending h m).drv.partition = m.drv.partition := by
  unfold wait_pending; split <;> rfl

@[simp] theorem wait_pending_part (h : Host) (m : Machine) :
    (wait_pending h m).drv._part = m.drv._part := by
  unfold wait_pending; split <;> rfl

@[simp] theorem wait_pending_cur (h : Host) (m : Machine) :
    (wait_pending h m).cur = m.cur := by
  unfold wait_pending; split <;> rfl

theorem wait_pending_ncalls (h : Host) (m : Machine) (k : Kind)
    (hk : k ≠ Kind.GetOverlappedResult) :
    ncalls k (wait_pending h m).log = ncalls k m.log := by
  unfold wait_pending
  split
  · simp [async_wait, Call.kind, Ne.symm hk]
  · rfl

end mtinfo_drive

namespace mtinfo_drive

/-- C2: with a medium present, no recorded bus reset and the active partition's
boundary at a "-hit" value, `read` returns success with a zero-length result,
demotes the boundary to its non-hit counterpart (of the same, still active
partition) and issues no `ReadFile`. -/
theorem read_consumes_hit (h : Host) (fuel : Nat) (m : Machine) (ulen : Nat)
    (hmed : (h.answer Kind.GetTapeStatus (ncalls Kind.GetTapeStatus m.log)).err
      ≠ ERROR_NO_MEDIA_IN_DRIVE)
    (hbus : m.drv.lasterr ≠ ERROR_BUS_RESET)
    (hhit : m.cur.emark = eom_val.eof_hit ∨ m.cur.emark = eom_val.eod_hit
      ∨ m.cur.emark = eom_val.eom_hit) :
    ∃ m', read h fuel m ulen = some (0, 0, m')
      ∧ m'.drv.partition = m.drv.partition
      ∧ m'.cur.emark = non_hit m.cur.emark
      ∧ ncalls Kind.ReadFile m'.log = ncalls Kind.ReadFile m.log := by
  simp only [ERROR_NO_MEDIA_IN_DRIVE, ERROR_BUS_RESET] at hmed hbus
  rcases hhit with he | he | he <;>
    simp [read, hmed, hbus, he, non_hit, wait_pending_ncalls, Call.kind]

/-- C2 at a concrete drive: the boundary is end-of-data-hit. -/
theorem read_consumes_hit_witness :
    ∃ m', read host0 0 (machine_at eom_val.eod_hit) 512 = some (0, 0, m')
      ∧ m'.drv.partition = (machine_at eom_val.eod_hit).drv.partition
      ∧ m'.cur.emark = non_hit (machine_at eom_val.eod_hit).cur.emark
      ∧ ncalls Kind.ReadFile m'.log = ncalls Kind.ReadFile (machine_at eom_val.eod_hit).log :=
  read_consumes_hit host0 0 (machine_at eom_val.eod_hit) 512 (by decide) (by decide)
    (Or.inr (Or.inl (by decide)))

end mtinfo_drive

namespace mtinfo_drive

/-- C3: with a medium present, no recorded bus reset and the active partition's
boundary at the non-hit end-of-data (resp. end-of-medium), `read` fails with
`ERROR_NO_DATA_DETECTED` (resp. `ERROR_END_OF_MEDIA`), issues no `ReadFile`,
and leaves the active partition index and every partition record (block, file,
fblock, setmark, boundary) as they were. -/
theorem read_at_end_fails (h : Host) (fuel : Nat) (m : Machine) (ulen : Nat)
    (hmed : (h.answer Kind.GetTapeStatus (ncalls Kind.GetTapeStatus m.log)).err
      ≠ ERROR_NO_MEDIA_IN_DRIVE)
    (hbus : m.drv.lasterr ≠ ERROR_BUS_RESET)
    (hend : m.cur.emark = eom_val.eod ∨ m.cur.emark = eom_val.eom) :
    ∃ n m', read h fuel m ulen
        = some (if m.cur.emark = eom_val.eod then ERROR_NO_DATA_DETECTED else ERROR_END_OF_MEDIA,
                n, m')
      ∧ ncalls Kind.ReadFile m'.log = ncalls Kind.ReadFile m.log
      ∧ m'.drv.partition = m.drv.partition
      ∧ m'.drv._part = m.drv._part
      ∧ m'.cur = m.cur := by
  simp only [ERROR_NO_MEDIA_IN_DRIVE, ERROR_BUS_RESET] at hmed hbus
  rcases hend with he | he
  · refine ⟨SIZE_MAX, ((wait_pending h (exec h Call.GetTapeStatus m).2).set_dirty
      dirty_state.clean).set_lasterr ERROR_NO_DATA_DETECTED, ?_, ?_, ?_, ?_, ?_⟩ <;>
      simp [read, hmed, hbus, he, wait_pending_ncalls, Call.kind]
  · refine ⟨SIZE_MAX, ((wait_pending h (exec h Call.GetTapeStatus m).2).set_dirty
      dirty_state.clean).set_lasterr ERROR_END_OF_MEDIA, ?_, ?_, ?_, ?_, ?_⟩ <;>
      simp [read, hmed, hbus, he, wait_pending_ncalls, Call.kind]

/-- C3 at a concrete drive whose boundary is end-of-data. -/
theorem read_at_end_fails_witness :
    ∃ n m', read host0 0 (machine_at eom_val.eod) 512
        = some (if (machine_at eom_val.eod).cur.emark = eom_val.eod then ERROR_NO_DATA_DETECTED
                else ERROR_END_OF_MEDIA, n, m')
      ∧ ncalls Kind.ReadFile m'.log = ncalls Kind.ReadFile (machine_at eom_val.eod).log
      ∧ m'.drv.partition = (machine_at eom_val.eod).drv.partition
      ∧ m'.drv._part = (machine_at eom_val.eod).drv._part
      ∧ m'.cur = (machine_at eom_val.eod).cur :=
  read_at_end_fails host0 0 (machine_at eom_val.eod) 512 (by decide) (by decide)
    (Or.inl (by decide))

/-- C6, as stated, fails: the index 2147483647 is not below the drive-reported
maximum (1), yet `set_partition` answers `ERROR_INVALID_PARAMETER`, not
`ERROR_IO_DEVICE`, because the index lies beyond the partition array. -/
theorem set_partition_beyond_array :
    (2147483647 : Int) ≥ (machine0.drv._dp.MaximumPartitionCount : Int)
      ∧ (set_partition host0 1 machine0 2147483647).map (fun x => x.1)
          = some ERROR_INVALID_PARAMETER
      ∧ ERROR_INVALID_PARAMETER ≠ ERROR_IO_DEVICE := by
  refine ⟨by decide, ?_, by decide⟩
  simp [set_partition, toDWORD, MAX_PARTITION_NUM]

/-- C6 (amended): for an index inside the partition array (0 ≤ index <
`MAX_PARTITION_NUM`) that is not below the drive-reported maximum partition
count, `set_partition` fails with `ERROR_IO_DEVICE`, contacts no transport, and
changes nothing in the drive state but the last status. -/
theorem set_partition_io_device (h : Host) (fuel : Nat) (m : Machine) (count : Int)
    (h0 : 0 ≤ count) (h1 : count < (MAX_PARTITION_NUM : Int))
    (h2 : (m.drv._dp.MaximumPartitionCount : Int) ≤ count) :
    ∃ m', set_partition h fuel m count = some (ERROR_IO_DEVICE, m')
      ∧ m'.log = m.log
      ∧ m'.drv = { m.drv with lasterr := ERROR_IO_DEVICE } := by
  have hd : toDWORD count = count.toNat := by
    unfold toDWORD
    have : count % 2 ^ 32 = count :=
      Int.emod_eq_of_lt h0 (lt_of_lt_of_le h1 (by simp [MAX_PARTITION_NUM]))
    rw [this]
  have h3 : ¬ (count < 0 ∨ toDWORD count ≥ MAX_PARTITION_NUM) := by
    rw [hd]; omega
  have h4 : toDWORD count ≥ m.drv._dp.MaximumPartitionCount := by
    rw [hd]; omega
  refine ⟨m.set_lasterr ERROR_IO_DEVICE, ?_, rfl, rfl⟩
  unfold set_partition
  rw [if_neg h3, if_pos h4]

/-- C6 (amended) at a concrete drive: index 1 on a single-partition drive. -/
theorem set_partition_io_device_witness :
    ∃ m', set_partition host0 0 machine0 1 = some (ERROR_IO_DEVICE, m')
      ∧ m'.log = machine0.log
      ∧ m'.drv = { machine0.drv with lasterr := ERROR_IO_DEVICE } :=
  set_partition_io_device host0 0 machine0 1 (by decide) (by decide) (by decide)

end mtinfo_drive

namespace mtinfo_drive

theorem get_status_drv (h : Host) (m : Machine) : (get_status h m).2.2.drv = m.drv := by
  unfold get_status
  cases h.has_ioctl_storage_get_media_types_ex <;> simp

theorem get_status_ncalls_status (h : Host) (m : Machine) :
    ncalls Kind.GetTapeStatus (get_status h m).2.2.log = ncalls Kind.GetTapeStatus m.log + 1 := by
  unfold get_status
  cases h.has_ioctl_storage_get_media_types_ex <;> simp [Call.kind]

theorem get_status_ncalls_ioctl (h : Host) (m : Machine) :
    ncalls Kind.DeviceIoControl (get_status h m).2.2.log
      = ncalls Kind.DeviceIoControl m.log
        + (if h.has_ioctl_storage_get_media_types_ex then 1 else 0) := by
  unfold get_status
  cases h.has_ioctl_storage_get_media_types_ex <;> simp [Call.kind]

theorem get_status_congr (h : Host) (m1 m2 : Machine) (hd : m1.drv = m2.drv)
    (h1 : h.answer Kind.GetTapeStatus (ncalls Kind.GetTapeStatus m1.log)
      = h.answer Kind.GetTapeStatus (ncalls Kind.GetTapeStatus m2.log))
    (h2 : h.has_ioctl_storage_get_media_types_ex = true →
      h.answer Kind.DeviceIoControl (ncalls Kind.DeviceIoControl m1.log)
        = h.answer Kind.DeviceIoControl (ncalls Kind.DeviceIoControl m2.log)) :
    (get_status h m1).2.1 = (get_status h m2).2.1 := by
  unfold get_status
  cases hp : h.has_ioctl_storage_get_media_types_ex
  · simp [Call.kind, hd, h1]
  · have h2' := h2 hp
    simp [Call.kind, hd, h1, h2']

/-- C7: `get_status` changes no field of the drive state or of any partition
record (a "-hit" boundary included), and a second call that gets the same
transport answers as the first returns the same status and the same record. -/
theorem get_status_idempotent (h : Host) (m : Machine)
    (hts : h.answer Kind.GetTapeStatus (ncalls Kind.GetTapeStatus m.log + 1)
      = h.answer Kind.GetTapeStatus (ncalls Kind.GetTapeStatus m.log))
    (hio : h.answer Kind.DeviceIoControl (ncalls Kind.DeviceIoControl m.log + 1)
      = h.answer Kind.DeviceIoControl (ncalls Kind.DeviceIoControl m.log)) :
    (get_status h m).2.2.drv = m.drv
      ∧ (get_status h (get_status h m).2.2).2.2.drv = m.drv
      ∧ (get_status h (get_status h m).2.2).1 = (get_status h m).1
      ∧ (get_status h (get_status h m).2.2).2.1 = (get_status h m).2.1 := by
  refine ⟨get_status_drv h m, ?_, rfl, ?_⟩
  · rw [get_status_drv, get_status_drv]
  · apply get_status_congr
    · exact get_status_drv h m
    · rw [get_status_ncalls_status, hts]
    · intro hp
      rw [get_status_ncalls_ioctl, hp, if_pos rfl, hio]

/-- C7 at a concrete drive whose boundary is filemark-hit: the transport gives
the same answers to both calls. -/
theorem get_status_idempotent_witness :
    (get_status host0 (machine_at eom_val.eof_hit)).2.2.drv = (machine_at eom_val.eof_hit).drv
      ∧ (get_status host0 (get_status host0 (machine_at eom_val.eof_hit)).2.2).2.2.drv
          = (machine_at eom_val.eof_hit).drv
      ∧ (get_status host0 (get_status host0 (machine_at eom_val.eof_hit)).2.2).1
          = (get_status host0 (machine_at eom_val.eof_hit)).1
      ∧ (get_status host0 (get_status host0 (machine_at eom_val.eof_hit)).2.2).2.1
          = (get_status host0 (machine_at eom_val.eof_hit)).2.1 :=
  get_status_idempotent host0 (machine_at eom_val.eof_hit) rfl rfl

/-- C9, as stated, fails: with the last status a bus reset, the position query
of the command surface (`MTIOCPOS`) is not rejected; it queries the transport
and returns the status of that query (here success). -/
theorem ioctl_pos_after_bus_reset :
    machine_reset.drv.lasterr = ERROR_BUS_RESET
      ∧ (ioctl host0 1 machine_reset ioctl_cmd.MTIOCPOS (some ⟨0, 0⟩)).map
          (fun x => (x.1, x.2.2.log.length)) = some (0, 1) := by
  refine ⟨rfl, ?_⟩
  simp [ioctl, get_pos, TAPE_FUNC, machine_reset, machine0, host0, resp0, Machine.set_lasterr]

/-- C9 (amended): with the last status a bus reset, every `MTIOCTOP` request
(with a readable argument record) whose operation is none of rewind (`MTREW`),
unload (`MTOFFL`, `MTUNLOAD`), retension (`MTRETEN`), erase (`MTERASE`), seek
(`MTSEEK`) and skip-to-end (`MTEOM`) returns the bus-reset status, makes no
transport call and leaves the drive state unchanged. -/
theorem ioctl_bus_reset_lockout (h : Host) (fuel : Nat) (m : Machine) (op : mtop)
    (hreset : m.drv.lasterr = ERROR_BUS_RESET)
    (h1 : op.mt_op ≠ MTREW) (h2 : op.mt_op ≠ MTOFFL) (_h2 : op.mt_op ≠ MTUNLOAD)
    (h3 : op.mt_op ≠ MTRETEN) (h4 : op.mt_op ≠ MTERASE) (h5 : op.mt_op ≠ MTSEEK)
    (h6 : op.mt_op ≠ MTEOM) :
    ioctl h fuel m ioctl_cmd.MTIOCTOP (some op) = some (ERROR_BUS_RESET, ioctl_out.nothing, m) := by
  have hb : bus_reset_allowed op.mt_op = false := by
    simp only [MTREW, MTOFFL, MTRETEN, MTERASE, MTSEEK, MTEOM] at h1 h2 h3 h4 h5 h6
    simp [bus_reset_allowed, h1, h2, h3, h4, h5, h6]
  simp only [ioctl]
  rw [if_pos ⟨hreset, hb⟩]

/-- C9 (amended) at a concrete drive: a forward space over one filemark. -/
theorem ioctl_bus_reset_lockout_witness :
    ioctl host0 1 machine_reset ioctl_cmd.MTIOCTOP (some ⟨MTFSF, 1⟩)
      = some (ERROR_BUS_RESET, ioctl_out.nothing, machine_reset) :=
  ioctl_bus_reset_lockout host0 1 machine_reset ⟨MTFSF, 1⟩ rfl (by decide) (by decide)
    (by decide) (by decide) (by decide) (by decide) (by decide)

end mtinfo_drive

/-! ## The retry wrapper -/

theorem attempt_fst (h : Host) (func : mtinfo_drive → Call) (m : Machine) (k : Kind)
    (hk : ∀ d, (func d).kind = k) :
    (attempt h func m).1 = h.answer k (ncalls k m.log) := by
  simp [attempt, hk]

theorem attempt_log (h : Host) (func : mtinfo_drive → Call) (m : Machine) :
    (attempt h func m).2.log = Event.call (func m.drv) (attempt h func m).1 :: m.log := by
  simp [attempt]

@[simp] theorem attempt_lasterr (h : Host) (func : mtinfo_drive → Call) (m : Machine) :
    (attempt h func m).2.drv.lasterr = (attempt h func m).1.err := rfl

theorem cycle_log (h : Host) (func : mtinfo_drive → Call) (partition : mtinfo_drive → Int)
    (m : Machine) :
    (cycle h func partition m).log
      = Event.reinit :: Event.call (func m.drv) (attempt h func m).1 :: m.log := by
  simp [cycle, attempt]

theorem TAPE_FUNC_zero (h : Host) (func : mtinfo_drive → Call)
    (partition : mtinfo_drive → Int) (m : Machine) :
    TAPE_FUNC h func partition 0 m = none := rfl

theorem TAPE_FUNC_succ (h : Host) (func : mtinfo_drive → Call)
    (partition : mtinfo_drive → Int) (fuel : Nat) (m : Machine) :
    TAPE_FUNC h func partition (fuel + 1) m
      = if (attempt h func m).1.err = ERROR_MEDIA_CHANGED then
          TAPE_FUNC h func partition fuel (cycle h func partition m)
        else some (attempt h func m) := rfl

/-- Partial correctness of the retry loop: an invariant kept by every failed
attempt holds on entry to the final one. -/
theorem TAPE_FUNC_rule (h : Host) (func : mtinfo_drive → Call)
    (partition : mtinfo_drive → Int) (Inv : Machine → Prop) (Post : Resp × Machine → Prop)
    (hcyc : ∀ m, Inv m → (attempt h func m).1.err = ERROR_MEDIA_CHANGED →
      Inv (cycle h func partition m))
    (hfin : ∀ m, Inv m → (attempt h func m).1.err ≠ ERROR_MEDIA_CHANGED →
      Post (attempt h func m)) :
    ∀ (fuel : Nat) (m : Machine) (x : Resp × Machine), Inv m →
      TAPE_FUNC h func partition fuel m = some x → Post x := by
  intro fuel
  induction fuel with
  | zero => intro m x _ hx; simp [TAPE_FUNC_zero] at hx
  | succ fuel ih =>
    intro m x hinv hx
    rw [TAPE_FUNC_succ] at hx
    by_cases hmc : (attempt h func m).1.err = ERROR_MEDIA_CHANGED
    · rw [if_pos hmc] at hx
      exact ih _ x (hcyc m hinv hmc) hx
    · rw [if_neg hmc] at hx
      have hx' : attempt h func m = x := Option.some.inj hx
      rw [← hx']
      exact hfin m hinv hmc

/-- Termination of the retry loop: it returns as soon as one of the next
`fuel` answers is not "medium changed". -/
theorem TAPE_FUNC_returns (h : Host) (func : mtinfo_drive → Call)
    (partition : mtinfo_drive → Int) (k : Kind) (hk : ∀ d, (func d).kind = k) :
    ∀ (fuel : Nat) (m : Machine),
      (∃ j, j < fuel ∧ (h.answer k (ncalls k m.log + j)).err ≠ ERROR_MEDIA_CHANGED) →
      ∃ x, TAPE_FUNC h func partition fuel m = some x := by
  intro fuel
  induction fuel with
  | zero => intro m ⟨j, hj, _⟩; omega
  | succ fuel ih =>
    intro m ⟨j, hj, hne⟩
    rw [TAPE_FUNC_succ]
    by_cases hmc : (attempt h func m).1.err = ERROR_MEDIA_CHANGED
    · rw [if_pos hmc]
      apply ih
      rw [attempt_fst h func m k hk] at hmc
      cases j with
      | zero => simp at hne; exact absurd hmc (by simpa using hne)
      | succ j =>
        refine ⟨j, by omega, ?_⟩
        rw [cycle_log]
        simp only [ncalls_reinit, ncalls_call, hk, if_true]
        rw [show ncalls k m.log + 1 + j = ncalls k m.log + (j + 1) by omega]
        exact hne
    · rw [if_neg hmc]
      exact ⟨_, rfl⟩

/-- C8: when the successive attempts of a wrapped call are answered "medium
changed" `n` times and then with a status `s` that is not "medium changed",
`TAPE_FUNC` returns after exactly `n` executions of its reinitialising loop
body and `n + 1` transport attempts (and nothing else); the answer handed to
the caller is the last one, and its status `s` is what `lasterr` records. -/
theorem TAPE_FUNC_retries (h : Host) (func : mtinfo_drive → Call)
    (partition : mtinfo_drive → Int) (k : Kind) (hk : ∀ d, (func d).kind = k) (s : Nat)
    (hs : s ≠ ERROR_MEDIA_CHANGED) (n : Nat) :
    ∀ (fuel : Nat) (m : Machine),
      (∀ i, i < n → (h.answer k (ncalls k m.log + i)).err = ERROR_MEDIA_CHANGED) →
      (h.answer k (ncalls k m.log + n)).err = s → n < fuel →
      ∃ r m', TAPE_FUNC h func partition fuel m = some (r, m')
        ∧ r = h.answer k (ncalls k m.log + n) ∧ r.err = s ∧ m'.drv.lasterr = s
        ∧ ncalls k m'.log = ncalls k m.log + (n + 1)
        ∧ m'.log.count Event.reinit = m.log.count Event.reinit + n
        ∧ m'.log.length = m.log.length + (2 * n + 1) := by
  induction n with
  | zero =>
    intro fuel m _ hfin hfuel
    obtain ⟨fuel, rfl⟩ : ∃ f, fuel = f + 1 := ⟨fuel - 1, by omega⟩
    have ha := attempt_fst h func m k hk
    have hne : (attempt h func m).1.err ≠ ERROR_MEDIA_CHANGED := by
      rw [ha]; simpa using hfin ▸ hs
    refine ⟨(attempt h func m).1, (attempt h func m).2, ?_, ?_, ?_, ?_, ?_, ?_, ?_⟩
    · rw [TAPE_FUNC_succ, if_neg hne]
    · simpa using ha
    · rw [ha]; simpa using hfin
    · rw [attempt_lasterr, ha]; simpa using hfin
    · rw [attempt_log]; simp [hk]
    · rw [attempt_log]; simp [List.count_cons]
    · rw [attempt_log]; simp
  | succ n ih =>
    intro fuel m hmc hfin hfuel
    obtain ⟨fuel, rfl⟩ : ∃ f, fuel = f + 1 := ⟨fuel - 1, by omega⟩
    have ha := attempt_fst h func m k hk
    have h0 : (attempt h func m).1.err = ERROR_MEDIA_CHANGED := by
      rw [ha]; simpa using hmc 0 (by omega)
    have hlog : ncalls k (cycle h func partition m).log = ncalls k m.log + 1 := by
      rw [cycle_log]; simp [hk]
    obtain ⟨r, m', hr, hans, herr, hlast, hnc, hre, hlen⟩ :=
      ih fuel (cycle h func partition m)
        (by
          intro i hi
          rw [hlog, show ncalls k m.log + 1 + i = ncalls k m.log + (i + 1) by omega]
          exact hmc (i + 1) (by omega))
        (by
          rw [hlog, show ncalls k m.log + 1 + n = ncalls k m.log + (n + 1) by omega]
          exact hfin)
        (by omega)
    refine ⟨r, m', ?_, ?_, herr, hlast, ?_, ?_, ?_⟩
    · rw [TAPE_FUNC_succ, if_pos h0]; exact hr
    · rw [hans, hlog]; congr 1; omega
    · rw [hnc, hlog]; omega
    · rw [hre, cycle_log]; simp [List.count_cons]; omega
    · rw [hlen, cycle_log]; simp; omega

/-- C8 at a concrete transport: `PrepareTape` is answered "medium changed"
twice and then succeeds. -/
theorem TAPE_FUNC_retries_witness :
    ∃ r m', TAPE_FUNC host_changed (fun _ => Call.PrepareTape TAPE_LOCK false)
          (fun d => d.partition) 3 machine0 = some (r, m')
      ∧ r = host_changed.answer Kind.PrepareTape (ncalls Kind.PrepareTape machine0.log + 2)
      ∧ r.err = 0 ∧ m'.drv.lasterr = 0
      ∧ ncalls Kind.PrepareTape m'.log = ncalls Kind.PrepareTape machine0.log + (2 + 1)
      ∧ m'.log.count Event.reinit = machine0.log.count Event.reinit + 2
      ∧ m'.log.length = machine0.log.length + (2 * 2 + 1) :=
  TAPE_FUNC_retries host_changed (fun _ => Call.PrepareTape TAPE_LOCK false)
    (fun d => d.partition) Kind.PrepareTape (fun _ => rfl) 0 (by decide) 2 3 machine0
    (by intro i hi; interval_cases i <;> rfl) rfl (by decide)

@[simp] theorem issued_nil (p : Call → Bool) : issued p [] = [] := rfl

@[simp] theorem issued_reinit (p : Call → Bool) (log : List Event) :
    issued p (Event.reinit :: log) = issued p log := by
  simp [issued, List.filterMap_cons]

theorem issued_call (p : Call → Bool) (c : Call) (r : Resp) (log : List Event) :
    issued p (Event.call c r :: log)
      = if p c = true ∧ r.err ≠ ERROR_MEDIA_CHANGED then (c, r.err) :: issued p log
        else issued p log := by
  by_cases hp : p c = true <;> by_cases hr : r.err = 1110 <;>
    simp [issued, List.filterMap_cons, hp, hr]

theorem issued_call_skip (p : Call → Bool) (c : Call) (r : Resp) (log : List Event)
    (hp : p c = false) : issued p (Event.call c r :: log) = issued p log := by
  rw [issued_call]; simp [hp]

@[simp] theorem exec_two_fm (h : Host) (c : Call) (m : Machine) :
    (exec h c m).2.drv.two_fm = m.drv.two_fm := by
  cases c <;> rfl

@[simp] theorem set_lasterr_two_fm (m : Machine) (e : Nat) :
    (m.set_lasterr e).drv.two_fm = m.drv.two_fm := rfl

@[simp] theorem set_dirty_two_fm (m : Machine) (v : dirty_state) :
    (m.set_dirty v).drv.two_fm = m.drv.two_fm := rfl

@[simp] theorem updPart_two_fm (m : Machine) (f : mtinfo_part → mtinfo_part) :
    (m.updPart f).drv.two_fm = m.drv.two_fm := rfl

@[simp] theorem init_two_fm (d : mtinfo_drive) (n : Int) :
    (d.init n false).two_fm = d.two_fm := rfl

@[simp] theorem setPart_two_fm (d : mtinfo_drive) (n : Int) (p : mtinfo_part) :
    (d.setPart n p).two_fm = d.two_fm := rfl

theorem cycle_two_fm (h : Host) (func : mtinfo_drive → Call) (partition : mtinfo_drive → Int)
    (m : Machine) : (cycle h func partition m).drv.two_fm = m.drv.two_fm := by
  simp [cycle, attempt]

/-- The retry loop returns, with a status other than "medium changed" recorded
in `lasterr`, whenever the retries of its primitive end. -/
theorem TAPE_FUNC_ok (h : Host) (func : mtinfo_drive → Call) (partition : mtinfo_drive → Int)
    (k : Kind) (hk : ∀ d, (func d).kind = k) (fuel : Nat) (m : Machine)
    (hterm : RetriesEnd h k fuel) :
    ∃ r m', TAPE_FUNC h func partition fuel m = some (r, m')
      ∧ r.err ≠ ERROR_MEDIA_CHANGED ∧ m'.drv.lasterr = r.err := by
  obtain ⟨x, hx⟩ := TAPE_FUNC_returns h func partition k hk fuel m (hterm _)
  refine ⟨x.1, x.2, hx, ?_⟩
  exact TAPE_FUNC_rule h func partition (fun _ => True)
    (fun x => x.1.err ≠ ERROR_MEDIA_CHANGED ∧ x.2.drv.lasterr = x.1.err)
    (fun _ _ _ => trivial) (fun m _ hne => ⟨hne, rfl⟩) fuel m x trivial hx

/-- What a returned retry loop of a fixed call `c` leaves behind: one issued
call `c`, no call of another primitive, and the configuration flag `two_fm`
as it was. -/
theorem TAPE_FUNC_frame (h : Host) (c : Call) (partition : mtinfo_drive → Int)
    (fuel : Nat) (m : Machine) (x : Resp × Machine)
    (hx : TAPE_FUNC h (fun _ => c) partition fuel m = some x) :
    x.1.err ≠ ERROR_MEDIA_CHANGED ∧ x.2.drv.lasterr = x.1.err
      ∧ (∀ p, issued p x.2.log
          = (if p c = true then [(c, x.1.err)] else []) ++ issued p m.log)
      ∧ (∀ k, k ≠ c.kind → ncalls k x.2.log = ncalls k m.log)
      ∧ x.2.drv.two_fm = m.drv.two_fm := by
  refine TAPE_FUNC_rule h (fun _ => c) partition
    (fun m1 => (∀ p, issued p m1.log = issued p m.log)
      ∧ (∀ k, k ≠ c.kind → ncalls k m1.log = ncalls k m.log)
      ∧ m1.drv.two_fm = m.drv.two_fm)
    (fun x => x.1.err ≠ ERROR_MEDIA_CHANGED ∧ x.2.drv.lasterr = x.1.err
      ∧ (∀ p, issued p x.2.log
          = (if p c = true then [(c, x.1.err)] else []) ++ issued p m.log)
      ∧ (∀ k, k ≠ c.kind → ncalls k x.2.log = ncalls k m.log)
      ∧ x.2.drv.two_fm = m.drv.two_fm)
    ?_ ?_ fuel m x ⟨fun _ => rfl, fun _ _ => rfl, rfl⟩ hx
  · intro m1 ⟨hi, hn, ht⟩ hmc
    refine ⟨?_, ?_, ?_⟩
    · intro p
      rw [cycle_log, issued_reinit, issued_call, if_neg (by simp [hmc]), hi]
    · intro k hk
      rw [cycle_log, ncalls_reinit, ncalls_call, if_neg (Ne.symm hk), hn k hk]
      rfl
    · rw [cycle_two_fm, ht]
  · intro m1 ⟨hi, hn, ht⟩ hne
    refine ⟨hne, rfl, ?_, ?_, ?_⟩
    · intro p
      rw [attempt_log, issued_call, hi]
      by_cases hp : p c = true
      · rw [if_pos ⟨hp, hne⟩, if_pos hp]; rfl
      · rw [if_neg (fun hh => hp hh.1), if_neg hp]; rfl
    · intro k hk
      rw [attempt_log, ncalls_call, if_neg (Ne.symm hk), hn k hk]
      rfl
    · simpa [attempt] using ht

namespace mtinfo_drive

theorem wait_pending_issued (h : Host) (m : Machine) (p : Call → Bool)
    (hp : p Call.GetOverlappedResult = false) :
    issued p (wait_pending h m).log = issued p m.log := by
  unfold wait_pending
  split
  · simp [async_wait, issued_call_skip, hp]
  · rfl

@[simp] theorem wait_pending_two_fm (h : Host) (m : Machine) :
    (wait_pending h m).drv.two_fm = m.drv.two_fm := by
  unfold wait_pending; split <;> simp [async_wait]

/-- The positioning call returns, with the final status of the retry loop. -/
theorem _set_pos_ok (h : Host) (fuel : Nat) (m : Machine) (mode count partition : Int)
    (dw : Bool) (hterm : RetriesEnd h Kind.SetTapePosition fuel) :
    ∃ ret m', _set_pos h fuel m mode count partition dw = some (ret, m')
      ∧ ret = m'.drv.lasterr ∧ ret ≠ ERROR_MEDIA_CHANGED := by
  obtain ⟨r, m', hr, hne, hl⟩ :=
    TAPE_FUNC_ok h (fun _ => Call.SetTapePosition mode partition count dw) (fun _ => partition)
      Kind.SetTapePosition (fun _ => rfl) fuel
      ((wait_pending h m).set_dirty dirty_state.clean) hterm
  refine ⟨m'.drv.lasterr, m', ?_, rfl, ?_⟩
  · simp [_set_pos, hr]
  · rw [hl]; exact hne

/-- What a returned positioning call leaves in the trace. -/
theorem _set_pos_frame (h : Host) (fuel : Nat) (m : Machine) (mode count partition : Int)
    (dw : Bool) (x : Nat × Machine)
    (hx : _set_pos h fuel m mode count partition dw = some x) :
    x.1 = x.2.drv.lasterr ∧ x.1 ≠ ERROR_MEDIA_CHANGED
      ∧ (∀ p, p Call.GetOverlappedResult = false → issued p x.2.log
          = (if p (Call.SetTapePosition mode partition count dw) = true then
              [(Call.SetTapePosition mode partition count dw, x.1)] else [])
            ++ issued p m.log)
      ∧ x.2.drv.two_fm = m.drv.two_fm := by
  unfold _set_pos at hx
  simp only [Option.map_eq_some'] at hx
  obtain ⟨y, hy, rfl⟩ := hx
  obtain ⟨hne, hl, hi, _, ht⟩ := TAPE_FUNC_frame h _ _ fuel _ y hy
  refine ⟨rfl, ?_, ?_, ?_⟩
  · rw [hl]; exact hne
  · intro p hp
    rw [hi p, hl]
    simp [wait_pending_issued h m p hp]
  · simpa using ht

theorem steps_completed_step (log log' : List Event) (c : Call) (s : Nat)
    (hc : is_mark_step c = true)
    (hi : issued is_mark_step log' = (if is_mark_step c = true then [(c, s)] else [])
      ++ issued is_mark_step log) :
    steps_completed log'
      = steps_completed log + (if s = 0 ∨ IS_SM s = true then 1 else 0) := by
  unfold steps_completed
  rw [hi, if_pos hc]
  by_cases h0 : s = 0 <;> by_cases h1 : IS_SM s = true <;>
    simp [List.filter_cons, h0, h1]

/-- The stepping loop returns; the marks it leaves undone are those not
completed, and none is left without a non-zero status. -/
theorem mark_loop_spec (h : Host) (fuel : Nat) (dir : Int) (hdir : dir = 1 ∨ dir = -1)
    (hterm : RetriesEnd h Kind.SetTapePosition fuel) :
    ∀ (n : Nat) (m : Machine), ∃ err u m', mark_loop h fuel dir n m = some (err, u, m')
      ∧ u ≤ n ∧ steps_completed m'.log = steps_completed m.log + (n - u)
      ∧ (err = 0 → u = 0) ∧ err ≠ ERROR_MEDIA_CHANGED := by
  intro n
  induction n with
  | zero =>
    intro m
    exact ⟨0, 0, m, rfl, le_refl _, rfl, fun _ => rfl, by decide⟩
  | succ n ih =>
    intro m
    obtain ⟨ret, m1, h1, hl, hne⟩ := _set_pos_ok h fuel m TAPE_SPACE_FILEMARKS dir 0 false hterm
    obtain ⟨_, _, hi, _⟩ := _set_pos_frame h fuel m TAPE_SPACE_FILEMARKS dir 0 false _ h1
    have hstep : is_mark_step (Call.SetTapePosition TAPE_SPACE_FILEMARKS 0 dir false) = true := by
      rcases hdir with rfl | rfl <;> decide
    have hsc := steps_completed_step m.log m1.log _ ret hstep (hi is_mark_step rfl)
    simp only [mark_loop, h1, Option.some_bind]
    by_cases h0 : ret = 0
    · obtain ⟨err, u, m', hm, hu, hs, hz, hmc⟩ := ih m1
      refine ⟨err, u, m', ?_, by omega, ?_, hz, hmc⟩
      · simp [h0] at hm ⊢; exact hm
      · rw [hs, hsc, if_pos (Or.inl h0)]; omega
    · by_cases hsm : IS_SM ret = true
      · refine ⟨ret, n, m1, by simp [h0, hsm], by omega, ?_, fun hh => absurd hh h0, hne⟩
        rw [hsc, if_pos (Or.inr hsm)]; omega
      · refine ⟨ret, n + 1, m1, by simp [h0, hsm], le_refl _, ?_, fun hh => absurd hh h0, hne⟩
        rw [hsc, if_neg (by tauto)]; omega

/-- C4, as stated, fails: a request for two marks whose first step lands on a
setmark returns with one mark undone although no step reported the beginning
of the medium, the end of data or the end of the medium. -/
theorem set_pos_marks_stops_on_setmark :
    (set_pos_marks host_setmark 1 machine0 2).map (fun x => (x.1, x.2.1, statuses x.2.2.log))
        = some (ERROR_SETMARK_DETECTED, 1, [ERROR_SETMARK_DETECTED])
      ∧ IS_BOT ERROR_SETMARK_DETECTED = false ∧ IS_EOD ERROR_SETMARK_DETECTED = false := by
  refine ⟨?_, by decide, by decide⟩
  decide

/-- C4 (amended): for every space-by-marks request with `count ≠ 0` and every
transport on which the retries end, the stepping of `set_pos` returns, the
number of single-mark steps it completed is `|count - undone|`, `undone` lies
between 0 and `count`, and `undone` is zero unless the stepping ended with a
non-zero status (an error, a boundary, or a setmark landing). -/
theorem set_pos_marks_count (h : Host) (fuel : Nat) (m : Machine) (count : Int)
    (hterm : RetriesEnd h Kind.SetTapePosition fuel) (hc : count ≠ 0) :
    ∃ err undone m', set_pos_marks h fuel m count = some (err, undone, m')
      ∧ (steps_completed m'.log : Int) = steps_completed m.log + |count - undone|
      ∧ |undone| ≤ |count| ∧ 0 ≤ undone * count
      ∧ (err = 0 → undone = 0) := by
  rcases lt_or_gt_of_ne hc with hneg | hpos
  · obtain ⟨err, u, m', hm, hu, hs, hz, _⟩ :=
      mark_loop_spec h fuel (-1) (Or.inr rfl) hterm (-count).toNat m
    have hcn : ((-count).toNat : Int) = -count := Int.toNat_of_nonneg (by omega)
    refine ⟨err, -(u : Int), m', ?_, ?_, ?_, ?_, ?_⟩
    · simp [set_pos_marks, not_lt.mpr (le_of_lt hneg), hneg, hm]
    · rw [hs, abs_of_nonpos (by omega)]; push_cast; omega
    · rw [abs_neg, abs_of_nonneg (by omega), abs_of_neg hneg]; omega
    · have : (0 : Int) ≤ (u : Int) * (-count) := mul_nonneg (by omega) (by omega)
      linarith
    · intro he; simp [hz he]
  · obtain ⟨err, u, m', hm, hu, hs, hz, _⟩ :=
      mark_loop_spec h fuel 1 (Or.inl rfl) hterm count.toNat m
    have hcn : (count.toNat : Int) = count := Int.toNat_of_nonneg (by omega)
    refine ⟨err, (u : Int), m', ?_, ?_, ?_, ?_, ?_⟩
    · have hpos' : 0 < count := hpos
      simp [set_pos_marks, hpos', hm]
    · rw [hs, abs_of_nonneg (by omega)]; push_cast; omega
    · rw [abs_of_nonneg (by omega), abs_of_pos hpos]; omega
    · exact mul_nonneg (by omega) (by omega)
    · intro he; simp [hz he]

/-- C4 (amended) at a concrete request: two marks forward on a transport that
answers every call with success. -/
theorem set_pos_marks_count_witness :
    ∃ err undone m', set_pos_marks host0 1 machine0 2 = some (err, undone, m')
      ∧ (steps_completed m'.log : Int) = steps_completed machine0.log + |2 - undone|
      ∧ |undone| ≤ |(2 : Int)| ∧ 0 ≤ undone * 2
      ∧ (err = 0 → undone = 0) :=
  set_pos_marks_count host0 1 machine0 2
    (fun _ => ⟨0, Nat.zero_lt_one, (by decide : resp0.err ≠ ERROR_MEDIA_CHANGED)⟩) (by decide)

end mtinfo_drive

namespace mtinfo_drive

theorem wait_pending_clean (h : Host) (m : Machine)
    (hd : m.drv.dirty ≠ dirty_state.async_write_pending) : wait_pending h m = m := by
  unfold wait_pending; rw [if_neg hd]

theorem wait_pending_ncalls_wait (h : Host) (m : Machine) :
    ncalls Kind.GetOverlappedResult (wait_pending h m).log
      = ncalls Kind.GetOverlappedResult m.log
        + (if m.drv.dirty = dirty_state.async_write_pending then 1 else 0) := by
  unfold wait_pending
  split <;> simp [async_wait, Call.kind]

/-- The tape preparation returns, with the final status of the retry loop. -/
theorem prepare_ok (h : Host) (fuel : Nat) (m : Machine) (action : Int) (is_auto : Bool)
    (hterm : RetriesEnd h Kind.PrepareTape fuel) :
    ∃ ret m', prepare h fuel m action is_auto = some (ret, m')
      ∧ ret = m'.drv.lasterr ∧ ret ≠ ERROR_MEDIA_CHANGED := by
  obtain ⟨r, m1, hr, hne, hl⟩ :=
    TAPE_FUNC_ok h (fun _ => Call.PrepareTape action
        (if action = TAPE_UNLOAD ∨ action = TAPE_LOAD ∨ action = TAPE_TENSION then
          ((wait_pending h m).set_dirty dirty_state.clean).drv.nowait else false))
      (fun d => d.partition) Kind.PrepareTape (fun _ => rfl) fuel
      ((wait_pending h m).set_dirty dirty_state.clean) hterm
  have hne' : m1.drv.lasterr ≠ ERROR_MEDIA_CHANGED := by rw [hl]; exact hne
  simp only [prepare, hr, Option.map_some']
  refine ⟨_, _, rfl, rfl, ?_⟩
  split_ifs <;> simpa [Machine.updPart, Machine.updPartAt, mtinfo_drive.init,
    mtinfo_drive.setPart] using hne'

/-- A returned tape preparation added no call of a primitive other than
`PrepareTape` and the wait for an outstanding write. -/
theorem prepare_ncalls (h : Host) (fuel : Nat) (m : Machine) (action : Int) (is_auto : Bool)
    (x : Nat × Machine) (hx : prepare h fuel m action is_auto = some x) (k : Kind)
    (hk : k ≠ Kind.PrepareTape) (hw : k ≠ Kind.GetOverlappedResult
      ∨ m.drv.dirty ≠ dirty_state.async_write_pending) :
    ncalls k x.2.log = ncalls k m.log := by
  unfold prepare at hx
  simp only [Option.map_eq_some'] at hx
  obtain ⟨y, hy, rfl⟩ := hx
  obtain ⟨_, _, _, hn, _⟩ := TAPE_FUNC_frame h _ _ fuel _ y hy
  have hlog : ncalls k y.2.log = ncalls k m.log := by
    rw [hn k hk, set_dirty_log]
    rcases hw with hw | hw
    · exact wait_pending_ncalls h m k hw
    · rw [wait_pending_clean h m hw]
  split_ifs <;> simpa using hlog

/-- The automatic locking step returns and adds only `PrepareTape` calls, when
no asynchronous write is outstanding. -/
theorem auto_lock_step_spec (h : Host) (fuel : Nat) (m : Machine)
    (hterm : RetriesEnd h Kind.PrepareTape fuel)
    (hd : m.drv.dirty ≠ dirty_state.async_write_pending) :
    ∃ m', auto_lock_step h fuel m = some m'
      ∧ ∀ k, k ≠ Kind.PrepareTape → ncalls k m'.log = ncalls k m.log := by
  unfold auto_lock_step
  split_ifs with hc
  · obtain ⟨ret, m', hp, _, _⟩ := prepare_ok h fuel m TAPE_LOCK true hterm
    refine ⟨m', by rw [hp]; rfl, ?_⟩
    intro k hk
    exact prepare_ncalls h fuel m TAPE_LOCK true _ hp k hk (Or.inr hd)
  · exact ⟨m, rfl, fun _ _ => rfl⟩

theorem read_io_ncalls (h : Host) (m : Machine) (ulen : Nat) :
    ncalls Kind.ReadFile (read_io h m ulen).2.log = ncalls Kind.ReadFile m.log + 1 := by
  unfold read_io
  simp only []
  split_ifs <;> simp [async_wait, Call.kind]

/-- The outcome of the transport read in terms of the answers of the
transport. -/
theorem read_io_outcome (h : Host) (m : Machine) (ulen : Nat) :
    ((read_io h m ulen).2.drv.lasterr, (read_io h m ulen).1)
      = (if (h.answer Kind.ReadFile (ncalls Kind.ReadFile m.log)).status = ERROR_IO_PENDING then
          ((h.answer Kind.GetOverlappedResult (ncalls Kind.GetOverlappedResult m.log)).status,
            (h.answer Kind.GetOverlappedResult (ncalls Kind.GetOverlappedResult m.log)).bytes)
        else
          ((h.answer Kind.ReadFile (ncalls Kind.ReadFile m.log)).status,
            (h.answer Kind.ReadFile (ncalls Kind.ReadFile m.log)).bytes)) := by
  unfold read_io
  simp only []
  split_ifs with h1 h2 h2
  · simp [async_wait, Call.kind]
  · simp [Call.kind] at h1 h2; exact absurd h1 h2
  · simp [Call.kind] at h1 h2; exact absurd h2 h1
  · simp [Call.kind]

@[simp] theorem count_blocks_log (m : Machine) (b : Nat) : (count_blocks m b).log = m.log := by
  unfold count_blocks; simp only []; split_ifs <;> rfl

@[simp] theorem count_blocks_lasterr (m : Machine) (b : Nat) :
    (count_blocks m b).drv.lasterr = m.drv.lasterr := by
  unfold count_blocks; simp only []; split_ifs <;> rfl

@[simp] theorem read_classify_log (m : Machine) (b : Nat) : (read_classify m b).log = m.log := by
  unfold read_classify; simp only []; split_ifs <;> rfl

/-- A transport read that crosses a filemark after transferring data. -/
theorem read_classify_filemark (m : Machine) (b : Nat)
    (he : m.drv.lasterr = ERROR_FILEMARK_DETECTED) (hb : 0 < b) :
    (read_classify m b).drv.lasterr = 0 ∧ (read_classify m b).cur.emark = eom_val.eof_hit
      ∧ (read_classify m b).drv.dirty = dirty_state.has_read := by
  simp only [ERROR_FILEMARK_DETECTED] at he
  unfold read_classify
  simp [he, IS_EOF, hb]

/-- Every transport read is recorded as one `ReadFile`. -/
theorem read_transfer_ncalls (h : Host) (m : Machine) (ulen : Nat) :
    ncalls Kind.ReadFile (read_transfer h m ulen).2.2.log = ncalls Kind.ReadFile m.log + 1 := by
  unfold read_transfer
  simp [read_io_ncalls]

/-- The read of a filemark crossing, from the entry of the transfer. -/
theorem read_transfer_filemark (h : Host) (m : Machine) (ulen n : Nat) (hn : 0 < n)
    (hout : (if (h.answer Kind.ReadFile (ncalls Kind.ReadFile m.log)).status
          = ERROR_IO_PENDING then
        ((h.answer Kind.GetOverlappedResult (ncalls Kind.GetOverlappedResult m.log)).status,
          (h.answer Kind.GetOverlappedResult (ncalls Kind.GetOverlappedResult m.log)).bytes)
      else
        ((h.answer Kind.ReadFile (ncalls Kind.ReadFile m.log)).status,
          (h.answer Kind.ReadFile (ncalls Kind.ReadFile m.log)).bytes))
      = (ERROR_FILEMARK_DETECTED, n)) :
    ∃ m', read_transfer h m ulen = (0, n, m') ∧ m'.drv.lasterr = 0
      ∧ m'.cur.emark = eom_val.eof_hit ∧ m'.drv.dirty = dirty_state.has_read
      ∧ ncalls Kind.ReadFile m'.log = ncalls Kind.ReadFile m.log + 1 := by
  have ho := read_io_outcome h m ulen
  rw [hout] at ho
  have h1 : (read_io h m ulen).2.drv.lasterr = ERROR_FILEMARK_DETECTED := congrArg Prod.fst ho
  have h2 : (read_io h m ulen).1 = n := congrArg Prod.snd ho
  obtain ⟨c1, c2, c3⟩ := read_classify_filemark (count_blocks (read_io h m ulen).2 n) n
    (by rw [count_blocks_lasterr]; exact h1) hn
  refine ⟨read_classify (count_blocks (read_io h m ulen).2 n) n, ?_, c1, c2, c3, ?_⟩
  · unfold read_transfer
    simp only [h2, c1]
  · simp [read_io_ncalls]

/-- A `read` that finds a medium, no bus reset and the boundary at none or
filemark goes on to the transport read. -/
theorem read_reaches_transfer (h : Host) (fuel : Nat) (m : Machine) (ulen : Nat)
    (hterm : RetriesEnd h Kind.PrepareTape fuel)
    (hmed : (h.answer Kind.GetTapeStatus (ncalls Kind.GetTapeStatus m.log)).err
      ≠ ERROR_NO_MEDIA_IN_DRIVE)
    (hbus : m.drv.lasterr ≠ ERROR_BUS_RESET)
    (he : m.cur.emark = eom_val.no_eof ∨ m.cur.emark = eom_val.eof) :
    ∃ m3, read h fuel m ulen = some (read_transfer h m3 ulen)
      ∧ ncalls Kind.ReadFile m3.log = ncalls Kind.ReadFile m.log
      ∧ ncalls Kind.GetOverlappedResult m3.log = ncalls Kind.GetOverlappedResult m.log
          + (if m.drv.dirty = dirty_state.async_write_pending then 1 else 0) := by
  simp only [ERROR_NO_MEDIA_IN_DRIVE, ERROR_BUS_RESET] at hmed hbus
  obtain ⟨m3, h3, hn⟩ := auto_lock_step_spec h fuel
    (((wait_pending h (exec h Call.GetTapeStatus m).2).set_dirty dirty_state.clean).updPart
      fun p => { p with smark := false }) hterm (by simp)
  refine ⟨m3, ?_, ?_, ?_⟩
  · rcases he with he | he <;> simp [read, Call.kind, hmed, hbus, he, h3]
  · rw [hn _ (by decide)]
    simp [wait_pending_ncalls, Call.kind]
  · rw [hn _ (by decide)]
    simp [wait_pending_ncalls_wait, Call.kind]

/-- A `read` that finds the boundary at filemark-hit. -/
theorem read_of_eof_hit (h : Host) (fuel : Nat) (m : Machine) (ulen : Nat)
    (hmed : (h.answer Kind.GetTapeStatus (ncalls Kind.GetTapeStatus m.log)).err
      ≠ ERROR_NO_MEDIA_IN_DRIVE)
    (hbus : m.drv.lasterr ≠ ERROR_BUS_RESET) (he : m.cur.emark = eom_val.eof_hit) :
    read h fuel m ulen
      = some (0, 0, (((wait_pending h (exec h Call.GetTapeStatus m).2).set_dirty
          dirty_state.clean).updPart fun p => { p with emark := eom_val.eof }).set_lasterr 0) := by
  simp only [ERROR_NO_MEDIA_IN_DRIVE, ERROR_BUS_RESET] at hmed hbus
  simp [read, Call.kind, hmed, hbus, he]

/-- C1: from a drive with a medium present, no recorded bus reset and the
active partition's boundary at none, on a transport whose lock retries end: if
the transport read of call N transfers `n > 0` bytes and reports a filemark,
then call N returns `n` bytes with success and leaves the boundary at
filemark-hit; call N+1 returns 0 bytes with success, issues no `ReadFile` and
leaves the boundary at filemark; call N+2 issues a `ReadFile`. -/
theorem read_across_filemark (h : Host) (fuel : Nat) (m : Machine) (ulen1 ulen2 ulen3 n : Nat)
    (hterm : RetriesEnd h Kind.PrepareTape fuel)
    (hmed : ∀ j, (h.answer Kind.GetTapeStatus j).err ≠ ERROR_NO_MEDIA_IN_DRIVE)
    (hbus : m.drv.lasterr ≠ ERROR_BUS_RESET)
    (hnone : m.cur.emark = eom_val.no_eof)
    (hn : 0 < n)
    (hread : next_read h m = (ERROR_FILEMARK_DETECTED, n)) :
    ∃ m1 m2 r3 n3 m3,
      read h fuel m ulen1 = some (0, n, m1) ∧ m1.cur.emark = eom_val.eof_hit
      ∧ read h fuel m1 ulen2 = some (0, 0, m2)
      ∧ ncalls Kind.ReadFile m2.log = ncalls Kind.ReadFile m1.log
      ∧ m2.cur.emark = eom_val.eof
      ∧ read h fuel m2 ulen3 = some (r3, n3, m3)
      ∧ ncalls Kind.ReadFile m3.log = ncalls Kind.ReadFile m2.log + 1 := by
  obtain ⟨ma, ha, hrf, hgo⟩ := read_reaches_transfer h fuel m ulen1 hterm (hmed _) hbus
    (Or.inl hnone)
  obtain ⟨m1, ht1, hl1, he1, hd1, _⟩ := read_transfer_filemark h ma ulen1 n hn
    (by rw [hrf, hgo]; exact hread)
  have hb1 : m1.drv.lasterr ≠ ERROR_BUS_RESET := by rw [hl1]; decide
  have h2 := read_of_eof_hit h fuel m1 ulen2 (hmed _) hb1 he1
  obtain ⟨mb, hb, hrf2, _⟩ := read_reaches_transfer h fuel
    ((((wait_pending h (exec h Call.GetTapeStatus m1).2).set_dirty
      dirty_state.clean).updPart fun p => { p with emark := eom_val.eof }).set_lasterr 0)
    ulen3 hterm (hmed _) (by simp) (Or.inr (by simp))
  refine ⟨m1, _, (read_transfer h mb ulen3).1, (read_transfer h mb ulen3).2.1,
    (read_transfer h mb ulen3).2.2, ?_, he1, h2, ?_, ?_, hb, ?_⟩
  · rw [ha, ht1]
  · simp [wait_pending_ncalls, Call.kind]
  · simp
  · rw [read_transfer_ncalls, hrf2]

/-- C1 at a concrete transport: the first `ReadFile` transfers 512 bytes and
reports a filemark. -/
theorem read_across_filemark_witness :
    ∃ m1 m2 r3 n3 m3,
      read host_filemark 1 machine0 1024 = some (0, 512, m1) ∧ m1.cur.emark = eom_val.eof_hit
      ∧ read host_filemark 1 m1 1024 = some (0, 0, m2)
      ∧ ncalls Kind.ReadFile m2.log = ncalls Kind.ReadFile m1.log
      ∧ m2.cur.emark = eom_val.eof
      ∧ read host_filemark 1 m2 1024 = some (r3, n3, m3)
      ∧ ncalls Kind.ReadFile m3.log = ncalls Kind.ReadFile m2.log + 1 :=
  read_across_filemark host_filemark 1 machine0 1024 1024 1024 512
    (fun _ => ⟨0, Nat.zero_lt_one, (by decide : resp0.err ≠ ERROR_MEDIA_CHANGED)⟩)
    (fun j => by simp [host_filemark, resp0])
    (by decide) (by decide) (by decide) (by decide)

end mtinfo_drive

namespace mtinfo_drive

/-- The position query returns; it issues only `GetTapePosition` calls. -/
theorem get_pos_spec (h : Host) (fuel : Nat) (m : Machine)
    (hterm : RetriesEnd h Kind.GetTapePosition fuel) :
    ∃ ret m', get_pos h fuel m = some (ret, m') ∧ ret = m'.drv.lasterr
      ∧ ret ≠ ERROR_MEDIA_CHANGED
      ∧ (∀ p : Call → Bool, (∀ t, p (Call.GetTapePosition t) = false) →
          issued p m'.log = issued p m.log)
      ∧ m'.drv.two_fm = m.drv.two_fm := by
  obtain ⟨r1, m1, h1, hne1, hl1⟩ := TAPE_FUNC_ok h
    (fun _ => Call.GetTapePosition TAPE_LOGICAL_POSITION) (fun d => d.partition)
    Kind.GetTapePosition (fun _ => rfl) fuel m hterm
  obtain ⟨_, _, hi1, _, ht1⟩ := TAPE_FUNC_frame h _ _ fuel m _ h1
  obtain ⟨r2, m2, h2, hne2, hl2⟩ := TAPE_FUNC_ok h
    (fun _ => Call.GetTapePosition TAPE_ABSOLUTE_POSITION) (fun d => d.partition)
    Kind.GetTapePosition (fun _ => rfl) fuel m1 hterm
  obtain ⟨_, _, hi2, _, ht2⟩ := TAPE_FUNC_frame h _ _ fuel m1 _ h2
  have e1 : ∀ p : Call → Bool, (∀ t, p (Call.GetTapePosition t) = false) →
      issued p m1.log = issued p m.log := by
    intro p hp
    have := hi1 p; rw [hp] at this; simpa using this
  have e2 : ∀ p : Call → Bool, (∀ t, p (Call.GetTapePosition t) = false) →
      issued p m2.log = issued p m.log := by
    intro p hp
    have := hi2 p; rw [hp] at this; simp at this; rw [this]; exact e1 p hp
  have hn1 : m1.drv.lasterr ≠ ERROR_MEDIA_CHANGED := by rw [hl1]; exact hne1
  have hn2 : m2.drv.lasterr ≠ ERROR_MEDIA_CHANGED := by rw [hl2]; exact hne2
  simp only [] at ht1 ht2
  unfold get_pos
  rw [h1]
  simp only [Option.some_bind]
  by_cases hif : m1.drv.lasterr = ERROR_INVALID_FUNCTION
  · rw [if_pos hif, h2]
    simp only [Option.some_bind]
    split_ifs
    · exact ⟨_, _, rfl, rfl, hn2, e2, by simp [ht2, ht1]⟩
    · exact ⟨_, _, rfl, rfl, hn2, e2, by simp [ht2, ht1]⟩
    · exact ⟨_, _, rfl, rfl, hn2, e2, by simp [ht2, ht1]⟩
  · rw [if_neg hif]
    simp only [Option.some_bind]
    split_ifs
    · exact ⟨_, _, rfl, rfl, hn1, e1, by simp [ht1]⟩
    · exact ⟨_, _, rfl, rfl, hn1, e1, by simp [ht1]⟩
    · exact ⟨_, _, rfl, rfl, hn1, e1, by simp [ht1]⟩

/-- The query-and-reinitialise pair returns; it issues only `GetTapePosition`
calls. -/
theorem requery_spec (h : Host) (fuel : Nat) (m : Machine)
    (hterm : RetriesEnd h Kind.GetTapePosition fuel) :
    ∃ m', requery h fuel m = some m' ∧ m'.drv.lasterr ≠ ERROR_MEDIA_CHANGED
      ∧ (∀ p : Call → Bool, (∀ t, p (Call.GetTapePosition t) = false) →
          issued p m'.log = issued p m.log)
      ∧ m'.drv.two_fm = m.drv.two_fm := by
  obtain ⟨ret, m1, h1, hl, hne, hi, ht⟩ := get_pos_spec h fuel m hterm
  refine ⟨m1.updPart fun _ => mtinfo_part.init m1.drv.block,
    by simp only [requery, h1, Option.map_some'], ?_, ?_, ?_⟩
  · rw [updPart_lasterr, ← hl]; exact hne
  · intro p hp; simpa using hi p hp
  · simpa using ht

/-- The reconciliation after a failed call returns with `lasterr` restored; it
issues only `GetTapePosition` calls. -/
theorem reconcile_spec (h : Host) (fuel : Nat) (m : Machine) (err : Nat)
    (hterm : RetriesEnd h Kind.GetTapePosition fuel) :
    ∃ m', reconcile h fuel m err = some m' ∧ m'.drv.lasterr = err
      ∧ (∀ p : Call → Bool, (∀ t, p (Call.GetTapePosition t) = false) →
          issued p m'.log = issued p m.log)
      ∧ m'.drv.two_fm = m.drv.two_fm := by
  obtain ⟨ret, m1, h1, hl, hne, hi, ht⟩ := get_pos_spec h fuel m hterm
  simp only [reconcile, h1, Option.map_some']
  refine ⟨_, rfl, rfl, ?_, ?_⟩
  · intro p hp
    rw [set_lasterr_log]; split_ifs <;> simpa using hi p hp
  · rw [set_lasterr_two_fm]; split_ifs <;> simpa using ht

/-- The mark write returns with the status of its `WriteTapemark`, which is the
one call of that primitive it issues (for `count` marks of the requested type
or of the filemark variant the drive supports); `two_fm` is not touched. -/
theorem write_marks_spec (h : Host) (fuel : Nat) (m : Machine) (marktype : Int) (count : Nat)
    (hterm : AllRetriesEnd h fuel) :
    ∃ ret m' ty, write_marks h fuel m marktype count = some (ret, m')
      ∧ ret = m'.drv.lasterr ∧ ret ≠ ERROR_MEDIA_CHANGED
      ∧ (ty = marktype ∨ (marktype = TAPE_FILEMARKS
          ∧ (ty = TAPE_LONG_FILEMARKS ∨ ty = TAPE_SHORT_FILEMARKS)))
      ∧ (∀ p : Call → Bool, (∀ t, p (Call.GetTapePosition t) = false) →
          p Call.GetOverlappedResult = false →
          issued p m'.log
            = (if p (Call.WriteTapemark ty count) = true then
                [(Call.WriteTapemark ty count, ret)] else []) ++ issued p m.log)
      ∧ m'.drv.two_fm = m.drv.two_fm := by
  -- the machine and the mark type at the transport call
  obtain ⟨m2, hm2, hi2, ht2⟩ : ∃ m2 : Machine,
      m2 = (if marktype ≠ TAPE_SETMARKS then
              (if m.drv.dirty = dirty_state.async_write_pending then
                (wait_pending h m).set_dirty dirty_state.has_written else m).set_dirty
                  dirty_state.clean
            else (if m.drv.dirty = dirty_state.async_write_pending then
                (wait_pending h m).set_dirty dirty_state.has_written else m))
        ∧ (∀ p : Call → Bool, p Call.GetOverlappedResult = false →
            issued p m2.log = issued p m.log)
        ∧ m2.drv.two_fm = m.drv.two_fm := by
    refine ⟨_, rfl, ?_, ?_⟩
    · intro p hw
      split_ifs <;> simp [wait_pending_issued h m p hw]
    · split_ifs <;> simp
  obtain ⟨ty, hty, htyc⟩ : ∃ ty : Int,
      ty = (if marktype = TAPE_FILEMARKS
              ∧ h.get_feature m2.drv._dp TAPE_DRIVE_WRITE_FILEMARKS = false then
            if h.get_feature m2.drv._dp TAPE_DRIVE_WRITE_LONG_FMKS = true then TAPE_LONG_FILEMARKS
            else TAPE_SHORT_FILEMARKS
          else marktype)
        ∧ (ty = marktype ∨ (marktype = TAPE_FILEMARKS
          ∧ (ty = TAPE_LONG_FILEMARKS ∨ ty = TAPE_SHORT_FILEMARKS))) := by
    refine ⟨_, rfl, ?_⟩
    split_ifs with c1 c2
    · exact Or.inr ⟨c1.1, Or.inl rfl⟩
    · exact Or.inr ⟨c1.1, Or.inr rfl⟩
    · exact Or.inl rfl
  obtain ⟨r, m3, h3, hne, hl⟩ := TAPE_FUNC_ok h (fun _ => Call.WriteTapemark ty count)
    (fun d => d.partition) Kind.WriteTapemark (fun _ => rfl) fuel m2 (hterm _)
  obtain ⟨_, _, hi3, _, ht3⟩ := TAPE_FUNC_frame h _ _ fuel m2 _ h3
  have hne3 : m3.drv.lasterr ≠ ERROR_MEDIA_CHANGED := by rw [hl]; exact hne
  have hi3' : ∀ p : Call → Bool, p Call.GetOverlappedResult = false →
      issued p m3.log = (if p (Call.WriteTapemark ty count) = true then
        [(Call.WriteTapemark ty count, m3.drv.lasterr)] else []) ++ issued p m.log := by
    intro p hw
    have := hi3 p
    simp only [] at this
    rw [← hl, hi2 p hw] at this
    exact this
  simp only [] at ht3
  have hunf : write_marks h fuel m marktype count
      = (if m3.drv.lasterr = 0 then
          some ((({ m3 with drv := { m3.drv with
                      block := toLong (toDWORD m3.drv.block + count) } } : Machine).updPart
                fun p => { p with block := toLong (toDWORD p.block + count),
                                  file := if p.file ≥ 0 then toLong (toDWORD p.file + count)
                                          else p.file,
                                  fblock := 0, emark := eom_val.eof,
                                  smark := decide (ty = TAPE_SETMARKS) }).drv.lasterr,
                (({ m3 with drv := { m3.drv with
                      block := toLong (toDWORD m3.drv.block + count) } } : Machine).updPart
                fun p => { p with block := toLong (toDWORD p.block + count),
                                  file := if p.file ≥ 0 then toLong (toDWORD p.file + count)
                                          else p.file,
                                  fblock := 0, emark := eom_val.eof,
                                  smark := decide (ty = TAPE_SETMARKS) }))
        else (reconcile h fuel m3 m3.drv.lasterr).map fun m4 => (m4.drv.lasterr, m4)) := by
    unfold write_marks
    simp only []
    rw [← hm2, ← hty, h3]
    rfl
  rw [hunf]
  by_cases h0 : m3.drv.lasterr = 0
  · rw [if_pos h0]
    refine ⟨_, _, ty, rfl, rfl, ?_, htyc, ?_, ?_⟩
    · simpa using hne3
    · intro p _ hw; simpa using hi3' p hw
    · simp [ht3, ht2]
  · rw [if_neg h0]
    obtain ⟨m4, h4, hl4, hi4, ht4⟩ := reconcile_spec h fuel m3 m3.drv.lasterr (hterm _)
    rw [h4]
    refine ⟨_, _, ty, rfl, rfl, ?_, htyc, ?_, ?_⟩
    · rw [hl4]; exact hne3
    · intro p hp hw
      rw [hi4 p hp, hl4]; exact hi3' p hw
    · rw [ht4, ht3, ht2]

end mtinfo_drive

namespace mtinfo_drive

@[simp] theorem reset_to_bot_log (m : Machine) : (reset_to_bot m).log = m.log := rfl

theorem post_rewind_spec (h : Host) (fuel : Nat) (m : Machine) (err : Nat) (p : Call → Bool)
    (hp : ∀ t, p (Call.GetTapePosition t) = false)
    (hterm : RetriesEnd h Kind.GetTapePosition fuel) :
    ∃ b, post_rewind h fuel m err = some b ∧ b.1 = err
      ∧ issued p b.2.log = issued p m.log := by
  obtain ⟨m2, h2, _, hi2, _⟩ := requery_spec h fuel m hterm
  have hi2 := hi2 p hp
  unfold post_rewind
  split_ifs
  · exact ⟨_, rfl, rfl, rfl⟩
  · rw [h2]; exact ⟨_, rfl, rfl, hi2⟩

theorem post_end_of_data_spec (h : Host) (fuel : Nat) (m : Machine) (err : Nat)
    (p : Call → Bool) (hp : ∀ t, p (Call.GetTapePosition t) = false)
    (hterm : RetriesEnd h Kind.GetTapePosition fuel) :
    ∃ b, post_end_of_data h fuel m err = some b ∧ b.1 = err
      ∧ issued p b.2.log = issued p m.log := by
  obtain ⟨m2, h2, _, hi2, _⟩ := requery_spec h fuel m hterm
  have hi2 := hi2 p hp
  unfold post_end_of_data
  rw [h2]; exact ⟨_, rfl, rfl, hi2⟩

theorem post_filemarks_spec (again : Machine → Int → Option (Nat × Machine)) (h : Host)
    (fuel : Nat) (m : Machine) (count : Int) (sfm_func : Bool) (err : Nat) (undone : Int)
    (p : Call → Bool) (hp : ∀ t, p (Call.GetTapePosition t) = false)
    (hterm : RetriesEnd h Kind.GetTapePosition fuel)
    (hagain : sfm_func = true → ∀ m1 c, ∃ ret m', again m1 c = some (ret, m')
      ∧ ret ≠ ERROR_MEDIA_CHANGED ∧ issued p m'.log = issued p m1.log)
    (herr : err ≠ ERROR_MEDIA_CHANGED) :
    ∃ b, post_filemarks again h fuel m count sfm_func err undone = some b
      ∧ b.1 ≠ ERROR_MEDIA_CHANGED ∧ issued p b.2.log = issued p m.log
      ∧ (sfm_func = false → b.1 = err) := by
  obtain ⟨ret, m1, h1, _, _, hi1, _⟩ := get_pos_spec h fuel m hterm
  have hi1 := hi1 p hp
  obtain ⟨m2, h2, _, hi2, _⟩ := requery_spec h fuel m hterm
  have hi2 := hi2 p hp
  unfold post_filemarks
  by_cases c1 : err = 0 ∨ IS_SM err = true
  · rw [if_pos c1, h1]
    simp only [Option.some_bind]
    cases hs : sfm_func
    · simp only [Bool.false_eq_true, if_false]
      exact ⟨_, rfl, herr, by split_ifs <;> simpa using hi1, fun _ => rfl⟩
    · simp only [if_true]
      obtain ⟨r3, m3, h3, hne3, hi3⟩ := hagain hs
        (if count > 0 then
          (m1.updPart fun p => { p with block := m1.drv.block }).updPart fun p =>
            { p with file := add_file p (count - undone), fblock := 0, smark := IS_SM err }
        else
          (m1.updPart fun p => { p with block := m1.drv.block }).updPart fun p =>
            { p with file := add_file p (count - undone), fblock := -1, smark := false })
        (if count > 0 then -1 else 1)
      refine ⟨_, h3, hne3, ?_, fun hf => by simp at hf⟩
      rw [hi3]; split_ifs <;> simpa using hi1
  · rw [if_neg c1]
    by_cases c2 : IS_EOD err = true
    · rw [if_pos c2, h1]; exact ⟨_, rfl, herr, by simpa using hi1, fun _ => rfl⟩
    · rw [if_neg c2]
      by_cases c3 : IS_BOT err = true
      · rw [if_pos c3]; exact ⟨_, rfl, herr, rfl, fun _ => rfl⟩
      · rw [if_neg c3, h2]; exact ⟨_, rfl, herr, hi2, fun _ => rfl⟩

theorem post_relative_blocks_spec (h : Host) (fuel : Nat) (m : Machine) (count : Int)
    (err : Nat) (p : Call → Bool) (hp : ∀ t, p (Call.GetTapePosition t) = false)
    (hterm : RetriesEnd h Kind.GetTapePosition fuel) :
    ∃ b, post_relative_blocks h fuel m count err = some b ∧ b.1 = err
      ∧ issued p b.2.log = issued p m.log := by
  obtain ⟨ret, m1, h1, _, _, hi1, _⟩ := get_pos_spec h fuel m hterm
  have hi1 := hi1 p hp
  unfold post_relative_blocks
  by_cases c1 : err = 0
  · rw [if_pos c1]; exact ⟨_, rfl, rfl, rfl⟩
  · rw [if_neg c1]
    by_cases c2 : IS_EOF err = true
    · rw [if_pos c2, h1]; exact ⟨_, rfl, rfl, by simpa using hi1⟩
    · rw [if_neg c2]
      by_cases c3 : IS_EOD err = true
      · rw [if_pos c3, h1]; exact ⟨_, rfl, rfl, by simpa using hi1⟩
      · rw [if_neg c3]
        by_cases c4 : IS_BOT err = true
        · rw [if_pos c4]; exact ⟨_, rfl, rfl, rfl⟩
        · rw [if_neg c4]; exact ⟨_, rfl, rfl, rfl⟩

theorem post_setmarks_spec (h : Host) (fuel : Nat) (m : Machine) (err : Nat) (p : Call → Bool)
    (hp : ∀ t, p (Call.GetTapePosition t) = false)
    (hterm : RetriesEnd h Kind.GetTapePosition fuel) :
    ∃ b, post_setmarks h fuel m err = some b ∧ b.1 = err
      ∧ issued p b.2.log = issued p m.log := by
  obtain ⟨ret, m1, h1, _, _, hi1, _⟩ := get_pos_spec h fuel m hterm
  have hi1 := hi1 p hp
  unfold post_setmarks
  rw [h1]
  refine ⟨_, rfl, rfl, ?_⟩
  simp only [Option.map_some']
  split_ifs <;> simpa using hi1

/-- The bookkeeping switch of `set_pos` returns; outside the re-step it hands
back the status it was given and issues only `GetTapePosition` calls. -/
theorem set_pos_post_spec (again : Machine → Int → Option (Nat × Machine)) (h : Host)
    (fuel : Nat) (m : Machine) (mode count : Int) (sfm_func : Bool) (err : Nat) (undone : Int)
    (p : Call → Bool) (hp : ∀ t, p (Call.GetTapePosition t) = false)
    (hterm : RetriesEnd h Kind.GetTapePosition fuel)
    (hagain : sfm_func = true → ∀ m1 c, ∃ ret m', again m1 c = some (ret, m')
      ∧ ret ≠ ERROR_MEDIA_CHANGED ∧ issued p m'.log = issued p m1.log)
    (herr : err ≠ ERROR_MEDIA_CHANGED) :
    ∃ b, set_pos_post again h fuel m mode count sfm_func err undone = some b
      ∧ b.1 ≠ ERROR_MEDIA_CHANGED ∧ issued p b.2.log = issued p m.log
      ∧ (sfm_func = false → b.1 = err) := by
  obtain ⟨m2, h2, _, hi2, _⟩ := requery_spec h fuel m hterm
  have hi2 := hi2 p hp
  unfold set_pos_post
  split_ifs
  · rw [h2]; exact ⟨_, rfl, herr, hi2, fun _ => rfl⟩
  · obtain ⟨b, hb, he, hi⟩ := post_rewind_spec h fuel m err p hp hterm
    exact ⟨b, hb, by rw [he]; exact herr, hi, fun _ => he⟩
  · obtain ⟨b, hb, he, hi⟩ := post_end_of_data_spec h fuel m err p hp hterm
    exact ⟨b, hb, by rw [he]; exact herr, hi, fun _ => he⟩
  · exact post_filemarks_spec again h fuel m count sfm_func err undone p hp hterm hagain herr
  · obtain ⟨b, hb, he, hi⟩ := post_relative_blocks_spec h fuel m count err p hp hterm
    exact ⟨b, hb, by rw [he]; exact herr, hi, fun _ => he⟩
  · obtain ⟨b, hb, he, hi⟩ := post_setmarks_spec h fuel m err p hp hterm
    exact ⟨b, hb, by rw [he]; exact herr, hi, fun _ => he⟩
  · exact ⟨_, rfl, herr, rfl, fun _ => rfl⟩

/-- The stepping loop issues only `SetTapePosition` calls and waits. -/
theorem mark_loop_frame (h : Host) (fuel : Nat) (dir : Int) (p : Call → Bool)
    (hw : p Call.GetOverlappedResult = false)
    (hs : ∀ a b c d, p (Call.SetTapePosition a b c d) = false) :
    ∀ (n : Nat) (m : Machine) (x : Nat × Nat × Machine),
      mark_loop h fuel dir n m = some x → issued p x.2.2.log = issued p m.log := by
  intro n
  induction n with
  | zero => intro m x hx; simp [mark_loop] at hx; rw [← hx]
  | succ n ih =>
    intro m x hx
    simp only [mark_loop, Option.bind_eq_some] at hx
    obtain ⟨y, hy, hx⟩ := hx
    obtain ⟨_, _, hi, _⟩ := _set_pos_frame h fuel m _ _ _ _ y hy
    have hiy : issued p y.2.log = issued p m.log := by
      have := hi p hw; rw [hs] at this; simpa using this
    by_cases h0 : y.1 = 0
    · rw [if_pos h0] at hx
      rw [ih y.2 x hx, hiy]
    · rw [if_neg h0] at hx
      simp only [Option.some.injEq] at hx
      rw [← hx]; exact hiy

/-- The two stepping loops of `set_pos` return with a status other than "medium
changed"; they issue only `SetTapePosition` calls and waits. -/
theorem set_pos_marks_spec (h : Host) (fuel : Nat) (m : Machine) (count : Int) (p : Call → Bool)
    (hw : p Call.GetOverlappedResult = false)
    (hs : ∀ a b c d, p (Call.SetTapePosition a b c d) = false)
    (hterm : RetriesEnd h Kind.SetTapePosition fuel) :
    ∃ a, set_pos_marks h fuel m count = some a ∧ a.1 ≠ ERROR_MEDIA_CHANGED
      ∧ issued p a.2.2.log = issued p m.log := by
  unfold set_pos_marks
  by_cases hpos : 0 < count
  · obtain ⟨err, u, m', hm, _, _, _, hne⟩ :=
      mark_loop_spec h fuel 1 (Or.inl rfl) hterm count.toNat m
    have hf := mark_loop_frame h fuel 1 p hw hs _ _ _ hm
    rw [if_pos hpos, hm]
    simp only [Option.map_some', Option.some_bind]
    rw [if_neg (by omega)]
    exact ⟨_, rfl, hne, hf⟩
  · rw [if_neg hpos]
    simp only [Option.some_bind]
    by_cases hneg : count < 0
    · obtain ⟨err, u, m', hm, _, _, _, hne⟩ :=
        mark_loop_spec h fuel (-1) (Or.inr rfl) hterm (-count).toNat m
      have hf := mark_loop_frame h fuel (-1) p hw hs _ _ _ hm
      rw [if_pos ⟨trivial, hneg⟩, hm]
      exact ⟨_, rfl, hne, hf⟩
    · rw [if_neg (fun hh => hneg hh.2)]
      exact ⟨(0, count, m), rfl, by simp, rfl⟩

/-- The body of `set_pos` returns with `lasterr` set to a status other than
"medium changed"; it issues only positioning calls, position queries and
waits. -/
theorem set_pos_body_spec (again : Machine → Int → Option (Nat × Machine)) (h : Host)
    (fuel : Nat) (m : Machine) (mode count : Int) (sfm_func : Bool) (p : Call → Bool)
    (hp : ∀ t, p (Call.GetTapePosition t) = false)
    (hw : p Call.GetOverlappedResult = false)
    (hs : ∀ a b c d, p (Call.SetTapePosition a b c d) = false)
    (hterm : AllRetriesEnd h fuel)
    (hagain : sfm_func = true → ∀ m1 c, ∃ ret m', again m1 c = some (ret, m')
      ∧ ret ≠ ERROR_MEDIA_CHANGED ∧ issued p m'.log = issued p m1.log) :
    ∃ ret m', set_pos_body again h fuel m mode count sfm_func = some (ret, m')
      ∧ ret = m'.drv.lasterr ∧ ret ≠ ERROR_MEDIA_CHANGED
      ∧ issued p m'.log = issued p m.log := by
  unfold set_pos_body
  by_cases c0 : (mode = TAPE_SPACE_RELATIVE_BLOCKS ∨ mode = TAPE_SPACE_FILEMARKS
        ∨ mode = TAPE_SPACE_SETMARKS) ∧ count = 0
  · rw [if_pos c0]; exact ⟨_, _, rfl, rfl, by decide, rfl⟩
  rw [if_neg c0]
  simp only []
  by_cases c1 : mode = TAPE_SPACE_FILEMARKS
  · rw [if_pos c1]
    obtain ⟨a, ha, hne, hi⟩ := set_pos_marks_spec h fuel m count p hw hs (hterm _)
    obtain ⟨b, hb, hbne, hbi, _⟩ := set_pos_post_spec again h fuel a.2.2 mode count sfm_func
      a.1 a.2.1 p hp (hterm _) hagain hne
    simp only [ha, Option.some_bind, hb, Option.map_some']
    exact ⟨_, _, rfl, rfl, hbne, by rw [set_lasterr_log, hbi, hi]⟩
  · rw [if_neg c1]
    obtain ⟨ret, m1, h1, _, hne⟩ := _set_pos_ok h fuel m mode count 0
      (if mode = TAPE_ABSOLUTE_BLOCK ∨ mode = TAPE_LOGICAL_BLOCK ∨ mode = TAPE_REWIND then
        m.drv.nowait else false) (hterm _)
    obtain ⟨_, _, hi, _⟩ := _set_pos_frame h fuel m _ _ _ _ _ h1
    have hi1 : issued p m1.log = issued p m.log := by
      have := hi p hw; rw [hs] at this; simpa using this
    obtain ⟨b, hb, hbne, hbi, _⟩ := set_pos_post_spec again h fuel m1 mode count sfm_func
      ret count p hp (hterm _) hagain hne
    simp only [h1, Option.map_some', Option.some_bind, hb]
    exact ⟨_, _, rfl, rfl, hbne, by rw [set_lasterr_log, hbi, hi1]⟩

/-- The positioning operation returns with `lasterr` set to a status other than
"medium changed"; it issues only positioning calls, position queries and
waits. -/
theorem set_pos_spec (h : Host) (fuel : Nat) (m : Machine) (mode count : Int)
    (sfm_func : Bool) (p : Call → Bool)
    (hp : ∀ t, p (Call.GetTapePosition t) = false)
    (hw : p Call.GetOverlappedResult = false)
    (hs : ∀ a b c d, p (Call.SetTapePosition a b c d) = false)
    (hterm : AllRetriesEnd h fuel) :
    ∃ ret m', set_pos h fuel m mode count sfm_func = some (ret, m')
      ∧ ret = m'.drv.lasterr ∧ ret ≠ ERROR_MEDIA_CHANGED
      ∧ issued p m'.log = issued p m.log := by
  unfold set_pos
  apply set_pos_body_spec _ h fuel m mode count sfm_func p hp hw hs hterm
  intro _ m1 c
  obtain ⟨ret, m', h1, _, hne, hi⟩ := set_pos_body_spec (fun _ _ => none) h fuel m1 mode c
    false p hp hw hs hterm (fun hf => by simp at hf)
  exact ⟨ret, m', h1, hne, hi⟩

end mtinfo_drive

namespace mtinfo_drive

/-- A retry loop expanded where `partition` is the member keeps the intra-file
offset of the active partition at 0: the loop body re-initialises exactly the
partition that is active afterwards. -/
theorem TAPE_FUNC_fblock (h : Host) (func : mtinfo_drive → Call) (fuel : Nat) (m : Machine)
    (x : Resp × Machine)
    (hx : TAPE_FUNC h func (fun d => d.partition) fuel m = some x)
    (h0 : m.cur.fblock = 0) : x.2.cur.fblock = 0 := by
  refine TAPE_FUNC_rule h func (fun d => d.partition) (fun m1 => m1.cur.fblock = 0)
    (fun x => x.2.cur.fblock = 0) ?_ ?_ fuel m x h0 hx
  · intro m1 _ _
    simp [cycle, Machine.cur, mtinfo_drive.setPart, mtinfo_drive.part, mtinfo_drive.init,
      mtinfo_part.init]
  · intro m1 h1 _
    simpa [attempt] using h1

/-- Locking and unlocking return; they issue only `PrepareTape` calls and
waits, and keep the intra-file offset of the active partition at 0. -/
theorem prepare_lock_spec (h : Host) (fuel : Nat) (m : Machine) (action : Int) (is_auto : Bool)
    (ha : action = TAPE_LOCK ∨ action = TAPE_UNLOCK)
    (hterm : RetriesEnd h Kind.PrepareTape fuel) :
    ∃ ret m', prepare h fuel m action is_auto = some (ret, m')
      ∧ (∀ p : Call → Bool, p Call.GetOverlappedResult = false →
          (∀ a w, p (Call.PrepareTape a w) = false) → issued p m'.log = issued p m.log)
      ∧ (m.cur.fblock = 0 → m'.cur.fblock = 0) := by
  obtain ⟨r, m1, hr, hne, hl⟩ :=
    TAPE_FUNC_ok h (fun _ => Call.PrepareTape action
        (if action = TAPE_UNLOAD ∨ action = TAPE_LOAD ∨ action = TAPE_TENSION then
          ((wait_pending h m).set_dirty dirty_state.clean).drv.nowait else false))
      (fun d => d.partition) Kind.PrepareTape (fun _ => rfl) fuel
      ((wait_pending h m).set_dirty dirty_state.clean) hterm
  obtain ⟨_, _, hi, _, _⟩ := TAPE_FUNC_frame h _ _ fuel _ _ hr
  have hf := TAPE_FUNC_fblock h _ fuel _ _ hr
  simp only [set_dirty_cur, wait_pending_cur] at hf
  simp only [prepare, hr, Option.map_some']
  refine ⟨_, _, rfl, ?_, ?_⟩
  · intro p hw hq
    have := hi p
    rw [hq] at this
    simp only [Bool.false_eq_true, if_false, List.nil_append, set_dirty_log] at this
    rw [wait_pending_issued h m p hw] at this
    rcases ha with rfl | rfl <;> simpa using this
  · intro h0
    have := hf h0
    rcases ha with rfl | rfl <;> simpa [Machine.cur, mtinfo_drive.part] using this

/-- The backward step over one filemark returns with the status of its single
`SetTapePosition`, the only positioning call it issues. -/
theorem set_pos_back_spec (h : Host) (fuel : Nat) (m : Machine)
    (hterm : AllRetriesEnd h fuel) :
    ∃ ret m', set_pos h fuel m TAPE_SPACE_FILEMARKS (-1) false = some (ret, m')
      ∧ ret = m'.drv.lasterr ∧ ret ≠ ERROR_MEDIA_CHANGED
      ∧ (∀ p : Call → Bool, p Call.GetOverlappedResult = false →
          (∀ t, p (Call.GetTapePosition t) = false) →
          issued p m'.log
            = (if p (Call.SetTapePosition TAPE_SPACE_FILEMARKS 0 (-1) false) = true then
                [(Call.SetTapePosition TAPE_SPACE_FILEMARKS 0 (-1) false, ret)] else [])
              ++ issued p m.log) := by
  obtain ⟨r1, m1, h1, _, hne1⟩ :=
    _set_pos_ok h fuel m TAPE_SPACE_FILEMARKS (-1) 0 false (hterm _)
  obtain ⟨_, _, hi1, _⟩ := _set_pos_frame h fuel m _ _ _ _ _ h1
  obtain ⟨u, hu⟩ : ∃ u : Int, set_pos_marks h fuel m (-1) = some (r1, u, m1) := by
    have e : ((-(-1 : Int)).toNat) = 0 + 1 := by decide
    refine ⟨if r1 = 0 then 0 else -(((if IS_SM r1 = true then 0 else 1 : Nat)) : Int), ?_⟩
    unfold set_pos_marks
    rw [if_neg (by decide)]
    simp only [Option.some_bind]
    rw [if_pos ⟨trivial, by decide⟩, e]
    simp only [mark_loop, h1, Option.some_bind]
    by_cases h0 : r1 = 0
    · simp [h0]
    · simp [h0]
  obtain ⟨b, hb, _, _, hbe⟩ := set_pos_post_spec (fun m1 c => set_pos_plain h fuel m1
      TAPE_SPACE_FILEMARKS c) h fuel m1 TAPE_SPACE_FILEMARKS (-1) false r1 u (fun _ => false)
    (fun _ => rfl) (hterm _) (fun hf => by simp at hf) hne1
  have hbe := hbe rfl
  have hsp : set_pos h fuel m TAPE_SPACE_FILEMARKS (-1) false
      = some (b.1, b.2.set_lasterr b.1) := by
    unfold set_pos set_pos_body
    rw [if_neg (by decide)]
    simp only [if_true, hu, Option.some_bind, hb, Option.map_some']
  refine ⟨b.1, b.2.set_lasterr b.1, hsp, rfl, by rw [hbe]; exact hne1, ?_⟩
  intro p hw hp
  obtain ⟨b', hb', _, hbi, _⟩ := set_pos_post_spec (fun m1 c => set_pos_plain h fuel m1
      TAPE_SPACE_FILEMARKS c) h fuel m1 TAPE_SPACE_FILEMARKS (-1) false r1 u p
    hp (hterm _) (fun hf => by simp at hf) hne1
  have hbb : b' = b := Option.some.inj (hb'.symm.trans hb)
  rw [hbb] at hbi
  rw [set_lasterr_log, hbi, hbe, hi1 p hw]

end mtinfo_drive

namespace mtinfo_drive

/-- The end of `close` without rewind returns; it issues only `PrepareTape`
calls and waits and keeps the intra-file offset of the active partition at 0. -/
theorem close_finish_spec (h : Host) (fuel : Nat) (m3 : Machine)
    (hterm : RetriesEnd h Kind.PrepareTape fuel) :
    ∃ ret m', close_finish h fuel m3 false = some (ret, m')
      ∧ (∀ p : Call → Bool, p Call.GetOverlappedResult = false →
          (∀ a w, p (Call.PrepareTape a w) = false) → issued p m'.log = issued p m3.log)
      ∧ (m3.cur.fblock = 0 → m'.cur.fblock = 0) := by
  unfold close_finish
  simp only [Bool.false_eq_true, if_false, Option.some_bind]
  by_cases hc : m3.drv.auto_lock = true ∧ m3.drv.lock = lock_state.auto_locked
  · obtain ⟨ret, m5, h5, hi5, hf5⟩ :=
      prepare_lock_spec h fuel m3 TAPE_UNLOCK false (Or.inr rfl) hterm
    rw [if_pos hc, h5]
    exact ⟨_, _, rfl, fun p hw hq => by simpa using hi5 p hw hq, fun h0 => by simpa using hf5 h0⟩
  · rw [if_neg hc]
    exact ⟨_, _, rfl, fun _ _ _ => rfl, fun h0 => by simpa using h0⟩

/-- The flush of `close` after a write, without rewind. -/
theorem close_flush_written (h : Host) (fuel : Nat) (m1 : Machine)
    (hterm : AllRetriesEnd h fuel)
    (hd : m1.drv.dirty = dirty_state.has_written) (hl : m1.drv.lasterr = 0) :
    ∃ m3 ty s, close_flush h fuel m1 false = some m3
      ∧ (ty = TAPE_FILEMARKS ∨ ty = TAPE_LONG_FILEMARKS ∨ ty = TAPE_SHORT_FILEMARKS)
      ∧ issued is_write_mark m3.log
          = (Call.WriteTapemark ty (if m1.drv.two_fm then 2 else 1), s)
            :: issued is_write_mark m1.log
      ∧ (m1.drv.two_fm = true → s = 0 →
          ∃ s2, issued is_set_pos m3.log
              = (Call.SetTapePosition TAPE_SPACE_FILEMARKS 0 (-1) false, s2)
                :: issued is_set_pos m1.log
            ∧ (s2 = 0 → m3.cur.fblock = 0))
      ∧ (m1.drv.two_fm = false → issued is_set_pos m3.log = issued is_set_pos m1.log) := by
  have hw : wait_pending h m1 = m1 := wait_pending_clean h m1 (by rw [hd]; decide)
  obtain ⟨retw, mw, ty, hwm, hlw, _, hty, hiw, htw⟩ :=
    write_marks_spec h fuel m1 TAPE_FILEMARKS (if m1.drv.two_fm then 2 else 1) hterm
  have hty' : ty = TAPE_FILEMARKS ∨ ty = TAPE_LONG_FILEMARKS ∨ ty = TAPE_SHORT_FILEMARKS := by
    rcases hty with hty | ⟨_, hty⟩
    · exact Or.inl hty
    · exact Or.inr hty
  have hiw1 := hiw is_write_mark (fun _ => rfl) rfl
  have hiw2 := hiw is_set_pos (fun _ => rfl) rfl
  simp only [is_write_mark, is_set_pos, if_true, Bool.false_eq_true, if_false,
    List.nil_append, List.singleton_append] at hiw1 hiw2
  unfold close_flush
  rw [if_pos (by rw [hd])]
  simp only [hw, hl, if_true, hwm, Option.some_bind, Bool.false_eq_true]
  by_cases hc : mw.drv.two_fm = true ∧ mw.drv.lasterr = 0
  · rw [if_pos ⟨hc.1, hc.2, trivial⟩]
    obtain ⟨rs, ms, hs, hls, _, his⟩ := set_pos_back_spec h fuel mw hterm
    have his1 := his is_write_mark rfl (fun _ => rfl)
    have his2 := his is_set_pos rfl (fun _ => rfl)
    simp only [is_write_mark, is_set_pos, if_true, Bool.false_eq_true, if_false,
      List.nil_append, List.singleton_append] at his1 his2
    rw [hs]
    simp only [Option.map_some']
    obtain ⟨m3, hm3, hlog3, hfb3⟩ : ∃ m3 : Machine,
        m3 = (if ms.drv.lasterr = 0 then ms.updPart fun p => { p with fblock := 0 } else ms)
          ∧ m3.log = ms.log ∧ (ms.drv.lasterr = 0 → m3.cur.fblock = 0) :=
      ⟨_, rfl, by split_ifs <;> rfl, fun h0 => by rw [if_pos h0]; simp⟩
    rw [← hm3]
    refine ⟨m3, ty, retw, rfl, hty', ?_, ?_, ?_⟩
    · rw [hlog3, his1, hiw1]
    · intro _ _
      exact ⟨rs, by rw [hlog3, his2, hiw2], fun h0 => hfb3 (hls ▸ h0)⟩
    · intro hf
      rw [htw, hf] at hc
      simp at hc
  · rw [if_neg (fun hh => hc ⟨hh.1, hh.2.1⟩)]
    refine ⟨_, ty, retw, rfl, hty', hiw1, ?_, fun _ => hiw2⟩
    intro ht hs0
    exact absurd ⟨htw.trans ht, hlw ▸ hs0⟩ hc

/-- C5: from a drive with a medium present and pending-write state
has-written, on a transport whose retries end, `close` without rewind issues
exactly one `WriteTapemark` (attempts answered "medium changed", which the
retry wrapper repeats, are not counted), for one filemark when double-filemark
mode is off and for two when it is on (of type filemark, or the long/short
variant the drive supports).  In double-filemark mode, when that write
succeeds, `close` then issues exactly one positioning call, a backward step
over one filemark, and when that step succeeds the active partition is left
with fblock = 0.  Outside double-filemark mode no positioning call is issued. -/
theorem close_writes_filemarks (h : Host) (fuel : Nat) (m : Machine)
    (hterm : AllRetriesEnd h fuel)
    (hmed : (h.answer Kind.GetTapeStatus (ncalls Kind.GetTapeStatus m.log)).err
      ≠ ERROR_NO_MEDIA_IN_DRIVE)
    (hd : m.drv.dirty = dirty_state.has_written) :
    ∃ ret m' ty s, close h fuel m false = some (ret, m')
      ∧ (ty = TAPE_FILEMARKS ∨ ty = TAPE_LONG_FILEMARKS ∨ ty = TAPE_SHORT_FILEMARKS)
      ∧ issued is_write_mark m'.log
          = (Call.WriteTapemark ty (if m.drv.two_fm then 2 else 1), s)
            :: issued is_write_mark m.log
      ∧ (m.drv.two_fm = true → s = 0 →
          ∃ s2, issued is_set_pos m'.log
              = (Call.SetTapePosition TAPE_SPACE_FILEMARKS 0 (-1) false, s2)
                :: issued is_set_pos m.log
            ∧ (s2 = 0 → m'.cur.fblock = 0))
      ∧ (m.drv.two_fm = false → issued is_set_pos m'.log = issued is_set_pos m.log) := by
  simp only [ERROR_NO_MEDIA_IN_DRIVE] at hmed
  obtain ⟨m3, ty, s, h3, hty, hi3, hb3, hn3⟩ := close_flush_written h fuel
    (exec h Call.GetTapeStatus (m.set_lasterr 0)).2 hterm (by simpa using hd) (by simp)
  obtain ⟨ret, m', h', hi', hf'⟩ := close_finish_spec h fuel m3 (hterm _)
  have e1 : issued is_write_mark (exec h Call.GetTapeStatus (m.set_lasterr 0)).2.log
      = issued is_write_mark m.log := by
    rw [exec_log, issued_call_skip _ _ _ _ rfl]; rfl
  have e2 : issued is_set_pos (exec h Call.GetTapeStatus (m.set_lasterr 0)).2.log
      = issued is_set_pos m.log := by
    rw [exec_log, issued_call_skip _ _ _ _ rfl]; rfl
  have e3 : (exec h Call.GetTapeStatus (m.set_lasterr 0)).2.drv.two_fm = m.drv.two_fm := by simp
  rw [e1, e3] at hi3
  rw [e2, e3] at hb3 hn3
  refine ⟨ret, m', ty, s, ?_, hty, ?_, ?_, ?_⟩
  · unfold close
    simp only [exec_fst, Call.kind, set_lasterr_log, ERROR_NO_MEDIA_IN_DRIVE, if_neg hmed, h3,
      Option.some_bind, h']
  · rw [hi' is_write_mark rfl (fun _ _ => rfl), hi3]
  · intro ht hs
    obtain ⟨s2, hs2, hfb⟩ := hb3 ht hs
    exact ⟨s2, by rw [hi' is_set_pos rfl (fun _ _ => rfl), hs2], fun h0 => hf' (hfb h0)⟩
  · intro hf
    rw [hi' is_set_pos rfl (fun _ _ => rfl), hn3 hf]

/-- C5 at a concrete drive in double-filemark mode after a write. -/
theorem close_writes_filemarks_witness :
    ∃ ret m' ty s, close host0 1 machine_written false = some (ret, m')
      ∧ (ty = TAPE_FILEMARKS ∨ ty = TAPE_LONG_FILEMARKS ∨ ty = TAPE_SHORT_FILEMARKS)
      ∧ issued is_write_mark m'.log
          = (Call.WriteTapemark ty (if machine_written.drv.two_fm then 2 else 1), s)
            :: issued is_write_mark machine_written.log
      ∧ (machine_written.drv.two_fm = true → s = 0 →
          ∃ s2, issued is_set_pos m'.log
              = (Call.SetTapePosition TAPE_SPACE_FILEMARKS 0 (-1) false, s2)
                :: issued is_set_pos machine_written.log
            ∧ (s2 = 0 → m'.cur.fblock = 0))
      ∧ (machine_written.drv.two_fm = false →
          issued is_set_pos m'.log = issued is_set_pos machine_written.log) :=
  close_writes_filemarks host0 1 machine_written
    (fun _ _ => ⟨0, Nat.zero_lt_one, (by decide : resp0.err ≠ ERROR_MEDIA_CHANGED)⟩)
    (by decide) rfl

end mtinfo_drive

namespace mtinfo_drive

theorem settled_of_eq (x : Option (Nat × Machine)) (ret : Nat) (m' : Machine)
    (hx : x = some (ret, m')) (hl : ret = m'.drv.lasterr) (hne : ret ≠ ERROR_MEDIA_CHANGED) :
    Settled x :=
  ⟨ret, m', hx, hne, hl ▸ hne⟩

theorem set_pos_settled (h : Host) (fuel : Nat) (m : Machine) (mode count : Int)
    (sfm_func : Bool) (hterm : AllRetriesEnd h fuel) :
    Settled (set_pos h fuel m mode count sfm_func) := by
  obtain ⟨ret, m', hx, hl, hne, _⟩ := set_pos_spec h fuel m mode count sfm_func
    (fun _ => false) (fun _ => rfl) rfl (fun _ _ _ _ => rfl) hterm
  exact settled_of_eq _ ret m' hx hl hne

theorem write_marks_settled (h : Host) (fuel : Nat) (m : Machine) (marktype : Int)
    (count : Nat) (hterm : AllRetriesEnd h fuel) :
    Settled (write_marks h fuel m marktype count) := by
  obtain ⟨ret, m', _, hx, hl, hne, _⟩ := write_marks_spec h fuel m marktype count hterm
  exact settled_of_eq _ ret m' hx hl hne

theorem prepare_settled (h : Host) (fuel : Nat) (m : Machine) (action : Int) (is_auto : Bool)
    (hterm : AllRetriesEnd h fuel) : Settled (prepare h fuel m action is_auto) := by
  obtain ⟨ret, m', hx, hl, hne⟩ := prepare_ok h fuel m action is_auto (hterm _)
  exact settled_of_eq _ ret m' hx hl hne

theorem get_pos_settled (h : Host) (fuel : Nat) (m : Machine) (hterm : AllRetriesEnd h fuel) :
    Settled (get_pos h fuel m) := by
  obtain ⟨ret, m', hx, hl, hne, _⟩ := get_pos_spec h fuel m (hterm _)
  exact settled_of_eq _ ret m' hx hl hne

theorem get_dp_settled (h : Host) (fuel : Nat) (m : Machine) (hterm : AllRetriesEnd h fuel) :
    Settled (get_dp h fuel m) := by
  obtain ⟨r, m1, hr, hne, hl⟩ := TAPE_FUNC_ok h (fun _ => Call.GetTapeDriveParameters)
    (fun d => d.partition) Kind.GetTapeParameters (fun _ => rfl) fuel m (hterm _)
  refine settled_of_eq _ m1.drv.lasterr m1 ?_ rfl (by rw [hl]; exact hne)
  simp only [get_dp, hr, Option.map_some']

theorem erase_settled (h : Host) (fuel : Nat) (m : Machine) (mode : Int)
    (hterm : AllRetriesEnd h fuel) : Settled (erase h fuel m mode) := by
  unfold erase
  simp only []
  generalize (if mode = TAPE_ERASE_SHORT then
      if h.get_feature m.drv._dp TAPE_DRIVE_ERASE_SHORT = true then mode else TAPE_ERASE_LONG
    else if mode = TAPE_ERASE_LONG then
      if h.get_feature m.drv._dp TAPE_DRIVE_ERASE_LONG = true then mode else TAPE_ERASE_SHORT
    else mode) = mode1
  obtain ⟨r, m1, hr, hne, hl⟩ := TAPE_FUNC_ok h (fun d => Call.EraseTape mode1 d.nowait)
    (fun d => d.partition) Kind.EraseTape (fun _ => rfl) fuel m (hterm _)
  rw [hr]
  exact settled_of_eq _ _ _ rfl rfl (by simpa [hl] using hne)

theorem set_blocksize_settled (h : Host) (fuel : Nat) (m : Machine) (count : Int)
    (hterm : AllRetriesEnd h fuel) : Settled (set_blocksize h fuel m count) := by
  obtain ⟨r, m1, hr, hne, hl⟩ := TAPE_FUNC_ok h
    (fun _ => Call.SetTapeMediaParameters (toDWORD count))
    (fun d => d.partition) Kind.SetTapeParameters (fun _ => rfl) fuel m (hterm _)
  refine settled_of_eq _ m1.drv.lasterr m1 ?_ rfl (by rw [hl]; exact hne)
  simp only [set_blocksize, hr, Option.map_some']

theorem set_partition_settled (h : Host) (fuel : Nat) (m : Machine) (count : Int)
    (hterm : AllRetriesEnd h fuel) : Settled (set_partition h fuel m count) := by
  unfold set_partition
  by_cases c1 : count < 0 ∨ toDWORD count ≥ MAX_PARTITION_NUM
  · rw [if_pos c1]; exact settled_of_eq _ _ _ rfl rfl (by decide)
  rw [if_neg c1]
  by_cases c2 : toDWORD count ≥ m.drv._dp.MaximumPartitionCount
  · rw [if_pos c2]; exact settled_of_eq _ _ _ rfl rfl (by decide)
  rw [if_neg c2]
  simp only []
  obtain ⟨r, m1, h1, hl1, hne1⟩ := _set_pos_ok h fuel m TAPE_LOGICAL_BLOCK
    (if (m.drv.part count).block ≥ 0 then (m.drv.part count).block else 0) (count + 1) false
    (hterm _)
  rw [h1]
  simp only [Option.some_bind]
  by_cases c3 : r ≠ 0
  · rw [if_pos c3]
    obtain ⟨m2, h2, hl2, _⟩ := reconcile_spec h fuel m1 r (hterm _)
    rw [h2]
    exact settled_of_eq _ _ _ rfl rfl (by rw [hl2]; exact hne1)
  · rw [if_neg c3]
    refine settled_of_eq _ _ _ rfl rfl ?_
    split_ifs <;> simpa [← hl1] using hne1

theorem create_partitions_settled (h : Host) (fuel : Nat) (m : Machine) (count : Int)
    (hterm : AllRetriesEnd h fuel) (hm : m.drv.lasterr ≠ ERROR_MEDIA_CHANGED) :
    Settled (create_partitions h fuel m count) := by
  unfold create_partitions
  by_cases c1 : m.drv._dp.MaximumPartitionCount ≤ 1
  · rw [if_pos c1]; exact ⟨_, _, rfl, by decide, hm⟩
  rw [if_neg c1]
  obtain ⟨r, m1, h1, hne1, hl1⟩ := set_pos_settled h fuel m TAPE_REWIND 0 false hterm
  rw [h1]
  simp only [Option.some_bind]
  by_cases c2 : r ≠ 0
  · rw [if_pos c2]; exact settled_of_eq _ _ _ rfl rfl hl1
  rw [if_neg c2]
  have hm2 : ∀ (m2 : Machine) (meth cnt : Nat), Settled ((TAPE_FUNC h
      (fun _ => Call.CreateTapePartition meth cnt (toDWORD count))
      (fun d => d.partition) fuel m2).map fun y => (y.2.drv.lasterr, y.2)) := by
    intro m2 meth cnt
    obtain ⟨r, m3, hr, hne, hl⟩ := TAPE_FUNC_ok h (fun _ => Call.CreateTapePartition meth
      cnt (toDWORD count)) (fun d => d.partition)
      Kind.CreateTapePartition (fun _ => rfl) fuel m2 (hterm _)
    rw [hr]
    exact settled_of_eq _ _ _ rfl rfl (by rw [hl]; exact hne)
  split_ifs
  all_goals first
    | exact hm2 _ _ _
    | exact settled_of_eq _ _ _ rfl rfl hl1
    | exact settled_of_eq _ _ _ rfl rfl (by decide)

/-- The tail shared by `set_compression` and `set_options`: after a failed
parameter change the drive parameters are queried again, and `lasterr` is
restored to the status of the change. -/
theorem requery_dp_settled (h : Host) (fuel : Nat) (m1 mok : Machine)
    (hterm : AllRetriesEnd h fuel) (hne : m1.drv.lasterr ≠ ERROR_MEDIA_CHANGED) :
    Settled ((if m1.drv.lasterr = 0 then some mok
        else (get_dp h fuel m1).map fun y => y.2).map fun m2 =>
      (m1.drv.lasterr, m2.set_lasterr m1.drv.lasterr)) := by
  by_cases c : m1.drv.lasterr = 0
  · rw [if_pos c]
    exact settled_of_eq _ _ _ rfl rfl hne
  · rw [if_neg c]
    obtain ⟨r, m2, h2, _, _⟩ := get_dp_settled h fuel m1 hterm
    rw [h2]
    exact settled_of_eq _ _ _ rfl rfl hne

theorem set_compression_settled (h : Host) (fuel : Nat) (m : Machine) (count : Int)
    (hterm : AllRetriesEnd h fuel) (hm : m.drv.lasterr ≠ ERROR_MEDIA_CHANGED) :
    Settled (set_compression h fuel m count) := by
  unfold set_compression
  by_cases c1 : h.get_feature m.drv._dp TAPE_DRIVE_SET_COMPRESSION = false
  · rw [if_pos c1]; exact ⟨_, _, rfl, by decide, hm⟩
  rw [if_neg c1]
  simp only []
  obtain ⟨r, m1, hr, hne, hl⟩ := TAPE_FUNC_ok h (fun _ => Call.SetTapeDriveParameters
      { ECC := m.drv._dp.ECC, Compression := if count ≠ 0 then 1 else 0,
        DataPadding := m.drv._dp.DataPadding, ReportSetmarks := m.drv._dp.ReportSetmarks,
        EOTWarningZoneSize := m.drv._dp.EOTWarningZoneSize })
    (fun d => d.partition) Kind.SetTapeParameters (fun _ => rfl) fuel m (hterm _)
  rw [hr]
  simp only [Option.some_bind]
  exact requery_dp_settled h fuel m1 _ hterm (by rw [hl]; exact hne)

theorem set_options_settled (h : Host) (fuel : Nat) (m : Machine) (options : Int)
    (hterm : AllRetriesEnd h fuel) : Settled (set_options h fuel m options) := by
  unfold set_options
  simp only []
  generalize (if toDWORD options &&& MT_ST_OPTIONS = 0 then _ else _ :
    mtinfo_drive × TAPE_SET_DRIVE_PARAMETERS × Bool) = r
  by_cases c : r.2.2 = true
  · rw [if_pos c]
    obtain ⟨r1, m1, hr, hne, hl⟩ := TAPE_FUNC_ok h (fun _ => Call.SetTapeDriveParameters r.2.1)
      (fun d => d.partition) Kind.SetTapeParameters (fun _ => rfl) fuel
      ({ m with drv := { r.1 with lasterr := 0 } } : Machine) (hterm _)
    rw [hr]
    simp only [Option.some_bind]
    exact requery_dp_settled h fuel m1 _ hterm (by rw [hl]; exact hne)
  · rw [if_neg c]
    exact settled_of_eq _ _ _ rfl rfl (by simp)

theorem ignore_ret_ok (x : Option (Nat × Machine)) (hx : Settled x) :
    SettledOut (ignore_ret x) := by
  obtain ⟨ret, m', rfl, _, hl⟩ := hx
  exact ⟨_, rfl, hl⟩

theorem settledOut_ite (c : Prop) [Decidable c] (a b : Option (ioctl_out × Machine))
    (ha : SettledOut a) (hb : SettledOut b) : SettledOut (if c then a else b) := by
  split_ifs
  · exact ha
  · exact hb

/-- The dispatch on the operation code returns, and leaves a last status other
than "medium changed" when it started from one. -/
theorem mtop_switch_ok (h : Host) (fuel : Nat) (m : Machine) (op : mtop)
    (hterm : AllRetriesEnd h fuel) (hm : m.drv.lasterr ≠ ERROR_MEDIA_CHANGED) :
    SettledOut (mtop_switch h fuel m op) := by
  have hfail : SettledOut (some (ioctl_out.nothing, m.set_lasterr ERROR_INVALID_PARAMETER)) :=
    ⟨_, rfl, by simp⟩
  unfold mtop_switch
  dsimp only
  repeat' apply settledOut_ite
  all_goals first
    | exact hfail
    | exact ⟨_, rfl, hm⟩
    | exact ⟨_, rfl, by simp⟩
    | exact ignore_ret_ok _ (set_pos_settled h fuel m _ _ _ hterm)
    | exact ignore_ret_ok _ (write_marks_settled h fuel m _ _ hterm)
    | exact ignore_ret_ok _ (prepare_settled h fuel m _ _ hterm)
    | exact ignore_ret_ok _ (erase_settled h fuel m _ hterm)
    | exact ignore_ret_ok _ (set_compression_settled h fuel m _ hterm hm)
    | exact ignore_ret_ok _ (set_partition_settled h fuel m _ hterm)
    | exact ignore_ret_ok _ (create_partitions_settled h fuel m _ hterm hm)
    | exact ignore_ret_ok _ (set_options_settled h fuel m _ hterm)
    | (obtain ⟨r, m1, h1, hne1, hl1⟩ := set_pos_settled h fuel m TAPE_REWIND 0 false hterm
       rw [h1]
       simp only [Option.some_bind]
       apply settledOut_ite
       · exact ignore_ret_ok _ (prepare_settled h fuel m1 _ _ hterm)
       · exact ⟨_, rfl, hl1⟩)
    | (obtain ⟨r, m1, h1, hne1, hl1⟩ := set_blocksize_settled h fuel m op.mt_count hterm
       rw [h1]
       simp only [Option.map_some']
       refine ⟨_, rfl, ?_⟩
       split_ifs
       · simp
       · exact hl1)
    | (obtain ⟨r, m1, h1, hne1, hl1⟩ := get_pos_settled h fuel m hterm
       rw [h1]
       simp only [Option.some_bind]
       apply settledOut_ite
       · exact ignore_ret_ok _ (set_pos_settled h fuel m1 _ _ _ hterm)
       · exact ⟨_, rfl, hl1⟩)
    | (obtain ⟨r, m1, h1, hne1, hl1⟩ := get_pos_settled h fuel m hterm
       rw [h1]
       exact ⟨_, rfl, hl1⟩)

end mtinfo_drive

namespace mtinfo_drive

/-- The command dispatch returns a status other than "medium changed" when the
last status recorded before the call is not "medium changed". -/
theorem ioctl_ok (h : Host) (fuel : Nat) (m : Machine) (cmd : ioctl_cmd) (buf : Option mtop)
    (hterm : AllRetriesEnd h fuel) (hm : m.drv.lasterr ≠ ERROR_MEDIA_CHANGED) :
    ∃ ret out m', ioctl h fuel m cmd buf = some (ret, out, m')
      ∧ ret ≠ ERROR_MEDIA_CHANGED := by
  cases cmd <;> cases buf
  case MTIOCTOP.some op =>
    simp only [ioctl]
    by_cases c : m.drv.lasterr = ERROR_BUS_RESET ∧ bus_reset_allowed op.mt_op = false
    · rw [if_pos c]; exact ⟨_, _, _, rfl, by decide⟩
    · rw [if_neg c]
      obtain ⟨m1, hm1, hl1⟩ : ∃ m1 : Machine,
          m1 = (if m.drv.lasterr = ERROR_BUS_RESET
                ∧ m.drv.lock.val ≥ lock_state.auto_locked.val then
              if (exec h (Call.PrepareTape TAPE_LOCK false) m).1.err ≠ 0 then
                { (exec h (Call.PrepareTape TAPE_LOCK false) m).2 with
                  drv := { (exec h (Call.PrepareTape TAPE_LOCK false) m).2.drv with
                    lock := lock_state.unlocked } }
              else (exec h (Call.PrepareTape TAPE_LOCK false) m).2
            else m) ∧ m1.drv.lasterr = m.drv.lasterr := by
        refine ⟨_, rfl, ?_⟩
        split_ifs <;> simp
      rw [← hm1]
      obtain ⟨y, hy, hne⟩ := mtop_switch_ok h fuel m1 op hterm (by rw [hl1]; exact hm)
      rw [hy]
      exact ⟨_, _, _, rfl, hne⟩
  case MTIOCGET.some op =>
    simp only [ioctl]
    exact ⟨_, _, _, rfl, by rw [get_status_drv]; exact hm⟩
  case MTIOCPOS.some op =>
    simp only [ioctl]
    obtain ⟨r, m1, h1, _, hl1⟩ := get_pos_settled h fuel m hterm
    rw [h1]
    exact ⟨_, _, _, rfl, hl1⟩
  all_goals exact ⟨_, _, _, rfl, by first | exact hm | decide⟩

theorem read_classify_ne (m : Machine) (b : Nat)
    (hm : m.drv.lasterr ≠ ERROR_MEDIA_CHANGED) :
    (read_classify m b).drv.lasterr ≠ ERROR_MEDIA_CHANGED := by
  unfold read_classify
  simp only []
  split_ifs <;> simp_all

theorem read_io_ne (h : Host) (m : Machine) (ulen : Nat)
    (hr : ∀ j, (h.answer Kind.ReadFile j).status ≠ ERROR_MEDIA_CHANGED)
    (hw : ∀ j, (h.answer Kind.GetOverlappedResult j).status ≠ ERROR_MEDIA_CHANGED) :
    (read_io h m ulen).2.drv.lasterr ≠ ERROR_MEDIA_CHANGED := by
  have ho := congrArg Prod.fst (read_io_outcome h m ulen)
  simp only [] at ho
  rw [ho]
  split_ifs
  · exact hw _
  · exact hr _

/-- The read operation returns; its status is "medium changed" only if
`ReadFile` or the wait for its completion reported it. -/
theorem read_ok (h : Host) (fuel : Nat) (m : Machine) (ulen : Nat)
    (hterm : AllRetriesEnd h fuel)
    (hr : ∀ j, (h.answer Kind.ReadFile j).status ≠ ERROR_MEDIA_CHANGED)
    (hw : ∀ j, (h.answer Kind.GetOverlappedResult j).status ≠ ERROR_MEDIA_CHANGED) :
    ∃ ret n m', read h fuel m ulen = some (ret, n, m') ∧ ret ≠ ERROR_MEDIA_CHANGED := by
  obtain ⟨m3, h3, _⟩ := auto_lock_step_spec h fuel
    (((wait_pending h (exec h Call.GetTapeStatus m).2).set_dirty dirty_state.clean).updPart
      fun p => { p with smark := false }) (hterm _) (by simp)
  unfold read
  simp only [h3, Option.map_some']
  split_ifs with c1 c2
  · exact ⟨_, _, _, rfl, by decide⟩
  · exact ⟨_, _, _, rfl, by rw [c2]; decide⟩
  · exact ⟨_, _, _, rfl, by decide⟩
  · exact ⟨_, _, _, rfl, by decide⟩
  · exact ⟨_, _, _, rfl, by decide⟩
  · exact ⟨_, _, _, rfl, by decide⟩
  · exact ⟨_, _, _, rfl, by decide⟩
  · refine ⟨_, _, _, rfl, ?_⟩
    exact read_classify_ne _ _ (by rw [count_blocks_lasterr]; exact read_io_ne h m3 ulen hr hw)

theorem write_io_ne (h : Host) (m : Machine) (len : Nat)
    (hf : ∀ j, (h.answer Kind.WriteFile j).status ≠ ERROR_MEDIA_CHANGED)
    (hw : ∀ j, (h.answer Kind.GetOverlappedResult j).status ≠ ERROR_MEDIA_CHANGED) :
    (write_io h m len).2.drv.lasterr ≠ ERROR_MEDIA_CHANGED := by
  unfold write_io
  simp only []
  split_ifs
  · simpa [Call.kind] using hf _
  · simpa [async_wait, Call.kind] using hw _
  · simpa [Call.kind] using hf _

theorem write_classify_ne (m : Machine) (async_err : Nat)
    (hm : m.drv.lasterr ≠ ERROR_MEDIA_CHANGED) (ha : async_err ≠ ERROR_MEDIA_CHANGED) :
    (write_classify m async_err).drv.lasterr ≠ ERROR_MEDIA_CHANGED := by
  unfold write_classify
  simp only []
  split_ifs <;> simp_all

/-- The write operation returns; its status is "medium changed" only if
`WriteFile` or a wait for completion reported it. -/
theorem write_ok (h : Host) (fuel : Nat) (m : Machine) (len : Nat)
    (hterm : AllRetriesEnd h fuel)
    (hf : ∀ j, (h.answer Kind.WriteFile j).status ≠ ERROR_MEDIA_CHANGED)
    (hw : ∀ j, (h.answer Kind.GetOverlappedResult j).status ≠ ERROR_MEDIA_CHANGED) :
    ∃ ret n m', write h fuel m len = some (ret, n, m') ∧ ret ≠ ERROR_MEDIA_CHANGED := by
  unfold write
  simp only []
  by_cases c1 : (exec h Call.GetTapeStatus m).1.err = ERROR_NO_MEDIA_IN_DRIVE
  · rw [if_pos c1]; exact ⟨_, _, _, rfl, by decide⟩
  rw [if_neg c1]
  by_cases c2 : (exec h Call.GetTapeStatus m).2.drv.lasterr = ERROR_BUS_RESET
  · rw [if_pos c2]; exact ⟨_, _, _, rfl, by rw [c2]; decide⟩
  rw [if_neg c2]
  generalize hae : (if decide ((exec h Call.GetTapeStatus m).2.drv.dirty
      = dirty_state.async_write_pending) = true then
        (async_wait h (exec h Call.GetTapeStatus m).2).1 else 0) = async_err
  have hane : async_err ≠ ERROR_MEDIA_CHANGED := by
    rw [← hae]
    split_ifs
    · simpa [async_wait, Call.kind] using hw _
    · decide
  obtain ⟨m3, h3, _⟩ := auto_lock_step_spec h fuel
    (((if decide ((exec h Call.GetTapeStatus m).2.drv.dirty
        = dirty_state.async_write_pending) = true then
        (async_wait h (exec h Call.GetTapeStatus m).2).2.2
      else (exec h Call.GetTapeStatus m).2).set_dirty dirty_state.clean).updPart
      fun p => { p with smark := false }) (hterm _) (by simp)
  rw [h3]
  refine ⟨_, _, _, rfl, ?_⟩
  exact write_classify_ne _ _ (by rw [count_blocks_lasterr]; exact write_io_ne h m3 len hf hw)
    hane

/-- C10, as stated, fails: `read` hands the status of `ReadFile` on without the
retry wrapper, so a `ReadFile` answered "medium changed" makes `read` return
"medium changed"; and `ioctl` then returns the recorded last status, again
"medium changed", for a status query. -/
theorem read_surfaces_media_changed :
    (read host_read_changed 1 machine0 512).map (fun x => x.1) = some ERROR_MEDIA_CHANGED
      ∧ ((read host_read_changed 1 machine0 512).bind fun x =>
          (ioctl host_read_changed 1 x.2.2 ioctl_cmd.MTIOCGET (some ⟨0, 0⟩)).map fun y => y.1)
        = some ERROR_MEDIA_CHANGED := by
  constructor <;> decide

/-- C10 (amended): on every transport on which the retries end, `set_pos`,
`write_marks`, `erase`, `prepare` and `set_partition` return, with a status
other than "medium changed" (all their transport calls go through the retry
wrapper); `ioctl` does so whenever the last status recorded before the call is
not "medium changed"; `read` and `write`, which call `ReadFile`/`WriteFile`
and the wait for completion directly, do so whenever those direct calls do not
report "medium changed". -/
theorem media_changed_not_surfaced (h : Host) (fuel : Nat) (m : Machine)
    (hterm : AllRetriesEnd h fuel) :
    (∀ mode count sfm_func, ∃ ret m', set_pos h fuel m mode count sfm_func = some (ret, m')
        ∧ ret ≠ ERROR_MEDIA_CHANGED)
      ∧ (∀ marktype count, ∃ ret m', write_marks h fuel m marktype count = some (ret, m')
        ∧ ret ≠ ERROR_MEDIA_CHANGED)
      ∧ (∀ mode, ∃ ret m', erase h fuel m mode = some (ret, m') ∧ ret ≠ ERROR_MEDIA_CHANGED)
      ∧ (∀ action is_auto, ∃ ret m', prepare h fuel m action is_auto = some (ret, m')
        ∧ ret ≠ ERROR_MEDIA_CHANGED)
      ∧ (∀ count, ∃ ret m', set_partition h fuel m count = some (ret, m')
        ∧ ret ≠ ERROR_MEDIA_CHANGED)
      ∧ (m.drv.lasterr ≠ ERROR_MEDIA_CHANGED → ∀ cmd buf, ∃ ret out m',
          ioctl h fuel m cmd buf = some (ret, out, m') ∧ ret ≠ ERROR_MEDIA_CHANGED)
      ∧ ((∀ j, (h.answer Kind.ReadFile j).status ≠ ERROR_MEDIA_CHANGED) →
          (∀ j, (h.answer Kind.GetOverlappedResult j).status ≠ ERROR_MEDIA_CHANGED) →
          ∀ ulen, ∃ ret n m', read h fuel m ulen = some (ret, n, m')
            ∧ ret ≠ ERROR_MEDIA_CHANGED)
      ∧ ((∀ j, (h.answer Kind.WriteFile j).status ≠ ERROR_MEDIA_CHANGED) →
          (∀ j, (h.answer Kind.GetOverlappedResult j).status ≠ ERROR_MEDIA_CHANGED) →
          ∀ len, ∃ ret n m', write h fuel m len = some (ret, n, m')
            ∧ ret ≠ ERROR_MEDIA_CHANGED) := by
  refine ⟨?_, ?_, ?_, ?_, ?_, ?_, ?_, ?_⟩
  · intro mode count sfm_func
    obtain ⟨ret, m', hx, hne, _⟩ := set_pos_settled h fuel m mode count sfm_func hterm
    exact ⟨ret, m', hx, hne⟩
  · intro marktype count
    obtain ⟨ret, m', hx, hne, _⟩ := write_marks_settled h fuel m marktype count hterm
    exact ⟨ret, m', hx, hne⟩
  · intro mode
    obtain ⟨ret, m', hx, hne, _⟩ := erase_settled h fuel m mode hterm
    exact ⟨ret, m', hx, hne⟩
  · intro action is_auto
    obtain ⟨ret, m', hx, hne, _⟩ := prepare_settled h fuel m action is_auto hterm
    exact ⟨ret, m', hx, hne⟩
  · intro count
    obtain ⟨ret, m', hx, hne, _⟩ := set_partition_settled h fuel m count hterm
    exact ⟨ret, m', hx, hne⟩
  · intro hm cmd buf
    exact ioctl_ok h fuel m cmd buf hterm hm
  · intro hr hw ulen
    exact read_ok h fuel m ulen hterm hr hw
  · intro hf hw len
    exact write_ok h fuel m len hterm hf hw

/-- C10 (amended) at a concrete drive and a transport that answers the first
call of every primitive that goes through the retry loop with "medium changed":
with two attempts allowed, every operation returns a status other than "medium
changed". -/
theorem media_changed_not_surfaced_witness :
    (host_first_changed.answer Kind.SetTapePosition 0).err = ERROR_MEDIA_CHANGED
      ∧ (host_first_changed.answer Kind.PrepareTape 0).err = ERROR_MEDIA_CHANGED
      ∧ (∀ mode count sfm_func, ∃ ret m',
          set_pos host_first_changed 2 machine0 mode count sfm_func = some (ret, m')
            ∧ ret ≠ ERROR_MEDIA_CHANGED)
      ∧ (∀ marktype count, ∃ ret m',
          write_marks host_first_changed 2 machine0 marktype count = some (ret, m')
            ∧ ret ≠ ERROR_MEDIA_CHANGED)
      ∧ (∀ mode, ∃ ret m', erase host_first_changed 2 machine0 mode = some (ret, m')
        ∧ ret ≠ ERROR_MEDIA_CHANGED)
      ∧ (∀ action is_auto, ∃ ret m',
          prepare host_first_changed 2 machine0 action is_auto = some (ret, m')
            ∧ ret ≠ ERROR_MEDIA_CHANGED)
      ∧ (∀ count, ∃ ret m', set_partition host_first_changed 2 machine0 count = some (ret, m')
        ∧ ret ≠ ERROR_MEDIA_CHANGED)
      ∧ (∀ cmd buf, ∃ ret out m',
          ioctl host_first_changed 2 machine0 cmd buf = some (ret, out, m')
            ∧ ret ≠ ERROR_MEDIA_CHANGED)
      ∧ (∀ ulen, ∃ ret n m', read host_first_changed 2 machine0 ulen = some (ret, n, m')
            ∧ ret ≠ ERROR_MEDIA_CHANGED)
      ∧ (∀ len, ∃ ret n m', write host_first_changed 2 machine0 len = some (ret, n, m')
            ∧ ret ≠ ERROR_MEDIA_CHANGED) := by
  obtain ⟨a1, a2, a3, a4, a5, a6, a7, a8⟩ :=
    media_changed_not_surfaced host_first_changed 2 machine0
      (fun k c => ⟨1, by decide, by simp [host_first_changed, resp0]⟩)
  exact ⟨by decide, by decide, a1, a2, a3, a4, a5, a6 (by decide),
    a7 (fun j => by simp [host_first_changed, Resp.status, resp0])
      (fun j => by simp [host_first_changed, Resp.status, resp0]),
    a8 (fun j => by simp [host_first_changed, Resp.status, resp0])
      (fun j => by simp [host_first_changed, Resp.status, resp0])⟩

end mtinfo_drive

/-! ## The 32-bit arithmetic of the counters -/

/-- A value in the range of a `long` is its own 32-bit value. -/
theorem wrapLong_eq (x : Int) (h0 : -2 ^ 31 ≤ x) (h1 : x < 2 ^ 31) : wrapLong x = x := by
  unfold wrapLong toLong toDWORD
  have e : ((x % 2 ^ 32).toNat : Int) = x % 2 ^ 32 :=
    Int.toNat_of_nonneg (Int.emod_nonneg _ (by norm_num))
  have hm : (x % 2 ^ 32).toNat % 2 ^ 32 = (x % 2 ^ 32).toNat := Nat.mod_eq_of_lt (by omega)
  rw [hm]
  split_ifs with hc <;> omega

/-- The 32-bit value of any exact result lies in the range of a `long`. -/
theorem wrapLong_range (x : Int) : -2 ^ 31 ≤ wrapLong x ∧ wrapLong x < 2 ^ 31 := by
  unfold wrapLong toLong toDWORD
  have hm : (x % 2 ^ 32).toNat % 2 ^ 32 = (x % 2 ^ 32).toNat := Nat.mod_eq_of_lt (by omega)
  rw [hm]
  split_ifs with hc <;> omega

/-- The 32-bit value agrees with the exact result modulo `2^32`. -/
theorem wrapLong_emod (x : Int) : wrapLong x % 2 ^ 32 = x % 2 ^ 32 := by
  unfold wrapLong toLong toDWORD
  have hm : (x % 2 ^ 32).toNat % 2 ^ 32 = (x % 2 ^ 32).toNat := Nat.mod_eq_of_lt (by omega)
  rw [hm]
  split_ifs with hc <;> omega

/-- Two exact values that agree modulo `2^32` have the same 32-bit value. -/
theorem wrapLong_congr (x y : Int) (h : x % 2 ^ 32 = y % 2 ^ 32) : wrapLong x = wrapLong y := by
  unfold wrapLong toDWORD
  rw [h]

/-- A sum formed from an already reduced term reduces to the 32-bit value of the
exact sum. -/
theorem wrapLong_add_left (x y : Int) : wrapLong (wrapLong x + y) = wrapLong (x + y) := by
  apply wrapLong_congr
  have := wrapLong_emod x
  omega

/-- The 32-bit value of a `long` at its largest value, plus one, is the smallest
value. -/
theorem wrapLong_max : wrapLong (2147483647 + 1) = -2147483648 := by decide

/-! ## More frame facts of the single transport calls -/

@[simp] theorem exec_block (h : Host) (c : Call) (m : Machine) :
    (exec h c m).2.drv.block = m.drv.block := by
  cases c <;> rfl

@[simp] theorem set_lasterr_block (m : Machine) (e : Nat) :
    (m.set_lasterr e).drv.block = m.drv.block := rfl

@[simp] theorem set_dirty_block (m : Machine) (v : dirty_state) :
    (m.set_dirty v).drv.block = m.drv.block := rfl

@[simp] theorem updPart_block (m : Machine) (f : mtinfo_part → mtinfo_part) :
    (m.updPart f).drv.block = m.drv.block := rfl

@[simp] theorem exec_lock (h : Host) (c : Call) (m : Machine) :
    (exec h c m).2.drv.lock = m.drv.lock := by
  cases c <;> rfl

@[simp] theorem set_lasterr_lock (m : Machine) (e : Nat) :
    (m.set_lasterr e).drv.lock = m.drv.lock := rfl

@[simp] theorem set_dirty_lock (m : Machine) (v : dirty_state) :
    (m.set_dirty v).drv.lock = m.drv.lock := rfl

@[simp] theorem updPart_lock (m : Machine) (f : mtinfo_part → mtinfo_part) :
    (m.updPart f).drv.lock = m.drv.lock := rfl

@[simp] theorem exec_auto_lock (h : Host) (c : Call) (m : Machine) :
    (exec h c m).2.drv.auto_lock = m.drv.auto_lock := by
  cases c <;> rfl

@[simp] theorem set_lasterr_auto_lock (m : Machine) (e : Nat) :
    (m.set_lasterr e).drv.auto_lock = m.drv.auto_lock := rfl

@[simp] theorem set_dirty_auto_lock (m : Machine) (v : dirty_state) :
    (m.set_dirty v).drv.auto_lock = m.drv.auto_lock := rfl

@[simp] theorem updPart_auto_lock (m : Machine) (f : mtinfo_part → mtinfo_part) :
    (m.updPart f).drv.auto_lock = m.drv.auto_lock := rfl

@[simp] theorem set_lasterr_mp (m : Machine) (e : Nat) :
    (m.set_lasterr e).drv._mp = m.drv._mp := rfl

@[simp] theorem set_dirty_mp (m : Machine) (v : dirty_state) :
    (m.set_dirty v).drv._mp = m.drv._mp := rfl

@[simp] theorem updPart_mp (m : Machine) (f : mtinfo_part → mtinfo_part) :
    (m.updPart f).drv._mp = m.drv._mp := rfl

@[simp] theorem exec_async_writes (h : Host) (c : Call) (m : Machine) :
    (exec h c m).2.drv.async_writes = m.drv.async_writes := by
  cases c <;> rfl

@[simp] theorem set_lasterr_async_writes (m : Machine) (e : Nat) :
    (m.set_lasterr e).drv.async_writes = m.drv.async_writes := rfl

@[simp] theorem set_dirty_async_writes (m : Machine) (v : dirty_state) :
    (m.set_dirty v).drv.async_writes = m.drv.async_writes := rfl

@[simp] theorem updPart_async_writes (m : Machine) (f : mtinfo_part → mtinfo_part) :
    (m.updPart f).drv.async_writes = m.drv.async_writes := rfl

@[simp] theorem exec_mp (h : Host) (c : Call) (m : Machine)
    (hc : c ≠ Call.GetTapeMediaParameters) : (exec h c m).2.drv._mp = m.drv._mp := by
  cases c <;> first | rfl | exact absurd rfl hc

/-! ## The status classification of `read` -/

/-- An attempt that is not answered "medium changed" ends the retry loop. -/
theorem TAPE_FUNC_first (h : Host) (func : mtinfo_drive → Call)
    (partition : mtinfo_drive → Int) (fuel : Nat) (m : Machine)
    (hq : (attempt h func m).1.err ≠ ERROR_MEDIA_CHANGED) :
    TAPE_FUNC h func partition (fuel + 1) m = some (attempt h func m) := by
  rw [TAPE_FUNC_succ, if_neg hq]

namespace mtinfo_drive

@[simp] theorem wait_pending_block (h : Host) (m : Machine) :
    (wait_pending h m).drv.block = m.drv.block := by
  unfold wait_pending; split <;> simp [async_wait]

@[simp] theorem wait_pending_lock (h : Host) (m : Machine) :
    (wait_pending h m).drv.lock = m.drv.lock := by
  unfold wait_pending; split <;> simp [async_wait]

@[simp] theorem wait_pending_auto_lock (h : Host) (m : Machine) :
    (wait_pending h m).drv.auto_lock = m.drv.auto_lock := by
  unfold wait_pending; split <;> simp [async_wait]

@[simp] theorem wait_pending_mp (h : Host) (m : Machine) :
    (wait_pending h m).drv._mp = m.drv._mp := by
  unfold wait_pending; split <;> simp [async_wait]

@[simp] theorem wait_pending_async_writes (h : Host) (m : Machine) :
    (wait_pending h m).drv.async_writes = m.drv.async_writes := by
  unfold wait_pending; split <;> simp [async_wait]

@[simp] theorem count_blocks_partition (m : Machine) (b : Nat) :
    (count_blocks m b).drv.partition = m.drv.partition := by
  unfold count_blocks; simp only []; split_ifs <;> rfl

@[simp] theorem count_blocks_dirty (m : Machine) (b : Nat) :
    (count_blocks m b).drv.dirty = m.drv.dirty := by
  unfold count_blocks; simp only []; split_ifs <;> rfl

@[simp] theorem count_blocks_file (m : Machine) (b : Nat) :
    (count_blocks m b).cur.file = m.cur.file := by
  unfold count_blocks; simp only []
  split_ifs <;> simp [Machine.cur, Machine.updPart, Machine.updPartAt, mtinfo_drive.setPart,
      mtinfo_drive.part]

@[simp] theorem count_blocks_smark (m : Machine) (b : Nat) :
    (count_blocks m b).cur.smark = m.cur.smark := by
  unfold count_blocks; simp only []
  split_ifs <;> simp [Machine.cur, Machine.updPart, Machine.updPartAt, mtinfo_drive.setPart,
      mtinfo_drive.part]

@[simp] theorem count_blocks_emark (m : Machine) (b : Nat) :
    (count_blocks m b).cur.emark = m.cur.emark := by
  unfold count_blocks; simp only []
  split_ifs <;> simp [Machine.cur, Machine.updPart, Machine.updPartAt, mtinfo_drive.setPart,
      mtinfo_drive.part]

@[simp] theorem read_io_partition (h : Host) (m : Machine) (ulen : Nat) :
    (read_io h m ulen).2.drv.partition = m.drv.partition := by
  unfold read_io; simp only []; split_ifs <;> simp [async_wait]

@[simp] theorem read_io_cur (h : Host) (m : Machine) (ulen : Nat) :
    (read_io h m ulen).2.cur = m.cur := by
  unfold read_io; simp only []; split_ifs <;> simp [async_wait]

@[simp] theorem read_classify_partition (m : Machine) (b : Nat) :
    (read_classify m b).drv.partition = m.drv.partition := by
  unfold read_classify; simp only []; split_ifs <;> rfl

/-- The classification of a filemark or setmark status. -/
theorem read_classify_eof (m : Machine) (b : Nat) (he : IS_EOF m.drv.lasterr = true) :
    (read_classify m b).drv.lasterr = 0
      ∧ (read_classify m b).cur.file
          = (if m.cur.file ≥ 0 then wrapLong (m.cur.file + 1) else m.cur.file)
      ∧ (read_classify m b).cur.fblock = 0
      ∧ (read_classify m b).cur.smark = IS_SM m.drv.lasterr
      ∧ (read_classify m b).cur.emark = (if b > 0 then eom_val.eof_hit else eom_val.eof) := by
  unfold read_classify
  simp [he, Machine.cur, Machine.updPart, Machine.updPartAt, mtinfo_drive.setPart,
      mtinfo_drive.part, Machine.set_lasterr, Machine.set_dirty]

/-- The classification of an end-of-data-class status. -/
theorem read_classify_eod (m : Machine) (b : Nat) (he : IS_EOD m.drv.lasterr = true) :
    (m.cur.emark = eom_val.eof →
        (read_classify m b).drv.lasterr = m.drv.lasterr
          ∧ (read_classify m b).cur.emark
              = (if IS_EOM m.drv.lasterr then eom_val.eom else eom_val.eod))
      ∧ (m.cur.emark ≠ eom_val.eof →
        (read_classify m b).drv.lasterr = 0
          ∧ (read_classify m b).cur.emark
              = (if IS_EOM m.drv.lasterr then eom_val.eom_hit else eom_val.eod_hit)) := by
  have hf : IS_EOF m.drv.lasterr = false := by
    simp only [IS_EOD, IS_EOF] at he ⊢
    simp only [ERROR_END_OF_MEDIA, ERROR_EOM_OVERFLOW, ERROR_NO_DATA_DETECTED,
      ERROR_FILEMARK_DETECTED, ERROR_SETMARK_DETECTED] at he ⊢
    simp only [Bool.or_eq_true, beq_iff_eq, Bool.or_eq_false_iff, beq_eq_false_iff_ne] at he ⊢
    omega
  have hz : m.drv.lasterr ≠ 0 := by
    intro h0; rw [h0] at he; revert he; decide
  constructor
  · intro hm
    unfold read_classify
    simp only [hf, he, hm, if_true, Bool.false_eq_true, if_false]
    have : ¬ (m.updPart fun p => { p with emark := if IS_EOM m.drv.lasterr = true
        then eom_val.eom else eom_val.eod }).drv.lasterr = 0 := by simpa using hz
    rw [if_neg this]
    simp
  · intro hm
    unfold read_classify
    simp only [hf, he, hm, if_true, Bool.false_eq_true, if_false]
    simp

/-- The classification of any other status. -/
theorem read_classify_other (m : Machine) (b : Nat) (h1 : IS_EOF m.drv.lasterr = false)
    (h2 : IS_EOD m.drv.lasterr = false) :
    (read_classify m b).drv.lasterr
        = (if m.drv.lasterr = ERROR_MORE_DATA then ERROR_NOT_ENOUGH_MEMORY else m.drv.lasterr)
      ∧ (read_classify m b).cur.emark = eom_val.no_eof := by
  unfold read_classify
  simp only [h1, h2, Bool.false_eq_true, if_false]
  by_cases hmd : m.drv.lasterr = ERROR_MORE_DATA
  · simp only [hmd, if_true]
    simp
  · simp only [hmd, if_false]
    split_ifs <;> simp


/-- The automatic locking step when its lock request, if one is made, is not
answered "medium changed": the positions and partition records stay as they
are. -/
theorem auto_lock_step_quiet (h : Host) (fuel : Nat) (m : Machine) (hfuel : 0 < fuel)
    (hd : m.drv.dirty ≠ dirty_state.async_write_pending)
    (hlock : m.drv.auto_lock = true → m.drv.lock.val < lock_state.auto_locked.val →
      (h.answer Kind.PrepareTape (ncalls Kind.PrepareTape m.log)).err ≠ ERROR_MEDIA_CHANGED) :
    ∃ m', auto_lock_step h fuel m = some m' ∧ m'.drv.partition = m.drv.partition
      ∧ m'.drv._part = m.drv._part ∧ m'.drv.block = m.drv.block
      ∧ ∀ k, k ≠ Kind.PrepareTape → ncalls k m'.log = ncalls k m.log := by
  obtain ⟨f, rfl⟩ : ∃ f, fuel = f + 1 := ⟨fuel - 1, by omega⟩
  unfold auto_lock_step
  split_ifs with hc
  · have hq := hlock hc.1 hc.2
    have hw : wait_pending h m = m := wait_pending_clean h m hd
    unfold prepare
    simp only [hw]
    rw [TAPE_FUNC_first]
    · simp only [Option.map_some', TAPE_LOCK, TAPE_FORMAT, TAPE_UNLOAD, TAPE_LOAD, TAPE_TENSION]
      refine ⟨_, rfl, ?_, ?_, ?_, ?_⟩
      · simp [attempt]
      · simp [attempt]
      · simp [attempt]
      · intro k hk
        simp [attempt, Call.kind, Ne.symm hk]
    · simpa [attempt, Call.kind] using hq
  · exact ⟨m, rfl, rfl, rfl, rfl, fun _ _ => rfl⟩

/-- A `read` that finds a medium, no recorded bus reset and the boundary at none
or filemark: what remains is the automatic lock and the transfer. -/
theorem read_unfold (h : Host) (fuel : Nat) (m : Machine) (ulen : Nat)
    (hmed : (h.answer Kind.GetTapeStatus (ncalls Kind.GetTapeStatus m.log)).err
      ≠ ERROR_NO_MEDIA_IN_DRIVE)
    (hbus : m.drv.lasterr ≠ ERROR_BUS_RESET)
    (he : m.cur.emark = eom_val.no_eof ∨ m.cur.emark = eom_val.eof) :
    read h fuel m ulen
      = (auto_lock_step h fuel
          (((wait_pending h (exec h Call.GetTapeStatus m).2).set_dirty dirty_state.clean).updPart
            fun p => { p with smark := false })).map fun m3 => read_transfer h m3 ulen := by
  simp only [ERROR_NO_MEDIA_IN_DRIVE, ERROR_BUS_RESET] at hmed hbus
  rcases he with he | he <;> simp [read, Call.kind, hmed, hbus, he]

/-- Entry of the transport read: a `read` that finds a medium, no recorded bus
reset and the boundary at none or filemark hands over to the transfer, whose
final status and byte count are the ones `next_read` names. -/
theorem read_entry (h : Host) (fuel : Nat) (m : Machine) (ulen s n : Nat)
    (hterm : RetriesEnd h Kind.PrepareTape fuel)
    (hmed : (h.answer Kind.GetTapeStatus (ncalls Kind.GetTapeStatus m.log)).err
      ≠ ERROR_NO_MEDIA_IN_DRIVE)
    (hbus : m.drv.lasterr ≠ ERROR_BUS_RESET)
    (he : m.cur.emark = eom_val.no_eof ∨ m.cur.emark = eom_val.eof)
    (hread : next_read h m = (s, n)) :
    ∃ m3, read h fuel m ulen = some (read_transfer h m3 ulen)
      ∧ (read_io h m3 ulen).2.drv.lasterr = s ∧ (read_io h m3 ulen).1 = n := by
  obtain ⟨m3, h3, hn⟩ := auto_lock_step_spec h fuel
    (((wait_pending h (exec h Call.GetTapeStatus m).2).set_dirty dirty_state.clean).updPart
      fun p => { p with smark := false }) hterm (by simp)
  have hrf : ncalls Kind.ReadFile m3.log = ncalls Kind.ReadFile m.log := by
    rw [hn _ (by decide)]
    simp [wait_pending_ncalls, Call.kind]
  have hgo : ncalls Kind.GetOverlappedResult m3.log = ncalls Kind.GetOverlappedResult m.log
      + (if m.drv.dirty = dirty_state.async_write_pending then 1 else 0) := by
    rw [hn _ (by decide)]
    simp [wait_pending_ncalls_wait, Call.kind]
  have ho := read_io_outcome h m3 ulen
  rw [hrf, hgo] at ho
  have ho' : ((read_io h m3 ulen).2.drv.lasterr, (read_io h m3 ulen).1) = (s, n) := by
    rw [ho]; exact hread
  refine ⟨m3, ?_, congrArg Prod.fst ho', congrArg Prod.snd ho'⟩
  rw [read_unfold h fuel m ulen hmed hbus he, h3]; rfl


/-- Entry of the transport read when the lock request, if one is made, is not
answered "medium changed": the `read` hands over to the transfer with the same
partition active and its record untouched but for the cleared setmark flag. -/
theorem read_entry_quiet (h : Host) (fuel : Nat) (m : Machine) (ulen s n : Nat)
    (hfuel : 0 < fuel)
    (hmed : (h.answer Kind.GetTapeStatus (ncalls Kind.GetTapeStatus m.log)).err
      ≠ ERROR_NO_MEDIA_IN_DRIVE)
    (hbus : m.drv.lasterr ≠ ERROR_BUS_RESET)
    (he : m.cur.emark = eom_val.no_eof ∨ m.cur.emark = eom_val.eof)
    (hlock : m.drv.auto_lock = true → m.drv.lock.val < lock_state.auto_locked.val →
      (h.answer Kind.PrepareTape (ncalls Kind.PrepareTape m.log)).err ≠ ERROR_MEDIA_CHANGED)
    (hread : next_read h m = (s, n)) :
    ∃ m3, read h fuel m ulen = some (read_transfer h m3 ulen)
      ∧ (read_io h m3 ulen).2.drv.lasterr = s ∧ (read_io h m3 ulen).1 = n
      ∧ m3.drv.partition = m.drv.partition
      ∧ m3.cur = { m.cur with smark := false } := by
  obtain ⟨m3, h3, hp, hparts, -, hn⟩ := auto_lock_step_quiet h fuel
    (((wait_pending h (exec h Call.GetTapeStatus m).2).set_dirty dirty_state.clean).updPart
      fun p => { p with smark := false }) hfuel (by simp)
    (by simpa [wait_pending_ncalls, Call.kind] using hlock)
  have hrf : ncalls Kind.ReadFile m3.log = ncalls Kind.ReadFile m.log := by
    rw [hn _ (by decide)]
    simp [wait_pending_ncalls, Call.kind]
  have hgo : ncalls Kind.GetOverlappedResult m3.log = ncalls Kind.GetOverlappedResult m.log
      + (if m.drv.dirty = dirty_state.async_write_pending then 1 else 0) := by
    rw [hn _ (by decide)]
    simp [wait_pending_ncalls_wait, Call.kind]
  have ho := read_io_outcome h m3 ulen
  rw [hrf, hgo] at ho
  have ho' : ((read_io h m3 ulen).2.drv.lasterr, (read_io h m3 ulen).1) = (s, n) := by
    rw [ho]; exact hread
  refine ⟨m3, ?_, congrArg Prod.fst ho', congrArg Prod.snd ho', by simpa using hp, ?_⟩
  · rw [read_unfold h fuel m ulen hmed hbus he, h3]; rfl
  have hc : m3.cur = m3.drv._part m3.drv.partition := rfl
  rw [hc, hparts, hp]
  simp [Machine.updPart, Machine.updPartAt, mtinfo_drive.setPart, mtinfo_drive.part, Machine.cur]

/-- A status of the end-of-data class left by the classification comes with a
non-hit terminal boundary. -/
theorem read_classify_hard (m : Machine) (b : Nat)
    (hr : IS_EOD (read_classify m b).drv.lasterr = true) :
    (read_classify m b).cur.emark
      = (if IS_EOM (read_classify m b).drv.lasterr then eom_val.eom else eom_val.eod) := by
  by_cases h1 : IS_EOF m.drv.lasterr = true
  · obtain ⟨hz, _⟩ := read_classify_eof m b h1
    rw [hz] at hr
    exact absurd hr (by decide)
  · have h1' : IS_EOF m.drv.lasterr = false := by simpa using h1
    by_cases h2 : IS_EOD m.drv.lasterr = true
    · obtain ⟨ha, hb⟩ := read_classify_eod m b h2
      by_cases hm : m.cur.emark = eom_val.eof
      · obtain ⟨hl, hk⟩ := ha hm
        rw [hk, hl]
      · obtain ⟨hl, _⟩ := hb hm
        rw [hl] at hr
        exact absurd hr (by decide)
    · have h2' : IS_EOD m.drv.lasterr = false := by simpa using h2
      obtain ⟨hl, _⟩ := read_classify_other m b h1' h2'
      rw [hl] at hr
      split_ifs at hr
      · exact absurd hr (by decide)
      · exact absurd hr h2

/-- C13: whenever `read` returns one of the hard errors of the end-of-data
class (`ERROR_NO_DATA_DETECTED`, `ERROR_END_OF_MEDIA`, `ERROR_EOM_OVERFLOW`),
the boundary of the active partition after the call is non-hit end-of-medium
(for the two end-of-medium statuses) or non-hit end-of-data. -/
theorem read_hard_error_boundary (h : Host) (fuel : Nat) (m : Machine) (ulen : Nat)
    (ret n : Nat) (m' : Machine)
    (hr : read h fuel m ulen = some (ret, n, m'))
    (hret : ret = ERROR_NO_DATA_DETECTED ∨ ret = ERROR_END_OF_MEDIA
      ∨ ret = ERROR_EOM_OVERFLOW) :
    m'.cur.emark = (if IS_EOM ret then eom_val.eom else eom_val.eod) := by
  have hd : IS_EOD ret = true := by rcases hret with rfl | rfl | rfl <;> decide
  unfold read at hr
  simp only [] at hr
  split_ifs at hr with c1 c2 c3 c4 c5 c6 c7
  all_goals first
    | (simp only [Option.some.injEq, Prod.mk.injEq] at hr
       obtain ⟨rfl, -, rfl⟩ := hr
       first
         | exact absurd hd (by decide)
         | (rw [c2] at hd; exact absurd hd (by decide))
         | simpa using c5
         | simpa using c7)
    | skip
  simp only [Option.map_eq_some'] at hr
  obtain ⟨m3, -, h3⟩ := hr
  unfold read_transfer at h3
  simp only [Prod.mk.injEq] at h3
  obtain ⟨rfl, -, rfl⟩ := h3
  exact read_classify_hard _ _ hd


/-- C11, as stated, fails twice.  A read at a known file number (5) whose
automatic lock absorbs a medium change reaches the transport and reads a
filemark, yet the file counter of the active partition ends at 1, not at 6.
And a read that runs into a filemark at file number 2147483647, the largest
value of the 32-bit counter, leaves the file number at -2147483648, not at
2147483648. -/
theorem read_mark_after_medium_change :
    ((machine_mid true eom_val.no_eof).cur.file = 5
      ∧ (read (host_lock_changed Kind.ReadFile ERROR_FILEMARK_DETECTED 0) 2
            (machine_mid true eom_val.no_eof) 512).map
          (fun x => (x.1, ncalls Kind.ReadFile x.2.2.log, statuses x.2.2.log, x.2.2.cur.file))
        = some (0, 1, [ERROR_FILEMARK_DETECTED, 0, ERROR_MEDIA_CHANGED, 0], 1)
      ∧ (1 : Int) ≠ 5 + 1)
    ∧ (machine_long_max.cur.file = 2147483647
      ∧ (read host_filemark 1 machine_long_max 1024).map
          (fun x => (x.1, x.2.1, statuses x.2.2.log, x.2.2.cur.file))
        = some (0, 512, [ERROR_FILEMARK_DETECTED, 0], -2147483648)
      ∧ (-2147483648 : Int) ≠ 2147483647 + 1) := by
  refine ⟨⟨by decide, ?_, by decide⟩, by decide, ?_, by decide⟩
  · decide
  · decide

/-- C11 (amended): for every read that reaches the transport (medium present,
no recorded bus reset, boundary at none or filemark), whose automatic lock, if
one is taken, is not answered "medium changed", and whose final status is
filemark-detected or setmark-detected: `read` returns success with the bytes
transferred; the active partition stays the same; its file counter is advanced
by one if it was known, in the 32-bit arithmetic of a `long` (`wrapLong`: the
plain sum while the counter is below 2147483647, where it wraps to
-2147483648), and stays unknown otherwise; `fblock` becomes 0; the setmark flag
is true exactly when the status was setmark-detected; and the boundary becomes
filemark-hit if at least one byte was transferred, else filemark. -/
theorem read_mark_detected (h : Host) (fuel : Nat) (m : Machine) (ulen s n : Nat)
    (hfuel : 0 < fuel)
    (hmed : (h.answer Kind.GetTapeStatus (ncalls Kind.GetTapeStatus m.log)).err
      ≠ ERROR_NO_MEDIA_IN_DRIVE)
    (hbus : m.drv.lasterr ≠ ERROR_BUS_RESET)
    (he : m.cur.emark = eom_val.no_eof ∨ m.cur.emark = eom_val.eof)
    (hlock : m.drv.auto_lock = true → m.drv.lock.val < lock_state.auto_locked.val →
      (h.answer Kind.PrepareTape (ncalls Kind.PrepareTape m.log)).err ≠ ERROR_MEDIA_CHANGED)
    (hread : next_read h m = (s, n))
    (hs : s = ERROR_FILEMARK_DETECTED ∨ s = ERROR_SETMARK_DETECTED) :
    ∃ m', read h fuel m ulen = some (0, n, m')
      ∧ m'.drv.partition = m.drv.partition
      ∧ m'.cur.file = (if m.cur.file ≥ 0 then wrapLong (m.cur.file + 1) else m.cur.file)
      ∧ m'.cur.fblock = 0
      ∧ (m'.cur.smark = true ↔ s = ERROR_SETMARK_DETECTED)
      ∧ m'.cur.emark = (if 0 < n then eom_val.eof_hit else eom_val.eof) := by
  obtain ⟨m3, h3, hl, hb, hp, hc⟩ :=
    read_entry_quiet h fuel m ulen s n hfuel hmed hbus he hlock hread
  have hf : IS_EOF (count_blocks (read_io h m3 ulen).2 n).drv.lasterr = true := by
    rw [count_blocks_lasterr, hl]; rcases hs with rfl | rfl <;> decide
  obtain ⟨c1, c2, c3, c4, c5⟩ := read_classify_eof (count_blocks (read_io h m3 ulen).2 n) n hf
  refine ⟨read_classify (count_blocks (read_io h m3 ulen).2 n) n, ?_, ?_, ?_, c3, ?_, c5⟩
  · rw [h3]; unfold read_transfer; simp only [hb, c1]
  · simp [hp]
  · rw [c2, count_blocks_file, read_io_cur, hc]
  · rw [c4, count_blocks_lasterr, hl]
    rcases hs with rfl | rfl <;> decide

/-- C11 (amended) at a concrete transport: the first `ReadFile` transfers 512
bytes and reports a filemark. -/
theorem read_mark_detected_witness :
    ∃ m', read host_filemark 1 machine0 1024 = some (0, 512, m')
      ∧ m'.drv.partition = machine0.drv.partition
      ∧ m'.cur.file
          = (if machine0.cur.file ≥ 0 then wrapLong (machine0.cur.file + 1)
             else machine0.cur.file)
      ∧ m'.cur.fblock = 0
      ∧ (m'.cur.smark = true ↔ ERROR_FILEMARK_DETECTED = ERROR_SETMARK_DETECTED)
      ∧ m'.cur.emark = (if 0 < 512 then eom_val.eof_hit else eom_val.eof) :=
  read_mark_detected host_filemark 1 machine0 1024 ERROR_FILEMARK_DETECTED 512
    (by decide) (by decide) (by decide) (by decide) (by decide) (by decide) (by decide)


/-- C12, as stated, fails: a read entered with the boundary at filemark whose
automatic lock absorbs a medium change reaches the transport and is answered
"no data detected", yet it returns success and leaves the boundary at
end-of-data-hit instead of returning the error with the boundary at
end-of-data. -/
theorem read_end_after_medium_change :
    (machine_mid true eom_val.eof).cur.emark = eom_val.eof
      ∧ (read (host_lock_changed Kind.ReadFile ERROR_NO_DATA_DETECTED 0) 2
            (machine_mid true eom_val.eof) 512).map
          (fun x => (x.1, ncalls Kind.ReadFile x.2.2.log, statuses x.2.2.log, x.2.2.cur.emark))
        = some (0, 1, [ERROR_NO_DATA_DETECTED, 0, ERROR_MEDIA_CHANGED, 0], eom_val.eod_hit)
      ∧ (0 : Nat) ≠ ERROR_NO_DATA_DETECTED ∧ eom_val.eod_hit ≠ eom_val.eod := by
  refine ⟨by decide, ?_, by decide, by decide⟩
  decide

/-- C12 (amended): for every read that reaches the transport (medium present,
no recorded bus reset, boundary at none or filemark), whose automatic lock, if
one is taken, is not answered "medium changed", and whose final status is of
the end-of-data class: if the boundary before the call was filemark, the
boundary becomes end-of-medium (for the two end-of-medium statuses) or
end-of-data and the status is returned; otherwise the boundary becomes
end-of-medium-hit or end-of-data-hit and `read` returns success.  In both cases
the length handed back is the number of bytes transferred. -/
theorem read_end_detected (h : Host) (fuel : Nat) (m : Machine) (ulen s n : Nat)
    (hfuel : 0 < fuel)
    (hmed : (h.answer Kind.GetTapeStatus (ncalls Kind.GetTapeStatus m.log)).err
      ≠ ERROR_NO_MEDIA_IN_DRIVE)
    (hbus : m.drv.lasterr ≠ ERROR_BUS_RESET)
    (he : m.cur.emark = eom_val.no_eof ∨ m.cur.emark = eom_val.eof)
    (hlock : m.drv.auto_lock = true → m.drv.lock.val < lock_state.auto_locked.val →
      (h.answer Kind.PrepareTape (ncalls Kind.PrepareTape m.log)).err ≠ ERROR_MEDIA_CHANGED)
    (hread : next_read h m = (s, n))
    (hs : s = ERROR_NO_DATA_DETECTED ∨ s = ERROR_END_OF_MEDIA ∨ s = ERROR_EOM_OVERFLOW) :
    ∃ ret m', read h fuel m ulen = some (ret, n, m')
      ∧ m'.drv.partition = m.drv.partition
      ∧ (m.cur.emark = eom_val.eof →
          ret = s ∧ m'.cur.emark = (if IS_EOM s then eom_val.eom else eom_val.eod))
      ∧ (m.cur.emark ≠ eom_val.eof →
          ret = 0 ∧ m'.cur.emark = (if IS_EOM s then eom_val.eom_hit else eom_val.eod_hit)) := by
  obtain ⟨m3, h3, hl, hb, hp, hc⟩ :=
    read_entry_quiet h fuel m ulen s n hfuel hmed hbus he hlock hread
  have hl' : (count_blocks (read_io h m3 ulen).2 n).drv.lasterr = s := by
    rw [count_blocks_lasterr, hl]
  have hf : IS_EOD (count_blocks (read_io h m3 ulen).2 n).drv.lasterr = true := by
    rw [hl']; rcases hs with rfl | rfl | rfl <;> decide
  have hem : (count_blocks (read_io h m3 ulen).2 n).cur.emark = m.cur.emark := by
    rw [count_blocks_emark, read_io_cur, hc]
  obtain ⟨ca, cb⟩ := read_classify_eod (count_blocks (read_io h m3 ulen).2 n) n hf
  rw [hem, hl'] at ca cb
  refine ⟨(read_classify (count_blocks (read_io h m3 ulen).2 n) n).drv.lasterr,
    read_classify (count_blocks (read_io h m3 ulen).2 n) n, ?_, ?_, ca, cb⟩
  · rw [h3]; unfold read_transfer; simp only [hb]
  · simp [hp]

/-- C12 (amended) at a concrete transport: the first `ReadFile` of a drive
whose boundary is at filemark is answered "no data detected". -/
theorem read_end_detected_witness :
    ∃ ret m', read (host_once Kind.ReadFile ERROR_NO_DATA_DETECTED 0) 1
          (machine_at eom_val.eof) 1024 = some (ret, 0, m')
      ∧ m'.drv.partition = (machine_at eom_val.eof).drv.partition
      ∧ ((machine_at eom_val.eof).cur.emark = eom_val.eof →
          ret = ERROR_NO_DATA_DETECTED
            ∧ m'.cur.emark = (if IS_EOM ERROR_NO_DATA_DETECTED then eom_val.eom else eom_val.eod))
      ∧ ((machine_at eom_val.eof).cur.emark ≠ eom_val.eof →
          ret = 0 ∧ m'.cur.emark
            = (if IS_EOM ERROR_NO_DATA_DETECTED then eom_val.eom_hit else eom_val.eod_hit)) :=
  read_end_detected (host_once Kind.ReadFile ERROR_NO_DATA_DETECTED 0) 1
    (machine_at eom_val.eof) 1024 ERROR_NO_DATA_DETECTED 0
    (by decide) (by decide) (by decide) (by decide) (by decide) (by decide) (by decide)

/-- C14: for every read that reaches the transport (medium present, no recorded
bus reset, boundary at none or filemark) and whose final status is neither
filemark- or setmark-detected nor of the end-of-data class, the boundary of the
active partition is cleared to none; the status is returned as it is, except
that `ERROR_MORE_DATA` is returned as `ERROR_NOT_ENOUGH_MEMORY`. -/
theorem read_other_status (h : Host) (fuel : Nat) (m : Machine) (ulen s n : Nat)
    (hterm : RetriesEnd h Kind.PrepareTape fuel)
    (hmed : (h.answer Kind.GetTapeStatus (ncalls Kind.GetTapeStatus m.log)).err
      ≠ ERROR_NO_MEDIA_IN_DRIVE)
    (hbus : m.drv.lasterr ≠ ERROR_BUS_RESET)
    (he : m.cur.emark = eom_val.no_eof ∨ m.cur.emark = eom_val.eof)
    (hread : next_read h m = (s, n))
    (hs1 : s ≠ ERROR_FILEMARK_DETECTED ∧ s ≠ ERROR_SETMARK_DETECTED)
    (hs2 : s ≠ ERROR_NO_DATA_DETECTED ∧ s ≠ ERROR_END_OF_MEDIA ∧ s ≠ ERROR_EOM_OVERFLOW) :
    ∃ m', read h fuel m ulen
        = some (if s = ERROR_MORE_DATA then ERROR_NOT_ENOUGH_MEMORY else s, n, m')
      ∧ m'.cur.emark = eom_val.no_eof := by
  obtain ⟨m3, h3, hl, hb⟩ := read_entry h fuel m ulen s n hterm hmed hbus he hread
  have hl' : (count_blocks (read_io h m3 ulen).2 n).drv.lasterr = s := by
    rw [count_blocks_lasterr, hl]
  have h1 : IS_EOF (count_blocks (read_io h m3 ulen).2 n).drv.lasterr = false := by
    rw [hl']
    simp only [ERROR_FILEMARK_DETECTED, ERROR_SETMARK_DETECTED] at hs1
    simp [IS_EOF, hs1.1, hs1.2]
  have h2 : IS_EOD (count_blocks (read_io h m3 ulen).2 n).drv.lasterr = false := by
    rw [hl']
    simp only [ERROR_NO_DATA_DETECTED, ERROR_END_OF_MEDIA, ERROR_EOM_OVERFLOW] at hs2
    simp [IS_EOD, hs2.1, hs2.2.1, hs2.2.2]
  obtain ⟨c1, c2⟩ := read_classify_other (count_blocks (read_io h m3 ulen).2 n) n h1 h2
  rw [hl'] at c1
  refine ⟨read_classify (count_blocks (read_io h m3 ulen).2 n) n, ?_, c2⟩
  rw [h3]; unfold read_transfer; simp only [hb, c1]

/-- C14 at a concrete transport: the first `ReadFile` finds the buffer too
small for the next block. -/
theorem read_other_status_witness :
    ∃ m', read (host_once Kind.ReadFile ERROR_MORE_DATA 0) 1 machine0 16
        = some (if ERROR_MORE_DATA = ERROR_MORE_DATA then ERROR_NOT_ENOUGH_MEMORY
            else ERROR_MORE_DATA, 0, m')
      ∧ m'.cur.emark = eom_val.no_eof :=
  read_other_status (host_once Kind.ReadFile ERROR_MORE_DATA 0) 1 machine0 16 ERROR_MORE_DATA 0
    (fun _ => ⟨0, Nat.zero_lt_one, (by decide : resp0.err ≠ ERROR_MEDIA_CHANGED)⟩)
    (by decide) (by decide) (by decide) (by decide) (by decide) (by decide)

/-- C13 at a concrete drive: a read at the end of data. -/
theorem read_hard_error_boundary_witness :
    ∃ n m', read host0 1 (machine_at eom_val.eod) 512 = some (ERROR_NO_DATA_DETECTED, n, m')
      ∧ m'.cur.emark = (if IS_EOM ERROR_NO_DATA_DETECTED then eom_val.eom else eom_val.eod) := by
  have hr : read host0 1 (machine_at eom_val.eod) 512
      = some (ERROR_NO_DATA_DETECTED, SIZE_MAX,
          (((wait_pending host0
            (exec host0 Call.GetTapeStatus (machine_at eom_val.eod)).2).set_dirty
              dirty_state.clean).set_lasterr ERROR_NO_DATA_DETECTED)) := by
    simp [read, host0, resp0, machine_at, machine0, drive0, Machine.cur, Machine.updPart,
      Machine.updPartAt, mtinfo_drive.setPart, mtinfo_drive.part, mtinfo_part.init]
  exact ⟨_, _, hr, read_hard_error_boundary host0 1 (machine_at eom_val.eod) 512 _ _ _ hr
    (Or.inl rfl)⟩

end mtinfo_drive

/-- A property of the drive that every transport call, status assignment and
re-initialisation keeps is kept by the retry loop. -/
theorem TAPE_FUNC_keeps (h : Host) (func : mtinfo_drive → Call)
    (partition : mtinfo_drive → Int) (P : mtinfo_drive → Prop)
    (hexec : ∀ m e, P m.drv → P ((exec h (func m.drv) m).2.set_lasterr e).drv)
    (hinit : ∀ d n p, P d → P ((d.init d.drive false).setPart n p))
    (fuel : Nat) (m : Machine) (x : Resp × Machine) (hm : P m.drv)
    (hx : TAPE_FUNC h func partition fuel m = some x) : P x.2.drv :=
  TAPE_FUNC_rule h func partition (fun m1 => P m1.drv) (fun x => P x.2.drv)
    (fun m1 h1 _ => hinit _ _ _ (hexec m1 _ h1)) (fun m1 h1 _ => hexec m1 _ h1) fuel m x hm hx

namespace mtinfo_drive

/-- The automatic locking step leaves the pending-write state, the media
parameters and the asynchronous-write option as they are, when no asynchronous
write is outstanding. -/
theorem auto_lock_step_config (h : Host) (fuel : Nat) (m m' : Machine)
    (hx : auto_lock_step h fuel m = some m') (hd : m.drv.dirty = dirty_state.clean) :
    m'.drv.dirty = dirty_state.clean ∧ m'.drv._mp = m.drv._mp
      ∧ m'.drv.async_writes = m.drv.async_writes := by
  unfold auto_lock_step at hx
  split_ifs at hx with hc
  · unfold prepare at hx
    simp only [Option.map_eq_some'] at hx
    obtain ⟨y, ⟨z, hz, rfl⟩, rfl⟩ := hx
    have hw : wait_pending h m = m := wait_pending_clean h m (by rw [hd]; decide)
    rw [hw] at hz
    have hk := TAPE_FUNC_keeps h _ _
      (fun d => d.dirty = dirty_state.clean ∧ d._mp = m.drv._mp
        ∧ d.async_writes = m.drv.async_writes)
      (fun m1 e hp => by simpa using hp)
      (fun d n p hp => by simpa [mtinfo_drive.init, mtinfo_drive.setPart] using hp)
      fuel _ z (by simp) hz
    simpa [TAPE_LOCK, TAPE_FORMAT, TAPE_UNLOAD, TAPE_LOAD, TAPE_TENSION] using hk
  · obtain rfl := Option.some.inj hx
    exact ⟨hd, rfl, rfl⟩


/-! ## The status classification of `write` -/

@[simp] theorem set_lasterr_dirty (m : Machine) (e : Nat) :
    (m.set_lasterr e).drv.dirty = m.drv.dirty := rfl

theorem write_io_ncalls (h : Host) (m : Machine) (len : Nat) :
    ncalls Kind.WriteFile (write_io h m len).2.log = ncalls Kind.WriteFile m.log + 1 := by
  unfold write_io
  simp only []
  split_ifs <;> simp [async_wait, Call.kind]

@[simp] theorem write_io_partition (h : Host) (m : Machine) (len : Nat) :
    (write_io h m len).2.drv.partition = m.drv.partition := by
  unfold write_io; simp only []; split_ifs <;> simp [async_wait]

@[simp] theorem write_io_cur (h : Host) (m : Machine) (len : Nat) :
    (write_io h m len).2.cur = m.cur := by
  unfold write_io; simp only []; split_ifs <;> simp [async_wait]

/-- The outcome of the transport write in terms of the answers of the
transport. -/
theorem write_io_outcome (h : Host) (m : Machine) (len : Nat) :
    ((write_io h m len).2.drv.lasterr, (write_io h m len).1)
      = (if (h.answer Kind.WriteFile (ncalls Kind.WriteFile m.log)).status = ERROR_IO_PENDING
            ∧ ¬ (m.drv.async_writes = true ∧ m.drv._mp.BlockSize = 0) then
          ((h.answer Kind.GetOverlappedResult (ncalls Kind.GetOverlappedResult m.log)).status,
            (h.answer Kind.GetOverlappedResult (ncalls Kind.GetOverlappedResult m.log)).bytes)
        else
          ((h.answer Kind.WriteFile (ncalls Kind.WriteFile m.log)).status,
            (h.answer Kind.WriteFile (ncalls Kind.WriteFile m.log)).bytes)) := by
  unfold write_io
  simp only []
  by_cases h1 : (h.answer Kind.WriteFile (ncalls Kind.WriteFile m.log)).status = ERROR_IO_PENDING
  · have h1' := h1
    simp only [ERROR_IO_PENDING] at h1'
    by_cases h2 : m.drv.async_writes = true ∧ m.drv._mp.BlockSize = 0
    · simp [Call.kind, h1', h2]
    · simp [Call.kind, h1', h2, async_wait]
  · have h1' := h1
    simp only [ERROR_IO_PENDING] at h1'
    simp [Call.kind, h1']

/-- The transport write leaves the pending-write state as it is unless it ends
pending. -/
theorem write_io_dirty (h : Host) (m : Machine) (len : Nat)
    (hp : (write_io h m len).2.drv.lasterr ≠ ERROR_IO_PENDING) :
    (write_io h m len).2.drv.dirty = m.drv.dirty := by
  unfold write_io at hp ⊢
  simp only [] at hp ⊢
  split_ifs at hp ⊢ with h1 h2
  · simp at hp
    simp at h1
    exact absurd h1 hp
  · simp [async_wait, Call.kind]
  · simp

/-- The status that `write` returns: that of the transport write, or that of
the wait for an earlier asynchronous write when the transport write itself
succeeded. -/
theorem write_classify_lasterr (m : Machine) (a : Nat) :
    (write_classify m a).drv.lasterr
      = (if m.drv.lasterr = 0 ∧ a ≠ 0 then a else m.drv.lasterr) := by
  unfold write_classify
  simp only []
  split_ifs <;> simp_all

@[simp] theorem write_classify_partition (m : Machine) (a : Nat) :
    (write_classify m a).drv.partition = m.drv.partition := by
  unfold write_classify
  simp only []
  split_ifs <;> rfl

@[simp] theorem write_classify_log (m : Machine) (a : Nat) :
    (write_classify m a).log = m.log := by
  unfold write_classify
  simp only []
  split_ifs <;> rfl

/-- The boundary and pending-write state after the classification, by final
status. -/
theorem write_classify_spec (m : Machine) (a : Nat) :
    ((write_classify m a).drv.lasterr = ERROR_EOM_OVERFLOW →
        (write_classify m a).cur.emark = eom_val.eom
          ∧ (write_classify m a).drv.dirty = m.drv.dirty)
      ∧ ((write_classify m a).drv.lasterr = ERROR_END_OF_MEDIA →
        (write_classify m a).cur = m.cur)
      ∧ ((write_classify m a).drv.lasterr = 0 →
        (write_classify m a).cur.emark = eom_val.no_eof
          ∧ (write_classify m a).drv.dirty = dirty_state.has_written) := by
  have hl := write_classify_lasterr m a
  unfold write_classify at hl ⊢
  simp only [] at hl ⊢
  split_ifs at hl ⊢ <;> simp_all


/-- A returned `write` either found no medium, or a recorded bus reset, or went
on to the transfer with no asynchronous write outstanding. -/
theorem write_inv (h : Host) (fuel : Nat) (m : Machine) (len ret n : Nat) (m' : Machine)
    (hr : write h fuel m len = some (ret, n, m')) :
    ret = ERROR_NO_MEDIA_IN_DRIVE ∨ ret = ERROR_BUS_RESET
      ∨ ∃ m3 a, write_transfer h m3 len a = (ret, n, m')
          ∧ m3.drv.dirty = dirty_state.clean := by
  unfold write at hr
  simp only [] at hr
  split_ifs at hr with c1 c2
  · simp only [Option.some.injEq, Prod.mk.injEq] at hr
    exact Or.inl hr.1.symm
  · simp only [Option.some.injEq, Prod.mk.injEq] at hr
    exact Or.inr (Or.inl (by rw [← hr.1]; exact c2))
  all_goals
    simp only [Option.map_eq_some'] at hr
    obtain ⟨m3, h3, heq⟩ := hr
    obtain ⟨hd, -, -⟩ := auto_lock_step_config h fuel _ m3 h3 (by simp)
    exact Or.inr (Or.inr ⟨m3, _, heq, hd⟩)

/-- Entry of the transport write: a `write` that finds a medium and no recorded
bus reset hands over to the transfer.  When the lock request is not answered
"medium changed", the active partition is still the same and its record is
untouched but for the cleared setmark flag. -/
theorem write_entry (h : Host) (fuel : Nat) (m : Machine) (len : Nat)
    (hterm : RetriesEnd h Kind.PrepareTape fuel)
    (hmed : (h.answer Kind.GetTapeStatus (ncalls Kind.GetTapeStatus m.log)).err
      ≠ ERROR_NO_MEDIA_IN_DRIVE)
    (hbus : m.drv.lasterr ≠ ERROR_BUS_RESET) :
    ∃ m3, write h fuel m len
        = some (write_transfer h m3 len
            (if m.drv.dirty = dirty_state.async_write_pending then
              (h.answer Kind.GetOverlappedResult (ncalls Kind.GetOverlappedResult m.log)).status
            else 0))
      ∧ ncalls Kind.WriteFile m3.log = ncalls Kind.WriteFile m.log
      ∧ ncalls Kind.GetOverlappedResult m3.log = ncalls Kind.GetOverlappedResult m.log
          + (if m.drv.dirty = dirty_state.async_write_pending then 1 else 0)
      ∧ m3.drv._mp = m.drv._mp ∧ m3.drv.async_writes = m.drv.async_writes
      ∧ ((m.drv.auto_lock = true → m.drv.lock.val < lock_state.auto_locked.val →
            (h.answer Kind.PrepareTape (ncalls Kind.PrepareTape m.log)).err
              ≠ ERROR_MEDIA_CHANGED) →
          m3.drv.partition = m.drv.partition
            ∧ m3.cur = { m.cur with smark := false }) := by
  simp only [ERROR_NO_MEDIA_IN_DRIVE, ERROR_BUS_RESET] at hmed hbus
  by_cases hp : m.drv.dirty = dirty_state.async_write_pending
  · obtain ⟨m3, h3, hn⟩ := auto_lock_step_spec h fuel
      (((exec h Call.GetOverlappedResult (exec h Call.GetTapeStatus m).2).2.set_dirty
          dirty_state.clean).updPart
        fun p => { p with smark := false }) hterm (by simp)
    obtain ⟨-, hmp, has⟩ := auto_lock_step_config h fuel _ m3 h3 (by simp)
    refine ⟨m3, ?_, ?_, ?_, ?_, ?_, ?_⟩
    · simp [write, Call.kind, hmed, hbus, hp, h3, async_wait]
    · rw [hn _ (by decide)]; simp [async_wait, Call.kind]
    · rw [hn _ (by decide)]; simp [async_wait, Call.kind, hp]
    · rw [hmp]; simp [async_wait]
    · rw [has]; simp [async_wait]
    · intro hlock
      have hfuel : 0 < fuel := by
        obtain ⟨j, hj, _⟩ := hterm 0
        omega
      obtain ⟨m3', h3', hq, hparts, _⟩ := auto_lock_step_quiet h fuel
        (((exec h Call.GetOverlappedResult (exec h Call.GetTapeStatus m).2).2.set_dirty
          dirty_state.clean).updPart
          fun p => { p with smark := false }) hfuel (by simp)
        (by simpa [async_wait, Call.kind] using hlock)
      have hm : m3 = m3' := Option.some.inj (h3.symm.trans h3')
      subst hm
      refine ⟨by simpa [async_wait] using hq, ?_⟩
      have hc : m3.cur = m3.drv._part m3.drv.partition := rfl
      rw [hc, hparts, hq]
      simp [Machine.updPart, Machine.updPartAt, mtinfo_drive.setPart, mtinfo_drive.part,
        Machine.cur, async_wait]
  · obtain ⟨m3, h3, hn⟩ := auto_lock_step_spec h fuel
      (((exec h Call.GetTapeStatus m).2.set_dirty dirty_state.clean).updPart
        fun p => { p with smark := false }) hterm (by simp)
    obtain ⟨-, hmp, has⟩ := auto_lock_step_config h fuel _ m3 h3 (by simp)
    refine ⟨m3, ?_, ?_, ?_, ?_, ?_, ?_⟩
    · simp [write, Call.kind, hmed, hbus, hp, h3]
    · rw [hn _ (by decide)]; simp [Call.kind]
    · rw [hn _ (by decide)]; simp [Call.kind, hp]
    · rw [hmp]; simp
    · rw [has]; simp
    · intro hlock
      have hfuel : 0 < fuel := by
        obtain ⟨j, hj, _⟩ := hterm 0
        omega
      obtain ⟨m3', h3', hq, hparts, _⟩ := auto_lock_step_quiet h fuel
        (((exec h Call.GetTapeStatus m).2.set_dirty dirty_state.clean).updPart
          fun p => { p with smark := false }) hfuel (by simp)
        (by simpa [Call.kind] using hlock)
      have hm : m3 = m3' := Option.some.inj (h3.symm.trans h3')
      subst hm
      refine ⟨by simpa using hq, ?_⟩
      have hc : m3.cur = m3.drv._part m3.drv.partition := rfl
      rw [hc, hparts, hq]
      simp [Machine.updPart, Machine.updPartAt, mtinfo_drive.setPart, mtinfo_drive.part,
        Machine.cur]


theorem write_transfer_ncalls (h : Host) (m : Machine) (len a : Nat) :
    ncalls Kind.WriteFile (write_transfer h m len a).2.2.log
      = ncalls Kind.WriteFile m.log + 1 := by
  unfold write_transfer
  simp [write_io_ncalls]

/-- C15, as stated, fails: a write entered with the boundary at filemark whose
automatic lock absorbs a medium change reaches the transport and ends with
plain end-of-medium, yet the boundary is not left as it was before the write:
it is none. -/
theorem write_end_after_medium_change :
    (machine_mid true eom_val.eof).cur.emark = eom_val.eof
      ∧ (write (host_lock_changed Kind.WriteFile ERROR_END_OF_MEDIA 0) 2
            (machine_mid true eom_val.eof) 512).map
          (fun x => (x.1, ncalls Kind.WriteFile x.2.2.log, statuses x.2.2.log, x.2.2.cur.emark))
        = some (ERROR_END_OF_MEDIA, 1, [ERROR_END_OF_MEDIA, 0, ERROR_MEDIA_CHANGED, 0],
            eom_val.no_eof)
      ∧ eom_val.no_eof ≠ eom_val.eof := by
  refine ⟨by decide, ?_, by decide⟩
  decide

/-- C15 (amended): every write that reaches the transport (medium present, no
recorded bus reset) returns its final status, after exactly one `WriteFile`.
If that status is `ERROR_EOM_OVERFLOW`, the boundary becomes non-hit
end-of-medium; if it is `ERROR_END_OF_MEDIA` and the automatic lock of this
call, if one is taken, is not answered "medium changed", the active partition
and its boundary are left as they were before the write; if it is success, the
boundary becomes none and the pending-write state becomes has-written. -/
theorem write_boundary (h : Host) (fuel : Nat) (m : Machine) (len : Nat)
    (hterm : RetriesEnd h Kind.PrepareTape fuel)
    (hmed : (h.answer Kind.GetTapeStatus (ncalls Kind.GetTapeStatus m.log)).err
      ≠ ERROR_NO_MEDIA_IN_DRIVE)
    (hbus : m.drv.lasterr ≠ ERROR_BUS_RESET) :
    ∃ ret n m', write h fuel m len = some (ret, n, m')
      ∧ ncalls Kind.WriteFile m'.log = ncalls Kind.WriteFile m.log + 1
      ∧ (ret = ERROR_EOM_OVERFLOW → m'.cur.emark = eom_val.eom)
      ∧ (ret = ERROR_END_OF_MEDIA →
          (m.drv.auto_lock = true → m.drv.lock.val < lock_state.auto_locked.val →
            (h.answer Kind.PrepareTape (ncalls Kind.PrepareTape m.log)).err
              ≠ ERROR_MEDIA_CHANGED) →
          m'.drv.partition = m.drv.partition ∧ m'.cur.emark = m.cur.emark)
      ∧ (ret = 0 →
          m'.cur.emark = eom_val.no_eof ∧ m'.drv.dirty = dirty_state.has_written) := by
  obtain ⟨m3, h3, hwf, -, -, -, hq⟩ := write_entry h fuel m len hterm hmed hbus
  obtain ⟨s1, s2, s3⟩ := write_classify_spec
    (count_blocks (write_io h m3 len).2 (write_io h m3 len).1)
    (if m.drv.dirty = dirty_state.async_write_pending then
      (h.answer Kind.GetOverlappedResult (ncalls Kind.GetOverlappedResult m.log)).status
    else 0)
  refine ⟨_, _, _, h3, ?_, ?_, ?_, ?_⟩
  · simp [write_io_ncalls, hwf]
  · intro hr; exact (s1 hr).1
  · intro hr hlock
    obtain ⟨hp, hc⟩ := hq hlock
    refine ⟨by simp [hp], ?_⟩
    rw [s2 hr, count_blocks_emark, write_io_cur, hc]
  · intro hr; exact s3 hr

/-- C15 (amended) at a concrete transport: the first `WriteFile` of a drive
whose boundary is at filemark ends with plain end-of-medium. -/
theorem write_boundary_witness :
    ∃ ret n m', write (host_once Kind.WriteFile ERROR_END_OF_MEDIA 0) 1
          (machine_at eom_val.eof) 512 = some (ret, n, m')
      ∧ ncalls Kind.WriteFile m'.log = ncalls Kind.WriteFile (machine_at eom_val.eof).log + 1
      ∧ (ret = ERROR_EOM_OVERFLOW → m'.cur.emark = eom_val.eom)
      ∧ (ret = ERROR_END_OF_MEDIA →
          m'.drv.partition = (machine_at eom_val.eof).drv.partition
            ∧ m'.cur.emark = (machine_at eom_val.eof).cur.emark)
      ∧ (ret = 0 →
          m'.cur.emark = eom_val.no_eof ∧ m'.drv.dirty = dirty_state.has_written) := by
  obtain ⟨ret, n, m', h1, h2, h3, h4, h5⟩ := write_boundary
    (host_once Kind.WriteFile ERROR_END_OF_MEDIA 0) 1 (machine_at eom_val.eof) 512
    (fun _ => ⟨0, Nat.zero_lt_one, (by decide : resp0.err ≠ ERROR_MEDIA_CHANGED)⟩)
    (by decide) (by decide)
  exact ⟨ret, n, m', h1, h2, h3, fun hr => h4 hr (by decide), h5⟩

/-- C16, as stated, fails: after a write that ended with the overflow-class
end-of-medium result (boundary at non-hit end-of-medium), a further write with
nothing in between succeeds when the transport answers it with success. -/
theorem write_succeeds_after_overflow :
    (write (host_once Kind.WriteFile ERROR_EOM_OVERFLOW 0) 1 machine0 512).map
        (fun x => (x.1, x.2.2.cur.emark)) = some (ERROR_EOM_OVERFLOW, eom_val.eom)
      ∧ ((write (host_once Kind.WriteFile ERROR_EOM_OVERFLOW 0) 1 machine0 512).bind
          fun x => (write (host_once Kind.WriteFile ERROR_EOM_OVERFLOW 0) 1 x.2.2 512).map
            fun y => (y.1, ncalls Kind.WriteFile y.2.2.log)) = some (0, 2) := by
  constructor <;> decide

/-- C16 (amended): after a write that ended with the overflow-class
end-of-medium result the boundary is non-hit end-of-medium, and a further write
issued with nothing in between (the medium still present) is handed to the
transport all the same: it issues one `WriteFile` and returns the final status
and byte count of that transport write, so it fails exactly when the transport
write fails; when the transport write succeeds, the boundary is cleared to
none. -/
theorem write_after_overflow (h : Host) (fuel : Nat) (m : Machine) (len1 n1 : Nat)
    (m1 : Machine) (len2 : Nat)
    (hterm : RetriesEnd h Kind.PrepareTape fuel)
    (h1 : write h fuel m len1 = some (ERROR_EOM_OVERFLOW, n1, m1))
    (hmed : (h.answer Kind.GetTapeStatus (ncalls Kind.GetTapeStatus m1.log)).err
      ≠ ERROR_NO_MEDIA_IN_DRIVE) :
    m1.cur.emark = eom_val.eom
      ∧ ∃ m2, write h fuel m1 len2 = some ((next_write h m1).1, (next_write h m1).2, m2)
          ∧ ncalls Kind.WriteFile m2.log = ncalls Kind.WriteFile m1.log + 1
          ∧ ((next_write h m1).1 = 0 →
              m2.cur.emark = eom_val.no_eof ∧ m2.drv.dirty = dirty_state.has_written) := by
  rcases write_inv h fuel m len1 _ n1 m1 h1 with hc | hc | ⟨m3, a, ht, hd⟩
  · exact absurd hc (by decide)
  · exact absurd hc (by decide)
  unfold write_transfer at ht
  simp only [Prod.mk.injEq] at ht
  obtain ⟨hl, -, hm1⟩ := ht
  obtain ⟨s1, -, -⟩ := write_classify_spec
    (count_blocks (write_io h m3 len1).2 (write_io h m3 len1).1) a
  obtain ⟨e1, e2⟩ := s1 hl
  have hio : (write_io h m3 len1).2.drv.lasterr ≠ ERROR_IO_PENDING := by
    intro hp
    rw [write_classify_lasterr, count_blocks_lasterr, hp] at hl
    revert hl
    simp
  rw [count_blocks_dirty, write_io_dirty h m3 len1 hio, hd] at e2
  rw [hm1] at hl e1 e2
  refine ⟨e1, ?_⟩
  obtain ⟨m4, h4, hwf, hgo, hmp, has, -⟩ := write_entry h fuel m1 len2 hterm hmed
    (by rw [hl]; decide)
  have hnp : ¬ (m1.drv.dirty = dirty_state.async_write_pending) := by rw [e2]; decide
  rw [if_neg hnp] at h4 hgo
  have ho := write_io_outcome h m4 len2
  rw [hwf, hgo, hmp, has] at ho
  have hnw : next_write h m1 = ((write_io h m4 len2).2.drv.lasterr, (write_io h m4 len2).1) := by
    rw [ho]; unfold next_write; simp only [if_neg hnp]
  obtain ⟨-, -, s3⟩ := write_classify_spec
    (count_blocks (write_io h m4 len2).2 (write_io h m4 len2).1) 0
  have hfin : (write_classify (count_blocks (write_io h m4 len2).2 (write_io h m4 len2).1)
      0).drv.lasterr = (write_io h m4 len2).2.drv.lasterr := by
    rw [write_classify_lasterr, count_blocks_lasterr]; simp
  refine ⟨(write_transfer h m4 len2 0).2.2, ?_, ?_, ?_⟩
  · rw [h4, hnw]; unfold write_transfer; simp only [hfin]
  · rw [write_transfer_ncalls, hwf]
  · intro hz
    rw [hnw] at hz
    exact s3 (by rw [hfin]; exact hz)

/-- C16 (amended) at a concrete transport: the first `WriteFile` runs over the
end of the medium, the second one is answered with success. -/
theorem write_after_overflow_witness :
    ∃ n1 m1, write (host_once Kind.WriteFile ERROR_EOM_OVERFLOW 0) 1 machine0 512
        = some (ERROR_EOM_OVERFLOW, n1, m1)
      ∧ m1.cur.emark = eom_val.eom
      ∧ ∃ m2, write (host_once Kind.WriteFile ERROR_EOM_OVERFLOW 0) 1 m1 512
            = some ((next_write (host_once Kind.WriteFile ERROR_EOM_OVERFLOW 0) m1).1,
                (next_write (host_once Kind.WriteFile ERROR_EOM_OVERFLOW 0) m1).2, m2)
          ∧ ncalls Kind.WriteFile m2.log = ncalls Kind.WriteFile m1.log + 1
          ∧ ((next_write (host_once Kind.WriteFile ERROR_EOM_OVERFLOW 0) m1).1 = 0 →
              m2.cur.emark = eom_val.no_eof ∧ m2.drv.dirty = dirty_state.has_written) := by
  obtain ⟨x, hx⟩ : ∃ x, write (host_once Kind.WriteFile ERROR_EOM_OVERFLOW 0) 1 machine0 512
      = some x := by
    cases hw : write (host_once Kind.WriteFile ERROR_EOM_OVERFLOW 0) 1 machine0 512 with
    | none => exact absurd (congrArg Option.isSome hw) (by decide)
    | some x => exact ⟨x, rfl⟩
  have h1 : x.1 = ERROR_EOM_OVERFLOW := by
    have : ((write (host_once Kind.WriteFile ERROR_EOM_OVERFLOW 0) 1 machine0 512).map
        fun x => x.1) = some ERROR_EOM_OVERFLOW := by decide
    rw [hx] at this
    exact Option.some.inj this
  have hw : write (host_once Kind.WriteFile ERROR_EOM_OVERFLOW 0) 1 machine0 512
      = some (ERROR_EOM_OVERFLOW, x.2.1, x.2.2) := by rw [hx, ← h1]
  exact ⟨x.2.1, x.2.2, hw,
    write_after_overflow (host_once Kind.WriteFile ERROR_EOM_OVERFLOW 0) 1 machine0 512
      x.2.1 x.2.2 512
      (fun _ => ⟨0, Nat.zero_lt_one, (by decide : resp0.err ≠ ERROR_MEDIA_CHANGED)⟩)
      hw (by simp [host_once, host0, resp0])⟩

end mtinfo_drive

/-! ## Positioning: zero counts and rewinds -/

/-- The last event of a returned retry loop is the call whose answer it hands
back, and at least one call was made. -/
theorem TAPE_FUNC_last (h : Host) (c : Call) (partition : mtinfo_drive → Int)
    (fuel : Nat) (m : Machine) (x : Resp × Machine)
    (hx : TAPE_FUNC h (fun _ => c) partition fuel m = some x) :
    (∃ rest, x.2.log = Event.call c x.1 :: rest)
      ∧ ncalls c.kind m.log < ncalls c.kind x.2.log :=
  TAPE_FUNC_rule h (fun _ => c) partition
    (fun m1 => ncalls c.kind m.log ≤ ncalls c.kind m1.log)
    (fun x => (∃ rest, x.2.log = Event.call c x.1 :: rest)
      ∧ ncalls c.kind m.log < ncalls c.kind x.2.log)
    (fun m1 h1 _ => by
      show ncalls c.kind m.log ≤ ncalls c.kind (cycle h (fun _ => c) partition m1).log
      rw [cycle_log, ncalls_reinit, ncalls_call, if_pos rfl]
      exact Nat.le_succ_of_le h1)
    (fun m1 h1 _ => ⟨⟨_, attempt_log h _ m1⟩, by
      show ncalls c.kind m.log < ncalls c.kind (attempt h (fun _ => c) m1).2.log
      rw [attempt_log, ncalls_call, if_pos rfl]
      exact Nat.lt_succ_of_le h1⟩)
    fuel m x (le_refl _) hx

namespace mtinfo_drive

/-- A returned positioning call made no position query. -/
theorem _set_pos_ncalls (h : Host) (fuel : Nat) (m : Machine) (mode count partition : Int)
    (dw : Bool) (x : Nat × Machine)
    (hx : _set_pos h fuel m mode count partition dw = some x) :
    ncalls Kind.GetTapePosition x.2.log = ncalls Kind.GetTapePosition m.log := by
  unfold _set_pos at hx
  simp only [Option.map_eq_some'] at hx
  obtain ⟨y, hy, rfl⟩ := hx
  obtain ⟨_, _, _, hn, _⟩ := TAPE_FUNC_frame h _ _ fuel _ y hy
  rw [hn _ (by simp [Call.kind]), set_dirty_log, wait_pending_ncalls h m _ (by decide)]

/-- What a returned position query leaves behind: its last event is the query
whose answer it used; on success the block is the one reported, on failure it
is unknown and partition 0 is active. -/
theorem get_pos_result (h : Host) (fuel : Nat) (m : Machine) (ret : Nat) (m' : Machine)
    (hg : get_pos h fuel m = some (ret, m')) :
    ∃ t r rest, m'.log = Event.call (Call.GetTapePosition t) r :: rest
      ∧ ret = r.err
      ∧ m'.drv.block = (if r.err = 0 then toLong r.low else -1)
      ∧ (r.err ≠ 0 → m'.drv.partition = 0)
      ∧ ncalls Kind.GetTapePosition m.log < ncalls Kind.GetTapePosition m'.log := by
  unfold get_pos at hg
  simp only [Option.bind_eq_some] at hg
  obtain ⟨x1, h1, x2, h2, h3⟩ := hg
  obtain ⟨_, hl1, _, _, _⟩ := TAPE_FUNC_frame h _ _ fuel m x1 h1
  obtain ⟨⟨rest1, hr1⟩, hn1⟩ := TAPE_FUNC_last h _ _ fuel m x1 h1
  have key : ∃ t rest, x2.2.log = Event.call (Call.GetTapePosition t) x2.1 :: rest
      ∧ x2.2.drv.lasterr = x2.1.err
      ∧ ncalls Kind.GetTapePosition m.log < ncalls Kind.GetTapePosition x2.2.log := by
    split_ifs at h2 with hc
    · obtain ⟨_, hl2, _, _, _⟩ := TAPE_FUNC_frame h _ _ fuel x1.2 x2 h2
      obtain ⟨⟨rest2, hr2⟩, hn2⟩ := TAPE_FUNC_last h _ _ fuel x1.2 x2 h2
      exact ⟨_, rest2, hr2, hl2, lt_trans hn1 hn2⟩
    · obtain rfl := Option.some.inj h2
      exact ⟨_, rest1, hr1, hl1, hn1⟩
  obtain ⟨t, rest, hlog, hl, hn⟩ := key
  refine ⟨t, x2.1, rest, ?_⟩
  split_ifs at h3 with hz hp <;>
    · simp only [Option.some.injEq, Prod.mk.injEq] at h3
      obtain ⟨rfl, rfl⟩ := h3
      rw [hl] at hz
      exact ⟨hlog, by simp [hl], by simp [hz], by simp [hz], hn⟩


/-- C17: in each of the three relative modes (space by filemarks, by relative
blocks, by setmarks) `set_pos` with `count = 0` returns success, makes no
transport call, and leaves the active partition index, the absolute block,
every partition record and the pending-write state unchanged. -/
theorem set_pos_zero_count (h : Host) (fuel : Nat) (m : Machine) (sfm_func : Bool) :
    ∃ m', set_pos h fuel m TAPE_SPACE_FILEMARKS 0 sfm_func = some (0, m')
      ∧ set_pos h fuel m TAPE_SPACE_RELATIVE_BLOCKS 0 sfm_func = some (0, m')
      ∧ set_pos h fuel m TAPE_SPACE_SETMARKS 0 sfm_func = some (0, m')
      ∧ m'.log = m.log
      ∧ m'.drv.partition = m.drv.partition
      ∧ m'.drv.block = m.drv.block
      ∧ m'.drv._part = m.drv._part
      ∧ m'.drv.dirty = m.drv.dirty :=
  ⟨m.set_lasterr 0, by simp [set_pos, set_pos_body], by simp [set_pos, set_pos_body],
    by simp [set_pos, set_pos_body], rfl, rfl, rfl, rfl, rfl⟩

/-- The rewind mode of `set_pos`: the positioning call followed by the
`case TAPE_REWIND:` bookkeeping. -/
theorem rewind_unfold (h : Host) (fuel : Nat) (m : Machine) (count : Int)
    (sfm_func : Bool) :
    set_pos h fuel m TAPE_REWIND count sfm_func
      = (_set_pos h fuel m TAPE_REWIND count 0 m.drv.nowait).bind fun x =>
          (post_rewind h fuel x.2 x.1).map fun b => (b.1, b.2.set_lasterr b.1) := by
  simp only [set_pos, set_pos_body, set_pos_post, TAPE_REWIND, TAPE_SPACE_RELATIVE_BLOCKS,
    TAPE_SPACE_FILEMARKS, TAPE_SPACE_SETMARKS, TAPE_ABSOLUTE_BLOCK, TAPE_LOGICAL_BLOCK]
  simp
  generalize _set_pos h fuel m 0 count 0 m.drv.nowait = X
  cases X <;> rfl

/-- C18: `set_pos` in rewind mode returns the status of its one completed
rewind call.  When that status is success, no position query is made and the
absolute block is 0 and the active partition is at block 0, file 0, fblock 0,
setmark false, boundary none.  When it is a failure, a position query is made
after the rewind: the trace ends with the query whose answer was used, the
absolute block is the one it reported (unknown if the query failed) and the
active partition is initialised from that block. -/
theorem set_pos_rewind (h : Host) (fuel : Nat) (m : Machine) (count : Int) (sfm_func : Bool)
    (hterm : AllRetriesEnd h fuel) :
    ∃ ret m', set_pos h fuel m TAPE_REWIND count sfm_func = some (ret, m')
      ∧ issued is_set_pos m'.log
          = (Call.SetTapePosition TAPE_REWIND 0 count m.drv.nowait, ret)
              :: issued is_set_pos m.log
      ∧ (ret = 0 →
          ncalls Kind.GetTapePosition m'.log = ncalls Kind.GetTapePosition m.log
            ∧ m'.drv.block = 0
            ∧ m'.cur = { block := 0, file := 0, fblock := 0, smark := false,
                         emark := eom_val.no_eof })
      ∧ (ret ≠ 0 →
          ncalls Kind.GetTapePosition m.log < ncalls Kind.GetTapePosition m'.log
            ∧ (∃ t r rest, m'.log = Event.call (Call.GetTapePosition t) r :: rest
                ∧ m'.drv.block = (if r.err = 0 then toLong r.low else -1))
            ∧ m'.cur = mtinfo_part.init m'.drv.block) := by
  obtain ⟨ret, m1, h1, -, -⟩ := _set_pos_ok h fuel m TAPE_REWIND count 0 m.drv.nowait
    (hterm _)
  obtain ⟨-, -, hi, -⟩ := _set_pos_frame h fuel m _ _ _ _ _ h1
  have hi1 := hi is_set_pos rfl
  have hn1 := _set_pos_ncalls h fuel m _ _ _ _ _ h1
  simp only [is_set_pos, if_true, List.singleton_append] at hi1
  rw [rewind_unfold, h1, Option.some_bind]
  by_cases hz : ret = 0
  · refine ⟨ret, (reset_to_bot m1).set_lasterr ret, ?_, ?_, ?_, fun hne => absurd hz hne⟩
    · simp [post_rewind, hz]
    · simpa [reset_to_bot] using hi1
    · intro _
      refine ⟨by simpa [reset_to_bot] using hn1, rfl, ?_⟩
      simp [reset_to_bot, mtinfo_part.init]
  · obtain ⟨m2, h2, -, hi2, -⟩ := requery_spec h fuel m1 (hterm _)
    have hq := h2
    unfold requery at hq
    simp only [Option.map_eq_some'] at hq
    obtain ⟨y, hy, rfl⟩ := hq
    obtain ⟨t, r, rest, hlog, -, hb, -, hn⟩ := get_pos_result h fuel m1 y.1 y.2 hy
    refine ⟨ret, (y.2.updPart fun _ => mtinfo_part.init y.2.drv.block).set_lasterr ret,
      ?_, ?_, fun he => absurd he hz, ?_⟩
    · simp [post_rewind, hz, h2]
    · have := hi2 is_set_pos (fun _ => rfl)
      rw [set_lasterr_log, this, hi1]
    · intro _
      refine ⟨?_, ⟨t, r, rest, by simpa using hlog, by simpa using hb⟩, ?_⟩
      · rw [← hn1]; simpa using hn
      · simp

/-- C18 at a concrete request: a rewind from the middle of the sixth file on a
transport that answers every call with success. -/
theorem set_pos_rewind_witness :
    ∃ ret m', set_pos host0 1 (machine_mid false eom_val.no_eof) TAPE_REWIND 0 false
        = some (ret, m')
      ∧ issued is_set_pos m'.log
          = (Call.SetTapePosition TAPE_REWIND 0 0 (machine_mid false eom_val.no_eof).drv.nowait,
              ret) :: issued is_set_pos (machine_mid false eom_val.no_eof).log
      ∧ (ret = 0 →
          ncalls Kind.GetTapePosition m'.log
              = ncalls Kind.GetTapePosition (machine_mid false eom_val.no_eof).log
            ∧ m'.drv.block = 0
            ∧ m'.cur = { block := 0, file := 0, fblock := 0, smark := false,
                         emark := eom_val.no_eof })
      ∧ (ret ≠ 0 →
          ncalls Kind.GetTapePosition (machine_mid false eom_val.no_eof).log
              < ncalls Kind.GetTapePosition m'.log
            ∧ (∃ t r rest, m'.log = Event.call (Call.GetTapePosition t) r :: rest
                ∧ m'.drv.block = (if r.err = 0 then toLong r.low else -1))
            ∧ m'.cur = mtinfo_part.init m'.drv.block) :=
  set_pos_rewind host0 1 (machine_mid false eom_val.no_eof) 0 false
    (fun _ _ => ⟨0, Nat.zero_lt_one, (by decide : resp0.err ≠ ERROR_MEDIA_CHANGED)⟩)


/-! ## Positioning on a transport that reports no medium change -/

/-- A positioning call whose first attempt is not answered "medium changed":
it returns that answer's status and leaves the positions and partition records
as they are. -/
theorem _set_pos_first (h : Host) (fuel : Nat) (m : Machine) (mode count partition : Int)
    (dw : Bool) (hfuel : 0 < fuel)
    (hq : (h.answer Kind.SetTapePosition (ncalls Kind.SetTapePosition m.log)).err
      ≠ ERROR_MEDIA_CHANGED) :
    ∃ m', _set_pos h fuel m mode count partition dw
        = some ((h.answer Kind.SetTapePosition (ncalls Kind.SetTapePosition m.log)).err, m')
      ∧ m'.drv.partition = m.drv.partition ∧ m'.drv._part = m.drv._part
      ∧ m'.drv.block = m.drv.block
      ∧ ncalls Kind.SetTapePosition m'.log = ncalls Kind.SetTapePosition m.log + 1
      ∧ ncalls Kind.GetTapePosition m'.log = ncalls Kind.GetTapePosition m.log := by
  obtain ⟨f, rfl⟩ : ∃ f, fuel = f + 1 := ⟨fuel - 1, by omega⟩
  have hn : ncalls Kind.SetTapePosition (wait_pending h m).log
      = ncalls Kind.SetTapePosition m.log := wait_pending_ncalls h m _ (by decide)
  have hg : ncalls Kind.GetTapePosition (wait_pending h m).log
      = ncalls Kind.GetTapePosition m.log := wait_pending_ncalls h m _ (by decide)
  unfold _set_pos
  simp only []
  rw [TAPE_FUNC_first]
  · refine ⟨(attempt h (fun _ => Call.SetTapePosition mode partition count dw)
        ((wait_pending h m).set_dirty dirty_state.clean)).2, ?_, ?_, ?_, ?_, ?_, ?_⟩
    · simp [attempt, Call.kind, hn]
    · simp [attempt]
    · simp [attempt]
    · simp [attempt]
    · simp [attempt, Call.kind, hn]
    · simp [attempt, Call.kind, hg]
  · simpa [attempt, Call.kind, hn] using hq

/-- The relative-blocks mode of `set_pos` with a non-zero count: the
positioning call followed by the `case TAPE_SPACE_RELATIVE_BLOCKS:`
bookkeeping. -/
theorem relative_unfold (h : Host) (fuel : Nat) (m : Machine) (count : Int)
    (sfm_func : Bool) (hc : count ≠ 0) :
    set_pos h fuel m TAPE_SPACE_RELATIVE_BLOCKS count sfm_func
      = (_set_pos h fuel m TAPE_SPACE_RELATIVE_BLOCKS count 0 false).bind fun x =>
          (post_relative_blocks h fuel x.2 count x.1).map fun b =>
            (b.1, b.2.set_lasterr b.1) := by
  simp only [set_pos, set_pos_body, set_pos_post, TAPE_REWIND, TAPE_SPACE_RELATIVE_BLOCKS,
    TAPE_SPACE_FILEMARKS, TAPE_SPACE_SETMARKS, TAPE_ABSOLUTE_BLOCK, TAPE_LOGICAL_BLOCK,
    TAPE_SPACE_END_OF_DATA]
  simp [hc]
  generalize _set_pos h fuel m 5 count 0 false = X
  cases X <;> rfl


/-- C20, as stated, fails twice.  A request to space four blocks forward from
block 50 that the transport answers "medium changed" once and then completes
with success leaves the absolute block at 3 and the block of the active
partition at 4, not at 54.  And a request to space 2147483647 blocks forward
from block 50, completed with success at once, leaves both block counters at
-2147483599, not at 2147483697: the sum wraps in the 32-bit counter. -/
theorem set_pos_relative_after_medium_change :
    (machine_mid false eom_val.no_eof).drv.block = 50
      ∧ (machine_mid false eom_val.no_eof).cur.block = 50
      ∧ ((set_pos host_pos_changed 2 (machine_mid false eom_val.no_eof)
            TAPE_SPACE_RELATIVE_BLOCKS 4 false).map
          (fun x => (x.1, statuses x.2.log, x.2.drv.block, x.2.cur.block))
        = some (0, [0, ERROR_MEDIA_CHANGED], 3, 4)
        ∧ (3 : Int) ≠ 50 + 4 ∧ (4 : Int) ≠ 50 + 4)
      ∧ ((set_pos host0 1 (machine_mid false eom_val.no_eof)
            TAPE_SPACE_RELATIVE_BLOCKS 2147483647 false).map
          (fun x => (x.1, statuses x.2.log, x.2.drv.block, x.2.cur.block))
        = some (0, [0], -2147483599, -2147483599)
        ∧ (-2147483599 : Int) ≠ 50 + 2147483647) := by
  refine ⟨by decide, by decide, ⟨?_, by decide, by decide⟩, ?_, by decide⟩
  · decide
  · decide

/-- C20 (amended): for every space-by-relative-blocks request with `count ≠ 0`
that the transport completes with success at the first attempt (no medium
change is reported): `set_pos` returns success after that one positioning
call, the active partition stays the same, the absolute block and the active
partition's block are each advanced by `count` in the 32-bit arithmetic of a
`long` (`wrapLong`: the plain sum while it lies between -2147483648 and
2147483647, wrapped around otherwise), `fblock` is advanced in the same way
when known and stays unknown otherwise, the file counter is unchanged, the
setmark flag is cleared and the boundary becomes none. -/
theorem set_pos_relative_blocks (h : Host) (fuel : Nat) (m : Machine) (count : Int)
    (sfm_func : Bool) (hfuel : 0 < fuel) (hc : count ≠ 0)
    (hok : (h.answer Kind.SetTapePosition (ncalls Kind.SetTapePosition m.log)).err = 0) :
    ∃ m', set_pos h fuel m TAPE_SPACE_RELATIVE_BLOCKS count sfm_func = some (0, m')
      ∧ ncalls Kind.SetTapePosition m'.log = ncalls Kind.SetTapePosition m.log + 1
      ∧ m'.drv.partition = m.drv.partition
      ∧ m'.drv.block = wrapLong (m.drv.block + count)
      ∧ m'.cur.block = wrapLong (m.cur.block + count)
      ∧ m'.cur.fblock
          = (if m.cur.fblock ≥ 0 then wrapLong (m.cur.fblock + count) else m.cur.fblock)
      ∧ m'.cur.file = m.cur.file
      ∧ m'.cur.smark = false
      ∧ m'.cur.emark = eom_val.no_eof := by
  obtain ⟨m1, h1, hp, hparts, hb, hn, -⟩ := _set_pos_first h fuel m TAPE_SPACE_RELATIVE_BLOCKS
    count 0 false hfuel (by rw [hok]; decide)
  rw [hok] at h1
  have hcur : m1.cur = m.cur := by
    show m1.drv._part m1.drv.partition = m.drv._part m.drv.partition
    rw [hparts, hp]
  rw [relative_unfold h fuel m count sfm_func hc, h1]
  simp only [Option.some_bind, post_relative_blocks, if_true, Option.map_some']
  refine ⟨_, rfl, ?_, ?_, ?_, ?_, ?_, ?_, ?_, ?_⟩
  · simpa using hn
  · simpa using hp
  · simp [hb]
  · simp [updPart_cur, Machine.cur, Machine.updPart, Machine.updPartAt, mtinfo_drive.setPart,
      mtinfo_drive.part, hparts, hp]
  · simp [Machine.cur, Machine.updPart, Machine.updPartAt, mtinfo_drive.setPart,
      mtinfo_drive.part, hparts, hp]
  · simp [Machine.cur, Machine.updPart, Machine.updPartAt, mtinfo_drive.setPart,
      mtinfo_drive.part, hparts, hp]
  · simp [Machine.cur, Machine.updPart, Machine.updPartAt, mtinfo_drive.setPart,
      mtinfo_drive.part]
  · simp [Machine.cur, Machine.updPart, Machine.updPartAt, mtinfo_drive.setPart,
      mtinfo_drive.part]

/-- C20 (amended) at a concrete request: four blocks forward from block 50 on a
transport that answers every call with success. -/
theorem set_pos_relative_blocks_witness :
    ∃ m', set_pos host0 1 (machine_mid false eom_val.no_eof) TAPE_SPACE_RELATIVE_BLOCKS 4 false
        = some (0, m')
      ∧ ncalls Kind.SetTapePosition m'.log
          = ncalls Kind.SetTapePosition (machine_mid false eom_val.no_eof).log + 1
      ∧ m'.drv.partition = (machine_mid false eom_val.no_eof).drv.partition
      ∧ m'.drv.block = wrapLong ((machine_mid false eom_val.no_eof).drv.block + 4)
      ∧ m'.cur.block = wrapLong ((machine_mid false eom_val.no_eof).cur.block + 4)
      ∧ m'.cur.fblock = (if (machine_mid false eom_val.no_eof).cur.fblock ≥ 0 then
          wrapLong ((machine_mid false eom_val.no_eof).cur.fblock + 4)
          else (machine_mid false eom_val.no_eof).cur.fblock)
      ∧ m'.cur.file = (machine_mid false eom_val.no_eof).cur.file
      ∧ m'.cur.smark = false
      ∧ m'.cur.emark = eom_val.no_eof :=
  set_pos_relative_blocks host0 1 (machine_mid false eom_val.no_eof) 4 false
    (by decide) (by decide) (by decide)


/-! ## Spacing over filemarks -/

/-- The filemark mode of the body of `set_pos` with a non-zero count: the
stepping followed by the `case TAPE_SPACE_FILEMARKS:` bookkeeping. -/
theorem set_pos_body_filemarks (again : Machine → Int → Option (Nat × Machine)) (h : Host)
    (fuel : Nat) (m : Machine) (count : Int) (sfm_func : Bool) (hc : count ≠ 0) :
    set_pos_body again h fuel m TAPE_SPACE_FILEMARKS count sfm_func
      = (set_pos_marks h fuel m count).bind fun a =>
          (post_filemarks again h fuel a.2.2 count sfm_func a.1 a.2.1).map fun b =>
            (b.1, b.2.set_lasterr b.1) := by
  simp only [set_pos_body, set_pos_post, TAPE_REWIND, TAPE_SPACE_RELATIVE_BLOCKS,
    TAPE_SPACE_FILEMARKS, TAPE_SPACE_SETMARKS, TAPE_ABSOLUTE_BLOCK, TAPE_LOGICAL_BLOCK,
    TAPE_SPACE_END_OF_DATA]
  simp [hc]

/-- A request for a single mark makes one positioning call; the mark is left
undone unless the call ends with success or on a setmark. -/
theorem set_pos_marks_one (h : Host) (fuel : Nat) (m : Machine) (dir : Int)
    (hdir : dir = 1 ∨ dir = -1) :
    set_pos_marks h fuel m dir
      = (_set_pos h fuel m TAPE_SPACE_FILEMARKS dir 0 false).map fun x =>
          (x.1, if x.1 = 0 ∨ IS_SM x.1 = true then 0 else dir, x.2) := by
  rcases hdir with rfl | rfl
  · simp only [set_pos_marks, show (0 : Int) < 1 by decide, if_true,
      show (1 : Int).toNat = 1 by decide, mark_loop]
    cases hx : _set_pos h fuel m TAPE_SPACE_FILEMARKS 1 0 false with
    | none => simp
    | some x =>
      simp only [Option.some_bind, Option.map_some']
      by_cases h0 : x.1 = 0
      · simp [h0]
      · by_cases hs : IS_SM x.1 = true
        · simp [h0, hs]
        · simp [h0, hs]
  · simp only [set_pos_marks, show ¬ ((0 : Int) < -1) by decide, if_false, Option.some_bind,
      show ((0 : Nat) = 0 ∧ (-1 : Int) < 0) by decide, if_true,
      show (- (-1 : Int)).toNat = 1 by decide, mark_loop]
    cases hx : _set_pos h fuel m TAPE_SPACE_FILEMARKS (-1) 0 false with
    | none => simp
    | some x =>
      simp only [Option.some_bind, Option.map_some']
      by_cases h0 : x.1 = 0
      · simp [h0]
      · by_cases hs : IS_SM x.1 = true
        · simp [h0, hs]
        · simp [h0, hs]


/-- The bookkeeping after a stepping that ended with success or on a setmark,
no re-step requested: the counters of the partition that the position query
made active are advanced, and the boundary is filemark after a forward request
and none after a backward one. -/
theorem post_filemarks_done (again : Machine → Int → Option (Nat × Machine)) (h : Host)
    (fuel : Nat) (m : Machine) (count : Int) (err : Nat) (undone : Int)
    (herr : err = 0 ∨ IS_SM err = true) (y : Nat × Machine)
    (hy : get_pos h fuel m = some y) :
    ∃ m', post_filemarks again h fuel m count false err undone = some (err, m')
      ∧ m'.log = y.2.log ∧ m'.drv.partition = y.2.drv.partition
      ∧ m'.cur.file = add_file y.2.cur (count - undone)
      ∧ m'.cur.fblock = (if count > 0 then 0 else -1)
      ∧ m'.cur.emark = (if count > 0 then eom_val.eof else eom_val.no_eof) := by
  unfold post_filemarks
  rw [if_pos herr, hy]
  simp only [Option.some_bind, Bool.false_eq_true, if_false]
  refine ⟨_, rfl, ?_, ?_, ?_, ?_, ?_⟩
  · split_ifs <;> rfl
  · split_ifs <;> rfl
  · split_ifs <;> simp [add_file]
  · split_ifs <;> simp
  · simp

/-- The bookkeeping after a stepping that ended with success or on a setmark,
re-step requested: the re-step is made from a machine with the same trace as
after the position query. -/
theorem post_filemarks_restep (again : Machine → Int → Option (Nat × Machine)) (h : Host)
    (fuel : Nat) (m : Machine) (count : Int) (err : Nat) (undone : Int)
    (herr : err = 0 ∨ IS_SM err = true) (y : Nat × Machine)
    (hy : get_pos h fuel m = some y) :
    ∃ m2, post_filemarks again h fuel m count true err undone
        = again m2 (if count > 0 then -1 else 1)
      ∧ m2.log = y.2.log := by
  unfold post_filemarks
  rw [if_pos herr, hy]
  simp only [Option.some_bind, if_true]
  refine ⟨_, rfl, ?_⟩
  split_ifs <;> rfl

/-- The bookkeeping after a single step, no re-step requested: it returns the
status of the step, issues no further step, and the boundary is the one of
`step_boundary`. -/
theorem post_filemarks_boundary (again : Machine → Int → Option (Nat × Machine)) (h : Host)
    (fuel : Nat) (m : Machine) (dir : Int) (err : Nat) (undone : Int)
    (hterm : RetriesEnd h Kind.GetTapePosition fuel) :
    ∃ m', post_filemarks again h fuel m dir false err undone = some (err, m')
      ∧ issued is_mark_step m'.log = issued is_mark_step m.log
      ∧ m'.cur.emark = step_boundary dir err := by
  obtain ⟨ret, m1, h1, -, -, hi1, -⟩ := get_pos_spec h fuel m hterm
  have hi1 := hi1 is_mark_step (fun _ => rfl)
  obtain ⟨m2, h2, -, hi2, -⟩ := requery_spec h fuel m hterm
  have hi2 := hi2 is_mark_step (fun _ => rfl)
  have hq := h2
  unfold requery at hq
  rw [h1] at hq
  simp only [Option.map_some', Option.some.injEq] at hq
  unfold post_filemarks step_boundary
  by_cases c1 : err = 0 ∨ IS_SM err = true
  · rw [if_pos c1, if_pos c1, h1]
    simp only [Option.some_bind, Bool.false_eq_true, if_false]
    refine ⟨_, rfl, ?_, by simp⟩
    split_ifs <;> simpa using hi1
  · rw [if_neg c1, if_neg c1]
    by_cases c2 : IS_EOD err = true
    · rw [if_pos c2, if_pos c2, h1]
      refine ⟨_, rfl, by simpa using hi1, ?_⟩
      simp
    · rw [if_neg c2, if_neg c2]
      by_cases c3 : IS_BOT err = true
      · rw [if_pos c3]
        exact ⟨_, rfl, rfl, by simp [reset_to_bot, mtinfo_part.init]⟩
      · rw [if_neg c3, h2]
        refine ⟨_, rfl, hi2, ?_⟩
        rw [← hq]
        simp [mtinfo_part.init]

/-- A request for a single mark without re-step: exactly one single-mark step
is completed by the transport, its status is returned, and the boundary is the
one of `step_boundary`. -/
theorem set_pos_plain_step (h : Host) (fuel : Nat) (m : Machine) (dir : Int)
    (hdir : dir = 1 ∨ dir = -1) (hterm : AllRetriesEnd h fuel) :
    ∃ s m', set_pos_plain h fuel m TAPE_SPACE_FILEMARKS dir = some (s, m')
      ∧ issued is_mark_step m'.log
          = (Call.SetTapePosition TAPE_SPACE_FILEMARKS 0 dir false, s)
              :: issued is_mark_step m.log
      ∧ m'.cur.emark = step_boundary dir s := by
  have hd0 : dir ≠ 0 := by rcases hdir with rfl | rfl <;> decide
  obtain ⟨s, m1, h1, -, -⟩ := _set_pos_ok h fuel m TAPE_SPACE_FILEMARKS dir 0 false (hterm _)
  obtain ⟨-, -, hi, -⟩ := _set_pos_frame h fuel m _ _ _ _ _ h1
  have hi1 := hi is_mark_step rfl
  have hstep : is_mark_step (Call.SetTapePosition TAPE_SPACE_FILEMARKS 0 dir false) = true := by
    rcases hdir with rfl | rfl <;> decide
  rw [if_pos hstep] at hi1
  obtain ⟨m2, h2, hi2, he2⟩ := post_filemarks_boundary (fun _ _ => none) h fuel m1 dir s
    (if s = 0 ∨ IS_SM s = true then 0 else dir) (hterm _)
  refine ⟨s, m2.set_lasterr s, ?_, ?_, ?_⟩
  · unfold set_pos_plain
    rw [set_pos_body_filemarks _ h fuel m dir false hd0, set_pos_marks_one h fuel m dir hdir, h1]
    simp only [Option.map_some', Option.some_bind, h2]
  · rw [set_lasterr_log, hi2, hi1]; rfl
  · simpa using he2

end mtinfo_drive

theorem QuietFrom.mono {h : Host} {k : Kind} {log log' : List Event}
    (hq : QuietFrom h k log) (hn : ncalls k log ≤ ncalls k log') : QuietFrom h k log' :=
  fun j hj => hq j (le_trans hn hj)

namespace mtinfo_drive

/-- A position query on a transport that reports no medium change returns and
leaves the partition records as they are. -/
theorem get_pos_quiet (h : Host) (fuel : Nat) (m : Machine) (hfuel : 0 < fuel)
    (hq : QuietFrom h Kind.GetTapePosition m.log) :
    ∃ y, get_pos h fuel m = some y ∧ y.2.drv._part = m.drv._part := by
  obtain ⟨f, rfl⟩ : ∃ f, fuel = f + 1 := ⟨fuel - 1, by omega⟩
  have q1 : (attempt h (fun _ => Call.GetTapePosition TAPE_LOGICAL_POSITION) m).1.err
      ≠ ERROR_MEDIA_CHANGED := by
    simpa [attempt, Call.kind] using hq _ (le_refl _)
  have q2 : (attempt h (fun _ => Call.GetTapePosition TAPE_ABSOLUTE_POSITION)
      (attempt h (fun _ => Call.GetTapePosition TAPE_LOGICAL_POSITION) m).2).1.err
      ≠ ERROR_MEDIA_CHANGED := by
    simpa [attempt, Call.kind] using hq (ncalls Kind.GetTapePosition m.log + 1) (by omega)
  unfold get_pos
  rw [TAPE_FUNC_first h _ _ f m q1]
  simp only [Option.some_bind]
  split_ifs with c1
  · rw [TAPE_FUNC_first h _ _ f _ q2]
    simp only [Option.some_bind]
    split_ifs <;> exact ⟨_, rfl, by simp [attempt]⟩
  · simp only [Option.some_bind]
    split_ifs <;> exact ⟨_, rfl, by simp [attempt]⟩

/-- Stepping on a transport that reports no medium change leaves the partition
records as they are and makes no position query. -/
theorem mark_loop_quiet (h : Host) (fuel : Nat) (dir : Int) (hfuel : 0 < fuel) :
    ∀ (n : Nat) (m : Machine) (x : Nat × Nat × Machine),
      QuietFrom h Kind.SetTapePosition m.log → mark_loop h fuel dir n m = some x →
      x.2.2.drv._part = m.drv._part
        ∧ ncalls Kind.GetTapePosition x.2.2.log = ncalls Kind.GetTapePosition m.log := by
  intro n
  induction n with
  | zero =>
    intro m x _ hx
    simp only [mark_loop, Option.some.injEq] at hx
    rw [← hx]; exact ⟨rfl, rfl⟩
  | succ n ih =>
    intro m x hq hx
    obtain ⟨m1, h1, -, hparts, -, hn, hg⟩ := _set_pos_first h fuel m TAPE_SPACE_FILEMARKS dir 0
      false hfuel (hq _ (le_refl _))
    simp only [mark_loop, h1, Option.some_bind] at hx
    by_cases h0 : (h.answer Kind.SetTapePosition (ncalls Kind.SetTapePosition m.log)).err = 0
    · rw [if_pos h0] at hx
      obtain ⟨e1, e2⟩ := ih m1 x (hq.mono (by omega)) hx
      exact ⟨by rw [e1, hparts], by rw [e2, hg]⟩
    · rw [if_neg h0] at hx
      simp only [Option.some.injEq] at hx
      rw [← hx]; exact ⟨hparts, hg⟩

/-- The two stepping loops on a transport that reports no medium change leave
the partition records as they are and make no position query. -/
theorem set_pos_marks_quiet (h : Host) (fuel : Nat) (m : Machine) (count : Int)
    (hfuel : 0 < fuel) (hq : QuietFrom h Kind.SetTapePosition m.log)
    (a : Nat × Int × Machine) (ha : set_pos_marks h fuel m count = some a) :
    a.2.2.drv._part = m.drv._part
      ∧ ncalls Kind.GetTapePosition a.2.2.log = ncalls Kind.GetTapePosition m.log := by
  unfold set_pos_marks at ha
  by_cases hpos : 0 < count
  · rw [if_pos hpos] at ha
    simp only [Option.bind_eq_some, Option.map_eq_some'] at ha
    obtain ⟨b, ⟨x, hx, rfl⟩, hb⟩ := ha
    rw [if_neg (by simp only [not_and, not_lt]; intro _; omega)] at hb
    simp only [Option.some.injEq] at hb
    rw [← hb]
    exact mark_loop_quiet h fuel 1 hfuel _ m x hq hx
  · rw [if_neg hpos] at ha
    simp only [Option.some_bind] at ha
    split_ifs at ha with hneg
    · simp only [Option.map_eq_some'] at ha
      obtain ⟨x, hx, rfl⟩ := ha
      exact mark_loop_quiet h fuel (-1) hfuel _ m x hq hx
    · simp only [Option.some.injEq] at ha
      rw [← ha]; exact ⟨rfl, rfl⟩


/-- C19, as stated, fails twice.  A request to space one filemark forward from
a known file number (5) that the transport answers "medium changed" once and
then completes with success ends with nothing undone, yet the file counter of
the active partition is 1, not 5 + (1 - 0).  And a request to space one
filemark forward from file number 2147483647, completed with success at once
and with nothing undone, leaves the file number at -2147483648, not at
2147483647 + (1 - 0): the sum wraps in the 32-bit counter. -/
theorem set_pos_filemarks_after_medium_change :
    (((machine_mid false eom_val.no_eof).drv.partition,
        (machine_mid false eom_val.no_eof).cur.file) = (0, 5)
      ∧ (set_pos_marks host_pos_changed 2 (machine_mid false eom_val.no_eof) 1).map
          (fun a => (a.1, a.2.1)) = some (0, 0)
      ∧ (set_pos host_pos_changed 2 (machine_mid false eom_val.no_eof)
            TAPE_SPACE_FILEMARKS 1 false).map
          (fun x => (x.1, x.2.drv.partition, x.2.cur.file)) = some (0, 0, 1)
      ∧ (1 : Int) ≠ 5 + (1 - 0))
    ∧ ((machine_long_max.drv.partition, machine_long_max.cur.file) = (0, 2147483647)
      ∧ (set_pos_marks host0 1 machine_long_max 1).map (fun a => (a.1, a.2.1)) = some (0, 0)
      ∧ (set_pos host0 1 machine_long_max TAPE_SPACE_FILEMARKS 1 false).map
          (fun x => (x.1, statuses x.2.log, x.2.drv.partition, x.2.cur.file))
        = some (0, [0, 0], 0, -2147483648)
      ∧ (-2147483648 : Int) ≠ 2147483647 + (1 - 0)) := by
  refine ⟨⟨by decide, ?_, ?_, by decide⟩, by decide, ?_, ?_, by decide⟩ <;> decide

/-- C19 (amended): for every space-by-filemarks request with `count ≠ 0` on a
transport whose retries end, the stepping returns, and when it ends with
success or with a setmark landing:
* without re-step, `set_pos` returns the status of the stepping, `fblock`
  becomes 0 for a forward request and unknown for a backward one, the boundary
  becomes filemark for a forward request and none for a backward one, and, if
  the transport reports no medium change on positioning calls and position
  queries from the start of the call on, the file counter of the partition
  that is active after the call is advanced by `count - undone` when it was
  known, in the 32-bit arithmetic of a `long` (`wrapLong`: the plain sum while
  it lies between -2147483648 and 2147483647, wrapped around otherwise), and
  stays unknown otherwise;
* with the re-step requested, exactly one further single-mark step, in the
  opposite direction, is completed by the transport, `set_pos` returns its
  status, and the boundary is the one that step sets. -/
theorem set_pos_filemarks (h : Host) (fuel : Nat) (m : Machine) (count : Int)
    (hterm : AllRetriesEnd h fuel) (hc : count ≠ 0) :
    ∃ err undone m1, set_pos_marks h fuel m count = some (err, undone, m1)
      ∧ ((err = 0 ∨ err = ERROR_SETMARK_DETECTED) →
          (∃ m', set_pos h fuel m TAPE_SPACE_FILEMARKS count false = some (err, m')
            ∧ m'.cur.fblock = (if count > 0 then 0 else -1)
            ∧ m'.cur.emark = (if count > 0 then eom_val.eof else eom_val.no_eof)
            ∧ (QuietFrom h Kind.SetTapePosition m.log →
                QuietFrom h Kind.GetTapePosition m.log →
                m'.cur.file
                  = (if (m.drv.part m'.drv.partition).file ≥ 0 then
                      wrapLong ((m.drv.part m'.drv.partition).file + (count - undone))
                    else (m.drv.part m'.drv.partition).file)))
          ∧ (∃ s m'', set_pos h fuel m TAPE_SPACE_FILEMARKS count true = some (s, m'')
            ∧ issued is_mark_step m''.log
                = (Call.SetTapePosition TAPE_SPACE_FILEMARKS 0 (if count > 0 then -1 else 1)
                    false, s) :: issued is_mark_step m1.log
            ∧ m''.cur.emark = step_boundary (if count > 0 then -1 else 1) s)) := by
  have hfuel : 0 < fuel := by
    obtain ⟨j, hj, _⟩ := hterm Kind.SetTapePosition 0
    omega
  obtain ⟨a, ha, -, -⟩ := set_pos_marks_spec h fuel m count (fun _ => false) rfl
    (fun _ _ _ _ => rfl) (hterm _)
  obtain ⟨err, undone, m1⟩ := a
  refine ⟨err, undone, m1, ha, ?_⟩
  intro herr
  have herr' : err = 0 ∨ IS_SM err = true := by
    rcases herr with rfl | rfl
    · exact Or.inl rfl
    · exact Or.inr (by decide)
  obtain ⟨ret, y, hy, -, -, hiy, -⟩ := get_pos_spec h fuel m1 (hterm _)
  have hiy := hiy is_mark_step (fun _ => rfl)
  constructor
  · obtain ⟨m', hm', -, hp, hf, hfb, hem⟩ := post_filemarks_done
      (fun m1 c => set_pos_plain h fuel m1 TAPE_SPACE_FILEMARKS c) h fuel m1 count err undone
      herr' (ret, y) hy
    refine ⟨m'.set_lasterr err, ?_, by simpa using hfb, by simpa using hem, ?_⟩
    · unfold set_pos
      rw [set_pos_body_filemarks _ h fuel m count false hc, ha]
      simp only [Option.some_bind, hm', Option.map_some']
    · intro hq1 hq2
      obtain ⟨e1, e2⟩ := set_pos_marks_quiet h fuel m count hfuel hq1 _ ha
      obtain ⟨y', hy', hparts⟩ := get_pos_quiet h fuel m1 hfuel (hq2.mono (by rw [e2]))
      have hyy : y' = (ret, y) := Option.some.inj (hy'.symm.trans hy)
      subst hyy
      have hcur : y.cur = m.drv.part y.drv.partition := by
        show y.drv._part y.drv.partition = m.drv._part y.drv.partition
        rw [hparts, e1]
      simp only [set_lasterr_cur, set_lasterr_partition]
      rw [hf, hp, add_file, hcur]
  · obtain ⟨m2, hm2, hlog⟩ := post_filemarks_restep
      (fun m1 c => set_pos_plain h fuel m1 TAPE_SPACE_FILEMARKS c) h fuel m1 count err undone
      herr' (ret, y) hy
    obtain ⟨s, m'', hs, hi, hb⟩ := set_pos_plain_step h fuel m2 (if count > 0 then -1 else 1)
      (by split_ifs <;> simp) hterm
    refine ⟨s, m''.set_lasterr s, ?_, ?_, by simpa using hb⟩
    · unfold set_pos
      rw [set_pos_body_filemarks _ h fuel m count true hc, ha]
      simp only [Option.some_bind, hm2, hs, Option.map_some']
    · rw [set_lasterr_log, hi, hlog, hiy]

/-- C19 (amended) at a concrete request: two filemarks forward from the sixth
file on a transport that answers every call with success. -/
theorem set_pos_filemarks_witness :
    ∃ err undone m1,
      set_pos_marks host0 1 (machine_mid false eom_val.no_eof) 2 = some (err, undone, m1)
      ∧ ((err = 0 ∨ err = ERROR_SETMARK_DETECTED) →
          (∃ m', set_pos host0 1 (machine_mid false eom_val.no_eof) TAPE_SPACE_FILEMARKS 2 false
              = some (err, m')
            ∧ m'.cur.fblock = 0
            ∧ m'.cur.emark = eom_val.eof
            ∧ m'.cur.file
                = (if ((machine_mid false eom_val.no_eof).drv.part m'.drv.partition).file ≥ 0
                  then wrapLong
                    (((machine_mid false eom_val.no_eof).drv.part m'.drv.partition).file
                      + (2 - undone))
                  else ((machine_mid false eom_val.no_eof).drv.part m'.drv.partition).file))
          ∧ (∃ s m'', set_pos host0 1 (machine_mid false eom_val.no_eof) TAPE_SPACE_FILEMARKS 2
              true = some (s, m'')
            ∧ issued is_mark_step m''.log
                = (Call.SetTapePosition TAPE_SPACE_FILEMARKS 0 (-1) false, s)
                    :: issued is_mark_step m1.log
            ∧ m''.cur.emark = step_boundary (-1) s)) := by
  obtain ⟨err, undone, m1, h1, h2⟩ := set_pos_filemarks host0 1
    (machine_mid false eom_val.no_eof) 2
    (fun _ _ => ⟨0, Nat.zero_lt_one, (by decide : resp0.err ≠ ERROR_MEDIA_CHANGED)⟩)
    (by decide)
  refine ⟨err, undone, m1, h1, fun hs => ?_⟩
  obtain ⟨⟨m', a, b, c, d⟩, rest⟩ := h2 hs
  exact ⟨⟨m', a, b, c,
    d (fun _ _ => by simp [host0, resp0]) (fun _ _ => by simp [host0, resp0])⟩, rest⟩

end mtinfo_drive

/-! ## Writing marks -/

/-- On a transport that answers one call with a status other than "medium
changed" and every other call with success, every retry loop ends at its first
attempt. -/
theorem host_once_retries (k : Kind) (e n : Nat) (he : e ≠ ERROR_MEDIA_CHANGED) :
    AllRetriesEnd (host_once k e n) 1 := by
  intro k1 c
  refine ⟨0, Nat.zero_lt_one, ?_⟩
  simp only [host_once, host0]
  split_ifs
  · exact he
  · decide

/-- The loop body of the retry macro, `initialize (drive, false)` followed by
`part (n)->initialize (0)`, advances no counter of a partition record. -/
theorem init_records (d d0 : mtinfo_drive) (b n : Int) (h0 : records_kept_or_fresh d b d0) :
    records_kept_or_fresh d b ((d0.init d0.drive false).setPart n (mtinfo_part.init 0)) := by
  intro i
  have := h0 i
  simp only [mtinfo_drive.part, mtinfo_drive.setPart, mtinfo_drive.init] at this ⊢
  by_cases c1 : i = n
  · simp [c1]
  · by_cases c2 : 0 ≤ i ∧ i < (MAX_PARTITION_NUM : Int)
    · simp [c1, c2]
    · simpa [c1, c2] using this

/-- The retry loop advances no counter of a partition record: a failed attempt
re-initialises the records, the attempts themselves leave them alone. -/
theorem TAPE_FUNC_records (h : Host) (func : mtinfo_drive → Call)
    (partition : mtinfo_drive → Int) (d : mtinfo_drive) (b : Int) (fuel : Nat) (m : Machine)
    (x : Resp × Machine) (hm : records_kept_or_fresh d b m.drv)
    (hx : TAPE_FUNC h func partition fuel m = some x) : records_kept_or_fresh d b x.2.drv :=
  TAPE_FUNC_rule h func partition (fun m1 => records_kept_or_fresh d b m1.drv)
    (fun x => records_kept_or_fresh d b x.2.drv)
    (fun m1 h1 _ => init_records d _ b _
      (fun i => by simpa [attempt, mtinfo_drive.part] using h1 i))
    (fun m1 h1 _ i => by simpa [attempt, mtinfo_drive.part] using h1 i) fuel m x hm hx

namespace mtinfo_drive

/-- A position query advances no counter of a partition record. -/
theorem get_pos_records (h : Host) (fuel : Nat) (m : Machine) (d : mtinfo_drive) (b : Int)
    (y : Nat × Machine) (hm : records_kept_or_fresh d b m.drv)
    (hy : get_pos h fuel m = some y) : records_kept_or_fresh d b y.2.drv := by
  unfold get_pos at hy
  simp only [Option.bind_eq_some] at hy
  obtain ⟨x1, h1, x2, h2, h3⟩ := hy
  have k1 := TAPE_FUNC_records h _ _ d b fuel m x1 hm h1
  have k2 : records_kept_or_fresh d b x2.2.drv := by
    split_ifs at h2 with hc
    · exact TAPE_FUNC_records h _ _ d b fuel x1.2 x2 k1 h2
    · obtain rfl := Option.some.inj h2
      exact k1
  split_ifs at h3 <;>
    · simp only [Option.some.injEq] at h3
      rw [← h3]
      intro i
      simpa [mtinfo_drive.part] using k2 i

/-- The reconciliation after a failed request advances no counter of a
partition record: a record is kept, or re-initialised at the block that the
position query left as the absolute block. -/
theorem reconcile_records (h : Host) (fuel : Nat) (m : Machine) (err : Nat)
    (d : mtinfo_drive) (m' : Machine) (hm : records_kept_or_fresh d (-1) m.drv)
    (hr : reconcile h fuel m err = some m') : records_kept_or_fresh d m'.drv.block m'.drv := by
  unfold reconcile at hr
  obtain ⟨y, hy, rfl⟩ := Option.map_eq_some'.mp hr
  have k := get_pos_records h fuel m d (-1) y hm hy
  intro i
  have ki := k i
  simp only [mtinfo_drive.part] at ki ⊢
  simp only [set_lasterr_block, set_lasterr_part]
  split_ifs <;>
    first
      | (rcases ki with e | e | e | e
         · exact Or.inl e
         · exact Or.inr (Or.inl e)
         · exact Or.inr (Or.inr (Or.inl e))
         · exact Or.inr (Or.inl e))
      | (by_cases c : i = y.2.drv.partition
         · exact Or.inr (Or.inr (Or.inr (by
             simp [Machine.updPart, Machine.updPartAt, mtinfo_drive.setPart, c])))
         · rcases ki with e | e | e | e
           · exact Or.inl (by
               simpa [Machine.updPart, Machine.updPartAt, mtinfo_drive.setPart, c] using e)
           · exact Or.inr (Or.inl (by
               simpa [Machine.updPart, Machine.updPartAt, mtinfo_drive.setPart, c] using e))
           · exact Or.inr (Or.inr (Or.inl (by
               simpa [Machine.updPart, Machine.updPartAt, mtinfo_drive.setPart, c] using e)))
           · exact Or.inr (Or.inl (by
               simpa [Machine.updPart, Machine.updPartAt, mtinfo_drive.setPart, c] using e)))

/-- What a returned reconciliation leaves behind: its last event is a position
query, the absolute block is the one that query reported (unknown when it
failed), and the last status is the error handed in. -/
theorem reconcile_result (h : Host) (fuel : Nat) (m : Machine) (err : Nat) (m' : Machine)
    (hr : reconcile h fuel m err = some m') :
    m'.drv.lasterr = err
      ∧ ncalls Kind.GetTapePosition m.log < ncalls Kind.GetTapePosition m'.log
      ∧ ∃ t r rest, m'.log = Event.call (Call.GetTapePosition t) r :: rest
          ∧ m'.drv.block = (if r.err = 0 then toLong r.low else -1) := by
  unfold reconcile at hr
  obtain ⟨y, hy, hr⟩ := Option.map_eq_some'.mp hr
  obtain ⟨t, r, rest, hlog, -, hb, -, hn⟩ := get_pos_result h fuel m y.1 y.2 hy
  subst hr
  refine ⟨by simp, ?_, t, r, rest, ?_, ?_⟩
  · simp only [set_lasterr_log]; split_ifs <;> simpa using hn
  · simp only [set_lasterr_log]; split_ifs <;> simpa using hlog
  · rw [← hb]
    simp only [set_lasterr_block]; split_ifs <;> simp

/-- C21, as stated, fails: when the first `WriteTapemark` is answered "medium
changed" and the retry succeeds, `write_marks` returns success, but the
counters are those of the re-initialised drive advanced by the count (absolute
block -1 + 2, partition block 0 + 2), not those before the call (50) advanced
by it. -/
theorem write_marks_after_medium_change :
    (machine_mid false eom_val.no_eof).drv.block = 50
      ∧ (machine_mid false eom_val.no_eof).cur.block = 50
      ∧ (machine_mid false eom_val.no_eof).cur.file = 5
      ∧ (write_marks (host_once Kind.WriteTapemark ERROR_MEDIA_CHANGED 0) 2
            (machine_mid false eom_val.no_eof) TAPE_FILEMARKS 2).map
          (fun x => (x.1, statuses x.2.log, x.2.drv.block, x.2.cur.block, x.2.cur.file))
        = some (0, [0, ERROR_MEDIA_CHANGED], 1, 2, 2) := by
  decide

/-- C21 (amended): on a transport on which retries end, `write_marks` returns
the status of its one `WriteTapemark` request.  When that status is success,
fblock is 0, the boundary is filemark and the setmark flag is true exactly when
the mark written was a setmark; if moreover the request succeeded at its first
attempt (no medium change absorbed by a retry), the active partition is the
same and the absolute block and the partition block are those before the call
advanced by the count, and so is the file counter when it was known.  When the
status is a failure, a fresh position query is the last transport call, the
absolute block is what that query reported (unknown if the query failed), no
counter of any partition record is advanced (`records_kept_or_fresh`: every
record is the one of before the call or a freshly initialised one, at the
unknown block, at block 0 or at the absolute block the query left), and the
status returned is that of the mark write. -/
theorem write_marks_bookkeeping (h : Host) (fuel : Nat) (m : Machine) (marktype : Int)
    (count : Nat) (hterm : AllRetriesEnd h fuel) :
    ∃ ret m' ty, write_marks h fuel m marktype count = some (ret, m')
      ∧ issued is_write_mark m'.log
          = (Call.WriteTapemark ty count, ret) :: issued is_write_mark m.log
      ∧ (ret = 0 →
          m'.cur.fblock = 0 ∧ m'.cur.emark = eom_val.eof
            ∧ (m'.cur.smark = true ↔ ty = TAPE_SETMARKS)
            ∧ ((h.answer Kind.WriteTapemark (ncalls Kind.WriteTapemark m.log)).err
                  ≠ ERROR_MEDIA_CHANGED →
                m'.drv.partition = m.drv.partition
                  ∧ m'.drv.block = advance m.drv.block count
                  ∧ m'.cur.block = advance m.cur.block count
                  ∧ m'.cur.file
                      = (if m.cur.file ≥ 0 then advance m.cur.file count else m.cur.file)))
      ∧ (ret ≠ 0 →
          ncalls Kind.GetTapePosition m.log < ncalls Kind.GetTapePosition m'.log
            ∧ (∃ t r rest, m'.log = Event.call (Call.GetTapePosition t) r :: rest
                ∧ m'.drv.block = (if r.err = 0 then toLong r.low else -1))
            ∧ records_kept_or_fresh m.drv m'.drv.block m'.drv) := by
  -- the machine and the mark type at the transport call
  obtain ⟨m2, hm2, hi2, hb2, hp2, hc2, hw2, hg2, hr2⟩ : ∃ m2 : Machine,
      m2 = (if marktype ≠ TAPE_SETMARKS then
              (if m.drv.dirty = dirty_state.async_write_pending then
                (wait_pending h m).set_dirty dirty_state.has_written else m).set_dirty
                  dirty_state.clean
            else (if m.drv.dirty = dirty_state.async_write_pending then
                (wait_pending h m).set_dirty dirty_state.has_written else m))
        ∧ (∀ p : Call → Bool, p Call.GetOverlappedResult = false →
            issued p m2.log = issued p m.log)
        ∧ m2.drv.block = m.drv.block ∧ m2.drv.partition = m.drv.partition ∧ m2.cur = m.cur
        ∧ ncalls Kind.WriteTapemark m2.log = ncalls Kind.WriteTapemark m.log
        ∧ ncalls Kind.GetTapePosition m2.log = ncalls Kind.GetTapePosition m.log
        ∧ m2.drv._part = m.drv._part := by
    refine ⟨_, rfl, ?_, ?_, ?_, ?_, ?_, ?_, ?_⟩
    · intro p hw
      split_ifs <;> simp [wait_pending_issued h m p hw]
    · split_ifs <;> simp
    · split_ifs <;> simp
    · split_ifs <;> simp
    · split_ifs <;> simp [wait_pending_ncalls]
    · split_ifs <;> simp [wait_pending_ncalls]
    · split_ifs <;> simp
  obtain ⟨ty, hty⟩ : ∃ ty : Int,
      ty = (if marktype = TAPE_FILEMARKS
              ∧ h.get_feature m2.drv._dp TAPE_DRIVE_WRITE_FILEMARKS = false then
            if h.get_feature m2.drv._dp TAPE_DRIVE_WRITE_LONG_FMKS = true then TAPE_LONG_FILEMARKS
            else TAPE_SHORT_FILEMARKS
          else marktype) := ⟨_, rfl⟩
  obtain ⟨r, m3, h3, hne, hl⟩ := TAPE_FUNC_ok h (fun _ => Call.WriteTapemark ty count)
    (fun d => d.partition) Kind.WriteTapemark (fun _ => rfl) fuel m2 (hterm _)
  obtain ⟨_, _, hi3, hn3, -⟩ := TAPE_FUNC_frame h _ _ fuel m2 _ h3
  have hi3' : issued is_write_mark m3.log
      = (Call.WriteTapemark ty count, m3.drv.lasterr) :: issued is_write_mark m.log := by
    have := hi3 is_write_mark
    simp only [] at this
    rw [← hl, hi2 is_write_mark rfl] at this
    simpa [is_write_mark] using this
  have hunf : write_marks h fuel m marktype count
      = (if m3.drv.lasterr = 0 then
          some ((({ m3 with drv := { m3.drv with
                      block := toLong (toDWORD m3.drv.block + count) } } : Machine).updPart
                fun p => { p with block := toLong (toDWORD p.block + count),
                                  file := if p.file ≥ 0 then toLong (toDWORD p.file + count)
                                          else p.file,
                                  fblock := 0, emark := eom_val.eof,
                                  smark := decide (ty = TAPE_SETMARKS) }).drv.lasterr,
                (({ m3 with drv := { m3.drv with
                      block := toLong (toDWORD m3.drv.block + count) } } : Machine).updPart
                fun p => { p with block := toLong (toDWORD p.block + count),
                                  file := if p.file ≥ 0 then toLong (toDWORD p.file + count)
                                          else p.file,
                                  fblock := 0, emark := eom_val.eof,
                                  smark := decide (ty = TAPE_SETMARKS) }))
        else (reconcile h fuel m3 m3.drv.lasterr).map fun m4 => (m4.drv.lasterr, m4)) := by
    unfold write_marks
    simp only []
    rw [← hm2, ← hty, h3]
    rfl
  rw [hunf]
  by_cases c0 : m3.drv.lasterr = 0
  · rw [if_pos c0]
    refine ⟨_, _, ty, rfl, ?_, fun _ => ⟨?_, ?_, ?_, fun hq => ?_⟩, fun hne0 => ?_⟩
    · simpa [Machine.updPart, Machine.updPartAt] using hi3'
    · simp [Machine.cur, Machine.updPart, Machine.updPartAt, mtinfo_drive.setPart,
        mtinfo_drive.part]
    · simp [Machine.cur, Machine.updPart, Machine.updPartAt, mtinfo_drive.setPart,
        mtinfo_drive.part]
    · simp [Machine.cur, Machine.updPart, Machine.updPartAt, mtinfo_drive.setPart,
        mtinfo_drive.part]
    · obtain ⟨f, rfl⟩ : ∃ f, fuel = f + 1 := by
        obtain ⟨j, hj, _⟩ := hterm Kind.WriteTapemark 0
        exact ⟨fuel - 1, by omega⟩
      have h3' := TAPE_FUNC_first h (fun _ => Call.WriteTapemark ty count)
        (fun d => d.partition) f m2 (by simpa [attempt, Call.kind, hw2] using hq)
      have e3 : (r, m3) = attempt h (fun _ => Call.WriteTapemark ty count) m2 :=
        Option.some.inj (h3.symm.trans h3')
      have em : m3 = (attempt h (fun _ => Call.WriteTapemark ty count) m2).2 :=
        congrArg Prod.snd e3
      have b3 : m3.drv.block = m.drv.block := by rw [em, ← hb2]; simp [attempt]
      have p3 : m3.drv.partition = m.drv.partition := by rw [em, ← hp2]; simp [attempt]
      have c3 : m3.cur = m.cur := by rw [em, ← hc2]; simp [attempt]
      have c3' : m3.drv._part m3.drv.partition = m.cur := c3
      refine ⟨by simpa using p3, ?_, ?_, ?_⟩
      · simp [advance, b3]
      · simp [advance, Machine.cur, Machine.updPart, Machine.updPartAt, mtinfo_drive.setPart,
          mtinfo_drive.part, c3']
      · simp [advance, Machine.cur, Machine.updPart, Machine.updPartAt, mtinfo_drive.setPart,
          mtinfo_drive.part, c3']
    · exact absurd (by simp [c0]) hne0
  · rw [if_neg c0]
    obtain ⟨m4, h4, -, hi4, -⟩ := reconcile_spec h fuel m3 m3.drv.lasterr (hterm _)
    obtain ⟨hl4, hn4, hq4⟩ := reconcile_result h fuel m3 m3.drv.lasterr m4 h4
    rw [h4]
    have hk3 : records_kept_or_fresh m.drv (-1) m3.drv :=
      TAPE_FUNC_records h _ _ m.drv (-1) fuel m2 (r, m3)
        (fun i => Or.inl (by simp only [mtinfo_drive.part]; rw [hr2])) h3
    refine ⟨_, _, ty, rfl, ?_, fun h0 => ?_, fun _ => ⟨?_, hq4, ?_⟩⟩
    · show issued is_write_mark m4.log = (_, m4.drv.lasterr) :: _
      rw [hi4 is_write_mark (fun _ => rfl), hl4, hi3']
    · exact absurd (hl4.symm.trans h0) c0
    · have : ncalls Kind.GetTapePosition m3.log = ncalls Kind.GetTapePosition m.log := by
        rw [hn3 _ (by simp [Call.kind]), hg2]
      omega
    · exact reconcile_records h fuel m3 m3.drv.lasterr m.drv m4 hk3 h4

/-- C21 (amended) at two concrete requests for two filemarks in the middle of
the sixth file: on a transport that answers every call with success, and on
one that rejects the mark write with a device error. -/
theorem write_marks_bookkeeping_witness :
    (∃ m' ty, write_marks host0 1 (machine_mid false eom_val.no_eof) TAPE_FILEMARKS 2
        = some (0, m')
      ∧ issued is_write_mark m'.log
          = (Call.WriteTapemark ty 2, 0)
              :: issued is_write_mark (machine_mid false eom_val.no_eof).log
      ∧ m'.cur.fblock = 0 ∧ m'.cur.emark = eom_val.eof
      ∧ (m'.cur.smark = true ↔ ty = TAPE_SETMARKS)
      ∧ m'.drv.partition = (machine_mid false eom_val.no_eof).drv.partition
      ∧ m'.drv.block = advance (machine_mid false eom_val.no_eof).drv.block 2
      ∧ m'.cur.block = advance (machine_mid false eom_val.no_eof).cur.block 2
      ∧ m'.cur.file = advance (machine_mid false eom_val.no_eof).cur.file 2)
    ∧ ∃ m' ty, write_marks (host_once Kind.WriteTapemark ERROR_IO_DEVICE 0) 1
          (machine_mid false eom_val.no_eof) TAPE_FILEMARKS 2 = some (ERROR_IO_DEVICE, m')
      ∧ issued is_write_mark m'.log
          = (Call.WriteTapemark ty 2, ERROR_IO_DEVICE)
              :: issued is_write_mark (machine_mid false eom_val.no_eof).log
      ∧ ncalls Kind.GetTapePosition (machine_mid false eom_val.no_eof).log
          < ncalls Kind.GetTapePosition m'.log
      ∧ (∃ t r rest, m'.log = Event.call (Call.GetTapePosition t) r :: rest
          ∧ m'.drv.block = (if r.err = 0 then toLong r.low else -1))
      ∧ records_kept_or_fresh (machine_mid false eom_val.no_eof).drv m'.drv.block m'.drv := by
  obtain ⟨ret, m', ty, e, hi, hs, -⟩ := write_marks_bookkeeping host0 1
    (machine_mid false eom_val.no_eof) TAPE_FILEMARKS 2
    (fun _ _ => ⟨0, Nat.zero_lt_one, (by decide : resp0.err ≠ ERROR_MEDIA_CHANGED)⟩)
  obtain ⟨ret2, m2, ty2, e2, hi2, -, hf2⟩ := write_marks_bookkeeping
    (host_once Kind.WriteTapemark ERROR_IO_DEVICE 0) 1 (machine_mid false eom_val.no_eof)
    TAPE_FILEMARKS 2 (host_once_retries Kind.WriteTapemark ERROR_IO_DEVICE 0 (by decide))
  have er : ret = 0 := by
    have := congrArg (fun o : Option (Nat × Machine) => o.map fun x => x.1) e
    exact (Option.some.inj ((by decide :
      (write_marks host0 1 (machine_mid false eom_val.no_eof) TAPE_FILEMARKS 2).map
        (fun x => x.1) = some 0).symm.trans this)).symm
  have er2 : ret2 = ERROR_IO_DEVICE := by
    have := congrArg (fun o : Option (Nat × Machine) => o.map fun x => x.1) e2
    exact (Option.some.inj ((by decide :
      (write_marks (host_once Kind.WriteTapemark ERROR_IO_DEVICE 0) 1
        (machine_mid false eom_val.no_eof) TAPE_FILEMARKS 2).map
        (fun x => x.1) = some ERROR_IO_DEVICE).symm.trans this)).symm
  subst er er2
  obtain ⟨s1, s2, s3, s4⟩ := hs rfl
  obtain ⟨q1, q2, q3, q4⟩ := s4 (by decide)
  obtain ⟨f1, f2, f3⟩ := hf2 (by decide)
  exact ⟨⟨m', ty, e, hi, s1, s2, s3, q1, q2, q3, q4.trans (if_pos (by decide))⟩,
    m2, ty2, e2, hi2, f1, f2, f3⟩

/-- The same request, evaluated: the counters 50, 50 and 5 become 52, 52 and 7;
and when the transport rejects the request, the error is returned after a
position query, with the counters as that query reports them. -/
theorem write_marks_run :
    (write_marks host0 1 (machine_mid false eom_val.no_eof) TAPE_FILEMARKS 2).map
        (fun x => (x.1, x.2.drv.block, x.2.cur))
      = some (0, 52, { block := 52, file := 7, fblock := 0, smark := false,
                       emark := eom_val.eof })
    ∧ (write_marks (host_once Kind.WriteTapemark ERROR_IO_DEVICE 0) 1
          (machine_mid false eom_val.no_eof) TAPE_FILEMARKS 2).map
        (fun x => (x.1, statuses x.2.log, x.2.drv.block))
      = some (ERROR_IO_DEVICE, [0, ERROR_IO_DEVICE], 0) := by
  refine ⟨?_, ?_⟩ <;> decide

/-- In the range of a `long`, `advance` is the plain sum. -/
theorem advance_eq_add (x : Int) (count : Nat) (h0 : 0 ≤ x) (h1 : x + count < 2 ^ 31) :
    advance x count = x + count := by
  unfold advance toLong toDWORD
  have hx : x % 2 ^ 32 = x := Int.emod_eq_of_lt h0 (by omega)
  rw [hx]
  have hc : (x.toNat + count) % 2 ^ 32 = x.toNat + count := Nat.mod_eq_of_lt (by omega)
  rw [hc, if_pos (by omega)]
  omega

end mtinfo_drive

/-! ## Erasing and formatting -/

namespace mtinfo_drive

/-- C22: for every erase mode and every transport behaviour in which the
retries of `EraseTape` end, `erase` returns, and afterwards the active partition
is at block 0 with file 0, fblock 0, setmark false and boundary none, whatever
status the transport gave. -/
theorem erase_resets_partition (h : Host) (fuel : Nat) (m : Machine) (mode : Int)
    (hterm : RetriesEnd h Kind.EraseTape fuel) :
    ∃ ret m', erase h fuel m mode = some (ret, m')
      ∧ m'.cur = { block := 0, file := 0, fblock := 0, smark := false,
                   emark := eom_val.no_eof } := by
  unfold erase
  obtain ⟨r, m1, h1, -, -⟩ := TAPE_FUNC_ok h
    (fun d => Call.EraseTape
      (if mode = TAPE_ERASE_SHORT then
        if h.get_feature m.drv._dp TAPE_DRIVE_ERASE_SHORT then mode else TAPE_ERASE_LONG
      else if mode = TAPE_ERASE_LONG then
        if h.get_feature m.drv._dp TAPE_DRIVE_ERASE_LONG then mode else TAPE_ERASE_SHORT
      else mode) d.nowait)
    (fun d => d.partition) Kind.EraseTape (fun _ => rfl) fuel m hterm
  simp only [] at h1 ⊢
  rw [h1]
  refine ⟨_, _, rfl, ?_⟩
  simp [mtinfo_part.init]

/-- C22 at a concrete transport: the erase request is rejected with a device
error, and the partition is reset all the same. -/
theorem erase_resets_partition_witness :
    ∃ ret m', erase (host_once Kind.EraseTape ERROR_IO_DEVICE 0) 1
        (machine_mid false eom_val.eof) TAPE_ERASE_LONG = some (ret, m')
      ∧ m'.cur = { block := 0, file := 0, fblock := 0, smark := false,
                   emark := eom_val.no_eof } :=
  erase_resets_partition (host_once Kind.EraseTape ERROR_IO_DEVICE 0) 1
    (machine_mid false eom_val.eof) TAPE_ERASE_LONG
    (host_once_retries Kind.EraseTape ERROR_IO_DEVICE 0 (by decide) Kind.EraseTape)

/-- C23, evaluated: on a drive with two partitions and the initiator-defined
partition capability, whose rewind succeeds, `create_partitions (1)` returns
success without issuing any create-partition request (the only transport call
is the rewind); with `count = 0` the same drive gets one request, and a drive
with the fixed partition capability gets one request for two partitions. -/
theorem create_partitions_initiator_two :
    (create_partitions (host_feature TAPE_DRIVE_INITIATOR) 1 machine_two_parts 1).map
        (fun x => (x.1, issued is_create_partition x.2.log, statuses x.2.log))
      = some (0, [], [0])
    ∧ (create_partitions (host_feature TAPE_DRIVE_INITIATOR) 1 machine_two_parts 0).map
        (fun x => (x.1, issued is_create_partition x.2.log))
      = some (0, [(Call.CreateTapePartition TAPE_INITIATOR_PARTITIONS 0 0, 0)])
    ∧ (create_partitions (host_feature TAPE_DRIVE_FIXED) 1 machine_two_parts 1).map
        (fun x => (x.1, issued is_create_partition x.2.log))
      = some (0, [(Call.CreateTapePartition TAPE_FIXED_PARTITIONS 2 1, 0)]) := by
  decide

end mtinfo_drive

namespace mtinfo_drive

/-! ## The flags of the status record -/

/-- Testing a single-bit mask is reading that bit. -/
theorem has_bit_two_pow (g k : Nat) : has_bit g (2 ^ k) = g.testBit k := by
  unfold has_bit
  rw [Nat.and_two_pow]
  cases g.testBit k <;> simp

/-- The bits of a word after a conditional flag was added. -/
theorem flag_testBit (c : Bool) (bit g k : Nat) :
    (flag c bit g).testBit k = (g.testBit k || (c && bit.testBit k)) := by
  cases c <;> simp [flag, Nat.testBit_or]

/-- The flag masks of `mt_gstat` are single bits. -/
theorem gmt_bits :
    GMT_EOF = 2 ^ 31 ∧ GMT_BOT = 2 ^ 30 ∧ GMT_EOT = 2 ^ 29 ∧ GMT_SM = 2 ^ 28
      ∧ GMT_EOD = 2 ^ 27 ∧ GMT_WR_PROT = 2 ^ 26 ∧ GMT_ONLINE = 2 ^ 24
      ∧ GMT_DR_OPEN = 2 ^ 18 ∧ GMT_IM_REP_EN = 2 ^ 16 ∧ GMT_CLN = 2 ^ 15
      ∧ GMT_REP_SM = 2 ^ 11 ∧ GMT_PADDING = 2 ^ 10 ∧ GMT_HW_ECC = 2 ^ 9
      ∧ GMT_HW_COMP = 2 ^ 8 ∧ GMT_TWO_FM = 2 ^ 7 ∧ GMT_FAST_MTEOM = 2 ^ 6
      ∧ GMT_AUTO_LOCK = 2 ^ 5 ∧ GMT_SYSV = 2 ^ 4 ∧ GMT_NOWAIT = 2 ^ 3
      ∧ GMT_ASYNC = 2 ^ 2 := by
  decide

/-- The word `mt_gstat` of the status record, bit by bit: the bits above
`GMT_WR_PROT` are set by the position tests alone. -/
theorem get_status_gstat_bit (h : Host) (m : Machine) (k : Nat) (hk : 26 < k) :
    (get_status h m).2.1.mt_gstat.testBit k
      = (decide ((h.answer Kind.GetTapeStatus (ncalls Kind.GetTapeStatus m.log)).err
            ≠ ERROR_NO_MEDIA_IN_DRIVE)
          && ((decide (m.cur.fblock = 0 ∧ m.cur.file = 0) && decide (k = 30))
            || (decide (m.cur.fblock = 0 ∧ m.cur.file ≠ 0) && decide (k = 31))
            || (decide (m.cur.emark.val ≥ eom_val.eod_hit.val) && decide (k = 27))
            || (decide (m.cur.emark.val ≥ eom_val.eom_hit.val) && decide (k = 29))
            || (m.cur.smark && decide (k = 28)))) := by
  obtain ⟨e1, e2, e3, e4, e5, e6, e7, e8, e9, e10, e11, e12, e13, e14, e15, e16, e17, e18, e19,
    e20⟩ := gmt_bits
  unfold get_status
  simp only [flag_testBit, e1, e2, e3, e4, e5, e6, e7, e8, e9, e10, e11, e12, e13, e14, e15, e16,
    e17, e18, e19, e20, Nat.testBit_two_pow]
  have n2 : ¬ 2 = k := by omega
  have n3 : ¬ 3 = k := by omega
  have n4 : ¬ 4 = k := by omega
  have n5 : ¬ 5 = k := by omega
  have n6 : ¬ 6 = k := by omega
  have n7 : ¬ 7 = k := by omega
  have n8 : ¬ 8 = k := by omega
  have n9 : ¬ 9 = k := by omega
  have n10 : ¬ 10 = k := by omega
  have n11 : ¬ 11 = k := by omega
  have n15 : ¬ 15 = k := by omega
  have n16 : ¬ 16 = k := by omega
  have n18 : ¬ 18 = k := by omega
  have n24 : ¬ 24 = k := by omega
  have n26 : ¬ 26 = k := by omega
  simp only [n2, n3, n4, n5, n6, n7, n8, n9, n10, n11, n15, n16, n18, decide_False,
    Bool.and_false, Bool.or_false]
  have hs : (exec h Call.GetTapeStatus m).1.err
      = (h.answer Kind.GetTapeStatus (ncalls Kind.GetTapeStatus m.log)).err := by
    simp [exec, Call.kind]
  have hc : (exec h Call.GetTapeStatus m).2.drv.part (exec h Call.GetTapeStatus m).2.drv.partition
      = m.cur := by
    simp [exec, Machine.cur]
  rw [hs, hc]
  by_cases hn : (h.answer Kind.GetTapeStatus (ncalls Kind.GetTapeStatus m.log)).err
      = ERROR_NO_MEDIA_IN_DRIVE
  · simp [-ERROR_NO_MEDIA_IN_DRIVE, hn]
  · by_cases hb : m.cur.fblock = 0 <;> by_cases hf : m.cur.file = 0 <;>
      simp [-Nat.reducePow, -ERROR_NO_MEDIA_IN_DRIVE, hn, hb, hf, flag_testBit, Nat.testBit_or,
        Nat.testBit_two_pow, n24, n26,
        eq_comm (a := 27) (b := k), eq_comm (a := 28) (b := k), eq_comm (a := 29) (b := k),
        eq_comm (a := 30) (b := k), eq_comm (a := 31) (b := k)]


/-- C24, as stated, fails: a read from an unknown position that runs into a
filemark leaves the active partition at fblock 0 with the file number still
unknown (-1), and the status record then carries the end-of-file flag. -/
theorem get_status_eof_unknown_file :
    (read host_filemark 1 machine_unknown 512).map
        (fun x => (x.2.2.cur.fblock, x.2.2.cur.file,
          has_bit (get_status host_filemark x.2.2).2.1.mt_gstat GMT_BOT,
          has_bit (get_status host_filemark x.2.2).2.1.mt_gstat GMT_EOF))
      = some (0, -1, false, true) := by
  decide

/-- C24 (amended): with a medium present, the status record has the
beginning-of-tape flag set if and only if the active partition has fblock = 0
and file = 0, and the end-of-file flag set if and only if fblock = 0 and the
file number is anything but 0, the unknown file number -1 included. -/
theorem get_status_position_flags (h : Host) (m : Machine)
    (hmed : (h.answer Kind.GetTapeStatus (ncalls Kind.GetTapeStatus m.log)).err
      ≠ ERROR_NO_MEDIA_IN_DRIVE) :
    (has_bit (get_status h m).2.1.mt_gstat GMT_BOT = true
        ↔ m.cur.fblock = 0 ∧ m.cur.file = 0)
      ∧ (has_bit (get_status h m).2.1.mt_gstat GMT_EOF = true
        ↔ m.cur.fblock = 0 ∧ m.cur.file ≠ 0) := by
  have e1 : GMT_BOT = 2 ^ 30 := by decide
  have e2 : GMT_EOF = 2 ^ 31 := by decide
  rw [e1, e2, has_bit_two_pow, has_bit_two_pow, get_status_gstat_bit h m 30 (by decide),
    get_status_gstat_bit h m 31 (by decide)]
  simp [-ERROR_NO_MEDIA_IN_DRIVE, hmed]

/-- C24 (amended) at a concrete drive: the beginning of the tape. -/
theorem get_status_position_flags_witness :
    (has_bit (get_status host0 machine0).2.1.mt_gstat GMT_BOT = true
        ↔ machine0.cur.fblock = 0 ∧ machine0.cur.file = 0)
      ∧ (has_bit (get_status host0 machine0).2.1.mt_gstat GMT_EOF = true
        ↔ machine0.cur.fblock = 0 ∧ machine0.cur.file ≠ 0) :=
  get_status_position_flags host0 machine0 (by decide)

/-- C25: with a medium present, the status record has the end-of-data flag set
if and only if the boundary of the active partition is one of end-of-data-hit,
end-of-data, end-of-medium-hit and end-of-medium, and the end-of-medium flag
set if and only if it is one of end-of-medium-hit and end-of-medium; so a status
with the end-of-medium flag also has the end-of-data flag. -/
theorem get_status_end_flags (h : Host) (m : Machine)
    (hmed : (h.answer Kind.GetTapeStatus (ncalls Kind.GetTapeStatus m.log)).err
      ≠ ERROR_NO_MEDIA_IN_DRIVE) :
    (has_bit (get_status h m).2.1.mt_gstat GMT_EOD = true
        ↔ m.cur.emark = eom_val.eod_hit ∨ m.cur.emark = eom_val.eod
          ∨ m.cur.emark = eom_val.eom_hit ∨ m.cur.emark = eom_val.eom)
      ∧ (has_bit (get_status h m).2.1.mt_gstat GMT_EOT = true
        ↔ m.cur.emark = eom_val.eom_hit ∨ m.cur.emark = eom_val.eom)
      ∧ (has_bit (get_status h m).2.1.mt_gstat GMT_EOT = true
        → has_bit (get_status h m).2.1.mt_gstat GMT_EOD = true) := by
  have e1 : GMT_EOD = 2 ^ 27 := by decide
  have e2 : GMT_EOT = 2 ^ 29 := by decide
  rw [e1, e2, has_bit_two_pow, has_bit_two_pow, get_status_gstat_bit h m 27 (by decide),
    get_status_gstat_bit h m 29 (by decide)]
  cases m.cur.emark <;> simp [-ERROR_NO_MEDIA_IN_DRIVE, hmed, eom_val.val]

/-- C25 at a concrete drive: the boundary is end-of-medium-hit. -/
theorem get_status_end_flags_witness :
    (has_bit (get_status host0 (machine_at eom_val.eom_hit)).2.1.mt_gstat GMT_EOD = true
        ↔ (machine_at eom_val.eom_hit).cur.emark = eom_val.eod_hit
          ∨ (machine_at eom_val.eom_hit).cur.emark = eom_val.eod
          ∨ (machine_at eom_val.eom_hit).cur.emark = eom_val.eom_hit
          ∨ (machine_at eom_val.eom_hit).cur.emark = eom_val.eom)
      ∧ (has_bit (get_status host0 (machine_at eom_val.eom_hit)).2.1.mt_gstat GMT_EOT = true
        ↔ (machine_at eom_val.eom_hit).cur.emark = eom_val.eom_hit
          ∨ (machine_at eom_val.eom_hit).cur.emark = eom_val.eom)
      ∧ (has_bit (get_status host0 (machine_at eom_val.eom_hit)).2.1.mt_gstat GMT_EOT = true
        → has_bit (get_status host0 (machine_at eom_val.eom_hit)).2.1.mt_gstat GMT_EOD = true) :=
  get_status_end_flags host0 (machine_at eom_val.eom_hit) (by decide)

end mtinfo_drive

namespace mtinfo_drive

/-! ## The software configuration flags -/

theorem sw_flag_buffer_writes (d : mtinfo_drive) :
    sw_flag d MT_ST_BUFFER_WRITES = d.buffer_writes := rfl

theorem sw_flag_async_writes (d : mtinfo_drive) :
    sw_flag d MT_ST_ASYNC_WRITES = d.async_writes := rfl

theorem sw_flag_two_fm (d : mtinfo_drive) : sw_flag d MT_ST_TWO_FM = d.two_fm := rfl

theorem sw_flag_fast_eom (d : mtinfo_drive) : sw_flag d MT_ST_FAST_MTEOM = d.fast_eom := rfl

theorem sw_flag_auto_lock (d : mtinfo_drive) : sw_flag d MT_ST_AUTO_LOCK = d.auto_lock := rfl

theorem sw_flag_sysv (d : mtinfo_drive) : sw_flag d MT_ST_SYSV = d.sysv := rfl

theorem sw_flag_nowait (d : mtinfo_drive) : sw_flag d MT_ST_NOWAIT = d.nowait := rfl

/-- A transport call and the assignment of its status leave the software
configuration flags as they are. -/
theorem sw_flag_exec (h : Host) (c : Call) (m : Machine) (e bit : Nat) :
    sw_flag ((exec h c m).2.set_lasterr e).drv bit = sw_flag m.drv bit := by
  cases c <;> simp [sw_flag, exec, Machine.set_lasterr]

/-- The re-initialisation after a medium change leaves the software
configuration flags as they are. -/
theorem sw_flag_init (d : mtinfo_drive) (n k : Int) (p : mtinfo_part) (bit : Nat) :
    sw_flag ((d.init n false).setPart k p) bit = sw_flag d bit := by
  simp [sw_flag, mtinfo_drive.init, mtinfo_drive.setPart]

/-- A retry loop leaves the software configuration flags as they are. -/
theorem TAPE_FUNC_sw_flag (h : Host) (func : mtinfo_drive → Call)
    (partition : mtinfo_drive → Int) (fuel : Nat) (m : Machine) (x : Resp × Machine)
    (hx : TAPE_FUNC h func partition fuel m = some x) (bit : Nat) :
    sw_flag x.2.drv bit = sw_flag m.drv bit :=
  TAPE_FUNC_keeps h func partition (fun d => sw_flag d bit = sw_flag m.drv bit)
    (fun m1 e h1 => (sw_flag_exec h _ m1 e bit).trans h1)
    (fun d n p h1 => (sw_flag_init d _ n p bit).trans h1) fuel m x rfl hx

/-- The part of `set_options` after the switch leaves the software
configuration flags as the switch set them. -/
theorem set_options_tail (h : Host) (fuel : Nat) (m : Machine)
    (r : mtinfo_drive × TAPE_SET_DRIVE_PARAMETERS × Bool) (x : Nat × Machine) (bit : Nat)
    (hx : (if r.2.2 = true then
        (TAPE_FUNC h (fun _ => Call.SetTapeDriveParameters r.2.1) (fun d => d.partition)
            fuel ({ m with drv := { r.1 with lasterr := 0 } } : Machine)).bind fun x =>
        (if x.2.drv.lasterr = 0 then
            some ({ x.2 with drv := { x.2.drv with _dp :=
                      { x.2.drv._dp with ECC := r.2.1.ECC, DataPadding := r.2.1.DataPadding,
                                         ReportSetmarks := r.2.1.ReportSetmarks } } } : Machine)
          else (get_dp h fuel x.2).map fun y => y.2).map fun m2 =>
          (x.2.drv.lasterr, m2.set_lasterr x.2.drv.lasterr)
      else some (({ m with drv := { r.1 with lasterr := 0 } } : Machine).drv.lasterr,
        ({ m with drv := { r.1 with lasterr := 0 } } : Machine))) = some x) :
    sw_flag x.2.drv bit = sw_flag r.1 bit := by
  by_cases c : r.2.2 = true
  · rw [if_pos c] at hx
    obtain ⟨a, ha, hx⟩ := Option.bind_eq_some.mp hx
    obtain ⟨m2, hm2, hx⟩ := Option.map_eq_some'.mp hx
    have h1 := TAPE_FUNC_sw_flag h _ _ fuel _ a ha bit
    have h2 : sw_flag m2.drv bit = sw_flag a.2.drv bit := by
      by_cases c0 : a.2.drv.lasterr = 0
      · rw [if_pos c0] at hm2
        rw [← Option.some.inj hm2]
        simp [sw_flag]
      · rw [if_neg c0] at hm2
        obtain ⟨y, hy, hm2⟩ := Option.map_eq_some'.mp hm2
        unfold get_dp at hy
        obtain ⟨z, hz, hy⟩ := Option.map_eq_some'.mp hy
        rw [← hm2, ← hy]
        exact TAPE_FUNC_sw_flag h _ _ fuel _ z hz bit
    rw [← hx]
    have h3 : sw_flag (m2.set_lasterr a.2.drv.lasterr).drv bit = sw_flag m2.drv bit := by
      simp [sw_flag, Machine.set_lasterr]
    show sw_flag (m2.set_lasterr a.2.drv.lasterr).drv bit = sw_flag r.1 bit
    rw [h3, h2, h1]
    simp [sw_flag]
  · rw [if_neg c] at hx
    rw [← Option.some.inj hx]
    simp [sw_flag]

/-- C26: for every options word and every prior drive state, on a transport on
which retries end, `set_options` returns, and the seven software configuration
flags (buffer-writes, async-writes, two-filemarks, fast-skip-to-end, auto-lock,
sysv, nowait) are then as follows: in the full-bitmask mode each flag equals its
bit in the word; in the set-named-bits (respectively clear-named-bits) mode
every flag whose bit is in the word is true (respectively false) and every flag
whose bit is not in the word is unchanged. -/
theorem set_options_flags (h : Host) (fuel : Nat) (m : Machine) (options : Int)
    (hterm : AllRetriesEnd h fuel) :
    ∃ ret m', set_options h fuel m options = some (ret, m')
      ∧ ∀ bit ∈ flag_bits,
        (toDWORD options &&& MT_ST_OPTIONS = MT_ST_BOOLEANS →
            sw_flag m'.drv bit = has_bit (toDWORD options) bit)
        ∧ (toDWORD options &&& MT_ST_OPTIONS = MT_ST_SETBOOLEANS →
            (has_bit (toDWORD options) bit = true → sw_flag m'.drv bit = true)
            ∧ (has_bit (toDWORD options) bit = false →
                sw_flag m'.drv bit = sw_flag m.drv bit))
        ∧ (toDWORD options &&& MT_ST_OPTIONS = MT_ST_CLEARBOOLEANS →
            (has_bit (toDWORD options) bit = true → sw_flag m'.drv bit = false)
            ∧ (has_bit (toDWORD options) bit = false →
                sw_flag m'.drv bit = sw_flag m.drv bit)) := by
  obtain ⟨ret, m', hx, -, -⟩ := set_options_settled h fuel m options hterm
  refine ⟨ret, m', hx, ?_⟩
  intro bit hbit
  unfold set_options at hx
  simp only [] at hx
  generalize hr : (if toDWORD options &&& MT_ST_OPTIONS = 0 then _ else _ :
    mtinfo_drive × TAPE_SET_DRIVE_PARAMETERS × Bool) = r at hx
  have key := set_options_tail h fuel m r (ret, m') bit hx
  simp only [] at key
  rw [key, ← hr]
  simp only [flag_bits, List.mem_cons, List.mem_singleton, List.not_mem_nil, or_false] at hbit
  refine ⟨fun hw => ?_, fun hw => ⟨fun hb => ?_, fun hb => ?_⟩,
    fun hw => ⟨fun hb => ?_, fun hb => ?_⟩⟩
  · rw [hw]
    rcases hbit with rfl | rfl | rfl | rfl | rfl | rfl | rfl <;>
      simp only [sw_flag_buffer_writes, sw_flag_async_writes, sw_flag_two_fm, sw_flag_fast_eom,
        sw_flag_auto_lock, sw_flag_sysv, sw_flag_nowait] <;>
      simp [MT_ST_BOOLEANS]
  all_goals
    rw [hw]
    rcases hbit with rfl | rfl | rfl | rfl | rfl | rfl | rfl <;>
      simp only [sw_flag_buffer_writes, sw_flag_async_writes, sw_flag_two_fm, sw_flag_fast_eom,
        sw_flag_auto_lock, sw_flag_sysv, sw_flag_nowait] <;>
      simp [MT_ST_BOOLEANS, MT_ST_SETBOOLEANS, MT_ST_CLEARBOOLEANS, hb]

/-- C26 at a concrete request: set the two-filemarks and the nowait flag by
name. -/
theorem set_options_flags_witness :
    ∃ ret m', set_options host0 1 machine0 0x30002010 = some (ret, m')
      ∧ ∀ bit ∈ flag_bits,
        (toDWORD 0x30002010 &&& MT_ST_OPTIONS = MT_ST_BOOLEANS →
            sw_flag m'.drv bit = has_bit (toDWORD 0x30002010) bit)
        ∧ (toDWORD 0x30002010 &&& MT_ST_OPTIONS = MT_ST_SETBOOLEANS →
            (has_bit (toDWORD 0x30002010) bit = true → sw_flag m'.drv bit = true)
            ∧ (has_bit (toDWORD 0x30002010) bit = false →
                sw_flag m'.drv bit = sw_flag machine0.drv bit))
        ∧ (toDWORD 0x30002010 &&& MT_ST_OPTIONS = MT_ST_CLEARBOOLEANS →
            (has_bit (toDWORD 0x30002010) bit = true → sw_flag m'.drv bit = false)
            ∧ (has_bit (toDWORD 0x30002010) bit = false →
                sw_flag m'.drv bit = sw_flag machine0.drv bit)) :=
  set_options_flags host0 1 machine0 0x30002010
    (fun _ _ => ⟨0, Nat.zero_lt_one, (by decide : resp0.err ≠ ERROR_MEDIA_CHANGED)⟩)

end mtinfo_drive

namespace mtinfo_drive

/-! ## Rejected parameter changes -/

/-- On the transport `host_reject_params` the drive has the compression
feature, and the compression change is rejected and followed by a query of the
drive parameters. -/
theorem host_reject_params_run :
    host_reject_params.get_feature machine0.drv._dp TAPE_DRIVE_SET_COMPRESSION = true
      ∧ (set_compression host_reject_params 1 machine0 1).map
          (fun x => (x.1, statuses x.2.log)) = some (ERROR_IO_DEVICE, [0, ERROR_IO_DEVICE]) := by
  decide

end mtinfo_drive

namespace mtinfo_drive

/-! ## The end of the bus-reset lockout -/

/-- The status `ioctl` returns for an `MTIOCTOP` request is the last status it
leaves recorded. -/
theorem ioctl_mtop_lasterr (h : Host) (fuel : Nat) (m : Machine) (op : mtop)
    (ret : Nat) (out : ioctl_out) (m' : Machine)
    (hx : ioctl h fuel m ioctl_cmd.MTIOCTOP (some op) = some (ret, out, m')) :
    m'.drv.lasterr = ret := by
  simp only [ioctl] at hx
  by_cases c : m.drv.lasterr = ERROR_BUS_RESET ∧ bus_reset_allowed op.mt_op = false
  · rw [if_pos c] at hx
    have := Option.some.inj hx
    rw [← (Prod.mk.inj (Prod.mk.inj this).2).2, ← (Prod.mk.inj this).1]
    exact c.1
  · rw [if_neg c] at hx
    obtain ⟨y, -, hy⟩ := Option.map_eq_some'.mp hx
    rw [← (Prod.mk.inj (Prod.mk.inj hy).2).2, ← (Prod.mk.inj hy).1]

/-- C28, as stated, fails: after a bus reset, a retension request on a drive
without the tension feature fails with "invalid parameter" without any
transport call, and the forward space over a filemark that follows is no longer
rejected: it is carried out and returns success. -/
theorem ioctl_lockout_lifted_by_failure :
    machine_reset.drv.lasterr = ERROR_BUS_RESET
      ∧ (ioctl host0 1 machine_reset ioctl_cmd.MTIOCTOP (some ⟨MTRETEN, 0⟩)).map
          (fun x => (x.1, statuses x.2.2.log)) = some (ERROR_INVALID_PARAMETER, [])
      ∧ ((ioctl host0 1 machine_reset ioctl_cmd.MTIOCTOP (some ⟨MTRETEN, 0⟩)).bind fun x =>
          (ioctl host0 1 x.2.2 ioctl_cmd.MTIOCTOP (some ⟨MTFSF, 1⟩)).map
            fun y => (y.1, issued is_set_pos y.2.2.log))
        = some (0, [(Call.SetTapePosition TAPE_SPACE_FILEMARKS 0 1 false, 0)]) := by
  decide

/-- C28 (amended): if the last status is bus-reset and a whitelisted command
(`MTREW`, `MTOFFL`, `MTRETEN`, `MTERASE`, `MTSEEK`, `MTEOM`) is dispatched
through `ioctl`, then - on a transport on which retries end - the command
returns, and the drive is still locked out afterwards exactly when the status
the command returned is again bus-reset: in that case a following command
outside the whitelist is rejected with the bus-reset status and changes
nothing; after any other status, success or failure, the following command is
dispatched to the operation switch. -/
theorem ioctl_lockout_end (h : Host) (fuel : Nat) (m : Machine) (op : mtop)
    (hterm : AllRetriesEnd h fuel)
    (hreset : m.drv.lasterr = ERROR_BUS_RESET)
    (_hop : bus_reset_allowed op.mt_op = true) :
    ∃ ret out m', ioctl h fuel m ioctl_cmd.MTIOCTOP (some op) = some (ret, out, m')
      ∧ ∀ op2 : mtop, bus_reset_allowed op2.mt_op = false →
        (ret = ERROR_BUS_RESET →
          ioctl h fuel m' ioctl_cmd.MTIOCTOP (some op2)
            = some (ERROR_BUS_RESET, ioctl_out.nothing, m'))
        ∧ (ret ≠ ERROR_BUS_RESET →
          ioctl h fuel m' ioctl_cmd.MTIOCTOP (some op2)
            = (mtop_switch h fuel m' op2).map fun y => (y.2.drv.lasterr, y.1, y.2)) := by
  obtain ⟨ret, out, m', hx, -⟩ := ioctl_ok h fuel m ioctl_cmd.MTIOCTOP (some op) hterm
    (by rw [hreset]; decide)
  have hl := ioctl_mtop_lasterr h fuel m op ret out m' hx
  refine ⟨ret, out, m', hx, fun op2 hop2 => ⟨fun hr => ?_, fun hr => ?_⟩⟩
  · simp only [ioctl]
    rw [if_pos ⟨hl.trans hr, hop2⟩]
  · have hne : m'.drv.lasterr ≠ ERROR_BUS_RESET := by rw [hl]; exact hr
    simp only [ioctl]
    rw [if_neg (fun c => hne c.1), if_neg (fun c => hne c.1)]

/-- C28 (amended) at a concrete request: a rewind after a bus reset. -/
theorem ioctl_lockout_end_witness :
    ∃ ret out m', ioctl host0 1 machine_reset ioctl_cmd.MTIOCTOP (some ⟨MTREW, 0⟩)
        = some (ret, out, m')
      ∧ ∀ op2 : mtop, bus_reset_allowed op2.mt_op = false →
        (ret = ERROR_BUS_RESET →
          ioctl host0 1 m' ioctl_cmd.MTIOCTOP (some op2)
            = some (ERROR_BUS_RESET, ioctl_out.nothing, m'))
        ∧ (ret ≠ ERROR_BUS_RESET →
          ioctl host0 1 m' ioctl_cmd.MTIOCTOP (some op2)
            = (mtop_switch host0 1 m' op2).map fun y => (y.2.drv.lasterr, y.1, y.2)) :=
  ioctl_lockout_end host0 1 machine_reset ⟨MTREW, 0⟩
    (fun _ _ => ⟨0, Nat.zero_lt_one, (by decide : resp0.err ≠ ERROR_MEDIA_CHANGED)⟩)
    rfl (by decide)

end mtinfo_drive

namespace mtinfo_drive

/-! ## Block counters and the setmark flag across `read` and `write` -/

@[simp] theorem read_io_block (h : Host) (m : Machine) (ulen : Nat) :
    (read_io h m ulen).2.drv.block = m.drv.block := by
  unfold read_io; simp only []; split_ifs <;> simp [async_wait]

@[simp] theorem read_io_mp (h : Host) (m : Machine) (ulen : Nat) :
    (read_io h m ulen).2.drv._mp = m.drv._mp := by
  unfold read_io; simp only []; split_ifs <;> simp [async_wait]

theorem read_io_positions (h : Host) (m : Machine) (ulen : Nat) :
    ncalls Kind.GetTapePosition (read_io h m ulen).2.log
      = ncalls Kind.GetTapePosition m.log := by
  unfold read_io; simp only []; split_ifs <;> simp [async_wait, Call.kind]

@[simp] theorem write_io_block (h : Host) (m : Machine) (len : Nat) :
    (write_io h m len).2.drv.block = m.drv.block := by
  unfold write_io; simp only []; split_ifs <;> simp [async_wait]

@[simp] theorem write_io_mp (h : Host) (m : Machine) (len : Nat) :
    (write_io h m len).2.drv._mp = m.drv._mp := by
  unfold write_io; simp only []; split_ifs <;> simp [async_wait]

theorem write_io_positions (h : Host) (m : Machine) (len : Nat) :
    ncalls Kind.GetTapePosition (write_io h m len).2.log
      = ncalls Kind.GetTapePosition m.log := by
  unfold write_io; simp only []; split_ifs <;> simp [async_wait, Call.kind]

/-- The block counting adds the booked blocks to the absolute block and to the
block of the active partition, whatever their values, in 32-bit arithmetic. -/
theorem count_blocks_block (m : Machine) (b : Nat) (hb : 0 < b) :
    (count_blocks m b).drv.block = wrapLong (m.drv.block + blocks_of m.drv._mp.BlockSize b)
      ∧ (count_blocks m b).cur.block
          = wrapLong (m.cur.block + blocks_of m.drv._mp.BlockSize b) := by
  unfold count_blocks blocks_of
  simp only [gt_iff_lt, hb, if_true]
  simp [Machine.cur, Machine.updPart, Machine.updPartAt, mtinfo_drive.setPart, mtinfo_drive.part]

theorem read_classify_block (m : Machine) (b : Nat) :
    (read_classify m b).drv.block
        = (if IS_EOF m.drv.lasterr then wrapLong (m.drv.block + 1) else m.drv.block)
      ∧ (read_classify m b).cur.block
          = (if IS_EOF m.drv.lasterr then wrapLong (m.cur.block + 1) else m.cur.block) := by
  unfold read_classify
  simp only []
  split_ifs <;>
    simp [Machine.cur, Machine.updPart, Machine.updPartAt, mtinfo_drive.setPart,
      mtinfo_drive.part, Machine.set_lasterr, Machine.set_dirty]

theorem read_classify_smark (m : Machine) (b : Nat) :
    (read_classify m b).cur.smark
      = (if IS_EOF m.drv.lasterr then IS_SM m.drv.lasterr else m.cur.smark) := by
  unfold read_classify
  simp only []
  split_ifs <;>
    simp [Machine.cur, Machine.updPart, Machine.updPartAt, mtinfo_drive.setPart,
      mtinfo_drive.part, Machine.set_lasterr, Machine.set_dirty]

theorem write_classify_block (m : Machine) (a : Nat) :
    (write_classify m a).drv.block = m.drv.block
      ∧ (write_classify m a).cur.block = m.cur.block
      ∧ (write_classify m a).cur.smark = m.cur.smark := by
  unfold write_classify
  simp only []
  split_ifs <;>
    simp [Machine.cur, Machine.updPart, Machine.updPartAt, mtinfo_drive.setPart,
      mtinfo_drive.part, Machine.set_lasterr, Machine.set_dirty]

/-- The automatic locking step leaves the setmark flag of the active partition
cleared: a medium change absorbed by the lock request re-initialises the
partition records, whose flag is then false as well. -/
theorem auto_lock_step_smark (h : Host) (fuel : Nat) (m m' : Machine)
    (hx : auto_lock_step h fuel m = some m') (hs : m.cur.smark = false) :
    m'.cur.smark = false := by
  unfold auto_lock_step at hx
  split_ifs at hx with hc
  · unfold prepare at hx
    simp only [Option.map_eq_some'] at hx
    obtain ⟨y, ⟨z, hz, rfl⟩, rfl⟩ := hx
    have hk : z.2.cur.smark = false :=
      TAPE_FUNC_rule h _ _ (fun m1 => m1.cur.smark = false) (fun x => x.2.cur.smark = false)
        (fun m1 _ _ => by
          simp [cycle, Machine.cur, mtinfo_drive.init, mtinfo_drive.setPart, mtinfo_drive.part,
            mtinfo_part.init])
        (fun m1 h1 _ => by simpa [attempt] using h1) fuel _ z (by simpa using hs) hz
    simpa [TAPE_LOCK, TAPE_FORMAT, TAPE_UNLOAD, TAPE_LOAD, TAPE_TENSION, Machine.cur,
      mtinfo_drive.part] using hk
  · obtain rfl := Option.some.inj hx
    exact hs

/-- Entry of the transport read when the lock request, if one is made, is not
answered "medium changed": besides what `read_entry_quiet` states, the absolute
block and the media parameters are those before the call and no position query
was made. -/
theorem read_entry_frame (h : Host) (fuel : Nat) (m : Machine) (ulen s n : Nat)
    (hfuel : 0 < fuel)
    (hmed : (h.answer Kind.GetTapeStatus (ncalls Kind.GetTapeStatus m.log)).err
      ≠ ERROR_NO_MEDIA_IN_DRIVE)
    (hbus : m.drv.lasterr ≠ ERROR_BUS_RESET)
    (he : m.cur.emark = eom_val.no_eof ∨ m.cur.emark = eom_val.eof)
    (hlock : m.drv.auto_lock = true → m.drv.lock.val < lock_state.auto_locked.val →
      (h.answer Kind.PrepareTape (ncalls Kind.PrepareTape m.log)).err ≠ ERROR_MEDIA_CHANGED)
    (hread : next_read h m = (s, n)) :
    ∃ m3, read h fuel m ulen = some (read_transfer h m3 ulen)
      ∧ (read_io h m3 ulen).2.drv.lasterr = s ∧ (read_io h m3 ulen).1 = n
      ∧ m3.cur.block = m.cur.block
      ∧ m3.drv.block = m.drv.block ∧ m3.drv._mp = m.drv._mp
      ∧ ncalls Kind.GetTapePosition m3.log = ncalls Kind.GetTapePosition m.log := by
  obtain ⟨m3, h3, hp, hparts, hblk, hn⟩ := auto_lock_step_quiet h fuel
    (((wait_pending h (exec h Call.GetTapeStatus m).2).set_dirty dirty_state.clean).updPart
      fun p => { p with smark := false }) hfuel (by simp)
    (by simpa [wait_pending_ncalls, Call.kind] using hlock)
  obtain ⟨-, hmp, -⟩ := auto_lock_step_config h fuel _ m3 h3 (by simp)
  have hrf : ncalls Kind.ReadFile m3.log = ncalls Kind.ReadFile m.log := by
    rw [hn _ (by decide)]
    simp [wait_pending_ncalls, Call.kind]
  have hgo : ncalls Kind.GetOverlappedResult m3.log = ncalls Kind.GetOverlappedResult m.log
      + (if m.drv.dirty = dirty_state.async_write_pending then 1 else 0) := by
    rw [hn _ (by decide)]
    simp [wait_pending_ncalls_wait, Call.kind]
  have ho := read_io_outcome h m3 ulen
  rw [hrf, hgo] at ho
  have ho' : ((read_io h m3 ulen).2.drv.lasterr, (read_io h m3 ulen).1) = (s, n) := by
    rw [ho]; exact hread
  refine ⟨m3, ?_, congrArg Prod.fst ho', congrArg Prod.snd ho', ?_, ?_, ?_, ?_⟩
  · rw [read_unfold h fuel m ulen hmed hbus he, h3]; rfl
  · have hc : m3.cur = m3.drv._part m3.drv.partition := rfl
    rw [hc, hparts, hp]
    simp [Machine.updPart, Machine.updPartAt, mtinfo_drive.setPart, mtinfo_drive.part,
      Machine.cur]
  · rw [hblk]; simp
  · rw [hmp]; simp
  · rw [hn _ (by decide)]
    simp [wait_pending_ncalls, Call.kind]

/-- Entry of the transport write when the lock request, if one is made, is not
answered "medium changed": the `write` hands over to the transfer with the
block counters and the media parameters as before the call, and no position
query was made. -/
theorem write_entry_frame (h : Host) (fuel : Nat) (m : Machine) (len : Nat)
    (hfuel : 0 < fuel)
    (hmed : (h.answer Kind.GetTapeStatus (ncalls Kind.GetTapeStatus m.log)).err
      ≠ ERROR_NO_MEDIA_IN_DRIVE)
    (hbus : m.drv.lasterr ≠ ERROR_BUS_RESET)
    (hlock : m.drv.auto_lock = true → m.drv.lock.val < lock_state.auto_locked.val →
      (h.answer Kind.PrepareTape (ncalls Kind.PrepareTape m.log)).err ≠ ERROR_MEDIA_CHANGED) :
    ∃ m3 a, write h fuel m len = some (write_transfer h m3 len a)
      ∧ m3.cur.block = m.cur.block
      ∧ m3.drv.block = m.drv.block ∧ m3.drv._mp = m.drv._mp
      ∧ ncalls Kind.GetTapePosition m3.log = ncalls Kind.GetTapePosition m.log := by
  simp only [ERROR_NO_MEDIA_IN_DRIVE, ERROR_BUS_RESET] at hmed hbus
  by_cases hp : m.drv.dirty = dirty_state.async_write_pending
  · obtain ⟨m3, h3, hq, hparts, hblk, hn⟩ := auto_lock_step_quiet h fuel
      (((exec h Call.GetOverlappedResult (exec h Call.GetTapeStatus m).2).2.set_dirty
          dirty_state.clean).updPart
        fun p => { p with smark := false }) hfuel (by simp)
      (by simpa [async_wait, Call.kind] using hlock)
    obtain ⟨-, hmp, -⟩ := auto_lock_step_config h fuel _ m3 h3 (by simp)
    refine ⟨m3, (h.answer Kind.GetOverlappedResult
      (ncalls Kind.GetOverlappedResult m.log)).status, ?_, ?_, ?_, ?_, ?_⟩
    · simp [write, Call.kind, hmed, hbus, hp, h3, async_wait]
    · have hc : m3.cur = m3.drv._part m3.drv.partition := rfl
      rw [hc, hparts, hq]
      simp [Machine.updPart, Machine.updPartAt, mtinfo_drive.setPart, mtinfo_drive.part,
        Machine.cur, async_wait]
    · rw [hblk]; simp
    · rw [hmp]; simp
    · rw [hn _ (by decide)]; simp [Call.kind]
  · obtain ⟨m3, h3, hq, hparts, hblk, hn⟩ := auto_lock_step_quiet h fuel
      (((exec h Call.GetTapeStatus m).2.set_dirty dirty_state.clean).updPart
        fun p => { p with smark := false }) hfuel (by simp)
      (by simpa [Call.kind] using hlock)
    obtain ⟨-, hmp, -⟩ := auto_lock_step_config h fuel _ m3 h3 (by simp)
    refine ⟨m3, 0, ?_, ?_, ?_, ?_, ?_⟩
    · simp [write, Call.kind, hmed, hbus, hp, h3]
    · have hc : m3.cur = m3.drv._part m3.drv.partition := rfl
      rw [hc, hparts, hq]
      simp [Machine.updPart, Machine.updPartAt, mtinfo_drive.setPart, mtinfo_drive.part,
        Machine.cur]
    · rw [hblk]; simp
    · rw [hmp]; simp
    · rw [hn _ (by decide)]; simp [Call.kind]

/-- C29, as stated, fails: on a drive whose position is unknown (absolute block
and partition block -1), a read and a write of one 512-byte block each leave
both block counters at 0, a known position, without any position query.  The
sum is formed in the 32-bit counter: from block 2147483647 a read and a write
of one block each leave both block counters at -2147483648. -/
theorem unknown_block_advanced :
    (machine_unknown.drv.block = -1 ∧ machine_unknown.cur.block = -1
      ∧ (read (host_data Kind.ReadFile 512) 1 machine_unknown 512).map
          (fun x => (x.1, x.2.1, x.2.2.drv.block, x.2.2.cur.block,
            ncalls Kind.GetTapePosition x.2.2.log)) = some (0, 512, 0, 0, 0)
      ∧ (write (host_data Kind.WriteFile 512) 1 machine_unknown 512).map
          (fun x => (x.1, x.2.1, x.2.2.drv.block, x.2.2.cur.block,
            ncalls Kind.GetTapePosition x.2.2.log)) = some (0, 512, 0, 0, 0))
    ∧ (machine_long_max.drv.block = 2147483647 ∧ machine_long_max.cur.block = 2147483647
      ∧ (read (host_transfer 512) 1 machine_long_max 512).map
          (fun x => (x.1, x.2.1, x.2.2.drv.block, x.2.2.cur.block))
        = some (0, 512, -2147483648, -2147483648)
      ∧ (write (host_transfer 512) 1 machine_long_max 512).map
          (fun x => (x.1, x.2.1, x.2.2.drv.block, x.2.2.cur.block))
        = some (0, 512, -2147483648, -2147483648)) := by
  refine ⟨by decide, by decide, by decide, ?_, ?_⟩ <;> decide

/-- C29 (amended): `read` and `write` make no position query, and they advance
the block counters arithmetically whatever their values, the unknown value -1
included.  For every read or write that reaches the transport, whose automatic
lock, if one is taken, is not answered "medium changed", and that transfers at
least one byte: the absolute block and the block of the active partition are
those before the call plus the number of blocks booked for the transferred
bytes, plus one after a read that ran into a filemark or setmark, the sum
taken in the 32-bit arithmetic of a `long` (`wrapLong`: the plain sum while it
lies between -2147483648 and 2147483647, wrapped around otherwise). -/
theorem transfer_block_bookkeeping (h : Host) (fuel : Nat) (m : Machine) (len : Nat)
    (hfuel : 0 < fuel)
    (hmed : (h.answer Kind.GetTapeStatus (ncalls Kind.GetTapeStatus m.log)).err
      ≠ ERROR_NO_MEDIA_IN_DRIVE)
    (hbus : m.drv.lasterr ≠ ERROR_BUS_RESET)
    (hlock : m.drv.auto_lock = true → m.drv.lock.val < lock_state.auto_locked.val →
      (h.answer Kind.PrepareTape (ncalls Kind.PrepareTape m.log)).err ≠ ERROR_MEDIA_CHANGED) :
    ((m.cur.emark = eom_val.no_eof ∨ m.cur.emark = eom_val.eof) →
      ∃ ret n m', read h fuel m len = some (ret, n, m')
        ∧ ncalls Kind.GetTapePosition m'.log = ncalls Kind.GetTapePosition m.log
        ∧ (0 < n →
          m'.drv.block = wrapLong (m.drv.block + blocks_of m.drv._mp.BlockSize n
              + (if IS_EOF (next_read h m).1 then 1 else 0))
            ∧ m'.cur.block = wrapLong (m.cur.block + blocks_of m.drv._mp.BlockSize n
              + (if IS_EOF (next_read h m).1 then 1 else 0))))
      ∧ ∃ ret n m', write h fuel m len = some (ret, n, m')
        ∧ ncalls Kind.GetTapePosition m'.log = ncalls Kind.GetTapePosition m.log
        ∧ (0 < n →
          m'.drv.block = wrapLong (m.drv.block + blocks_of m.drv._mp.BlockSize n)
            ∧ m'.cur.block = wrapLong (m.cur.block + blocks_of m.drv._mp.BlockSize n)) := by
  refine ⟨fun he => ?_, ?_⟩
  · obtain ⟨m3, h3, hl, hb, hcb, hblk, hmp, hn⟩ := read_entry_frame h fuel m len
      (next_read h m).1 (next_read h m).2 hfuel hmed hbus he hlock rfl
    refine ⟨_, _, _, h3, ?_, fun hpos => ?_⟩
    · simp [read_transfer, read_io_positions, hn]
    · have hpos' : 0 < (read_io h m3 len).1 := hpos
      obtain ⟨c1, c2⟩ := count_blocks_block (read_io h m3 len).2 (read_io h m3 len).1 hpos'
      obtain ⟨r1, r2⟩ := read_classify_block
        (count_blocks (read_io h m3 len).2 (read_io h m3 len).1) (read_io h m3 len).1
      rw [count_blocks_lasterr, hl] at r1 r2
      rw [r1, r2, c1, c2, read_io_block, read_io_mp, read_io_cur, hblk, hmp, hcb]
      by_cases hf : IS_EOF (next_read h m).1 = true
      · simp only [hf, if_true]
        exact ⟨wrapLong_add_left _ _, wrapLong_add_left _ _⟩
      · simp only [hf, Bool.false_eq_true, if_false, add_zero]
        exact ⟨trivial, trivial⟩
  · obtain ⟨m3, a, h3, hcb, hblk, hmp, hn⟩ := write_entry_frame h fuel m len hfuel hmed hbus
      hlock
    refine ⟨_, _, _, h3, ?_, fun hpos => ?_⟩
    · simp [write_transfer, write_io_positions, hn]
    · have hpos' : 0 < (write_io h m3 len).1 := hpos
      obtain ⟨c1, c2⟩ := count_blocks_block (write_io h m3 len).2 (write_io h m3 len).1 hpos'
      obtain ⟨w1, w2, -⟩ := write_classify_block
        (count_blocks (write_io h m3 len).2 (write_io h m3 len).1) a
      rw [w1, w2, c1, c2, write_io_block, write_io_mp, write_io_cur, hblk, hmp, hcb]
      exact ⟨rfl, rfl⟩

/-- C29 (amended) at a concrete drive: the position is unknown, and a read and
a write of one block of 512 bytes each leave both block counters at 0. -/
theorem transfer_block_bookkeeping_witness :
    (∃ ret m', read (host_transfer 512) 1 machine_unknown 512 = some (ret, 512, m')
        ∧ ncalls Kind.GetTapePosition m'.log = ncalls Kind.GetTapePosition machine_unknown.log
        ∧ m'.drv.block = wrapLong (machine_unknown.drv.block
              + blocks_of machine_unknown.drv._mp.BlockSize 512
              + (if IS_EOF (next_read (host_transfer 512) machine_unknown).1 then 1 else 0))
        ∧ m'.cur.block = wrapLong (machine_unknown.cur.block
              + blocks_of machine_unknown.drv._mp.BlockSize 512
              + (if IS_EOF (next_read (host_transfer 512) machine_unknown).1 then 1 else 0))
        ∧ m'.drv.block = 0 ∧ m'.cur.block = 0)
      ∧ ∃ ret m', write (host_transfer 512) 1 machine_unknown 512 = some (ret, 512, m')
        ∧ ncalls Kind.GetTapePosition m'.log = ncalls Kind.GetTapePosition machine_unknown.log
        ∧ m'.drv.block
            = wrapLong (machine_unknown.drv.block
                + blocks_of machine_unknown.drv._mp.BlockSize 512)
        ∧ m'.cur.block
            = wrapLong (machine_unknown.cur.block
                + blocks_of machine_unknown.drv._mp.BlockSize 512)
        ∧ m'.drv.block = 0 ∧ m'.cur.block = 0 := by
  obtain ⟨hr, hw⟩ := transfer_block_bookkeeping (host_transfer 512) 1 machine_unknown 512
    (by decide) (by decide) (by decide) (by decide)
  obtain ⟨ret, n, m', e, hq, hb⟩ := hr (by decide)
  obtain ⟨ret2, n2, m2, e2, hq2, hb2⟩ := hw
  have en : n = 512 := by
    have := congrArg (fun o : Option (Nat × Nat × Machine) => o.map fun x => x.2.1) e
    exact (Option.some.inj ((by decide : (read (host_transfer 512) 1 machine_unknown 512).map
      (fun x => x.2.1) = some 512).symm.trans this)).symm
  have en2 : n2 = 512 := by
    have := congrArg (fun o : Option (Nat × Nat × Machine) => o.map fun x => x.2.1) e2
    exact (Option.some.inj ((by decide : (write (host_transfer 512) 1 machine_unknown 512).map
      (fun x => x.2.1) = some 512).symm.trans this)).symm
  subst en en2
  obtain ⟨b1, b2⟩ := hb (by decide)
  obtain ⟨b3, b4⟩ := hb2 (by decide)
  exact ⟨⟨ret, m', e, hq, b1, b2, b1.trans (by decide), b2.trans (by decide)⟩,
    ret2, m2, e2, hq2, b3, b4, b3.trans (by decide), b4.trans (by decide)⟩

/-- Entry of the transport read, medium changes included: the transfer starts
with the setmark flag of the active partition cleared. -/
theorem read_entry_smark (h : Host) (fuel : Nat) (m : Machine) (ulen : Nat)
    (hterm : RetriesEnd h Kind.PrepareTape fuel)
    (hmed : (h.answer Kind.GetTapeStatus (ncalls Kind.GetTapeStatus m.log)).err
      ≠ ERROR_NO_MEDIA_IN_DRIVE)
    (hbus : m.drv.lasterr ≠ ERROR_BUS_RESET)
    (he : m.cur.emark = eom_val.no_eof ∨ m.cur.emark = eom_val.eof) :
    ∃ m3, read h fuel m ulen = some (read_transfer h m3 ulen)
      ∧ (read_io h m3 ulen).2.drv.lasterr = (next_read h m).1
      ∧ m3.cur.smark = false := by
  obtain ⟨m3, h3, hn⟩ := auto_lock_step_spec h fuel
    (((wait_pending h (exec h Call.GetTapeStatus m).2).set_dirty dirty_state.clean).updPart
      fun p => { p with smark := false }) hterm (by simp)
  have hs := auto_lock_step_smark h fuel _ m3 h3 (by simp)
  have hrf : ncalls Kind.ReadFile m3.log = ncalls Kind.ReadFile m.log := by
    rw [hn _ (by decide)]
    simp [wait_pending_ncalls, Call.kind]
  have hgo : ncalls Kind.GetOverlappedResult m3.log = ncalls Kind.GetOverlappedResult m.log
      + (if m.drv.dirty = dirty_state.async_write_pending then 1 else 0) := by
    rw [hn _ (by decide)]
    simp [wait_pending_ncalls_wait, Call.kind]
  have ho := read_io_outcome h m3 ulen
  rw [hrf, hgo] at ho
  have ho' : ((read_io h m3 ulen).2.drv.lasterr, (read_io h m3 ulen).1) = next_read h m := by
    rw [ho]; rfl
  refine ⟨m3, ?_, congrArg Prod.fst ho', hs⟩
  rw [read_unfold h fuel m ulen hmed hbus he, h3]; rfl

/-- Entry of the transport write, medium changes included: the transfer starts
with the setmark flag of the active partition cleared. -/
theorem write_entry_smark (h : Host) (fuel : Nat) (m : Machine) (len : Nat)
    (hterm : RetriesEnd h Kind.PrepareTape fuel)
    (hmed : (h.answer Kind.GetTapeStatus (ncalls Kind.GetTapeStatus m.log)).err
      ≠ ERROR_NO_MEDIA_IN_DRIVE)
    (hbus : m.drv.lasterr ≠ ERROR_BUS_RESET) :
    ∃ m3 a, write h fuel m len = some (write_transfer h m3 len a) ∧ m3.cur.smark = false := by
  simp only [ERROR_NO_MEDIA_IN_DRIVE, ERROR_BUS_RESET] at hmed hbus
  by_cases hp : m.drv.dirty = dirty_state.async_write_pending
  · obtain ⟨m3, h3, -⟩ := auto_lock_step_spec h fuel
      (((exec h Call.GetOverlappedResult (exec h Call.GetTapeStatus m).2).2.set_dirty
          dirty_state.clean).updPart
        fun p => { p with smark := false }) hterm (by simp)
    have hs := auto_lock_step_smark h fuel _ m3 h3 (by simp)
    refine ⟨m3, (h.answer Kind.GetOverlappedResult
      (ncalls Kind.GetOverlappedResult m.log)).status, ?_, hs⟩
    simp [write, Call.kind, hmed, hbus, hp, h3, async_wait]
  · obtain ⟨m3, h3, -⟩ := auto_lock_step_spec h fuel
      (((exec h Call.GetTapeStatus m).2.set_dirty dirty_state.clean).updPart
        fun p => { p with smark := false }) hterm (by simp)
    have hs := auto_lock_step_smark h fuel _ m3 h3 (by simp)
    refine ⟨m3, 0, ?_, hs⟩
    simp [write, Call.kind, hmed, hbus, hp, h3]

/-- C30, as stated, fails: a write whose `WriteFile` is answered
"setmark detected" returns that status, and the setmark flag of the active
partition is false afterwards. -/
theorem write_setmark_status :
    (write (host_once Kind.WriteFile ERROR_SETMARK_DETECTED 0) 1 machine0 512).map
        (fun x => (x.1, issued (fun _ => true) x.2.2.log, x.2.2.cur.smark))
      = some (ERROR_SETMARK_DETECTED,
          [(Call.WriteFile 512, ERROR_SETMARK_DETECTED), (Call.GetTapeStatus, 0)], false) := by
  decide

/-- C30 (amended): for every read that reaches the transport, the setmark flag
of the active partition after the call is true if and only if the final
transport status of that very read was setmark-detected; after every write that
reaches the transport the flag is false, whatever the transport status of the
write and whatever the flag was before. -/
theorem transfer_setmark_flag (h : Host) (fuel : Nat) (m : Machine) (len : Nat)
    (hterm : RetriesEnd h Kind.PrepareTape fuel)
    (hmed : (h.answer Kind.GetTapeStatus (ncalls Kind.GetTapeStatus m.log)).err
      ≠ ERROR_NO_MEDIA_IN_DRIVE)
    (hbus : m.drv.lasterr ≠ ERROR_BUS_RESET) :
    ((m.cur.emark = eom_val.no_eof ∨ m.cur.emark = eom_val.eof) →
      ∃ ret n m', read h fuel m len = some (ret, n, m')
        ∧ (m'.cur.smark = true ↔ (next_read h m).1 = ERROR_SETMARK_DETECTED))
      ∧ ∃ ret n m', write h fuel m len = some (ret, n, m') ∧ m'.cur.smark = false := by
  refine ⟨fun he => ?_, ?_⟩
  · obtain ⟨m3, h3, hl, hs⟩ := read_entry_smark h fuel m len hterm hmed hbus he
    refine ⟨_, _, _, h3, ?_⟩
    have hc := read_classify_smark
      (count_blocks (read_io h m3 len).2 (read_io h m3 len).1) (read_io h m3 len).1
    rw [count_blocks_lasterr, hl, count_blocks_smark, read_io_cur, hs] at hc
    show (read_classify (count_blocks (read_io h m3 len).2 (read_io h m3 len).1)
      (read_io h m3 len).1).cur.smark = true ↔ _
    rw [hc]
    by_cases e : (next_read h m).1 = ERROR_SETMARK_DETECTED
    · rw [e]; decide
    · simp only [ERROR_SETMARK_DETECTED] at e
      simp [IS_EOF, IS_SM, e]
  · obtain ⟨m3, a, h3, hs⟩ := write_entry_smark h fuel m len hterm hmed hbus
    refine ⟨_, _, _, h3, ?_⟩
    obtain ⟨-, -, w3⟩ := write_classify_block
      (count_blocks (write_io h m3 len).2 (write_io h m3 len).1) a
    show (write_classify (count_blocks (write_io h m3 len).2 (write_io h m3 len).1) a).cur.smark
      = false
    rw [w3, count_blocks_smark, write_io_cur, hs]

/-- C30 (amended) at a concrete transport: the first `ReadFile` runs into a
setmark. -/
theorem transfer_setmark_flag_witness :
    ((machine0.cur.emark = eom_val.no_eof ∨ machine0.cur.emark = eom_val.eof) →
      ∃ ret n m', read (host_once Kind.ReadFile ERROR_SETMARK_DETECTED 0) 1 machine0 512
          = some (ret, n, m')
        ∧ (m'.cur.smark = true
          ↔ (next_read (host_once Kind.ReadFile ERROR_SETMARK_DETECTED 0) machine0).1
            = ERROR_SETMARK_DETECTED))
      ∧ ∃ ret n m', write (host_once Kind.ReadFile ERROR_SETMARK_DETECTED 0) 1 machine0 512
          = some (ret, n, m') ∧ m'.cur.smark = false :=
  transfer_setmark_flag (host_once Kind.ReadFile ERROR_SETMARK_DETECTED 0) 1 machine0 512
    (host_once_retries Kind.ReadFile ERROR_SETMARK_DETECTED 0 (by decide) Kind.PrepareTape)
    (by decide) (by decide)

end mtinfo_drive

namespace mtinfo_drive

/-! ## The number of blocks booked by `read` and `write` -/

/-- Entry of the transport read when the lock request, if one is made, is not
answered "medium changed": the transfer starts from the record of the active
partition, the absolute block and the media parameters of before the call, the
setmark flag cleared. -/
theorem read_entry_record (h : Host) (fuel : Nat) (m : Machine) (ulen s n : Nat)
    (hfuel : 0 < fuel)
    (hmed : (h.answer Kind.GetTapeStatus (ncalls Kind.GetTapeStatus m.log)).err
      ≠ ERROR_NO_MEDIA_IN_DRIVE)
    (hbus : m.drv.lasterr ≠ ERROR_BUS_RESET)
    (he : m.cur.emark = eom_val.no_eof ∨ m.cur.emark = eom_val.eof)
    (hlock : m.drv.auto_lock = true → m.drv.lock.val < lock_state.auto_locked.val →
      (h.answer Kind.PrepareTape (ncalls Kind.PrepareTape m.log)).err ≠ ERROR_MEDIA_CHANGED)
    (hread : next_read h m = (s, n)) :
    ∃ m3, read h fuel m ulen = some (read_transfer h m3 ulen)
      ∧ (read_io h m3 ulen).2.drv.lasterr = s ∧ (read_io h m3 ulen).1 = n
      ∧ m3.cur = { m.cur with smark := false }
      ∧ m3.drv.block = m.drv.block ∧ m3.drv._mp = m.drv._mp := by
  obtain ⟨m3, h3, hp, hparts, hblk, hn⟩ := auto_lock_step_quiet h fuel
    (((wait_pending h (exec h Call.GetTapeStatus m).2).set_dirty dirty_state.clean).updPart
      fun p => { p with smark := false }) hfuel (by simp)
    (by simpa [wait_pending_ncalls, Call.kind] using hlock)
  obtain ⟨-, hmp, -⟩ := auto_lock_step_config h fuel _ m3 h3 (by simp)
  have hrf : ncalls Kind.ReadFile m3.log = ncalls Kind.ReadFile m.log := by
    rw [hn _ (by decide)]
    simp [wait_pending_ncalls, Call.kind]
  have hgo : ncalls Kind.GetOverlappedResult m3.log = ncalls Kind.GetOverlappedResult m.log
      + (if m.drv.dirty = dirty_state.async_write_pending then 1 else 0) := by
    rw [hn _ (by decide)]
    simp [wait_pending_ncalls_wait, Call.kind]
  have ho := read_io_outcome h m3 ulen
  rw [hrf, hgo] at ho
  have ho' : ((read_io h m3 ulen).2.drv.lasterr, (read_io h m3 ulen).1) = (s, n) := by
    rw [ho]; exact hread
  refine ⟨m3, ?_, congrArg Prod.fst ho', congrArg Prod.snd ho', ?_, ?_, ?_⟩
  · rw [read_unfold h fuel m ulen hmed hbus he, h3]; rfl
  · have hc : m3.cur = m3.drv._part m3.drv.partition := rfl
    rw [hc, hparts, hp]
    simp [Machine.updPart, Machine.updPartAt, mtinfo_drive.setPart, mtinfo_drive.part,
      Machine.cur]
  · rw [hblk]; simp
  · rw [hmp]; simp

/-- Entry of the transport write when the lock request, if one is made, is not
answered "medium changed": the transfer starts from the record of the active
partition, the absolute block and the media parameters of before the call, the
setmark flag cleared. -/
theorem write_entry_record (h : Host) (fuel : Nat) (m : Machine) (len : Nat)
    (hfuel : 0 < fuel)
    (hmed : (h.answer Kind.GetTapeStatus (ncalls Kind.GetTapeStatus m.log)).err
      ≠ ERROR_NO_MEDIA_IN_DRIVE)
    (hbus : m.drv.lasterr ≠ ERROR_BUS_RESET)
    (hlock : m.drv.auto_lock = true → m.drv.lock.val < lock_state.auto_locked.val →
      (h.answer Kind.PrepareTape (ncalls Kind.PrepareTape m.log)).err ≠ ERROR_MEDIA_CHANGED) :
    ∃ m3 a, write h fuel m len = some (write_transfer h m3 len a)
      ∧ m3.cur = { m.cur with smark := false }
      ∧ m3.drv.block = m.drv.block ∧ m3.drv._mp = m.drv._mp := by
  simp only [ERROR_NO_MEDIA_IN_DRIVE, ERROR_BUS_RESET] at hmed hbus
  by_cases hp : m.drv.dirty = dirty_state.async_write_pending
  · obtain ⟨m3, h3, hq, hparts, hblk, hn⟩ := auto_lock_step_quiet h fuel
      (((exec h Call.GetOverlappedResult (exec h Call.GetTapeStatus m).2).2.set_dirty
          dirty_state.clean).updPart
        fun p => { p with smark := false }) hfuel (by simp)
      (by simpa [async_wait, Call.kind] using hlock)
    obtain ⟨-, hmp, -⟩ := auto_lock_step_config h fuel _ m3 h3 (by simp)
    refine ⟨m3, (h.answer Kind.GetOverlappedResult
      (ncalls Kind.GetOverlappedResult m.log)).status, ?_, ?_, ?_, ?_⟩
    · simp [write, Call.kind, hmed, hbus, hp, h3, async_wait]
    · have hc : m3.cur = m3.drv._part m3.drv.partition := rfl
      rw [hc, hparts, hq]
      simp [Machine.updPart, Machine.updPartAt, mtinfo_drive.setPart, mtinfo_drive.part,
        Machine.cur, async_wait]
    · rw [hblk]; simp
    · rw [hmp]; simp
  · obtain ⟨m3, h3, hq, hparts, hblk, hn⟩ := auto_lock_step_quiet h fuel
      (((exec h Call.GetTapeStatus m).2.set_dirty dirty_state.clean).updPart
        fun p => { p with smark := false }) hfuel (by simp)
      (by simpa [Call.kind] using hlock)
    obtain ⟨-, hmp, -⟩ := auto_lock_step_config h fuel _ m3 h3 (by simp)
    refine ⟨m3, 0, ?_, ?_, ?_, ?_⟩
    · simp [write, Call.kind, hmed, hbus, hp, h3]
    · have hc : m3.cur = m3.drv._part m3.drv.partition := rfl
      rw [hc, hparts, hq]
      simp [Machine.updPart, Machine.updPartAt, mtinfo_drive.setPart, mtinfo_drive.part,
        Machine.cur]
    · rw [hblk]; simp
    · rw [hmp]; simp

/-- The block counting on a known or unknown fblock. -/
theorem count_blocks_fblock (m : Machine) (b : Nat) (hb : 0 < b) :
    (count_blocks m b).cur.fblock
      = (if m.cur.fblock ≥ 0 then wrapLong (m.cur.fblock + blocks_of m.drv._mp.BlockSize b)
          else m.cur.fblock) := by
  unfold count_blocks blocks_of
  simp only [gt_iff_lt, hb, if_true]
  simp [Machine.cur, Machine.updPart, Machine.updPartAt, mtinfo_drive.setPart, mtinfo_drive.part]

/-- A read that does not end on a filemark or setmark leaves the counters of
the block counting as they are. -/
theorem read_classify_fblock (m : Machine) (b : Nat) (he : IS_EOF m.drv.lasterr = false) :
    (read_classify m b).cur.fblock = m.cur.fblock := by
  unfold read_classify
  simp only [he, Bool.false_eq_true, if_false]
  split_ifs <;>
    simp [Machine.cur, Machine.updPart, Machine.updPartAt, mtinfo_drive.setPart,
      mtinfo_drive.part, Machine.set_lasterr, Machine.set_dirty]

theorem write_classify_fblock (m : Machine) (a : Nat) :
    (write_classify m a).cur.fblock = m.cur.fblock := by
  unfold write_classify
  simp only []
  split_ifs <;>
    simp [Machine.cur, Machine.updPart, Machine.updPartAt, mtinfo_drive.setPart,
      mtinfo_drive.part, Machine.set_lasterr, Machine.set_dirty]

/-- The booked blocks are the ceiling of `n / B` as long as the 32-bit sum
`n + (B - 1)` of `howmany` does not wrap and the quotient fits a `long`; one
block is booked in variable-block mode. -/
theorem blocks_of_ceil (B n : Nat) (hn : 0 < n)
    (hr : 0 < B → n + (B - 1) < 2 ^ 32 ∧ (n + (B - 1)) / B < 2 ^ 31) :
    ∃ k : Nat, blocks_of B n = (k : Int) ∧ (B = 0 → k = 1)
      ∧ (0 < B → (k - 1) * B < n ∧ n ≤ k * B) := by
  by_cases hB : B = 0
  · subst hB
    exact ⟨1, by simp [blocks_of, toLong], fun _ => rfl, fun h0 => absurd h0 (by decide)⟩
  · have hB' : 0 < B := Nat.pos_of_ne_zero hB
    obtain ⟨h1, h2⟩ := hr hB'
    refine ⟨(n + (B - 1)) / B, ?_, fun h0 => absurd h0 hB, fun _ => ⟨?_, ?_⟩⟩
    · simp only [blocks_of, if_neg hB, howmany, toLong]
      rw [Nat.mod_eq_of_lt h1, Nat.mod_eq_of_lt (by omega), if_pos h2]
    · have hk : 1 ≤ (n + (B - 1)) / B := by
        rw [Nat.one_le_div_iff hB']; omega
      have := Nat.div_mul_le_self (n + (B - 1)) B
      have e : ((n + (B - 1)) / B - 1) * B = (n + (B - 1)) / B * B - B := by
        rw [Nat.sub_mul, one_mul]
      rw [e]; omega
    · have := Nat.lt_div_mul_add hB' (a := n + (B - 1))
      have e : (n + (B - 1)) / B * B + B = ((n + (B - 1)) / B) * B + B := rfl
      omega

/-- C31, as stated, fails three times.  A read of 512 bytes (block size 512,
final status "more data") whose automatic lock absorbs a medium change leaves
the counters 50, 50 and 3 at 0, 1 and 1, not at 51, 51 and 4.  A read of
2^32 - 1 bytes with block size 512 books no block at all, because the sum
`n + (B - 1)` of `howmany` wraps in 32 bits, although the ceiling of `n / B`
is 8388608.  And a read of 512 bytes at block 2147483647 leaves the three
counters at -2147483648: they do not increase, the 32-bit counters wrap. -/
theorem transfer_blocks_not_ceiling :
    ((machine_mid true eom_val.no_eof).drv.block, (machine_mid true eom_val.no_eof).cur.block,
        (machine_mid true eom_val.no_eof).cur.fblock,
        (machine_mid true eom_val.no_eof).drv._mp.BlockSize) = (50, 50, 3, 512)
      ∧ (read (host_lock_changed Kind.ReadFile ERROR_MORE_DATA 512) 2
            (machine_mid true eom_val.no_eof) 512).map
          (fun x => (x.2.1, x.2.2.drv.block, x.2.2.cur.block, x.2.2.cur.fblock))
        = some (512, 0, 1, 1)
      ∧ (read (host_data Kind.ReadFile 4294967295) 1 (machine_mid false eom_val.no_eof)
            4294967295).map
          (fun x => (x.1, x.2.1, x.2.2.drv.block, x.2.2.cur.block, x.2.2.cur.fblock))
        = some (0, 4294967295, 50, 50, 3)
      ∧ (4294967295 + (512 - 1)) / 512 = 8388608
      ∧ (machine_long_max.drv.block, machine_long_max.cur.block, machine_long_max.cur.fblock,
          machine_long_max.drv._mp.BlockSize) = (2147483647, 2147483647, 2147483647, 512)
      ∧ (read (host_transfer 512) 1 machine_long_max 512).map
          (fun x => (x.1, x.2.1, x.2.2.drv.block, x.2.2.cur.block, x.2.2.cur.fblock))
        = some (0, 512, -2147483648, -2147483648, -2147483648) := by
  refine ⟨by decide, by decide, by decide, by decide, by decide, by decide⟩

/-- C31 (amended): for every read or write that reaches the transport, whose
automatic lock (if one is taken) is not answered "medium changed", and that
transfers n > 0 bytes with cached media block size B, where for B > 0 the
32-bit sum n + (B - 1) does not wrap and its quotient by B fits a `long`: the
absolute block and the block of the active partition are each advanced by
exactly k, and a known fblock is advanced by k while an unknown one stays
unknown, where k = 1 when B = 0 and k is the ceiling of n / B when B > 0, and
where a counter x is advanced to x + k in the 32-bit arithmetic of a `long`
(`wrapLong`: the plain sum while it is at most 2147483647, wrapped around
otherwise) - for a read, provided its final status is not filemark- or
setmark-detected. -/
theorem transfer_block_count (h : Host) (fuel : Nat) (m : Machine) (len : Nat)
    (hfuel : 0 < fuel)
    (hmed : (h.answer Kind.GetTapeStatus (ncalls Kind.GetTapeStatus m.log)).err
      ≠ ERROR_NO_MEDIA_IN_DRIVE)
    (hbus : m.drv.lasterr ≠ ERROR_BUS_RESET)
    (hlock : m.drv.auto_lock = true → m.drv.lock.val < lock_state.auto_locked.val →
      (h.answer Kind.PrepareTape (ncalls Kind.PrepareTape m.log)).err ≠ ERROR_MEDIA_CHANGED) :
    ((m.cur.emark = eom_val.no_eof ∨ m.cur.emark = eom_val.eof) →
      IS_EOF (next_read h m).1 = false →
      ∃ ret n m', read h fuel m len = some (ret, n, m')
        ∧ (0 < n →
          (0 < m.drv._mp.BlockSize → n + (m.drv._mp.BlockSize - 1) < 2 ^ 32
            ∧ (n + (m.drv._mp.BlockSize - 1)) / m.drv._mp.BlockSize < 2 ^ 31) →
          ∃ k : Nat, (m.drv._mp.BlockSize = 0 → k = 1)
            ∧ (0 < m.drv._mp.BlockSize →
                (k - 1) * m.drv._mp.BlockSize < n ∧ n ≤ k * m.drv._mp.BlockSize)
            ∧ m'.drv.block = wrapLong (m.drv.block + k)
            ∧ m'.cur.block = wrapLong (m.cur.block + k)
            ∧ m'.cur.fblock
                = (if m.cur.fblock ≥ 0 then wrapLong (m.cur.fblock + k) else m.cur.fblock)))
      ∧ ∃ ret n m', write h fuel m len = some (ret, n, m')
        ∧ (0 < n →
          (0 < m.drv._mp.BlockSize → n + (m.drv._mp.BlockSize - 1) < 2 ^ 32
            ∧ (n + (m.drv._mp.BlockSize - 1)) / m.drv._mp.BlockSize < 2 ^ 31) →
          ∃ k : Nat, (m.drv._mp.BlockSize = 0 → k = 1)
            ∧ (0 < m.drv._mp.BlockSize →
                (k - 1) * m.drv._mp.BlockSize < n ∧ n ≤ k * m.drv._mp.BlockSize)
            ∧ m'.drv.block = wrapLong (m.drv.block + k)
            ∧ m'.cur.block = wrapLong (m.cur.block + k)
            ∧ m'.cur.fblock
                = (if m.cur.fblock ≥ 0 then wrapLong (m.cur.fblock + k)
                  else m.cur.fblock)) := by
  refine ⟨fun he hs => ?_, ?_⟩
  · obtain ⟨m3, h3, hl, hb, hcur, hblk, hmp⟩ := read_entry_record h fuel m len
      (next_read h m).1 (next_read h m).2 hfuel hmed hbus he hlock rfl
    refine ⟨_, _, _, h3, fun hpos hr => ?_⟩
    have hpos' : 0 < (read_io h m3 len).1 := hpos
    obtain ⟨k, hk, hk0, hkB⟩ := blocks_of_ceil m.drv._mp.BlockSize (read_io h m3 len).1 hpos' hr
    obtain ⟨c1, c2⟩ := count_blocks_block (read_io h m3 len).2 (read_io h m3 len).1 hpos'
    have c3 := count_blocks_fblock (read_io h m3 len).2 (read_io h m3 len).1 hpos'
    obtain ⟨r1, r2⟩ := read_classify_block
      (count_blocks (read_io h m3 len).2 (read_io h m3 len).1) (read_io h m3 len).1
    have r3 := read_classify_fblock
      (count_blocks (read_io h m3 len).2 (read_io h m3 len).1) (read_io h m3 len).1
      (by rw [count_blocks_lasterr, hl]; exact hs)
    rw [count_blocks_lasterr, hl, hs] at r1 r2
    rw [read_io_block, read_io_mp, hblk, hmp, hk] at c1
    rw [read_io_cur, read_io_mp, hcur, hmp, hk] at c2 c3
    simp only [Bool.false_eq_true, if_false] at r1 r2
    refine ⟨k, hk0, hkB, ?_, ?_, ?_⟩
    · rw [r1, c1]
    · rw [r2, c2]
    · rw [r3, c3]
  · obtain ⟨m3, a, h3, hcur, hblk, hmp⟩ := write_entry_record h fuel m len hfuel hmed hbus
      hlock
    refine ⟨_, _, _, h3, fun hpos hr => ?_⟩
    have hpos' : 0 < (write_io h m3 len).1 := hpos
    obtain ⟨k, hk, hk0, hkB⟩ := blocks_of_ceil m.drv._mp.BlockSize (write_io h m3 len).1
      hpos' hr
    obtain ⟨c1, c2⟩ := count_blocks_block (write_io h m3 len).2 (write_io h m3 len).1 hpos'
    have c3 := count_blocks_fblock (write_io h m3 len).2 (write_io h m3 len).1 hpos'
    obtain ⟨w1, w2, -⟩ := write_classify_block
      (count_blocks (write_io h m3 len).2 (write_io h m3 len).1) a
    have w3 := write_classify_fblock
      (count_blocks (write_io h m3 len).2 (write_io h m3 len).1) a
    rw [write_io_block, write_io_mp, hblk, hmp, hk] at c1
    rw [write_io_cur, write_io_mp, hcur, hmp, hk] at c2 c3
    refine ⟨k, hk0, hkB, ?_, ?_, ?_⟩
    · rw [w1, c1]
    · rw [w2, c2]
    · rw [w3, c3]

/-- C31 (amended) at a concrete transport: a read and a write of 1024 bytes
each on a medium with 512-byte blocks advance the counters 50, 50 and 3 by the
ceiling of 1024 / 512. -/
theorem transfer_block_count_witness :
    (∃ (ret : Nat) (m' : Machine) (k : Nat),
        read (host_transfer 1024) 1 (machine_mid false eom_val.no_eof) 1024
          = some (ret, 1024, m')
        ∧ ((k - 1) * 512 < 1024 ∧ 1024 ≤ k * 512)
        ∧ m'.drv.block = wrapLong ((machine_mid false eom_val.no_eof).drv.block + k)
        ∧ m'.cur.block = wrapLong ((machine_mid false eom_val.no_eof).cur.block + k)
        ∧ m'.cur.fblock = wrapLong ((machine_mid false eom_val.no_eof).cur.fblock + k))
      ∧ ∃ (ret : Nat) (m' : Machine) (k : Nat),
        write (host_transfer 1024) 1 (machine_mid false eom_val.no_eof) 1024
          = some (ret, 1024, m')
        ∧ ((k - 1) * 512 < 1024 ∧ 1024 ≤ k * 512)
        ∧ m'.drv.block = wrapLong ((machine_mid false eom_val.no_eof).drv.block + k)
        ∧ m'.cur.block = wrapLong ((machine_mid false eom_val.no_eof).cur.block + k)
        ∧ m'.cur.fblock = wrapLong ((machine_mid false eom_val.no_eof).cur.fblock + k) := by
  obtain ⟨hr, hw⟩ := transfer_block_count (host_transfer 1024) 1
    (machine_mid false eom_val.no_eof) 1024 (by decide) (by decide) (by decide) (by decide)
  obtain ⟨ret, n, m', e, hb⟩ := hr (by decide) (by decide)
  obtain ⟨ret2, n2, m2, e2, hb2⟩ := hw
  have en : n = 1024 := by
    have := congrArg (fun o : Option (Nat × Nat × Machine) => o.map fun x => x.2.1) e
    exact (Option.some.inj ((by decide :
      (read (host_transfer 1024) 1 (machine_mid false eom_val.no_eof) 1024).map
        (fun x => x.2.1) = some 1024).symm.trans this)).symm
  have en2 : n2 = 1024 := by
    have := congrArg (fun o : Option (Nat × Nat × Machine) => o.map fun x => x.2.1) e2
    exact (Option.some.inj ((by decide :
      (write (host_transfer 1024) 1 (machine_mid false eom_val.no_eof) 1024).map
        (fun x => x.2.1) = some 1024).symm.trans this)).symm
  subst en en2
  obtain ⟨k, -, hk, b1, b2, b3⟩ := hb (by decide) (fun _ => by decide)
  obtain ⟨k2, -, hk2, b4, b5, b6⟩ := hb2 (by decide) (fun _ => by decide)
  exact ⟨⟨ret, m', k, e, hk (by decide), b1, b2, b3.trans (if_pos (by decide))⟩,
    ret2, m2, k2, e2, hk2 (by decide), b4, b5, b6.trans (if_pos (by decide))⟩

/-- The same read, evaluated: 1024 bytes in 512-byte blocks move the counters
50, 50 and 3 to 52, 52 and 5. -/
theorem transfer_block_count_run :
    (read (host_data Kind.ReadFile 1024) 1 (machine_mid false eom_val.no_eof) 1024).map
        (fun x => (x.1, x.2.1, x.2.2.drv.block, x.2.2.cur.block, x.2.2.cur.fblock))
      = some (0, 1024, 52, 52, 5) := by
  decide

end mtinfo_drive

namespace mtinfo_drive

/-! ## Partition indices and the status of `MTMKPART` -/

/-- C32, evaluated: the position query made by `set_pos` in absolute-block mode
is answered with partition number `MAX_PARTITION_NUM + 1`, that is partition
index `MAX_PARTITION_NUM`.  The index becomes the active partition and the
statement `part (partition)->initialize (block)` stores through it: the record
at index `MAX_PARTITION_NUM`, at block 0 before, is at block 7 afterwards.
`open` on the same transport tests `partition < MAX_PARTITION_NUM` first and
leaves that record alone, though the active index is out of range as well. -/
theorem set_pos_partition_out_of_range :
    machine0.drv._part MAX_PARTITION_NUM = mtinfo_part.init 0
      ∧ (set_pos (host_partition (MAX_PARTITION_NUM + 1) 7) 1 machine0
            TAPE_ABSOLUTE_BLOCK 7 false).map
          (fun x => (x.1, x.2.drv.partition, x.2.drv._part MAX_PARTITION_NUM))
        = some (0, (MAX_PARTITION_NUM : Int), mtinfo_part.init 7)
      ∧ (drive_open (host_partition (MAX_PARTITION_NUM + 1) 7) 1 machine0).map
          (fun x => (x.1, x.2.drv.partition, x.2.drv._part MAX_PARTITION_NUM))
        = some (0, (MAX_PARTITION_NUM : Int), mtinfo_part.init 0) := by
  refine ⟨by decide, by decide, by decide⟩

/-- C33, evaluated: `set_partition (1)` whose seek is answered "medium changed"
once and then succeeds.  Every record was at block 7; after the call partition
0 is unknown (block -1, not reset to block 0) and the record of partition 2,
the index plus one, is at block 0.  With the index `MAX_PARTITION_NUM - 1` on a
drive that reports `MAX_PARTITION_NUM` partitions, the retry stores through
index `MAX_PARTITION_NUM`. -/
theorem set_partition_retry_resets_next :
    ((machine_max_parts.drv._part 0).block, (machine_max_parts.drv._part 2).block,
        (machine_max_parts.drv._part MAX_PARTITION_NUM).block) = (7, 7, 7)
      ∧ (set_partition host_pos_changed 2 machine_max_parts 1).map
          (fun x => (x.1, statuses x.2.log, x.2.drv.partition, (x.2.drv._part 0).block,
            (x.2.drv._part 2).block, (x.2.drv._part 3).block))
        = some (0, [0, ERROR_MEDIA_CHANGED], 1, -1, 0, -1)
      ∧ (set_partition host_pos_changed 2 machine_max_parts (MAX_PARTITION_NUM - 1)).map
          (fun x => (x.1, x.2.drv.partition, (x.2.drv._part 0).block,
            (x.2.drv._part MAX_PARTITION_NUM).block))
        = some (0, (MAX_PARTITION_NUM : Int) - 1, -1, 0) := by
  refine ⟨by decide, by decide, by decide⟩

/-- The create-partition command on a drive without multi-partition capability:
`ioctl` makes no transport call, changes nothing and returns the last status
recorded before the call, whatever it is. -/
theorem ioctl_mkpart_single (h : Host) (fuel : Nat) (m : Machine) (count : Int)
    (hmax : m.drv._dp.MaximumPartitionCount ≤ 1) (hbus : m.drv.lasterr ≠ ERROR_BUS_RESET) :
    ioctl h fuel m ioctl_cmd.MTIOCTOP (some ⟨MTMKPART, count⟩)
      = some (m.drv.lasterr, ioctl_out.nothing, m) := by
  simp only [ERROR_BUS_RESET] at hbus
  simp [ioctl, mtop_switch, create_partitions, ignore_ret, hmax, hbus]

/-- C34, evaluated: on a drive with a single partition, `create_partitions`
itself returns "invalid parameter", but the create-partition command
dispatched through `ioctl` returns the last status recorded before it: success
when that was success, and an earlier device error when that was the last
status.  No transport call is made. -/
theorem ioctl_mkpart_returns_last_status :
    machine0.drv._dp.MaximumPartitionCount = 1
      ∧ (create_partitions host0 1 machine0 1).map (fun x => (x.1, statuses x.2.log))
        = some (ERROR_INVALID_PARAMETER, [])
      ∧ (ioctl host0 1 machine0 ioctl_cmd.MTIOCTOP (some ⟨MTMKPART, 1⟩)).map
          (fun x => (x.1, statuses x.2.2.log)) = some (0, [])
      ∧ (ioctl host0 1 (machine0.set_lasterr ERROR_IO_DEVICE) ioctl_cmd.MTIOCTOP
            (some ⟨MTMKPART, 1⟩)).map
          (fun x => (x.1, statuses x.2.2.log)) = some (ERROR_IO_DEVICE, []) := by
  refine ⟨by decide, by decide, by decide, by decide⟩

end mtinfo_drive

/-! ## The status returned by `close` after a failed filemark write -/

/-- A retry loop keeps the automatic-lock option, and leaves the lock state as
it was or, after a medium change, unlocked. -/
theorem TAPE_FUNC_lock_kept (h : Host) (func : mtinfo_drive → Call)
    (partition : mtinfo_drive → Int) (a : Bool) (l : lock_state) (fuel : Nat) (m : Machine)
    (x : Resp × Machine) (hm : lock_kept a l m.drv)
    (hx : TAPE_FUNC h func partition fuel m = some x) : lock_kept a l x.2.drv :=
  TAPE_FUNC_keeps h func partition (lock_kept a l)
    (fun m1 e h1 => by simpa [lock_kept] using h1)
    (fun d n p h1 => by
      simp only [lock_kept] at h1 ⊢
      exact ⟨by simpa [mtinfo_drive.init, mtinfo_drive.setPart] using h1.1,
        Or.inr (by simp [mtinfo_drive.init, mtinfo_drive.setPart])⟩)
    fuel m x hm hx

namespace mtinfo_drive

theorem get_pos_lock_kept (h : Host) (fuel : Nat) (m : Machine) (a : Bool) (l : lock_state)
    (y : Nat × Machine) (hm : lock_kept a l m.drv) (hy : get_pos h fuel m = some y) :
    lock_kept a l y.2.drv := by
  unfold get_pos at hy
  simp only [Option.bind_eq_some] at hy
  obtain ⟨x1, h1, x2, h2, h3⟩ := hy
  have k1 := TAPE_FUNC_lock_kept h _ _ a l fuel m x1 hm h1
  have k2 : lock_kept a l x2.2.drv := by
    split_ifs at h2 with hc
    · exact TAPE_FUNC_lock_kept h _ _ a l fuel x1.2 x2 k1 h2
    · obtain rfl := Option.some.inj h2
      exact k1
  split_ifs at h3 <;>
    · simp only [Option.some.injEq] at h3
      rw [← h3]
      simpa [lock_kept] using k2

theorem reconcile_lock_kept (h : Host) (fuel : Nat) (m : Machine) (err : Nat) (a : Bool)
    (l : lock_state) (m' : Machine) (hm : lock_kept a l m.drv)
    (hr : reconcile h fuel m err = some m') : lock_kept a l m'.drv := by
  unfold reconcile at hr
  obtain ⟨y, hy, rfl⟩ := Option.map_eq_some'.mp hr
  have k := get_pos_lock_kept h fuel m a l y hm hy
  simp only [lock_kept] at k ⊢
  simp only [set_lasterr_auto_lock, set_lasterr_lock]
  split_ifs <;> simpa using k

theorem write_marks_lock_kept (h : Host) (fuel : Nat) (m : Machine) (marktype : Int)
    (count : Nat) (a : Bool) (l : lock_state) (x : Nat × Machine)
    (hm : lock_kept a l m.drv) (hx : write_marks h fuel m marktype count = some x) :
    lock_kept a l x.2.drv := by
  unfold write_marks at hx
  simp only [] at hx
  obtain ⟨y, hy, hx⟩ := Option.bind_eq_some.mp hx
  have k0 : lock_kept a l (if marktype ≠ TAPE_SETMARKS then
      (if m.drv.dirty = dirty_state.async_write_pending then
        (wait_pending h m).set_dirty dirty_state.has_written else m).set_dirty dirty_state.clean
      else (if m.drv.dirty = dirty_state.async_write_pending then
        (wait_pending h m).set_dirty dirty_state.has_written else m)).drv := by
    simp only [lock_kept] at hm ⊢
    split_ifs <;> simpa using hm
  have k1 := TAPE_FUNC_lock_kept h _ _ a l fuel _ y k0 hy
  by_cases c0 : y.2.drv.lasterr = 0
  · rw [if_pos c0] at hx
    simp only [Option.some.injEq] at hx
    rw [← hx]
    simpa [lock_kept] using k1
  · rw [if_neg c0] at hx
    obtain ⟨m3, h3, rfl⟩ := Option.map_eq_some'.mp hx
    exact reconcile_lock_kept h fuel y.2 _ a l m3 k1 h3

/-- C35, as stated, fails: after a write, `close` with rewind whose filemark
write is rejected with a device error goes on to rewind and returns the status
of the rewind, success; and `close` without rewind that holds an automatically
acquired lock returns the status of the unlock request, success. -/
theorem close_masks_failed_mark :
    (close (host_once Kind.WriteTapemark ERROR_IO_DEVICE 0) 1 machine_written true).map
        (fun x => (x.1, issued (fun _ => true) x.2.log))
      = some (0, [(Call.SetTapePosition TAPE_REWIND 0 0 false, 0),
          (Call.GetTapePosition TAPE_LOGICAL_POSITION, 0),
          (Call.WriteTapemark TAPE_SHORT_FILEMARKS 2, ERROR_IO_DEVICE),
          (Call.GetTapeStatus, 0)])
    ∧ (close (host_once Kind.WriteTapemark ERROR_IO_DEVICE 0) 1 machine_written_locked
          false).map
        (fun x => (x.1, issued (fun _ => true) x.2.log))
      = some (0, [(Call.PrepareTape TAPE_UNLOCK false, 0),
          (Call.GetTapePosition TAPE_LOGICAL_POSITION, 0),
          (Call.WriteTapemark TAPE_SHORT_FILEMARKS 1, ERROR_IO_DEVICE),
          (Call.GetTapeStatus, 0)]) := by
  refine ⟨?_, ?_⟩ <;> decide

/-- C35 (amended): for every drive state with a medium present and pending-write
state has-written that holds no automatically acquired lock, `close` without
rewind returns, on a transport on which retries end, and if the filemark write
it issues fails then `close` returns the non-zero status of that write. -/
theorem close_reports_failed_mark (h : Host) (fuel : Nat) (m : Machine)
    (hterm : AllRetriesEnd h fuel)
    (hmed : (h.answer Kind.GetTapeStatus (ncalls Kind.GetTapeStatus m.log)).err
      ≠ ERROR_NO_MEDIA_IN_DRIVE)
    (hd : m.drv.dirty = dirty_state.has_written)
    (hnl : ¬ (m.drv.auto_lock = true ∧ m.drv.lock = lock_state.auto_locked)) :
    ∃ ret m' ty s, close h fuel m false = some (ret, m')
      ∧ issued is_write_mark m'.log
          = (Call.WriteTapemark ty (if m.drv.two_fm then 2 else 1), s)
            :: issued is_write_mark m.log
      ∧ (s ≠ 0 → ret = s) := by
  simp only [ERROR_NO_MEDIA_IN_DRIVE] at hmed
  obtain ⟨m1, hm1⟩ : ∃ m1, m1 = (exec h Call.GetTapeStatus (m.set_lasterr 0)).2 :=
    ⟨_, rfl⟩
  have hd1 : m1.drv.dirty = dirty_state.has_written := by rw [hm1]; simpa using hd
  have hl1 : m1.drv.lasterr = 0 := by rw [hm1]; simp
  have ht1 : m1.drv.two_fm = m.drv.two_fm := by rw [hm1]; simp
  have hk1 : lock_kept m.drv.auto_lock m.drv.lock m1.drv := by
    rw [hm1]; simp [lock_kept]
  have e1 : issued is_write_mark m1.log = issued is_write_mark m.log := by
    rw [hm1, exec_log, issued_call_skip _ _ _ _ rfl]; rfl
  have hw : wait_pending h m1 = m1 := wait_pending_clean h m1 (by rw [hd1]; decide)
  obtain ⟨retw, mw, ty, hwm, hlw, -, -, hiw, -⟩ :=
    write_marks_spec h fuel m1 TAPE_FILEMARKS (if m1.drv.two_fm then 2 else 1) hterm
  have hiw1 := hiw is_write_mark (fun _ => rfl) rfl
  simp only [is_write_mark, if_true, List.singleton_append] at hiw1
  have hkw := write_marks_lock_kept h fuel m1 _ _ _ _ (retw, mw) hk1 hwm
  have hnw : ¬ (mw.drv.auto_lock = true ∧ mw.drv.lock = lock_state.auto_locked) := by
    rintro ⟨ha, hl⟩
    rcases hkw with ⟨ka, kl | kl⟩
    · exact hnl ⟨ka ▸ ha, kl ▸ hl⟩
    · rw [kl] at hl; exact absurd hl (by decide)
  have hflush : close_flush h fuel m1 false
      = (if mw.drv.two_fm = true ∧ mw.drv.lasterr = 0 ∧ false = false then
          (set_pos h fuel mw TAPE_SPACE_FILEMARKS (-1) false).map fun y =>
            if y.2.drv.lasterr = 0 then y.2.updPart fun p => { p with fblock := 0 } else y.2
        else some mw) := by
    unfold close_flush
    rw [if_pos (by rw [hd1])]
    simp only [hw, hl1, if_true, hwm, Option.some_bind]
  obtain ⟨m3, h3, hi3, hm3⟩ : ∃ m3, close_flush h fuel m1 false = some m3
      ∧ issued is_write_mark m3.log = issued is_write_mark mw.log
      ∧ (retw ≠ 0 → m3 = mw) := by
    rw [hflush]
    by_cases c : mw.drv.two_fm = true ∧ mw.drv.lasterr = 0 ∧ false = false
    · rw [if_pos c]
      obtain ⟨ret2, m2, h2, -, -, hi2⟩ := set_pos_spec h fuel mw TAPE_SPACE_FILEMARKS (-1) false
        is_write_mark (fun _ => rfl) rfl (fun _ _ _ _ => rfl) hterm
      rw [h2]
      refine ⟨_, rfl, ?_, fun hne => absurd (hlw.trans c.2.1) hne⟩
      show issued is_write_mark (if m2.drv.lasterr = 0 then
        m2.updPart fun p => { p with fblock := 0 } else m2).log = _
      split_ifs <;> simpa using hi2
    · rw [if_neg c]
      exact ⟨mw, rfl, rfl, fun _ => rfl⟩
  obtain ⟨ret, m', h', hi', -⟩ := close_finish_spec h fuel m3 (hterm _)
  have hclose : close h fuel m false = some (ret, m') := by
    unfold close
    simp only [exec_fst, Call.kind, set_lasterr_log, ERROR_NO_MEDIA_IN_DRIVE, if_neg hmed,
      ← hm1, h3, Option.some_bind, h']
  refine ⟨ret, m', ty, retw, hclose, ?_, fun hs => ?_⟩
  · rw [hi' is_write_mark rfl (fun _ _ => rfl), hi3, hiw1, e1, ht1]
  · rw [hm3 hs] at h'
    have hfin : close_finish h fuel mw false
        = some (mw.drv.lasterr, mw.set_dirty dirty_state.clean) := by
      unfold close_finish
      simp only [Bool.false_eq_true, if_false, Option.some_bind]
      rw [if_neg hnw]
      rfl
    rw [hfin] at h'
    have := congrArg Prod.fst (Option.some.inj h')
    exact this.symm.trans hlw.symm

/-- C35 (amended) at a concrete transport: the filemark write of a drive with no
automatic lock is rejected with a device error. -/
theorem close_reports_failed_mark_witness :
    ∃ ret m' ty s, close (host_once Kind.WriteTapemark ERROR_IO_DEVICE 0) 1 machine_written false
        = some (ret, m')
      ∧ issued is_write_mark m'.log
          = (Call.WriteTapemark ty (if machine_written.drv.two_fm then 2 else 1), s)
            :: issued is_write_mark machine_written.log
      ∧ (s ≠ 0 → ret = s) :=
  close_reports_failed_mark (host_once Kind.WriteTapemark ERROR_IO_DEVICE 0) 1 machine_written
    (host_once_retries Kind.WriteTapemark ERROR_IO_DEVICE 0 (by decide))
    (by decide) (by decide) (by decide)

/-- The same request, evaluated: `close` returns the device error of the
filemark write. -/
theorem close_failed_mark_run :
    (close (host_once Kind.WriteTapemark ERROR_IO_DEVICE 0) 1 machine_written false).map
        (fun x => (x.1, statuses x.2.log))
      = some (ERROR_IO_DEVICE, [0, ERROR_IO_DEVICE, 0]) := by
  decide

end mtinfo_drive

namespace mtinfo_drive

/-! ## Termination of the mark stepping -/

/-- A returned position query made no positioning call. -/
theorem get_pos_positioning (h : Host) (fuel : Nat) (m : Machine) (y : Nat × Machine)
    (hy : get_pos h fuel m = some y) :
    ncalls Kind.SetTapePosition y.2.log = ncalls Kind.SetTapePosition m.log := by
  unfold get_pos at hy
  simp only [Option.bind_eq_some] at hy
  obtain ⟨x1, h1, x2, h2, h3⟩ := hy
  obtain ⟨-, -, -, hn1, -⟩ := TAPE_FUNC_frame h _ _ fuel m x1 h1
  have e1 := hn1 Kind.SetTapePosition (by simp [Call.kind])
  have e2 : ncalls Kind.SetTapePosition x2.2.log = ncalls Kind.SetTapePosition m.log := by
    split_ifs at h2 with hc
    · obtain ⟨-, -, -, hn2, -⟩ := TAPE_FUNC_frame h _ _ fuel x1.2 x2 h2
      rw [hn2 Kind.SetTapePosition (by simp [Call.kind]), e1]
    · obtain rfl := Option.some.inj h2
      exact e1
  split_ifs at h3 <;>
    · simp only [Option.some.injEq] at h3
      rw [← h3]; exact e2

/-- A returned query-and-reinitialise pair made no positioning call. -/
theorem requery_positioning (h : Host) (fuel : Nat) (m m' : Machine)
    (hr : requery h fuel m = some m') :
    ncalls Kind.SetTapePosition m'.log = ncalls Kind.SetTapePosition m.log := by
  unfold requery at hr
  obtain ⟨y, hy, rfl⟩ := Option.map_eq_some'.mp hr
  simpa using get_pos_positioning h fuel m y hy

/-- On a transport that never answers "medium changed", the stepping loop makes
at most as many positioning calls as marks were requested. -/
theorem mark_loop_calls (h : Host) (fuel : Nat) (dir : Int) (hfuel : 0 < fuel)
    (hq : ∀ k j, (h.answer k j).err ≠ ERROR_MEDIA_CHANGED) :
    ∀ (n : Nat) (m : Machine) (x : Nat × Nat × Machine),
      mark_loop h fuel dir n m = some x →
      ncalls Kind.SetTapePosition x.2.2.log ≤ ncalls Kind.SetTapePosition m.log + n := by
  intro n
  induction n with
  | zero =>
    intro m x hx
    simp only [mark_loop, Option.some.injEq] at hx
    rw [← hx]; exact le_refl _
  | succ n ih =>
    intro m x hx
    obtain ⟨m1, h1, -, -, -, hn, -⟩ := _set_pos_first h fuel m TAPE_SPACE_FILEMARKS dir 0
      false hfuel (hq _ _)
    simp only [mark_loop, h1, Option.some_bind] at hx
    by_cases h0 : (h.answer Kind.SetTapePosition (ncalls Kind.SetTapePosition m.log)).err = 0
    · rw [if_pos h0] at hx
      have := ih m1 x hx
      omega
    · rw [if_neg h0] at hx
      simp only [Option.some.injEq] at hx
      rw [← hx]
      show ncalls Kind.SetTapePosition m1.log ≤ _
      omega

/-- On a transport that never answers "medium changed", the two stepping loops
make at most `|count|` positioning calls. -/
theorem set_pos_marks_calls (h : Host) (fuel : Nat) (m : Machine) (count : Int)
    (hfuel : 0 < fuel) (hq : ∀ k j, (h.answer k j).err ≠ ERROR_MEDIA_CHANGED)
    (a : Nat × Int × Machine) (ha : set_pos_marks h fuel m count = some a) :
    ncalls Kind.SetTapePosition a.2.2.log ≤ ncalls Kind.SetTapePosition m.log + count.natAbs := by
  unfold set_pos_marks at ha
  by_cases hpos : 0 < count
  · rw [if_pos hpos] at ha
    simp only [Option.bind_eq_some, Option.map_eq_some'] at ha
    obtain ⟨b, ⟨x, hx, rfl⟩, hb⟩ := ha
    rw [if_neg (by simp only [not_and, not_lt]; intro _; omega)] at hb
    simp only [Option.some.injEq] at hb
    rw [← hb]
    have := mark_loop_calls h fuel 1 hfuel hq _ m x hx
    have e : count.toNat = count.natAbs := by omega
    show ncalls Kind.SetTapePosition x.2.2.log ≤ _
    omega
  · rw [if_neg hpos] at ha
    simp only [Option.some_bind] at ha
    split_ifs at ha with hneg
    · simp only [Option.map_eq_some'] at ha
      obtain ⟨x, hx, rfl⟩ := ha
      have := mark_loop_calls h fuel (-1) hfuel hq _ m x hx
      have e : (-count).toNat = count.natAbs := by omega
      show ncalls Kind.SetTapePosition x.2.2.log ≤ _
      omega
    · simp only [Option.some.injEq] at ha
      rw [← ha]; exact Nat.le_add_right _ _

/-- The bookkeeping of the filemark mode makes no positioning call of its own;
with the re-step requested it makes those of the one call of `again`. -/
theorem post_filemarks_calls (again : Machine → Int → Option (Nat × Machine)) (h : Host)
    (fuel : Nat) (m : Machine) (count : Int) (sfm_func : Bool) (err : Nat) (undone : Int)
    (hagain : ∀ m1 c b, (c = 1 ∨ c = -1) → again m1 c = some b →
      ncalls Kind.SetTapePosition b.2.log ≤ ncalls Kind.SetTapePosition m1.log + 1)
    (b : Nat × Machine)
    (hb : post_filemarks again h fuel m count sfm_func err undone = some b) :
    ncalls Kind.SetTapePosition b.2.log
      ≤ ncalls Kind.SetTapePosition m.log + (if sfm_func then 1 else 0) := by
  unfold post_filemarks at hb
  by_cases c1 : err = 0 ∨ IS_SM err = true
  · rw [if_pos c1] at hb
    obtain ⟨y, hy, hb⟩ := Option.bind_eq_some.mp hb
    have hg := get_pos_positioning h fuel m y hy
    cases sfm_func
    · simp only [Bool.false_eq_true, if_false, Option.some.injEq] at hb
      rw [← hb]
      by_cases hp : count > 0 <;> simp [hp, hg]
    · simp only [if_true] at hb
      have hc : (if count > 0 then (-1 : Int) else 1) = 1
          ∨ (if count > 0 then (-1 : Int) else 1) = -1 := by
        by_cases hp : count > 0
        · rw [if_pos hp]; exact Or.inr rfl
        · rw [if_neg hp]; exact Or.inl rfl
      have := hagain _ _ b hc hb
      simp only [if_true]
      have e : ∀ f : mtinfo_part → mtinfo_part,
          ncalls Kind.SetTapePosition ((y.2.updPart
            fun p => { p with block := y.2.drv.block }).updPart f).log
            = ncalls Kind.SetTapePosition m.log := by
        intro f; simp [hg]
      by_cases hp : count > 0
      · simp only [hp, if_true] at this
        rw [e] at this; exact this
      · simp only [hp, if_false] at this
        rw [e] at this; exact this
  · rw [if_neg c1] at hb
    by_cases c2 : IS_EOD err = true
    · rw [if_pos c2] at hb
      obtain ⟨y, hy, rfl⟩ := Option.map_eq_some'.mp hb
      have hg := get_pos_positioning h fuel m y hy
      simp [hg]
    · rw [if_neg c2] at hb
      by_cases c3 : IS_BOT err = true
      · rw [if_pos c3] at hb
        simp only [Option.some.injEq] at hb
        rw [← hb]; simp [reset_to_bot]
      · rw [if_neg c3] at hb
        obtain ⟨m1, h1, rfl⟩ := Option.map_eq_some'.mp hb
        have := requery_positioning h fuel m m1 h1
        simp [this]

/-- The body of `set_pos` in filemark mode, on a transport that never answers
"medium changed": at most `|count|` positioning calls, plus those of the one
re-step when it is requested. -/
theorem set_pos_body_calls (again : Machine → Int → Option (Nat × Machine)) (h : Host)
    (fuel : Nat) (m : Machine) (count : Int) (sfm_func : Bool)
    (hfuel : 0 < fuel) (hq : ∀ k j, (h.answer k j).err ≠ ERROR_MEDIA_CHANGED)
    (hagain : ∀ m1 c b, (c = 1 ∨ c = -1) → again m1 c = some b →
      ncalls Kind.SetTapePosition b.2.log ≤ ncalls Kind.SetTapePosition m1.log + 1)
    (x : Nat × Machine)
    (hx : set_pos_body again h fuel m TAPE_SPACE_FILEMARKS count sfm_func = some x) :
    ncalls Kind.SetTapePosition x.2.log
      ≤ ncalls Kind.SetTapePosition m.log + count.natAbs + (if sfm_func then 1 else 0) := by
  by_cases hc : count = 0
  · subst hc
    have : set_pos_body again h fuel m TAPE_SPACE_FILEMARKS 0 sfm_func
        = some (0, m.set_lasterr 0) := by
      simp [set_pos_body]
    rw [this] at hx
    rw [← Option.some.inj hx]
    simp
  · rw [set_pos_body_filemarks again h fuel m count sfm_func hc] at hx
    obtain ⟨a, ha, hx⟩ := Option.bind_eq_some.mp hx
    obtain ⟨b, hb, rfl⟩ := Option.map_eq_some'.mp hx
    have h1 := set_pos_marks_calls h fuel m count hfuel hq a ha
    have h2 := post_filemarks_calls again h fuel a.2.2 count sfm_func a.1 a.2.1 hagain b hb
    simp only [set_lasterr_log]
    omega

/-- Without the re-step flag the body of `set_pos` never reaches its recursive
call: it is the same whatever stands for that call. -/
theorem set_pos_body_plain (again : Machine → Int → Option (Nat × Machine)) (h : Host)
    (fuel : Nat) (m : Machine) (mode count : Int) :
    set_pos_body again h fuel m mode count false = set_pos_plain h fuel m mode count := by
  simp only [set_pos_plain, set_pos_body, set_pos_post, post_filemarks, Bool.false_eq_true,
    if_false]

/-- C36: on a transport that never answers "medium changed", the mark stepping
of `set_pos` in space-by-filemarks mode returns for every count; it makes at
most `|count|` single-mark positioning calls, the marks left undone are those
requested less the steps that completed (every completed step lowers `|undone|`
by one, and `undone` keeps the sign of `count`); the whole operation returns
after at most one more positioning call, that of the reverse re-step, which is
made by one recursive call with the re-step flag cleared, a call that does not
recurse again. -/
theorem set_pos_marks_terminate (h : Host) (fuel : Nat) (m : Machine) (count : Int)
    (sfm_func : Bool) (hfuel : 0 < fuel)
    (hq : ∀ k j, (h.answer k j).err ≠ ERROR_MEDIA_CHANGED) :
    (∃ err undone m1, set_pos_marks h fuel m count = some (err, undone, m1)
        ∧ ncalls Kind.SetTapePosition m1.log
            ≤ ncalls Kind.SetTapePosition m.log + count.natAbs
        ∧ |undone| + ((steps_completed m1.log : Int) - steps_completed m.log) = |count|
        ∧ 0 ≤ undone * count)
      ∧ (∃ ret m', set_pos h fuel m TAPE_SPACE_FILEMARKS count sfm_func = some (ret, m')
        ∧ ncalls Kind.SetTapePosition m'.log
            ≤ ncalls Kind.SetTapePosition m.log + count.natAbs + (if sfm_func then 1 else 0))
      ∧ (set_pos h fuel m TAPE_SPACE_FILEMARKS count sfm_func
          = set_pos_body (fun m1 c => set_pos_body (fun _ _ => none) h fuel m1
              TAPE_SPACE_FILEMARKS c false) h fuel m TAPE_SPACE_FILEMARKS count sfm_func)
      ∧ ∀ (again : Machine → Int → Option (Nat × Machine)) (m1 : Machine) (c : Int),
          set_pos_body again h fuel m1 TAPE_SPACE_FILEMARKS c false
            = set_pos_body (fun _ _ => none) h fuel m1 TAPE_SPACE_FILEMARKS c false := by
  have hterm : AllRetriesEnd h fuel := fun k c => ⟨0, hfuel, hq k _⟩
  refine ⟨?_, ?_, rfl, fun again m1 c => set_pos_body_plain again h fuel m1 _ c⟩
  · rcases lt_trichotomy count 0 with hneg | hz | hpos
    · obtain ⟨err, u, m', hm, hu, hs, -, -⟩ :=
        mark_loop_spec h fuel (-1) (Or.inr rfl) (hterm _) (-count).toNat m
      have hcn : ((-count).toNat : Int) = -count := Int.toNat_of_nonneg (by omega)
      have hset : set_pos_marks h fuel m count = some (err, -(u : Int), m') := by
        simp [set_pos_marks, not_lt.mpr (le_of_lt hneg), hneg, hm]
      refine ⟨err, -(u : Int), m', hset, set_pos_marks_calls h fuel m count hfuel hq _ hset,
        ?_, ?_⟩
      · rw [hs, abs_neg, abs_of_nonneg (by omega), abs_of_neg hneg]; push_cast; omega
      · have : (0 : Int) ≤ (u : Int) * (-count) := mul_nonneg (by omega) (by omega)
        linarith
    · subst hz
      refine ⟨0, 0, m, by simp [set_pos_marks], by simp, by simp, by simp⟩
    · obtain ⟨err, u, m', hm, hu, hs, -, -⟩ :=
        mark_loop_spec h fuel 1 (Or.inl rfl) (hterm _) count.toNat m
      have hcn : (count.toNat : Int) = count := Int.toNat_of_nonneg (by omega)
      have hset : set_pos_marks h fuel m count = some (err, (u : Int), m') := by
        simp [set_pos_marks, hpos, hm]
      refine ⟨err, (u : Int), m', hset, set_pos_marks_calls h fuel m count hfuel hq _ hset,
        ?_, mul_nonneg (by omega) (by omega)⟩
      rw [hs, abs_of_nonneg (by omega), abs_of_pos hpos]; push_cast; omega
  · obtain ⟨ret, m', hx, -, -, -⟩ := set_pos_spec h fuel m TAPE_SPACE_FILEMARKS count sfm_func
      (fun _ => false) (fun _ => rfl) rfl (fun _ _ _ _ => rfl) hterm
    refine ⟨ret, m', hx, ?_⟩
    refine set_pos_body_calls _ h fuel m count sfm_func hfuel hq ?_ (ret, m') hx
    intro m1 c b hc hb
    have := set_pos_body_calls (fun _ _ => none) h fuel m1 c false hfuel hq
      (fun _ _ _ _ hn => by simp at hn) b hb
    have e : c.natAbs = 1 := by rcases hc with rfl | rfl <;> rfl
    simpa [e] using this

/-- C36 at a concrete request: three filemarks backward with the re-step, on a
transport that answers every call with success. -/
theorem set_pos_marks_terminate_witness :
    (∃ err undone m1, set_pos_marks host0 1 machine0 (-3) = some (err, undone, m1)
        ∧ ncalls Kind.SetTapePosition m1.log
            ≤ ncalls Kind.SetTapePosition machine0.log + (-3 : Int).natAbs
        ∧ |undone| + ((steps_completed m1.log : Int) - steps_completed machine0.log)
            = |(-3 : Int)|
        ∧ 0 ≤ undone * (-3))
      ∧ (∃ ret m', set_pos host0 1 machine0 TAPE_SPACE_FILEMARKS (-3) true = some (ret, m')
        ∧ ncalls Kind.SetTapePosition m'.log
            ≤ ncalls Kind.SetTapePosition machine0.log + (-3 : Int).natAbs
              + (if true = true then 1 else 0))
      ∧ (set_pos host0 1 machine0 TAPE_SPACE_FILEMARKS (-3) true
          = set_pos_body (fun m1 c => set_pos_body (fun _ _ => none) host0 1 m1
              TAPE_SPACE_FILEMARKS c false) host0 1 machine0 TAPE_SPACE_FILEMARKS (-3) true)
      ∧ ∀ (again : Machine → Int → Option (Nat × Machine)) (m1 : Machine) (c : Int),
          set_pos_body again host0 1 m1 TAPE_SPACE_FILEMARKS c false
            = set_pos_body (fun _ _ => none) host0 1 m1 TAPE_SPACE_FILEMARKS c false :=
  set_pos_marks_terminate host0 1 machine0 (-3) true Nat.zero_lt_one
    (fun _ _ => (by decide : resp0.err ≠ ERROR_MEDIA_CHANGED))

/-- The same request, evaluated: three backward steps and the forward re-step,
four positioning calls in all. -/
theorem set_pos_marks_run :
    (set_pos host0 1 machine0 TAPE_SPACE_FILEMARKS (-3) true).map
        (fun x => (x.1, (issued is_set_pos x.2.log).map fun c => c.1))
      = some (0, [Call.SetTapePosition TAPE_SPACE_FILEMARKS 0 1 false,
          Call.SetTapePosition TAPE_SPACE_FILEMARKS 0 (-1) false,
          Call.SetTapePosition TAPE_SPACE_FILEMARKS 0 (-1) false,
          Call.SetTapePosition TAPE_SPACE_FILEMARKS 0 (-1) false]) := by
  decide

end mtinfo_drive

end Tape
